import Mathlib

/-!
# PDFium cross-reference loader: a shallow embedding of `cpdf_parser.cpp`

The definitions below follow `core/fpdfapi/parser/cpdf_parser.cpp` function by
function.  Conventions of the embedding:

* `uint32_t` values are `Nat` (with an explicit `% 2^32` where the source can
  wrap), `FX_FILESIZE` and `int32_t` values are `Int`.  `FX_FILESIZE` is taken
  to be the 64-bit `off_t`, so a `uint32_t` converts to it unchanged.
* `std::map<uint32_t, ObjectInfo>` is a list of key/record pairs kept in
  increasing key order (`ObjectMap.WF`); `std::set<FX_FILESIZE>` is an
  increasing list of offsets.
* The syntax parser, the document and the object classes are collaborators
  whose sources are not part of `cpdf_parser.cpp`; what the loader asks of them
  is collected in the structure `Env`.  A collaborator is a function of its
  arguments: a call that would come back into the parser while an object is
  read (an indirect `/Length`) is not followed.
* A loop of the source is a recursive function with a number of rounds; `none`
  stands for a loop that has not ended within them, and the theorems on
  termination show that the rounds granted are enough.
* The entry points `StartParse` and `StartLinearizedParse` ask more of their
  collaborators (structure `Host`), and their result (`StartResult`) holds,
  besides the error code and the parser, two things the source does not
  return: how many times `RebuildCrossRef` has been called, and the document
  as the last `LoadDoc` left it.
-/

namespace PDFium

/-! ## Object location records and the object index -/

/-- The kind of an object location record (`CPDF_Parser::ObjectType`). -/
inductive ObjectType where
  | kFree
  | kNotCompressed
  | kCompressed
  | kNull
  deriving DecidableEq, Repr

/-- One record of the object index (`CPDF_Parser::ObjectInfo`).  The source
declares `pos` and `archive_obj_num` as the two names of one storage cell (the
loader writes `archive_obj_num`, the resolver reads `pos`), so the record has a
single field `pos` for both. -/
structure ObjectInfo where
  pos : Int
  type : ObjectType
  gennum : Nat
  deriving DecidableEq, Repr

/-- Modelled from the spec: the value-initialised record that
`m_ObjectInfo[objnum]` creates for an absent key (the constructor of
`ObjectInfo` is declared in cpdf_parser.h): a placeholder Free record with
offset 0 and generation 0. -/
def ObjectInfo.default : ObjectInfo :=
  { pos := 0, type := ObjectType.kFree, gennum := 0 }

/-- The object index `m_ObjectInfo`: key/record pairs in increasing key
order. -/
abbrev ObjectMap := List (Nat × ObjectInfo)

namespace ObjectMap

/-- The keys of a `std::map` are strictly increasing. -/
def WF (m : ObjectMap) : Prop := (m.map Prod.fst).Pairwise (· < ·)

instance (m : ObjectMap) : Decidable (WF m) := by
  unfold WF; infer_instance

/-- Lookup of a key, `m.find(k)`. -/
def find : ObjectMap → Nat → Option ObjectInfo
  | [], _ => none
  | (k', v) :: rest, k => if k' = k then some v else find rest k

/-- Membership of a key, `pdfium::ContainsKey(m, k)`. -/
def ContainsKey (m : ObjectMap) (k : Nat) : Bool := (find m k).isSome

/-- Insertion or replacement of the record of key `k`, at its place in key
order. -/
def set : ObjectMap → Nat → ObjectInfo → ObjectMap
  | [], k, v => [(k, v)]
  | (k', v') :: rest, k, v =>
    if k < k' then (k, v) :: (k', v') :: rest
    else if k = k' then (k, v) :: rest
    else (k', v') :: set rest k v

/-- The record that `m[k]` refers to: the stored one, or the value-initialised
record that `operator[]` creates. -/
def ref (m : ObjectMap) (k : Nat) : ObjectInfo := (find m k).getD ObjectInfo.default

/-- A bare `m[k]` access: creates the default record when `k` is absent. -/
def touch (m : ObjectMap) (k : Nat) : ObjectMap := set m k (ref m k)

/-- The assignment `m[k].pos = v`. -/
def setPos (m : ObjectMap) (k : Nat) (v : Int) : ObjectMap :=
  set m k { ref m k with pos := v }

/-- The assignment `m[k].type = t`. -/
def setType (m : ObjectMap) (k : Nat) (t : ObjectType) : ObjectMap :=
  set m k { ref m k with type := t }

/-- The assignment `m[k].gennum = g`; the field is a `uint16_t`. -/
def setGen (m : ObjectMap) (k : Nat) (g : Int) : ObjectMap :=
  set m k { ref m k with gennum := (g % 65536).toNat }

/-- The largest key, `m.rbegin()->first`, when the map is not empty. -/
def lastKey (m : ObjectMap) : Option Nat := m.getLast?.map Prod.fst

/-- Erasure of every entry from `m.lower_bound(k)` to the end: what stays is
the leading run of keys below `k`. -/
def eraseFrom (m : ObjectMap) (k : Nat) : ObjectMap := m.takeWhile (fun e => e.1 < k)

/-- The function `ShrinkObjectMap` on the index alone. -/
def shrink (m : ObjectMap) (objnum : Nat) : ObjectMap :=
  if objnum = 0 then []
  else
    let m1 := eraseFrom m objnum
    if ContainsKey m1 (objnum - 1) then m1 else setPos m1 (objnum - 1) 0

end ObjectMap

/-! ## Objects, the file and the collaborators -/

/-- The PDF objects the loader looks at (`CPDF_Object` and its subclasses).
A stream carries its dictionary and the decoded data that
`CPDF_StreamAcc::LoadAllData` yields. -/
inductive CPDF_Object where
  | null
  | number (v : Int)
  | string (s : String)
  | name (s : String)
  | reference (objnum : Nat)
  | array (items : List CPDF_Object)
  | dictionary (entries : List (String × CPDF_Object))
  | stream (entries : List (String × CPDF_Object)) (data : List Nat)

/-- A dictionary object: its keys and values (`CPDF_Dictionary`). -/
abbrev CPDF_Dictionary := List (String × CPDF_Object)

/-- An object together with the header fields `m_ObjNum` and `m_GenNum`. -/
structure IndirectObject where
  obj : CPDF_Object
  m_ObjNum : Nat
  m_GenNum : Nat

/-- Conversion of an integer to `int32_t`. -/
def toInt32 (v : Int) : Int := (v + 2147483648) % 4294967296 - 2147483648

/-- Conversion of an integer to `uint32_t`. -/
def toUInt32 (v : Int) : Nat := (v % 4294967296).toNat

/-- What the loader asks of its collaborators: the file, the syntax parser
(each operation takes the position it starts from and gives back the position
it stops at), the C library helpers, the character classes, the document, and
the constant `kMaxObjectNumber` of cpdf_parser.h.  The last two operations are
those of the local syntax parser that `ParseIndirectObject` and
`GetIndirectBinary` set up over the decoded data of an object stream:
`StreamGetDirectNum data pos` is `GetDirectNum` at position `pos` of the data,
with the position it stops at, and `StreamGetObject data pos` is `SetPos(pos)`
followed by `GetObject(pObjList, 0, 0, true)`. -/
structure Env where
  file : List Nat
  m_HeaderOffset : Int
  kMaxObjectNumber : Nat
  SetPos : Int → Int
  GetKeyword : Int → String × Int
  GetNextWord : Int → (String × Bool) × Int
  GetDirectNum : Int → Nat × Int
  ToNextWord : Int → Int
  GetObject : Int → Nat → Nat → Option IndirectObject × Int
  GetObjectForStrict : Int → Nat → Nat → Option IndirectObject × Int
  FindTag : Int → String → Int × Int
  FXSYS_atoi64 : List Nat → Int
  FXSYS_atoi : List Nat → Int
  FXSYS_atoui : String → Nat
  PDFCharIsWhitespace : Nat → Bool
  PDFCharIsDelimiter : Nat → Bool
  PDFCharIsLineEnding : Nat → Bool
  hasDocument : Bool
  DocRootObjNum : Option Nat
  ReplaceIndirectObjectIfHigherGeneration : Nat → IndirectObject → Bool
  GetOrParseIndirectObject : Nat → Option CPDF_Object
  GetObjNum : CPDF_Object → Nat
  FXSYS_DecimalCharToInt : Nat → Nat
  StreamGetDirectNum : List Nat → Int → Nat × Int
  StreamGetObject : List Nat → Int → Option IndirectObject

/-- The file length `m_pSyntax->m_FileLen`. -/
def Env.m_FileLen (env : Env) : Int := (env.file.length : Int)

/-- Modelled from the spec: the file access `ReadBlock(buf, pos, n)` of the
seekable stream (an external interface): it yields the `n` bytes at `pos`, and
fails on a read that is not wholly inside the file (a short read). -/
def Env.FileReadBlock (env : Env) (pos : Int) (size : Nat) : Option (List Nat) :=
  if 0 ≤ pos ∧ pos + (size : Int) ≤ env.m_FileLen then
    some ((env.file.drop pos.toNat).take size)
  else none

/-- The laws of the syntax parser that bound the subsection loop of
`LoadCrossRefV4`: a word that is not empty starts before the end of the file
and ends after the position it was asked at, and no operation moves the
position backwards below the end of the file. -/
structure Env.Lawful (env : Env) : Prop where
  word_progress : ∀ p, (env.GetNextWord p).1.1 ≠ "" →
    p < (env.GetNextWord p).2 ∧ p < env.m_FileLen
  num_progress : ∀ p, p ≤ (env.GetDirectNum p).2
  skip_progress : ∀ p, p ≤ env.ToNextWord p
  setpos_progress : ∀ p, min p env.m_FileLen ≤ env.SetPos p

/-! ### Object accessors -/

/-- The array view of an object, `ToArray`. -/
def CPDF_Object.AsArray : CPDF_Object → Option (List CPDF_Object)
  | .array items => some items
  | _ => none

/-- The dictionary of an object, `GetDict` on a direct object: the
dictionary itself or the dictionary of a stream. -/
def CPDF_Object.GetDictDirect : CPDF_Object → Option CPDF_Dictionary
  | .dictionary entries => some entries
  | .stream entries _ => some entries
  | _ => none

/-- The dictionary view of an object, `ToDictionary`. -/
def CPDF_Object.AsDictionary : CPDF_Object → Option CPDF_Dictionary
  | .dictionary entries => some entries
  | _ => none

/-- The number test `ToNumber(obj)` together with `GetInteger`: the C `int`
held by a number object. -/
def CPDF_Object.AsNumber : CPDF_Object → Option Int
  | .number v => some (toInt32 v)
  | _ => none

/-- The direct object behind an object, `GetDirect`: a reference is resolved
through the document. -/
def GetDirect (env : Env) : CPDF_Object → Option CPDF_Object
  | .reference n => env.GetOrParseIndirectObject n
  | o => some o

/-- The integer value of an object, `GetInteger`: the value of a number,
through a reference if need be, and 0 for every other object. -/
def GetInteger (env : Env) (o : CPDF_Object) : Int :=
  match GetDirect env o with
  | some (.number v) => toInt32 v
  | _ => 0

/-- The entry of a key, `CPDF_Dictionary::GetObjectFor`. -/
def GetObjectFor : CPDF_Dictionary → String → Option CPDF_Object
  | [], _ => none
  | (k, v) :: rest, key => if k = key then some v else GetObjectFor rest key

/-- The accessor `CPDF_Dictionary::GetIntegerFor`. -/
def GetIntegerFor (env : Env) (d : CPDF_Dictionary) (key : String) : Int :=
  match GetObjectFor d key with
  | some o => GetInteger env o
  | none => 0

/-- The accessor `CPDF_Dictionary::GetArrayFor`. -/
def GetArrayFor (env : Env) (d : CPDF_Dictionary) (key : String) : Option (List CPDF_Object) :=
  match GetObjectFor d key with
  | some o => (GetDirect env o).bind CPDF_Object.AsArray
  | none => none

/-- The accessor `CPDF_Dictionary::GetStringFor`: the text of a string or name
entry, through a reference if need be, and the empty string otherwise. -/
def GetStringFor (env : Env) (d : CPDF_Dictionary) (key : String) : String :=
  match (GetObjectFor d key).bind (GetDirect env) with
  | some (.string s) => s
  | some (.name s) => s
  | _ => ""

/-- The dictionary of an object, `GetDict`: through a reference if need be. -/
def GetDict (env : Env) (o : CPDF_Object) : Option CPDF_Dictionary :=
  (GetDirect env o).bind CPDF_Object.GetDictDirect

/-- The assignment `CPDF_Dictionary::SetFor(key, value)`: the entry of the key
is replaced, or added when the key has none. -/
def SetFor : CPDF_Dictionary → String → CPDF_Object → CPDF_Dictionary
  | [], key, v => [(key, v)]
  | (k, v0) :: rest, key, v =>
    if k = key then (k, v) :: rest else (k, v0) :: SetFor rest key v

/-- The helper `GetDirectInteger` of fpdf_parser_utility: the `int32_t` value of
a key whose entry is a number object itself, and 0 otherwise. -/
def GetDirectInteger (d : Option CPDF_Dictionary) (key : String) : Int :=
  match d with
  | none => 0
  | some entries =>
    match GetObjectFor entries key with
    | some o => (o.AsNumber).getD 0
    | none => 0

/-! ## The parser state -/

/-- A loaded object stream, `CPDF_StreamAcc` after `LoadAllData`: the
dictionary and the decoded data of the stream.  The members `m_ObjCache` and
`m_ObjectStreamMap` refer to an accessor by its address; `id` stands for the
address. -/
structure StreamAcc where
  id : Nat
  dict : CPDF_Dictionary
  data : List Nat

/-- What the parser asks of an installed `CPDF_SecurityHandler`. -/
structure SecurityHandler where
  GetPermissions : Nat
  IsMetadataEncrypted : Bool

/-- What the parser asks of the `CPDF_LinearizedHeader` of a linearized
file. -/
structure LinearizedHeader where
  GetLastXRefOffset : Int
  GetFirstPageNo : Nat

/-- The members of `CPDF_Parser` that the loaders read and write, with the
members `m_Pos`, `m_MetadataObjnum` and `m_pCryptoHandler` (whether one is
installed) of the syntax parser.  `m_StreamAccCount` counts the accessors made
so far, and gives the next one its `id`. -/
structure Parser where
  m_ObjectInfo : ObjectMap
  m_SortedOffset : List Int
  m_Trailers : List CPDF_Dictionary
  m_TrailerPos : Option Nat
  m_bVersionUpdated : Bool
  m_bXRefStream : Bool
  m_dwXrefStartObjNum : Nat
  m_LastXRefOffset : Int
  m_ObjectStreamMap : List (Nat × StreamAcc)
  m_Pos : Int
  m_ParsingObjNums : List Nat
  m_ObjCache : List (Nat × List (Nat × Nat))
  m_StreamAccCount : Nat
  m_pEncryptDict : Option CPDF_Dictionary
  m_pSecurityHandler : Option SecurityHandler
  m_pCryptoHandler : Bool
  m_MetadataObjnum : Nat
  m_bHasParsed : Bool
  m_FileVersion : Int
  m_pLinearized : Option LinearizedHeader

/-- A freshly constructed parser, positioned at the start of the file. -/
def Parser.init : Parser :=
  { m_ObjectInfo := [], m_SortedOffset := [], m_Trailers := [], m_TrailerPos := none,
    m_bVersionUpdated := false, m_bXRefStream := false, m_dwXrefStartObjNum := 0,
    m_LastXRefOffset := 0, m_ObjectStreamMap := [], m_Pos := 0,
    m_ParsingObjNums := [], m_ObjCache := [], m_StreamAccCount := 0,
    m_pEncryptDict := none, m_pSecurityHandler := none, m_pCryptoHandler := false,
    m_MetadataObjnum := 0, m_bHasParsed := false, m_FileVersion := 0,
    m_pLinearized := none }

/-- Insertion into the ordered set `m_SortedOffset`. -/
def insertOffset : List Int → Int → List Int
  | [], x => [x]
  | y :: rest, x =>
    if x < y then x :: y :: rest
    else if x = y then y :: rest
    else y :: insertOffset rest x

namespace Parser

/-- The limit `kMaxXRefSize` on the size of the xref table. -/
def kMaxXRefSize : Int := 1048576

/-- The function `CPDF_Parser::GetLastObjNum`. -/
def GetLastObjNum (p : Parser) : Nat :=
  match ObjectMap.lastKey p.m_ObjectInfo with
  | none => 0
  | some k => k

/-- The function `CPDF_Parser::IsValidObjectNumber`. -/
def IsValidObjectNumber (p : Parser) (objnum : Nat) : Bool :=
  match ObjectMap.lastKey p.m_ObjectInfo with
  | none => false
  | some k => decide (objnum ≤ k)

/-- The function `CPDF_Parser::GetObjectPositionOrZero`. -/
def GetObjectPositionOrZero (p : Parser) (objnum : Nat) : Int :=
  match ObjectMap.find p.m_ObjectInfo objnum with
  | some info => info.pos
  | none => 0

/-- The function `CPDF_Parser::GetObjectType`. -/
def GetObjectType (p : Parser) (objnum : Nat) : ObjectType :=
  match ObjectMap.find p.m_ObjectInfo objnum with
  | some info => info.type
  | none => ObjectType.kFree

/-- The function `CPDF_Parser::GetObjectGenNum`. -/
def GetObjectGenNum (p : Parser) (objnum : Nat) : Nat :=
  match ObjectMap.find p.m_ObjectInfo objnum with
  | some info => info.gennum
  | none => 0

/-- The function `CPDF_Parser::ShrinkObjectMap`. -/
def ShrinkObjectMap (p : Parser) (objnum : Nat) : Parser :=
  { p with m_ObjectInfo := ObjectMap.shrink p.m_ObjectInfo objnum }

/-- The current trailer `GetTrailer()`: the entry of `m_Trailers` that
`m_TrailerPos` names, if any. -/
def GetTrailer (p : Parser) : Option CPDF_Dictionary :=
  match p.m_TrailerPos with
  | none => none
  | some i => p.m_Trailers[i]?

/-- The two statements `m_Trailers.push_back(d); m_TrailerPos =
m_Trailers.size() - 1`. -/
def pushCurrentTrailer (p : Parser) (d : CPDF_Dictionary) : Parser :=
  { p with m_Trailers := p.m_Trailers ++ [d], m_TrailerPos := some p.m_Trailers.length }

/-- The replacement of the current trailer by `d`: what the writes through
`GetTrailer()` leave. -/
def setCurrentTrailer (p : Parser) (d : CPDF_Dictionary) : Parser :=
  match p.m_TrailerPos with
  | none => p
  | some i => { p with m_Trailers := p.m_Trailers.set i d }

/-- The statement `m_Trailers.push_back(d)` alone. -/
def pushTrailer (p : Parser) (d : CPDF_Dictionary) : Parser :=
  { p with m_Trailers := p.m_Trailers ++ [d] }

/-! ## Cross-reference streams (`LoadCrossRefV5`) -/

/-- The function `GetVarInt(p, n)`: `p` is the data from the pointer on, `n`
the `int32_t` count; the result is a `uint32_t`. -/
def GetVarInt (p : List Nat) (n : Int) : Nat :=
  (List.range n.toNat).foldl (fun result i => (result * 256 + p.getD i 0) % 4294967296) 0

/-- The function `GetObjectTypeFromCrossRefStreamType`. -/
def GetObjectTypeFromCrossRefStreamType (cross_ref_stream_type : Int) : ObjectType :=
  if cross_ref_stream_type = 0 then ObjectType.kFree
  else if cross_ref_stream_type = 1 then ObjectType.kNotCompressed
  else if cross_ref_stream_type = 2 then ObjectType.kCompressed
  else ObjectType.kNull

/-- The function `CPDF_Parser::ParseIndirectObjectAt`: the object found, if
any; every path puts the position back with `SetPos(SavedPos)`. -/
def ParseIndirectObjectAt (env : Env) (p : Parser) (pos : Int) (objnum : Nat) :
    Option IndirectObject × Parser :=
  let restored : Parser := { p with m_Pos := env.SetPos p.m_Pos }
  let w := env.GetNextWord (env.SetPos pos)
  if w.1.2 = false then (none, restored)
  else
    let parser_objnum := env.FXSYS_atoui w.1.1 % 4294967296
    if objnum ≠ 0 ∧ parser_objnum ≠ objnum then (none, restored)
    else
      let w2 := env.GetNextWord w.2
      if w2.1.2 = false then (none, restored)
      else
        let parser_gennum := env.FXSYS_atoui w2.1.1 % 4294967296
        let kw := env.GetKeyword w2.2
        if kw.1 ≠ "obj" then (none, restored)
        else
          match (env.GetObject kw.2 objnum parser_gennum).1 with
          | none => (none, restored)
          | some o =>
            (some { o with m_ObjNum := if objnum = 0 then parser_objnum else o.m_ObjNum,
                           m_GenNum := parser_gennum }, restored)

/-- The pairs collected from the `/Index` array: each pair of number objects
`(start, count)` with `start >= 0` and `count > 0`. -/
def indexPairs : List CPDF_Object → List (Int × Int)
  | a :: b :: rest =>
    match a.AsNumber, b.AsNumber with
    | some nStartNum, some nCount =>
      if nStartNum ≥ 0 ∧ nCount > 0 then (nStartNum, nCount) :: indexPairs rest
      else indexPairs rest
    | _, _ => indexPairs rest
  | _ => []

/-- One entry of a subsection of a cross-reference stream: the body of the
loop over `j` in `LoadCrossRefV5`; `entry` is the data from `entrystart` on.
The result is `false` where the source returns false. -/
def xrefStreamEntry (p : Parser) (W0 W1 : Nat) (objnum : Nat) (entry : List Nat) :
    Bool × Parser :=
  let type :=
    if W0 ≠ 0 then GetObjectTypeFromCrossRefStreamType (toInt32 (GetVarInt entry (toInt32 W0)))
    else ObjectType.kNotCompressed
  if p.GetObjectType objnum = ObjectType.kNull then
    let offset : Int := GetVarInt (entry.drop W0) (toInt32 W1)
    (true, { p with m_ObjectInfo := ObjectMap.setPos p.m_ObjectInfo objnum offset,
                    m_SortedOffset := insertOffset p.m_SortedOffset offset })
  else if p.GetObjectType objnum ≠ ObjectType.kFree then (true, p)
  else
    let m1 := ObjectMap.setType p.m_ObjectInfo objnum type
    if type = ObjectType.kFree then
      (true, { p with m_ObjectInfo := ObjectMap.setPos m1 objnum 0 })
    else
      let entry_value : Int := GetVarInt (entry.drop W0) (toInt32 W1)
      if type = ObjectType.kNotCompressed then
        (true, { p with m_SortedOffset := insertOffset p.m_SortedOffset entry_value,
                        m_ObjectInfo := ObjectMap.setPos m1 objnum entry_value })
      else
        let p2 : Parser := { p with m_ObjectInfo := ObjectMap.setPos m1 objnum entry_value }
        if entry_value < 0 ∨ p2.IsValidObjectNumber entry_value.toNat = false then (false, p2)
        else
          (true, { p2 with m_ObjectInfo :=
            ObjectMap.setType p2.m_ObjectInfo entry_value.toNat ObjectType.kNull })

/-- The loop over the entries `j` of one subsection. -/
def xrefStreamEntries (W0 W1 totalWidth : Nat) (startnum : Nat) (segstart : List Nat) :
    List Nat → Parser → Bool × Parser
  | [], p => (true, p)
  | j :: rest, p =>
    match xrefStreamEntry p W0 W1 ((startnum + j) % 4294967296)
        (segstart.drop (j * totalWidth % 4294967296)) with
    | (false, p1) => (false, p1)
    | (true, p1) => xrefStreamEntries W0 W1 totalWidth startnum segstart rest p1

/-- The local `dwV5Size` of `LoadCrossRefV5`: 0 for an empty index, else the
last object number plus one. -/
def v5Size (p : Parser) : Nat :=
  if p.m_ObjectInfo.isEmpty then 0 else (p.GetLastObjNum + 1) % 4294967296

/-- The loop over the subsections `arrIndex[i]` of a cross-reference stream,
with the running `segindex`. -/
def xrefStreamSegments (W0 W1 totalWidth : Nat) (pData : List Nat) (dwTotalSize : Nat) :
    List (Int × Int) → Nat → Parser → Bool × Parser
  | [], _, p => (true, p)
  | (startnum, cnt) :: rest, segindex, p =>
    if startnum < 0 then
      xrefStreamSegments W0 W1 totalWidth pData dwTotalSize rest segindex p
    else
      let p0 : Parser := { p with m_dwXrefStartObjNum := startnum.toNat }
      let count := cnt.toNat
      if ¬ (segindex + count < 4294967296 ∧ (segindex + count) * totalWidth < 4294967296)
          ∨ (segindex + count) * totalWidth > dwTotalSize then
        xrefStreamSegments W0 W1 totalWidth pData dwTotalSize rest segindex p0
      else
        let dwV5Size := p0.v5Size
        if ¬ (startnum.toNat + count < 4294967296) ∨ startnum.toNat + count > dwV5Size then
          xrefStreamSegments W0 W1 totalWidth pData dwTotalSize rest segindex p0
        else
          match xrefStreamEntries W0 W1 totalWidth startnum.toNat
              (pData.drop (segindex * totalWidth % 4294967296)) (List.range count) p0 with
          | (false, p1) => (false, p1)
          | (true, p1) =>
            xrefStreamSegments W0 W1 totalWidth pData dwTotalSize rest
              ((segindex + count) % 4294967296) p1

/-- The re-tagging `for (auto& it : m_ObjectInfo) it.second.type = kFree`. -/
def retagFree (m : ObjectMap) : ObjectMap :=
  m.map (fun e => (e.1, { e.2 with type := ObjectType.kFree }))

/-- The vector `arrIndex` of `LoadCrossRefV5`: the pairs of the `/Index` array,
or the single pair `(0, size)` when there is none. -/
def xrefStreamIndex (env : Env) (pDict : CPDF_Dictionary) (size : Int) : List (Int × Int) :=
  let arrIndex :=
    match GetArrayFor env pDict "Index" with
    | some pArray => indexPairs pArray
    | none => []
  if arrIndex.length = 0 then [(0, size)] else arrIndex

/-- The block `if (bMainXRef) ... else ...` of `LoadCrossRefV5`: the main stream
becomes the current trailer, the index is shrunk to `size` and every record is
re-tagged Free; any other stream is only pushed onto the trailers. -/
def pushXRefTrailer (p1 : Parser) (pDict : CPDF_Dictionary) (size : Int) (bMainXRef : Bool) :
    Parser :=
  if bMainXRef then
    let q := (p1.pushCurrentTrailer pDict).ShrinkObjectMap size.toNat
    { q with m_ObjectInfo := retagFree q.m_ObjectInfo }
  else p1.pushTrailer pDict

/-- The statements of `LoadCrossRefV5` from `*pos = pDict->GetIntegerFor("Prev")`
to the end, for the stream with dictionary `pDict` and decoded data `pData`:
the result, the value left in `*pos`, and the parser afterwards. -/
def loadXRefStream (env : Env) (p1 : Parser) (pDict : CPDF_Dictionary) (pData : List Nat)
    (bMainXRef : Bool) : Bool × Int × Parser :=
  let pos1 := GetIntegerFor env pDict "Prev"
  let size := GetIntegerFor env pDict "Size"
  if size < 0 then (false, pos1, p1)
  else
    let p2 := pushXRefTrailer p1 pDict size bMainXRef
    let arrIndex := xrefStreamIndex env pDict size
    match GetArrayFor env pDict "W" with
    | none => (false, pos1, p2)
    | some pArray =>
      let WidthArray := pArray.map (fun o => toUInt32 (GetInteger env o))
      if ¬ (WidthArray.sum < 4294967296) ∨ WidthArray.length < 3 then (false, pos1, p2)
      else
        let totalWidth := WidthArray.sum
        let dwTotalSize := pData.length % 4294967296
        let r := xrefStreamSegments (WidthArray.getD 0 0) (WidthArray.getD 1 0) totalWidth
          pData dwTotalSize arrIndex 0 p2
        (r.1, pos1, r.2)

/-- The function `CPDF_Parser::LoadCrossRefV5(pos, bMainXRef)`: the result, the
value left in `*pos`, and the parser afterwards. -/
def LoadCrossRefV5 (env : Env) (p : Parser) (pos : Int) (bMainXRef : Bool) :
    Bool × Int × Parser :=
  match ParseIndirectObjectAt env p pos 0 with
  | (none, p1) => (false, pos, p1)
  | (some pObject, p1) =>
    let objnum := pObject.m_ObjNum
    if objnum = 0 then (false, pos, p1)
    else if env.hasDocument ∧ (env.DocRootObjNum = some objnum
        ∨ env.ReplaceIndirectObjectIfHigherGeneration objnum pObject = false) then
      (false, pos, p1)
    else
      match pObject.obj with
      | .stream pDict pData => loadXRefStream env p1 pDict pData bMainXRef
      | _ => (false, pos, p1)

/-- The loop `while (xrefpos)` of `LoadAllCrossRefV5`, with the set
`seen_xrefpos`; `none` stands for a loop that has not ended within the given
number of rounds. -/
def chaseV5 (env : Env) : Nat → Int → List Int → Parser → Option (Bool × Parser)
  | 0, _, _, _ => none
  | fuel + 1, xrefpos, seen_xrefpos, p =>
    if xrefpos = 0 then some (true, p)
    else
      let seen1 := if xrefpos ∈ seen_xrefpos then seen_xrefpos else xrefpos :: seen_xrefpos
      match LoadCrossRefV5 env p xrefpos false with
      | (false, _, p1) => some (false, p1)
      | (true, xrefpos1, p1) =>
        if xrefpos1 ∈ seen1 then some (false, p1)
        else chaseV5 env fuel xrefpos1 seen1 p1

/-- The number of values of a C `int`, plus one: more rounds than a loop that
meets a new `int` each round can make. -/
def chaseRounds : Nat := 4294967297

/-- The function `CPDF_Parser::LoadAllCrossRefV5`. -/
def LoadAllCrossRefV5 (env : Env) (p : Parser) (xrefpos : Int) : Option (Bool × Parser) :=
  match LoadCrossRefV5 env p xrefpos true with
  | (false, _, p1) => some (false, p1)
  | (true, xrefpos1, p1) =>
    match chaseV5 env chaseRounds xrefpos1 [] p1 with
    | none => none
    | some (false, p2) => some (false, p2)
    | some (true, p2) => some (true, { p2 with m_ObjectStreamMap := [], m_bXRefStream := true })

/-! ## Textual cross-reference sections (`LoadCrossRefV4`) -/

/-- The C library test `std::isdigit` on a byte. -/
def isdigit (b : Nat) : Bool := decide (48 ≤ b ∧ b ≤ 57)

/-- Modelled from the spec: `CPDF_SyntaxParser::ReadBlock(buf, size)`, the read
of `size` bytes at the current position into the start of the buffer; on
success the position advances, on a failed (short) read buffer and position
stay as they were. -/
def SyntaxReadBlock (env : Env) (p : Parser) (buf : List Nat) (size : Nat) :
    Bool × List Nat × Parser :=
  match env.FileReadBlock (p.m_Pos + env.m_HeaderOffset) size with
  | some bytes => (true, bytes ++ buf.drop size, { p with m_Pos := p.m_Pos + (size : Int) })
  | none => (false, buf, p)

/-- One 20-byte record of a textual xref subsection: the body of the loop over
`i` in `LoadCrossRefV4`; `pEntry` is the buffer from the record on.  The
result is `false` where the source returns false. -/
def xrefRecord (env : Env) (p : Parser) (objnum : Nat) (pEntry : List Nat) : Bool × Parser :=
  if pEntry.getD 17 0 = 102 then
    (true, { p with m_ObjectInfo :=
      ObjectMap.setType (ObjectMap.setPos p.m_ObjectInfo objnum 0) objnum ObjectType.kFree })
  else
    let offset := env.FXSYS_atoi64 pEntry
    if offset = 0 ∧ (List.range 10).all (fun c => isdigit (pEntry.getD c 0)) = false then
      (false, p)
    else
      let m1 := ObjectMap.setPos p.m_ObjectInfo objnum offset
      let version := env.FXSYS_atoi (pEntry.drop 11)
      let m2 := ObjectMap.setGen m1 objnum version
      let m3 := ObjectMap.setType m2 objnum ObjectType.kNotCompressed
      (true, { p with
        m_ObjectInfo := m3,
        m_bVersionUpdated := if version ≥ 1 then true else p.m_bVersionUpdated,
        m_SortedOffset :=
          if (ObjectMap.ref m2 objnum).pos < env.m_FileLen then
            insertOffset p.m_SortedOffset (ObjectMap.ref m2 objnum).pos
          else p.m_SortedOffset })

/-- The loop over the records `i` of one block. -/
def xrefRecords (env : Env) (start_objnum block : Nat) (buf : List Nat) :
    List Nat → Parser → Bool × Parser
  | [], p => (true, p)
  | i :: rest, p =>
    match xrefRecord env p ((start_objnum + block * 1024 + i) % 4294967296)
        (buf.drop (i * 20)) with
    | (false, p1) => (false, p1)
    | (true, p1) => xrefRecords env start_objnum block buf rest p1

/-- The loop over the blocks of one subsection; the buffer lives across the
blocks and the result of `ReadBlock` is not looked at. -/
def xrefBlocks (env : Env) (start_objnum count nBlocks : Nat) :
    List Nat → List Nat → Parser → Bool × Parser
  | [], _, p => (true, p)
  | block :: rest, buf, p =>
    let block_size := if block = nBlocks - 1 then count % 1024 else 1024
    let rd := SyntaxReadBlock env p buf (block_size * 20)
    match xrefRecords env start_objnum block rd.2.1 (List.range block_size) rd.2.2 with
    | (false, p1) => (false, p1)
    | (true, p1) => xrefBlocks env start_objnum count nBlocks rest rd.2.1 p1

/-- The loop `while (1)` over the subsections of a textual xref section: the
result is `true` when the loop is left by `break`, `false` when the source
returns false, and `none` when the loop has not ended within the given number
of rounds. -/
def xrefSubsections (env : Env) (bSkip : Bool) : Nat → Parser → Option (Bool × Parser)
  | 0, _ => none
  | fuel + 1, p =>
    let SavedPos := p.m_Pos
    let w := env.GetNextWord p.m_Pos
    let p1 : Parser := { p with m_Pos := w.2 }
    if w.1.1 = "" then some (false, p1)
    else if w.1.2 = false then some (true, { p1 with m_Pos := env.SetPos SavedPos })
    else
      let start_objnum := env.FXSYS_atoui w.1.1 % 4294967296
      if start_objnum ≥ env.kMaxObjectNumber then some (false, p1)
      else
        let c := env.GetDirectNum p1.m_Pos
        let count := c.1 % 4294967296
        let SavedPos2 := env.ToNextWord c.2
        let p2 : Parser := { p1 with m_Pos := SavedPos2, m_dwXrefStartObjNum := start_objnum }
        let r :=
          if bSkip then (true, p2)
          else xrefBlocks env start_objnum count (count / 1024 + 1)
            (List.range (count / 1024 + 1)) (List.replicate 20481 0) p2
        match r with
        | (false, p3) => some (false, p3)
        | (true, p3) =>
          xrefSubsections env bSkip fuel
            { p3 with m_Pos := env.SetPos (SavedPos2 + ((count * 20 % 4294967296 : Nat) : Int)) }

/-- The number of rounds granted to the subsection loop that starts at position
`pos`: one more than the bytes left in the file. -/
def subsectionRounds (env : Env) (pos : Int) : Nat := (env.m_FileLen - pos).toNat + 1

/-- The function `CPDF_Parser::LoadCrossRefV4(pos, streampos, bSkip)`. -/
def LoadCrossRefV4 (env : Env) (p : Parser) (pos streampos : Int) (bSkip : Bool) :
    Option (Bool × Parser) :=
  let kw := env.GetKeyword (env.SetPos pos)
  let p1 : Parser := { p with m_Pos := kw.2 }
  if kw.1 ≠ "xref" then some (false, p1)
  else
    let so1 := insertOffset p.m_SortedOffset pos
    let so2 := if streampos ≠ 0 then insertOffset so1 streampos else so1
    let p2 : Parser := { p1 with m_SortedOffset := so2 }
    match xrefSubsections env bSkip (subsectionRounds env p2.m_Pos) p2 with
    | none => none
    | some (false, p3) => some (false, p3)
    | some (true, p3) =>
      if streampos = 0 then some (true, p3)
      else
        let r := LoadCrossRefV5 env p3 streampos false
        some (r.1, r.2.2)

/-- The function `CPDF_Parser::LoadTrailerV4`. -/
def LoadTrailerV4 (env : Env) (p : Parser) : Option CPDF_Dictionary × Parser :=
  let kw := env.GetKeyword p.m_Pos
  if kw.1 ≠ "trailer" then (none, { p with m_Pos := kw.2 })
  else
    let r := env.GetObject kw.2 0 0
    (r.1.bind (fun o => o.obj.AsDictionary), { p with m_Pos := r.2 })

/-- The function `CPDF_Parser::VerifyCrossRefV4`: the check of the first record
with a position that is not zero. -/
def VerifyCrossRefV4 (env : Env) (p : Parser) : Bool × Parser :=
  match p.m_ObjectInfo.find? (fun e => decide (e.2.pos ≠ 0)) with
  | none => (true, p)
  | some e =>
    let w := env.GetNextWord (env.SetPos e.2.pos)
    let restored : Parser := { p with m_Pos := env.SetPos p.m_Pos }
    if w.1.2 = false ∨ w.1.1 = "" ∨ env.FXSYS_atoui w.1.1 % 4294967296 ≠ e.1 then
      (false, restored)
    else (true, restored)

/-- The loop `while (xrefpos)` of `LoadAllCrossRefV4` that follows `/Prev`,
with `seen_xrefpos`, `CrossRefList` and `XRefStreamList`; `none` stands for a
loop that has not ended within the given number of rounds. -/
def chaseV4 (env : Env) :
    Nat → Int → List Int → List Int → List Int → Parser →
      Option (Bool × List Int × List Int × Parser)
  | 0, _, _, _, _, _ => none
  | fuel + 1, xrefpos, seen_xrefpos, CrossRefList, XRefStreamList, p =>
    if xrefpos = 0 then some (true, CrossRefList, XRefStreamList, p)
    else if xrefpos ∈ seen_xrefpos then some (false, CrossRefList, XRefStreamList, p)
    else
      match LoadCrossRefV4 env p xrefpos 0 true with
      | none => none
      | some (_, p1) =>
        match LoadTrailerV4 env p1 with
        | (none, p2) => some (false, xrefpos :: CrossRefList, XRefStreamList, p2)
        | (some pDict, p2) =>
          chaseV4 env fuel (GetDirectInteger (some pDict) "Prev") (xrefpos :: seen_xrefpos)
            (xrefpos :: CrossRefList) (GetIntegerFor env pDict "XRefStm" :: XRefStreamList)
            (p2.pushTrailer pDict)

/-- The loop over `CrossRefList` of `LoadAllCrossRefV4` that loads the sections
oldest first; `first` marks the round `i == 0`. -/
def replayV4 (env : Env) : Bool → List Int → List Int → Parser → Option (Bool × Parser)
  | _, [], _, p => some (true, p)
  | first, pos :: CrossRefList, XRefStreamList, p =>
    match LoadCrossRefV4 env p pos (XRefStreamList.headD 0) false with
    | none => none
    | some (false, p1) => some (false, p1)
    | some (true, p1) =>
      if first then
        match VerifyCrossRefV4 env p1 with
        | (false, p2) => some (false, p2)
        | (true, p2) => replayV4 env false CrossRefList XRefStreamList.tail p2
      else replayV4 env false CrossRefList XRefStreamList.tail p1

/-- The first part of `CPDF_Parser::LoadAllCrossRefV4`, up to the end of the
loop that follows `/Prev`: the result so far, `CrossRefList` (oldest section
first), `XRefStreamList`, and the parser. -/
def LoadAllCrossRefV4_chain (env : Env) (p : Parser) (xrefpos : Int) :
    Option (Bool × List Int × List Int × Parser) :=
  match LoadCrossRefV4 env p xrefpos 0 true with
  | none => none
  | some (false, p1) => some (false, [], [], p1)
  | some (true, p1) =>
    match LoadTrailerV4 env p1 with
    | (none, p2) => some (false, [], [], p2)
    | (some trailer, p2) =>
      let p3 := p2.pushCurrentTrailer trailer
      let xrefsize := GetDirectInteger p3.GetTrailer "Size"
      let p4 := if xrefsize > 0 ∧ xrefsize ≤ kMaxXRefSize then p3.ShrinkObjectMap xrefsize.toNat
                else p3
      chaseV4 env chaseRounds (GetDirectInteger p4.GetTrailer "Prev") [xrefpos]
        [xrefpos] [GetDirectInteger p4.GetTrailer "XRefStm"] p4

/-- The function `CPDF_Parser::LoadAllCrossRefV4`: the chain is assembled, then
its sections are loaded oldest first. -/
def LoadAllCrossRefV4 (env : Env) (p : Parser) (xrefpos : Int) : Option (Bool × Parser) :=
  match LoadAllCrossRefV4_chain env p xrefpos with
  | none => none
  | some (false, _, _, p5) => some (false, p5)
  | some (true, CrossRefList, XRefStreamList, p5) =>
    replayV4 env true CrossRefList XRefStreamList p5

/-- The `/Prev` value that the chase reads after the textual section at `pos`:
the section is skipped over, its trailer is read, and `/Prev` is taken from
it; `none` when no trailer is found there. -/
def prevOfSection (env : Env) (pos : Int) : Option Int :=
  match LoadCrossRefV4 env Parser.init pos 0 true with
  | none => none
  | some (_, p1) =>
    match (LoadTrailerV4 env p1).1 with
    | none => none
    | some pDict => some (GetDirectInteger (some pDict) "Prev")

/-- The chain of section offsets that `LoadAllCrossRefV4` follows from
`xrefpos`: offset number 0 is `xrefpos`, each next one is the `/Prev` of the
section before, and the chain ends after a `/Prev` of 0. -/
def prevChainV4 (env : Env) (xrefpos : Int) : Nat → Option Int
  | 0 => some xrefpos
  | k + 1 =>
    match prevChainV4 env xrefpos k with
    | none => none
    | some x => if 1 ≤ k ∧ x = 0 then none else prevOfSection env x

/-- The value that a load of the cross-reference stream at `pos` leaves in
`*pos`: the `/Prev` of the stream, or `pos` itself when no stream is found
there. -/
def prevOfStream (env : Env) (pos : Int) : Int :=
  (LoadCrossRefV5 env Parser.init pos false).2.1

/-- The chain of stream offsets that `LoadAllCrossRefV5` follows from
`xrefpos`: offset number 0 is `xrefpos`, each next one is what the load of the
stream before leaves in `*pos`, and the chain ends after a `/Prev` of 0. -/
def prevChainV5 (env : Env) (xrefpos : Int) : Nat → Option Int
  | 0 => some xrefpos
  | k + 1 =>
    match prevChainV5 env xrefpos k with
    | none => none
    | some x => if 1 ≤ k ∧ x = 0 then none else some (prevOfStream env x)

/-- The record that the textual section at `pos` gives for object `N`: the
record of `N` after the section is loaded alone, into an empty index. -/
def sectionRecord (env : Env) (pos : Int) (N : Nat) : Option ObjectInfo :=
  match LoadCrossRefV4 env Parser.init pos 0 false with
  | some (_, q) => ObjectMap.find q.m_ObjectInfo N
  | none => none

/-! ## The first-page section of a linearized file (`LoadLinearizedCrossRefV4`) -/

/-- One 20-byte record of the first-page xref section: the body of the loop
over `i` in `LoadLinearizedCrossRefV4`, which reads the offset with
`FXSYS_atoi`; `pEntry` is the buffer from the record on.  The result is
`false` where the source returns false. -/
def linearizedRecord (env : Env) (p : Parser) (objnum : Nat) (pEntry : List Nat) :
    Bool × Parser :=
  if pEntry.getD 17 0 = 102 then
    (true, { p with m_ObjectInfo :=
      ObjectMap.setType (ObjectMap.setPos p.m_ObjectInfo objnum 0) objnum ObjectType.kFree })
  else
    let offset := env.FXSYS_atoi pEntry
    if offset = 0 ∧ (List.range 10).all (fun c => isdigit (pEntry.getD c 0)) = false then
      (false, p)
    else
      let m1 := ObjectMap.setPos p.m_ObjectInfo objnum offset
      let version := env.FXSYS_atoi (pEntry.drop 11)
      let m2 := ObjectMap.setGen m1 objnum version
      let m3 := ObjectMap.setType m2 objnum ObjectType.kNotCompressed
      (true, { p with
        m_ObjectInfo := m3,
        m_bVersionUpdated := if version ≥ 1 then true else p.m_bVersionUpdated,
        m_SortedOffset :=
          if (ObjectMap.ref m2 objnum).pos < env.m_FileLen then
            insertOffset p.m_SortedOffset (ObjectMap.ref m2 objnum).pos
          else p.m_SortedOffset })

/-- The loop over the records `i` of one block of the first-page section. -/
def linearizedRecords (env : Env) (start_objnum block : Nat) (buf : List Nat) :
    List Nat → Parser → Bool × Parser
  | [], p => (true, p)
  | i :: rest, p =>
    match linearizedRecord env p ((start_objnum + block * 1024 + i) % 4294967296)
        (buf.drop (i * 20)) with
    | (false, p1) => (false, p1)
    | (true, p1) => linearizedRecords env start_objnum block buf rest p1

/-- The loop over the blocks of the first-page section: the function returns
false when the block would end beyond the file, counted from the start of the
section, and when `ReadBlock` fails. -/
def linearizedBlocks (env : Env) (dwStartPos : Int) (start_objnum count nBlocks : Nat) :
    List Nat → List Nat → Parser → Bool × Parser
  | [], _, p => (true, p)
  | block :: rest, buf, p =>
    let block_size := if block = nBlocks - 1 then count % 1024 else 1024
    let dwReadSize := block_size * 20
    if dwStartPos + (dwReadSize : Int) > env.m_FileLen then (false, p)
    else
      let rd := SyntaxReadBlock env p buf dwReadSize
      if rd.1 = false then (false, rd.2.2)
      else
        match linearizedRecords env start_objnum block rd.2.1 (List.range block_size) rd.2.2 with
        | (false, p1) => (false, p1)
        | (true, p1) =>
          linearizedBlocks env dwStartPos start_objnum count nBlocks rest rd.2.1 p1

/-- The function `CPDF_Parser::LoadLinearizedCrossRefV4(pos, dwObjCount)`. -/
def LoadLinearizedCrossRefV4 (env : Env) (p : Parser) (pos : Int) (dwObjCount : Nat) :
    Bool × Parser :=
  let dwStartPos := pos - env.m_HeaderOffset
  let p1 : Parser :=
    { p with m_Pos := env.SetPos dwStartPos,
             m_SortedOffset := insertOffset p.m_SortedOffset pos }
  let count := dwObjCount % 4294967296
  let SavedPos := p1.m_Pos
  match linearizedBlocks env dwStartPos 0 count (count / 1024 + 1)
      (List.range (count / 1024 + 1)) (List.replicate 20481 0) p1 with
  | (false, p2) => (false, p2)
  | (true, p2) =>
    (true, { p2 with m_Pos := env.SetPos (SavedPos + ((count * 20 % 4294967296 : Nat) : Int)) })

/-! ## Rebuilding the index by a scan of the file (`RebuildCrossRef`) -/

/-- The function `CPDF_Parser::ParseIndirectObjectAtByStrict`: the object
found, if any, the value left in `*pResultPos` (written only once the body has
been parsed; the caller has set it to 0), and the parser; every path puts the
position back with `SetPos(SavedPos)`. -/
def ParseIndirectObjectAtByStrict (env : Env) (p : Parser) (pos : Int) (objnum : Nat)
    (resultPos : Int) : Option IndirectObject × Int × Parser :=
  let restored : Parser := { p with m_Pos := env.SetPos p.m_Pos }
  let w := env.GetNextWord (env.SetPos pos)
  if w.1.2 = false then (none, resultPos, restored)
  else
    let parser_objnum := env.FXSYS_atoui w.1.1 % 4294967296
    if objnum ≠ 0 ∧ parser_objnum ≠ objnum then (none, resultPos, restored)
    else
      let w2 := env.GetNextWord w.2
      if w2.1.2 = false then (none, resultPos, restored)
      else
        let gennum := env.FXSYS_atoui w2.1.1 % 4294967296
        let kw := env.GetKeyword w2.2
        if kw.1 ≠ "obj" then (none, resultPos, restored)
        else
          let r := env.GetObjectForStrict kw.2 objnum gennum
          (r.1, r.2, restored)

/-- The states of the scan, `ParserState`. -/
inductive ParserState where
  | kDefault
  | kWhitespace
  | kComment
  | kString
  | kHexString
  | kEscapedString
  | kXref
  | kObjNum
  | kPostObjNum
  | kGenNum
  | kPostGenNum
  | kTrailer
  | kBeginObj
  | kEndObj
deriving DecidableEq, Repr

/-- The size `kBufferSize` of the block that the scan reads at a time. -/
def kBufferSize : Nat := 4096

/-- The local variables of `RebuildCrossRef`, with the parser. -/
structure RebuildState where
  state : ParserState
  inside_index : Int
  objnum : Nat
  gennum : Nat
  depth : Int
  pos : Int
  start_pos : Int
  start_pos1 : Int
  last_obj : Int
  last_xref : Int
  last_trailer : Int
  parser : Parser

/-- What one pass through the `switch` leaves: the variables, the value that
`i` has at the next test `i < size` of the byte loop (after the `i++` of the
loop), and `bOverFlow`. -/
structure ScanStep where
  vars : RebuildState
  next : Nat
  bOverFlow : Bool

/-- A pass that ends with the byte consumed: `i` goes on to the next byte. -/
def consumed (s : RebuildState) (i : Nat) : ScanStep :=
  { vars := s, next := i + 1, bOverFlow := false }

/-- A pass that has done `--i`: after the `i++` of the loop the same byte is
looked at again. -/
def steppedBack (s : RebuildState) (i : Nat) : ScanStep :=
  { vars := s, next := i, bOverFlow := false }

/-- The byte `kw[i]` of a keyword literal, with its terminating zero. -/
def keywordByte (kw : String) (i : Int) : Nat :=
  (kw.data.map Char.toNat ++ [0]).getD i.toNat 0

/-- The dictionary of a cross-reference stream that the scan takes as the
current trailer: the object found is a stream whose dictionary has `/Type
/XRef`, a `/Size`, and a `/Root` whose dictionary has `/Pages`. -/
def rebuildStreamTrailer (env : Env) (pObject : Option IndirectObject) :
    Option CPDF_Dictionary :=
  match pObject.map (fun o => o.obj) with
  | some (CPDF_Object.stream pDict _) =>
    if (GetObjectFor pDict "Type").isSome ∧ GetStringFor env pDict "Type" = "XRef"
        ∧ (GetObjectFor pDict "Size").isSome then
      match (GetObjectFor pDict "Root").bind (GetDict env) with
      | some rootDict => if (GetObjectFor rootDict "Pages").isSome then some pDict else none
      | none => none
    else none
  | _ => none

/-- The update of the index for a discovered object: the statements from
`if (!m_ObjectInfo.empty() && ...)` on.  The test `m_ObjectInfo[objnum].pos`
creates the record when it is reached and the number has none. -/
def rebuildRecord (p : Parser) (objnum gennum : Nat) (obj_pos : Int) (found : Bool) : Parser :=
  if p.m_ObjectInfo.isEmpty = false ∧ p.IsValidObjectNumber objnum = true then
    let m := ObjectMap.touch p.m_ObjectInfo objnum
    if (ObjectMap.ref m objnum).pos ≠ 0 then
      if found then
        let oldgen := GetObjectGenNum { p with m_ObjectInfo := m } objnum
        { p with
          m_ObjectInfo := ObjectMap.setGen (ObjectMap.setPos m objnum obj_pos) objnum gennum,
          m_bVersionUpdated := if oldgen ≠ gennum then true else p.m_bVersionUpdated }
      else { p with m_ObjectInfo := m }
    else
      { p with m_ObjectInfo :=
          ObjectMap.setGen (ObjectMap.setType (ObjectMap.setPos m objnum obj_pos) objnum
            ObjectType.kNotCompressed) objnum gennum }
  else
    { p with m_ObjectInfo :=
        ObjectMap.setGen (ObjectMap.setType (ObjectMap.setPos p.m_ObjectInfo objnum obj_pos)
          objnum ObjectType.kNotCompressed) objnum gennum }

/-- The discovery of an object: the block of `case 3` of `kBeginObj` that is
run when the byte after `obj` is whitespace or a delimiter, with the `--i` and
the change of state that follow it. -/
def rebuildObject (env : Env) (s : RebuildState) (i size : Nat) : ScanStep :=
  let obj_pos := s.start_pos - env.m_HeaderOffset
  let p1 : Parser :=
    { s.parser with m_SortedOffset := insertOffset s.parser.m_SortedOffset obj_pos }
  let r := ParseIndirectObjectAtByStrict env p1 obj_pos s.objnum 0
  let obj_end := r.2.1
  let p2 : Parser :=
    match rebuildStreamTrailer env r.1 with
    | some pDict => r.2.2.pushCurrentTrailer pDict
    | none => r.2.2
  let tag := env.FindTag (env.SetPos obj_pos) "obj"
  let p3 : Parser := { p2 with m_Pos := tag.2 }
  let offset : Int := if tag.1 = -1 then 0 else tag.1 + 3
  let nLen : Int := obj_end - obj_pos - offset
  let over : Bool := decide (toUInt32 nLen > size - i)
  let p4 := rebuildRecord p3 s.objnum s.gennum obj_pos r.1.isSome
  { vars := { s with
      state := ParserState.kDefault,
      last_obj := s.start_pos,
      pos := (if over then obj_end + env.m_HeaderOffset else s.pos),
      parser := p4 },
    next := (if over then i else (i + toUInt32 nLen) % 4294967296),
    bOverFlow := over }

/-- The loop over the entries of a trailer found by the scan while there is a
current trailer: an entry with an object number becomes a reference to it, any
other entry is copied. -/
def mergeTrailer (env : Env) (cur pTrailer : CPDF_Dictionary) : CPDF_Dictionary :=
  pTrailer.foldl (fun d e =>
    if env.GetObjNum e.2 ≠ 0 then SetFor d e.1 (CPDF_Object.reference (env.GetObjNum e.2))
    else SetFor d e.1 e.2) cur

/-- The statements for a trailer dictionary `pTrailer` found by the scan: it is
merged into the current trailer when there is one and the new `/Root` is absent
or a reference to a valid object number with a position, and it becomes the
current trailer, with a look at a following `startxref`, when there is none. -/
def rebuildTrailerDict (env : Env) (p : Parser) (pTrailer : CPDF_Dictionary) : Parser :=
  match p.GetTrailer with
  | some cur =>
    match GetObjectFor pTrailer "Root" with
    | none => p.setCurrentTrailer (mergeTrailer env cur pTrailer)
    | some (.reference n) =>
      if p.IsValidObjectNumber n = true then
        let p1 : Parser := { p with m_ObjectInfo := ObjectMap.touch p.m_ObjectInfo n }
        if (ObjectMap.ref p1.m_ObjectInfo n).pos ≠ 0 then
          p1.setCurrentTrailer (mergeTrailer env cur pTrailer)
        else p1
      else p
    | some _ => p
  | none =>
    let p1 := p.pushCurrentTrailer pTrailer
    let dwSavePos := p1.m_Pos
    let kw := env.GetKeyword dwSavePos
    if kw.1 = "startxref" then
      let w := env.GetNextWord kw.2
      { p1 with
        m_LastXRefOffset :=
          (if w.1.2 then env.FXSYS_atoi (w.1.1.data.map Char.toNat) else p1.m_LastXRefOffset),
        m_Pos := env.SetPos dwSavePos }
    else { p1 with m_Pos := env.SetPos dwSavePos }

/-- The block of `kTrailer` that is run when the byte after `trailer` is
whitespace or a delimiter: the object after the keyword is read, and a
dictionary or the dictionary of a stream is handled as a trailer. -/
def rebuildTrailer (env : Env) (s : RebuildState) (i : Nat) : RebuildState :=
  let r := env.GetObject (env.SetPos (s.pos + (i : Int) - env.m_HeaderOffset)) 0 0
  let p1 : Parser := { s.parser with m_Pos := r.2 }
  let p2 : Parser :=
    match r.1.bind (fun o => o.obj.GetDictDirect) with
    | some pTrailer => rebuildTrailerDict env p1 pTrailer
    | none => p1
  { s with last_trailer := s.pos + (i : Int) - 7, parser := p2 }

/-- One pass through the `switch (state)` of the byte loop of `RebuildCrossRef`
for the byte `byte` at index `i` of a block of `size` bytes. -/
def rebuildByte (env : Env) (s : RebuildState) (i size : Nat) (byte : Nat) : ScanStep :=
  match s.state with
  | ParserState.kDefault =>
    if env.PDFCharIsWhitespace byte then consumed { s with state := ParserState.kWhitespace } i
    else if isdigit byte then steppedBack { s with state := ParserState.kWhitespace } i
    else if byte = '%'.toNat then
      consumed { s with inside_index := 0, state := ParserState.kComment } i
    else if byte = '('.toNat then
      consumed { s with state := ParserState.kString, depth := 1 } i
    else if byte = '<'.toNat then
      consumed { s with inside_index := 1, state := ParserState.kHexString } i
    else if byte = 92 then consumed { s with state := ParserState.kEscapedString } i
    else if byte = 't'.toNat then
      consumed { s with state := ParserState.kTrailer, inside_index := 1 } i
    else consumed s i
  | ParserState.kWhitespace =>
    if isdigit byte then
      consumed { s with
        start_pos := s.pos + (i : Int),
        state := ParserState.kObjNum,
        objnum := env.FXSYS_DecimalCharToInt byte % 4294967296 } i
    else if byte = 't'.toNat then
      consumed { s with state := ParserState.kTrailer, inside_index := 1 } i
    else if byte = 'x'.toNat then
      consumed { s with state := ParserState.kXref, inside_index := 1 } i
    else if env.PDFCharIsWhitespace byte = false then
      steppedBack { s with state := ParserState.kDefault } i
    else consumed s i
  | ParserState.kObjNum =>
    if isdigit byte then
      consumed { s with
        objnum := (s.objnum * 10 + env.FXSYS_DecimalCharToInt byte) % 4294967296 } i
    else if env.PDFCharIsWhitespace byte then
      consumed { s with state := ParserState.kPostObjNum } i
    else steppedBack { s with state := ParserState.kEndObj, inside_index := 0 } i
  | ParserState.kPostObjNum =>
    if isdigit byte then
      consumed { s with
        start_pos1 := s.pos + (i : Int),
        state := ParserState.kGenNum,
        gennum := env.FXSYS_DecimalCharToInt byte % 4294967296 } i
    else if byte = 't'.toNat then
      consumed { s with state := ParserState.kTrailer, inside_index := 1 } i
    else if env.PDFCharIsWhitespace byte = false then
      steppedBack { s with state := ParserState.kDefault } i
    else consumed s i
  | ParserState.kGenNum =>
    if isdigit byte then
      consumed { s with
        gennum := (s.gennum * 10 + env.FXSYS_DecimalCharToInt byte) % 4294967296 } i
    else if env.PDFCharIsWhitespace byte then
      consumed { s with state := ParserState.kPostGenNum } i
    else steppedBack { s with state := ParserState.kDefault } i
  | ParserState.kPostGenNum =>
    if byte = 'o'.toNat then
      consumed { s with state := ParserState.kBeginObj, inside_index := 1 } i
    else if isdigit byte then
      consumed { s with
        objnum := s.gennum,
        gennum := env.FXSYS_DecimalCharToInt byte % 4294967296,
        start_pos := s.start_pos1,
        start_pos1 := s.pos + (i : Int),
        state := ParserState.kGenNum } i
    else if byte = 't'.toNat then
      consumed { s with state := ParserState.kTrailer, inside_index := 1 } i
    else if env.PDFCharIsWhitespace byte = false then
      steppedBack { s with state := ParserState.kDefault } i
    else consumed s i
  | ParserState.kBeginObj =>
    if s.inside_index = 1 then
      if byte ≠ 'b'.toNat then steppedBack { s with state := ParserState.kDefault } i
      else consumed { s with inside_index := toInt32 (s.inside_index + 1) } i
    else if s.inside_index = 2 then
      if byte ≠ 'j'.toNat then steppedBack { s with state := ParserState.kDefault } i
      else consumed { s with inside_index := toInt32 (s.inside_index + 1) } i
    else if s.inside_index = 3 then
      if env.PDFCharIsWhitespace byte ∨ env.PDFCharIsDelimiter byte then rebuildObject env s i size
      else steppedBack { s with state := ParserState.kDefault } i
    else consumed s i
  | ParserState.kTrailer =>
    if s.inside_index = 7 then
      if env.PDFCharIsWhitespace byte ∨ env.PDFCharIsDelimiter byte then
        steppedBack { rebuildTrailer env s i with state := ParserState.kDefault } i
      else steppedBack { s with state := ParserState.kDefault } i
    else if byte = keywordByte "trailer" s.inside_index then
      consumed { s with inside_index := toInt32 (s.inside_index + 1) } i
    else steppedBack { s with state := ParserState.kDefault } i
  | ParserState.kXref =>
    if s.inside_index = 4 then
      consumed { s with last_xref := s.pos + (i : Int) - 4, state := ParserState.kWhitespace } i
    else if byte = keywordByte "xref" s.inside_index then
      consumed { s with inside_index := toInt32 (s.inside_index + 1) } i
    else steppedBack { s with state := ParserState.kDefault } i
  | ParserState.kComment =>
    if env.PDFCharIsLineEnding byte then consumed { s with state := ParserState.kDefault } i
    else consumed s i
  | ParserState.kString =>
    let depth1 : Int :=
      if byte = ')'.toNat then (if s.depth > 0 then s.depth - 1 else s.depth)
      else if byte = '('.toNat then toInt32 (s.depth + 1)
      else s.depth
    consumed { s with
      depth := depth1,
      state := (if depth1 = 0 then ParserState.kDefault else s.state) } i
  | ParserState.kHexString =>
    consumed { s with
      state := (if byte = '>'.toNat ∨ (byte = '<'.toNat ∧ s.inside_index = 1)
        then ParserState.kDefault else s.state),
      inside_index := 0 } i
  | ParserState.kEscapedString =>
    if env.PDFCharIsDelimiter byte ∨ env.PDFCharIsWhitespace byte then
      steppedBack { s with state := ParserState.kDefault } i
    else consumed s i
  | ParserState.kEndObj =>
    if env.PDFCharIsWhitespace byte then consumed { s with state := ParserState.kDefault } i
    else if byte = '%'.toNat ∨ byte = '('.toNat ∨ byte = '<'.toNat ∨ byte = 92 then
      steppedBack { s with state := ParserState.kDefault } i
    else if s.inside_index = 6 then steppedBack { s with state := ParserState.kDefault } i
    else if byte = keywordByte "endobj" s.inside_index then
      consumed { s with inside_index := toInt32 (s.inside_index + 1) } i
    else consumed s i

/-- The byte loop `for (uint32_t i = 0; i < size; i++)` over a block, from
index `i` on: the variables at the end and whether the loop was left with
`bOverFlow`; `none` stands for a loop that has not ended within the given
number of passes. -/
def scanBlock (env : Env) (buffer : List Nat) (size : Nat) :
    Nat → RebuildState → Nat → Option (RebuildState × Bool)
  | 0, _, _ => none
  | fuel + 1, s, i =>
    if i < size then
      let r := rebuildByte env s i size (buffer.getD i 0)
      if r.bOverFlow then some (r.vars, true)
      else scanBlock env buffer size fuel r.vars r.next
    else some (s, false)

/-- The number of passes granted to the byte loop over a block of `size`
bytes: five for each byte, and five more. -/
def blockPasses (size : Nat) : Nat := 5 * size + 5

/-- The loop `while (pos < m_FileLen)` over the blocks of the file; `none`
stands for a loop that has not ended within the given number of rounds. -/
def scanFile (env : Env) : Nat → RebuildState → Option RebuildState
  | 0, _ => none
  | fuel + 1, s =>
    if s.pos < env.m_FileLen then
      let size := min (toUInt32 (env.m_FileLen - s.pos)) kBufferSize
      match env.FileReadBlock s.pos size with
      | none => some s
      | some buffer =>
        match scanBlock env buffer size (blockPasses size) s 0 with
        | none => none
        | some (s1, bOverFlow) =>
          let s2 : RebuildState :=
            { s1 with pos := s1.pos + (if bOverFlow then 0 else (size : Int)) }
          if s2.pos ≤ s.pos then some s2 else scanFile env fuel s2
    else some s

/-- The number of rounds granted to the block loop: one more than the bytes
between the header offset and the end of the file. -/
def scanRounds (env : Env) : Nat := (env.m_FileLen - env.m_HeaderOffset).toNat + 1

/-- The variables of `RebuildCrossRef` before the scan: the index, the offsets
and the trailers are cleared. -/
def rebuildStart (env : Env) (p : Parser) : RebuildState :=
  { state := ParserState.kDefault, inside_index := 0, objnum := 0, gennum := 0, depth := 0,
    pos := env.m_HeaderOffset, start_pos := 0, start_pos1 := 0,
    last_obj := -1, last_xref := -1, last_trailer := -1,
    parser := { p with m_ObjectInfo := [], m_SortedOffset := [], m_Trailers := [],
                       m_TrailerPos := none } }

/-- The offset that `RebuildCrossRef` inserts after the scan, before the header
offset is taken off. -/
def lastTrailerOf (env : Env) (s : RebuildState) : Int :=
  if s.last_xref ≠ -1 ∧ s.last_xref > s.last_obj then s.last_xref
  else if s.last_trailer = -1 ∨ s.last_xref < s.last_obj then env.m_FileLen
  else s.last_trailer

/-- The function `CPDF_Parser::RebuildCrossRef`. -/
def RebuildCrossRef (env : Env) (p : Parser) : Option (Bool × Parser) :=
  match scanFile env (scanRounds env) (rebuildStart env p) with
  | none => none
  | some s =>
    let q : Parser :=
      { s.parser with m_SortedOffset :=
          insertOffset s.parser.m_SortedOffset (lastTrailerOf env s - env.m_HeaderOffset) }
    some (q.GetTrailer.isSome && !q.m_ObjectInfo.isEmpty, q)

/-! ## Resolving objects (`ParseIndirectObject`, `GetObjectSize`, `GetIndirectBinary`) -/

/-- Insertion into the ordered set `m_ParsingObjNums`. -/
def insertObjNum : List Nat → Nat → List Nat
  | [], x => [x]
  | y :: rest, x =>
    if x < y then x :: y :: rest
    else if x = y then y :: rest
    else y :: insertObjNum rest x

/-- The assignment `m[k] = v` on a map with `uint32_t` keys that is only looked
up by key: the entry of `k` is replaced, or added when `k` has none. -/
def assignNum {α : Type} : List (Nat × α) → Nat → α → List (Nat × α)
  | [], k, v => [(k, v)]
  | (k1, v1) :: rest, k, v =>
    if k1 = k then (k, v) :: rest else (k1, v1) :: assignNum rest k v

/-- The function `CPDF_Parser::GetObjectStream`: the accessor that
`m_ObjectStreamMap` holds for the object number, or a new accessor for the
stream that the document yields, which is then put into the map. -/
def GetObjectStream (env : Env) (p : Parser) (objnum : Nat) : Option StreamAcc × Parser :=
  match p.m_ObjectStreamMap.lookup objnum with
  | some acc => (some acc, p)
  | none =>
    if env.hasDocument = false then (none, p)
    else
      match env.GetOrParseIndirectObject objnum with
      | some (CPDF_Object.stream dict data) =>
        let acc : StreamAcc := { id := p.m_StreamAccCount, dict := dict, data := data }
        (some acc, { p with
          m_ObjectStreamMap := assignNum p.m_ObjectStreamMap objnum acc,
          m_StreamAccCount := p.m_StreamAccCount + 1 })
      | _ => (none, p)

/-- The helper `GetStreamNCount`. -/
def GetStreamNCount (env : Env) (acc : StreamAcc) : Int := GetIntegerFor env acc.dict "N"

/-- The helper `GetStreamFirst`. -/
def GetStreamFirst (env : Env) (acc : StreamAcc) : Int := GetIntegerFor env acc.dict "First"

/-- The loop `for (int32_t i = GetStreamNCount(pObjStream); i > 0; --i)` of
`ParseIndirectObject` that reads the pairs of the header of an object stream
into the cache of the stream: `i` pairs are left to read, from position
`pos`. -/
def readObjCache (env : Env) (data : List Nat) : Nat → Int → List (Nat × Nat) → List (Nat × Nat)
  | 0, _, m => m
  | i + 1, pos, m =>
    let thisnum := env.StreamGetDirectNum data pos
    let thisoff := env.StreamGetDirectNum data thisnum.2
    readObjCache env data i thisoff.2
      (assignNum m (thisnum.1 % 4294967296) (thisoff.1 % 4294967296))

/-- The statements of `ParseIndirectObject` for a Compressed object once the
accessor of its container is at hand: the header is read into `m_ObjCache`
unless the cache holds the accessor, and the object is parsed at `First` plus
its relative offset. -/
def parseCompressedObject (env : Env) (p : Parser) (acc : StreamAcc) (objnum : Nat) :
    Option IndirectObject × Parser :=
  let offset := GetStreamFirst env acc
  let cache : List (Nat × Nat) :=
    match p.m_ObjCache.lookup acc.id with
    | some m => m
    | none => readObjCache env acc.data (GetStreamNCount env acc).toNat 0 []
  let p1 : Parser := { p with m_ObjCache := assignNum p.m_ObjCache acc.id cache }
  match cache.lookup objnum with
  | none => (none, p1)
  | some thisoff => (env.StreamGetObject acc.data (toUInt32 (offset + (thisoff : Int))), p1)

/-- The statements of `ParseIndirectObject` that run while `objnum` is in
`m_ParsingObjNums`: from the test of the kind of the record to the return. -/
def parseIndirectObjectBody (env : Env) (p : Parser) (objnum : Nat) :
    Option IndirectObject × Parser :=
  if p.GetObjectType objnum = ObjectType.kNotCompressed
      ∨ p.GetObjectType objnum = ObjectType.kNull then
    let p1 : Parser := { p with m_ObjectInfo := ObjectMap.touch p.m_ObjectInfo objnum }
    let pos := (ObjectMap.ref p1.m_ObjectInfo objnum).pos
    if pos ≤ 0 then (none, p1) else ParseIndirectObjectAt env p1 pos objnum
  else if p.GetObjectType objnum ≠ ObjectType.kCompressed then (none, p)
  else
    let p1 : Parser := { p with m_ObjectInfo := ObjectMap.touch p.m_ObjectInfo objnum }
    let r := GetObjectStream env p1 (toUInt32 (ObjectMap.ref p1.m_ObjectInfo objnum).pos)
    match r.1 with
    | none => (none, r.2)
    | some acc => parseCompressedObject env r.2 acc objnum

/-- The function `CPDF_Parser::ParseIndirectObject`.  The object
`local_insert` (a `pdfium::ScopedSetInsertion`) inserts `objnum` into
`m_ParsingObjNums` where it is declared and erases it when the function
returns. -/
def ParseIndirectObject (env : Env) (p : Parser) (objnum : Nat) :
    Option IndirectObject × Parser :=
  if p.IsValidObjectNumber objnum = false then (none, p)
  else if objnum ∈ p.m_ParsingObjNums then (none, p)
  else
    let p1 : Parser := { p with m_ParsingObjNums := insertObjNum p.m_ParsingObjNums objnum }
    let r := parseIndirectObjectBody env p1 objnum
    (r.1, { r.2 with m_ParsingObjNums := r.2.m_ParsingObjNums.erase objnum })

/-- The two statements `auto it = m_SortedOffset.find(offset); ++it`: the
member of the ordered set that follows `offset`, when `offset` is a member and
not the last one. -/
def offsetAfter : List Int → Int → Option Int
  | [], _ => none
  | y :: rest, x => if y = x then rest.head? else offsetAfter rest x

/-- The function `CPDF_Parser::GetObjectSize`. -/
def GetObjectSize (p : Parser) (objnum : Nat) : Int :=
  if p.IsValidObjectNumber objnum = false then 0
  else
    let objnum1 : Nat :=
      if p.GetObjectType objnum = ObjectType.kCompressed then
        toUInt32 (p.GetObjectPositionOrZero objnum)
      else objnum
    if p.GetObjectType objnum1 ≠ ObjectType.kNotCompressed
        ∧ p.GetObjectType objnum1 ≠ ObjectType.kNull then 0
    else
      let offset := p.GetObjectPositionOrZero objnum1
      if offset = 0 then 0
      else
        match offsetAfter p.m_SortedOffset offset with
        | none => 0
        | some next => next - offset

/-- The loop `for (int i = GetStreamNCount(pObjStream); i > 0; --i)` of
`GetIndirectBinary` over the pairs of the header of an object stream, with `i`
pairs left to read from position `pos`: the index into the data and the size
of the copy for the first pair that lists `objnum`, if there is one. -/
def compressedRange (env : Env) (data : List Nat) (objnum : Nat) (offset : Int)
    (totalsize : Nat) : Nat → Int → Option (Int × Nat)
  | 0, _ => none
  | i + 1, pos =>
    let thisnum := env.StreamGetDirectNum data pos
    let thisoff := env.StreamGetDirectNum data thisnum.2
    if thisnum.1 % 4294967296 ≠ objnum then
      compressedRange env data objnum offset totalsize i thisoff.2
    else if i + 1 = 1 then
      some ((thisoff.1 % 4294967296 : Nat) + offset,
        toUInt32 ((totalsize : Int) - toUInt32 ((thisoff.1 % 4294967296 : Nat) + offset)))
    else
      let nextnum := env.StreamGetDirectNum data thisoff.2
      let nextoff := env.StreamGetDirectNum data nextnum.2
      some ((thisoff.1 % 4294967296 : Nat) + offset,
        toUInt32 ((nextoff.1 % 4294967296 : Nat) - ((thisoff.1 % 4294967296 : Nat) : Int)))

/-- The two statements `buffer.resize(size); memcpy(buffer.data(), pData +
start, size)`: the `size` bytes of the data from index `start` on; `none`
stands for a copy that reads outside the data, which C++ leaves undefined. -/
def copyBytes (pData : List Nat) (start : Int) (size : Nat) : Option (List Nat) :=
  if 0 ≤ start ∧ start + (size : Int) ≤ (pData.length : Int) then
    some ((pData.drop start.toNat).take size)
  else none

/-- The branch of `GetIndirectBinary` for a Compressed object. -/
def GetIndirectBinaryCompressed (env : Env) (p : Parser) (objnum : Nat) :
    Option (List Nat) × Parser :=
  let p1 : Parser := { p with m_ObjectInfo := ObjectMap.touch p.m_ObjectInfo objnum }
  let r := GetObjectStream env p1 (toUInt32 (ObjectMap.ref p1.m_ObjectInfo objnum).pos)
  match r.1 with
  | none => (some [], r.2)
  | some acc =>
    let offset := GetStreamFirst env acc
    let totalsize := acc.data.length % 4294967296
    match compressedRange env acc.data objnum offset totalsize
        (GetStreamNCount env acc).toNat 0 with
    | none => (some [], r.2)
    | some range => (copyBytes acc.data range.1 range.2, r.2)

/-- The loop `while (1)` of `GetIndirectBinary` that looks for `endobj`: the
position at which it stops, or `none` when it has not ended within the given
number of rounds. -/
def scanToEndobj (env : Env) : Nat → Int → Option Int
  | 0, _ => none
  | fuel + 1, pos =>
    let kw := env.GetKeyword pos
    if kw.1 = "endobj" then some kw.2
    else if kw.2 = env.m_FileLen then some kw.2
    else scanToEndobj env fuel kw.2

/-- The test of `GetIndirectBinary` on the next offset: whether an `xref`
keyword or a header `N G obj` starts there. -/
def nextOffsetValid (env : Env) (nextoff pos : Int) : Bool :=
  if nextoff = pos then false
  else
    let w := env.GetNextWord (env.SetPos nextoff)
    if w.1.1 = "xref" then true
    else if w.1.2 then
      let w2 := env.GetNextWord w.2
      if w2.1.2 then decide ((env.GetKeyword w2.2).1 = "obj") else false
    else false

/-- The branch of `GetIndirectBinary` for an object that is not Compressed;
`none` stands for a search for `endobj` that has not ended within one round
for each byte of the file, and one more. -/
def GetIndirectBinaryDirect (env : Env) (p : Parser) (objnum : Nat) :
    Option (List Nat × Parser) :=
  if p.GetObjectType objnum ≠ ObjectType.kNotCompressed then some ([], p)
  else
    let p1 : Parser := { p with m_ObjectInfo := ObjectMap.touch p.m_ObjectInfo objnum }
    let pos := (ObjectMap.ref p1.m_ObjectInfo objnum).pos
    if pos = 0 then some ([], p1)
    else
      let restored : Parser := { p1 with m_Pos := env.SetPos p1.m_Pos }
      let w := env.GetNextWord (env.SetPos pos)
      if w.1.2 = false then some ([], restored)
      else
        let parser_objnum := env.FXSYS_atoui w.1.1 % 4294967296
        if parser_objnum ≠ 0 ∧ parser_objnum ≠ objnum then some ([], restored)
        else
          let w2 := env.GetNextWord w.2
          if w2.1.2 = false then some ([], restored)
          else if (env.GetKeyword w2.2).1 ≠ "obj" then some ([], restored)
          else
            match offsetAfter p1.m_SortedOffset pos with
            | none => some ([], restored)
            | some next =>
              let nextoff : Option Int :=
                if nextOffsetValid env next pos then some next
                else scanToEndobj env ((env.m_FileLen - pos).toNat + 1) (env.SetPos pos)
              match nextoff with
              | none => none
              | some n =>
                let size := toUInt32 (n - pos)
                let rd := SyntaxReadBlock env { p1 with m_Pos := env.SetPos pos }
                  (List.replicate size 0) size
                some (rd.2.1, restored)

/-- The function `CPDF_Parser::GetIndirectBinary`: the buffer and the parser
afterwards.  The outer `none` stands for a search for `endobj` that has not
ended, the inner `none` for a copy that reads outside the decoded data of the
container. -/
def GetIndirectBinary (env : Env) (p : Parser) (objnum : Nat) :
    Option (Option (List Nat) × Parser) :=
  if p.IsValidObjectNumber objnum = false then some (some [], p)
  else if p.GetObjectType objnum = ObjectType.kCompressed then
    some (GetIndirectBinaryCompressed env p objnum)
  else (GetIndirectBinaryDirect env p objnum).map (fun r => (some r.1, r.2))

/-- The function `CPDF_Parser::GetPermissions`. -/
def GetPermissions (env : Env) (p : Parser) : Nat :=
  match p.m_pSecurityHandler with
  | none => 0xFFFFFFFF
  | some handler =>
    let dwPermission := handler.GetPermissions % 4294967296
    match p.m_pEncryptDict with
    | none => dwPermission
    | some dict =>
      if GetStringFor env dict "Filter" = "Standard" then
        (dwPermission &&& 0xFFFFFFFC) ||| 0xFFFFF0C0
      else dwPermission

/-- The function `CPDF_Parser::GetRootObjNum`. -/
def GetRootObjNum (p : Parser) : Nat :=
  match p.GetTrailer.bind (fun d => GetObjectFor d "Root") with
  | some (CPDF_Object.reference n) => n
  | _ => 0

/-- The object number of the `/Info` entry of a trailer, when the entry is a
reference: `ToReference(trailer->GetObjectFor("Info"))`. -/
def infoReference (d : CPDF_Dictionary) : Option Nat :=
  match GetObjectFor d "Info" with
  | some (CPDF_Object.reference n) => some n
  | _ => none

/-- The function `CPDF_Parser::GetInfoObjNum`: the reference of the current
trailer, or else the first reference met on the way from `m_Trailers.rbegin()`
to `m_Trailers.rend()`. -/
def GetInfoObjNum (p : Parser) : Nat :=
  match p.GetTrailer.bind infoReference with
  | some n => n
  | none =>
    match p.m_Trailers.reverse.findSome? infoReference with
    | some n => n
    | none => 0

/-! ## The entry points (`StartParse`, `StartLinearizedParse`) -/

/-- The values of `CPDF_Parser::Error`. -/
inductive Error where
  | SUCCESS
  | FILE_ERROR
  | FORMAT_ERROR
  | PASSWORD_ERROR
  | HANDLER_ERROR
deriving DecidableEq, Repr

/-- What the entry points look at in the document after `LoadDoc` or
`LoadLinearizedDoc`. -/
structure Document where
  GetRoot : Option CPDF_Dictionary
  GetPageCount : Int

/-- What the entry points ask of their collaborators: the search for the header
(`GetHeaderOffset`, -1 when there is none), the operations `GetCharAt` and
`BackwardsSearchToWord` of the syntax parser (the latter takes the position it
starts from and gives back the position it stops at), the document as `LoadDoc`
and `LoadLinearizedDoc` leave it for a parser, the initialisation of the
security handler (`OnInit`, `none` when it fails) and of the crypto handler,
and `CPDF_LinearizedHeader::CreateForObject`. -/
structure Host where
  GetHeaderOffset : Int
  GetCharAt : Int → Option Nat
  BackwardsSearchToWord : Int → String → Int → Bool × Int
  LoadDoc : Parser → Document
  LoadLinearizedDoc : Parser → Document
  SecurityHandlerOnInit : Parser → CPDF_Dictionary → Option SecurityHandler
  CryptoHandlerInit : CPDF_Dictionary → SecurityHandler → Bool
  CreateForObject : Option IndirectObject → Option LinearizedHeader

/-- What an entry point returns, with the parser it leaves, the number of
calls of `RebuildCrossRef` it has made, and the document as the last `LoadDoc`
(or `LoadLinearizedDoc`) left it, if there was one. -/
structure StartResult where
  error : Error
  parser : Parser
  rebuilds : Nat
  doc : Option Document

/-- A part of an entry point either returns from the entry point or goes on
with the next part. -/
inductive Step (α : Type) where
  | done (r : StartResult)
  | next (a : α)

/-- The function `CPDF_Parser::ReleaseEncryptHandler`. -/
def ReleaseEncryptHandler (p : Parser) : Parser :=
  { p with m_pCryptoHandler := false, m_pSecurityHandler := none, m_pEncryptDict := none }

/-- The first part of `SetEncryptHandler`: the encryption dictionary that the
`/Encrypt` entry of the trailer gives, directly or through a reference. -/
def findEncryptDict (env : Env) (p : Parser) (trailer : CPDF_Dictionary) : Parser :=
  match GetObjectFor trailer "Encrypt" with
  | some (CPDF_Object.dictionary d) => { p with m_pEncryptDict := some d }
  | some (CPDF_Object.reference n) =>
    match env.GetOrParseIndirectObject n with
    | some o => { p with m_pEncryptDict := GetDict env o }
    | none => p
  | _ => p

/-- The function `CPDF_Parser::SetEncryptHandler`. -/
def SetEncryptHandler (env : Env) (host : Host) (p : Parser) : Error × Parser :=
  let p0 := ReleaseEncryptHandler p
  match p0.GetTrailer with
  | none => (Error.FORMAT_ERROR, p0)
  | some trailer =>
    let p1 := findEncryptDict env p0 trailer
    match p1.m_pEncryptDict with
    | none => (Error.SUCCESS, p1)
    | some dict =>
      if GetStringFor env dict "Filter" ≠ "Standard" then (Error.HANDLER_ERROR, p1)
      else
        match host.SecurityHandlerOnInit p1 dict with
        | none => (Error.PASSWORD_ERROR, p1)
        | some handler =>
          let p2 : Parser := { p1 with m_pSecurityHandler := some handler }
          if host.CryptoHandlerInit dict handler = false then (Error.HANDLER_ERROR, p2)
          else (Error.SUCCESS, { p2 with m_pCryptoHandler := true })

/-- The statements `if (!RebuildCrossRef()) return FORMAT_ERROR; bXRefRebuilt =
true;` of `StartParse`, followed by `m_LastXRefOffset = 0` when `clearLast` is
set: the first call of `RebuildCrossRef`. -/
def rebuildFirst (env : Env) (p : Parser) (clearLast : Bool) :
    Option (Step (Parser × Bool × Nat)) :=
  match RebuildCrossRef env p with
  | none => none
  | some (false, q) =>
    some (Step.done { error := Error.FORMAT_ERROR, parser := q, rebuilds := 1, doc := none })
  | some (true, q) =>
    some (Step.next
      ((if clearLast then { q with m_LastXRefOffset := 0 } else q), true, 1))

/-- The statements of `StartParse` from `bool bXRefRebuilt = false` to the end
of the `if ... else` on `BackwardsSearchToWord`: the parser, `bXRefRebuilt` and
the number of calls of `RebuildCrossRef`, unless `StartParse` returns there. -/
def startXRef (env : Env) (host : Host) (p : Parser) :
    Option (Step (Parser × Bool × Nat)) :=
  let found := host.BackwardsSearchToWord p.m_Pos "startxref" 4096
  let p1 : Parser := { p with m_Pos := found.2 }
  if found.1 then
    let p2 : Parser := { p1 with m_SortedOffset := insertOffset p1.m_SortedOffset p1.m_Pos }
    let kw := env.GetKeyword p2.m_Pos
    let xrefpos_str := env.GetNextWord kw.2
    let p3 : Parser := { p2 with m_Pos := xrefpos_str.2 }
    if xrefpos_str.1.2 = false then
      some (Step.done { error := Error.FORMAT_ERROR, parser := p3, rebuilds := 0, doc := none })
    else
      let p4 : Parser :=
        { p3 with m_LastXRefOffset := env.FXSYS_atoi64 (xrefpos_str.1.1.data.map Char.toNat) }
      match LoadAllCrossRefV4 env p4 p4.m_LastXRefOffset with
      | none => none
      | some (true, q) => some (Step.next (q, false, 0))
      | some (false, q) =>
        match LoadAllCrossRefV5 env q q.m_LastXRefOffset with
        | none => none
        | some (true, q2) => some (Step.next (q2, false, 0))
        | some (false, q2) => rebuildFirst env q2 true
  else rebuildFirst env p1 false

/-- The statement `if (!m_pDocument->GetRoot() || m_pDocument->GetPageCount()
== 0) ...` of the entry points, for the document `doc` that `load` has left:
the parser, the number of calls of `RebuildCrossRef` and the document as the
last load left it, unless the entry point returns there. -/
def checkDocument (env : Env) (host : Host) (load : Parser → Document) (p : Parser)
    (doc : Document) (bXRefRebuilt : Bool) (rebuilds : Nat) :
    Option (Step (Parser × Nat × Document)) :=
  if doc.GetRoot.isNone ∨ doc.GetPageCount = 0 then
    if bXRefRebuilt then
      some (Step.done
        { error := Error.FORMAT_ERROR, parser := p, rebuilds := rebuilds, doc := some doc })
    else
      match RebuildCrossRef env (ReleaseEncryptHandler p) with
      | none => none
      | some (false, q) =>
        some (Step.done
          { error := Error.FORMAT_ERROR, parser := q, rebuilds := rebuilds + 1, doc := some doc })
      | some (true, q) =>
        let eRet := SetEncryptHandler env host q
        if eRet.1 ≠ Error.SUCCESS then
          some (Step.done
            { error := eRet.1, parser := eRet.2, rebuilds := rebuilds + 1, doc := some doc })
        else
          let doc2 := load eRet.2
          if doc2.GetRoot.isNone then
            some (Step.done
              { error := Error.FORMAT_ERROR, parser := eRet.2, rebuilds := rebuilds + 1,
                doc := some doc2 })
          else some (Step.next (eRet.2, rebuilds + 1, doc2))
  else some (Step.next (p, rebuilds, doc))

/-- The statement `if (GetRootObjNum() == 0) ...` of the entry points. -/
def checkRootObjNum (env : Env) (host : Host) (p : Parser) (rebuilds : Nat) (doc : Document) :
    Option (Step (Parser × Nat)) :=
  if p.GetRootObjNum = 0 then
    match RebuildCrossRef env (ReleaseEncryptHandler p) with
    | none => none
    | some (b, q) =>
      if b = false ∨ q.GetRootObjNum = 0 then
        some (Step.done
          { error := Error.FORMAT_ERROR, parser := q, rebuilds := rebuilds + 1, doc := some doc })
      else
        let eRet := SetEncryptHandler env host q
        if eRet.1 ≠ Error.SUCCESS then
          some (Step.done
            { error := eRet.1, parser := eRet.2, rebuilds := rebuilds + 1, doc := some doc })
        else some (Step.next (eRet.2, rebuilds + 1))
  else some (Step.next (p, rebuilds))

/-- The object number of the `/Metadata` entry of the root of the document,
when the entry is a reference: `ToReference(m_pDocument->GetRoot()->
GetObjectFor("Metadata"))`. -/
def metadataReference (doc : Document) : Option Nat :=
  match doc.GetRoot.bind (fun root => GetObjectFor root "Metadata") with
  | some (CPDF_Object.reference n) => some n
  | _ => none

/-- The last statement of `StartParse` before `return SUCCESS`: the object
number of the metadata is recorded when there is a security handler and it
reports that the metadata is not encrypted. -/
def recordMetadata (p : Parser) (doc : Document) : Parser :=
  match p.m_pSecurityHandler with
  | none => p
  | some handler =>
    if handler.IsMetadataEncrypted = false then
      match metadataReference doc with
      | some n => { p with m_MetadataObjnum := n }
      | none => p
    else p

/-- The last statement of `StartLinearizedParse` before `return SUCCESS`: the
object number of the metadata is recorded when there is a security handler and
it reports that the metadata is encrypted. -/
def recordMetadataLinearized (p : Parser) (doc : Document) : Parser :=
  match p.m_pSecurityHandler with
  | none => p
  | some handler =>
    if handler.IsMetadataEncrypted then
      match metadataReference doc with
      | some n => { p with m_MetadataObjnum := n }
      | none => p
    else p

/-- The statements of `StartParse` from `Error eRet = SetEncryptHandler()` to
the end. -/
def startParseTail (env : Env) (host : Host) (p : Parser) (bXRefRebuilt : Bool)
    (rebuilds : Nat) : Option StartResult :=
  let eRet := SetEncryptHandler env host p
  if eRet.1 ≠ Error.SUCCESS then
    some { error := eRet.1, parser := eRet.2, rebuilds := rebuilds, doc := none }
  else
    match checkDocument env host host.LoadDoc eRet.2 (host.LoadDoc eRet.2) bXRefRebuilt
        rebuilds with
    | none => none
    | some (Step.done r) => some r
    | some (Step.next (p1, rebuilds1, doc)) =>
      match checkRootObjNum env host p1 rebuilds1 doc with
      | none => none
      | some (Step.done r) => some r
      | some (Step.next (p2, rebuilds2)) =>
        some { error := Error.SUCCESS, parser := recordMetadata p2 doc, rebuilds := rebuilds2,
               doc := some doc }

/-- The statements of `StartParse` that read the version of the file from the
header: the digits at the positions 5 and 7; `none` where `StartParse` returns
`FORMAT_ERROR`. -/
def readFileVersion (env : Env) (host : Host) (p : Parser) : Option Parser :=
  match host.GetCharAt 5 with
  | none => none
  | some ch5 =>
    let p1 : Parser :=
      if isdigit ch5 then
        { p with m_FileVersion := toInt32 ((env.FXSYS_DecimalCharToInt ch5 : Int) * 10) }
      else p
    match host.GetCharAt 7 with
    | none => none
    | some ch7 =>
      some (if isdigit ch7 then
        { p1 with m_FileVersion :=
            toInt32 (p1.m_FileVersion + (env.FXSYS_DecimalCharToInt ch7 : Int)) }
      else p1)

/-- The function `CPDF_Parser::StartParse`.  The syntax parser that `env`
describes is the one that `InitParser(pFileAccess, offset)` sets up, and the
document of `env` and `host` is `pDocument`. -/
def StartParse (env : Env) (host : Host) (p : Parser) : Option StartResult :=
  let p0 : Parser :=
    { p with m_bHasParsed := true, m_bXRefStream := false, m_LastXRefOffset := 0 }
  if toInt32 host.GetHeaderOffset = -1 then
    some { error := Error.FORMAT_ERROR, parser := p0, rebuilds := 0, doc := none }
  else
    match readFileVersion env host p0 with
    | none => some { error := Error.FORMAT_ERROR, parser := p0, rebuilds := 0, doc := none }
    | some p1 =>
      if env.m_FileLen < env.m_HeaderOffset + 9 then
        some { error := Error.FORMAT_ERROR, parser := p1, rebuilds := 0, doc := none }
      else
        let p2 : Parser :=
          { p1 with m_Pos := env.SetPos (env.m_FileLen - env.m_HeaderOffset - 9) }
        match startXRef env host p2 with
        | none => none
        | some (Step.done r) => some r
        | some (Step.next (p3, bXRefRebuilt, rebuilds)) =>
          startParseTail env host p3 bXRefRebuilt rebuilds

/-- The function `CPDF_Parser::IsLinearizedFile`. -/
def IsLinearizedFile (env : Env) (host : Host) (p : Parser) : Bool × Parser :=
  let SavedPos := env.SetPos (env.m_HeaderOffset + 9)
  let w := env.GetNextWord SavedPos
  if w.1.2 = false then (false, { p with m_Pos := w.2 })
  else
    let objnum := env.FXSYS_atoui w.1.1 % 4294967296
    let w2 := env.GetNextWord w.2
    if w2.1.2 = false then (false, { p with m_Pos := w2.2 })
    else
      let gennum := env.FXSYS_atoui w2.1.1 % 4294967296
      let kw := env.GetKeyword w2.2
      if kw.1 ≠ "obj" then (false, { p with m_Pos := env.SetPos SavedPos })
      else
        let r := env.GetObject kw.2 objnum gennum
        match host.CreateForObject r.1 with
        | none => (false, { p with m_Pos := r.2, m_pLinearized := none })
        | some header =>
          (true, { p with
            m_pLinearized := some header,
            m_LastXRefOffset := header.GetLastXRefOffset,
            m_Pos := (env.GetNextWord r.2).2 })

/-- The statements of `StartLinearizedParse` that load the cross-reference
data of the first page: the parser, `bXRefRebuilt`, `bLoadV4` and the number of
calls of `RebuildCrossRef`, unless `StartLinearizedParse` returns there. -/
def startLinearizedXRef (env : Env) (p : Parser) : Option (Step (Parser × Bool × Bool × Nat)) :=
  let dwFirstXRefOffset := p.m_Pos
  match LoadCrossRefV4 env p dwFirstXRefOffset 0 false with
  | none => none
  | some (true, q) => some (Step.next (q, false, true, 0))
  | some (false, q) =>
    let r := LoadCrossRefV5 env q dwFirstXRefOffset true
    if r.1 then some (Step.next (r.2.2, false, false, 0))
    else
      match RebuildCrossRef env r.2.2 with
      | none => none
      | some (false, q2) =>
        some (Step.done
          { error := Error.FORMAT_ERROR, parser := q2, rebuilds := 1, doc := none })
      | some (true, q2) => some (Step.next ({ q2 with m_LastXRefOffset := 0 }, true, false, 1))

/-- The statement `if (bLoadV4) ...` of `StartLinearizedParse`: the trailer of
the first-page section is read and pushed, and the index is shrunk to its
`/Size`; without a trailer `StartLinearizedParse` returns `SUCCESS`. -/
def linearizedTrailer (env : Env) (p : Parser) (rebuilds : Nat) : Step Parser :=
  let t := LoadTrailerV4 env p
  match t.1 with
  | none => Step.done { error := Error.SUCCESS, parser := t.2, rebuilds := rebuilds, doc := none }
  | some trailer =>
    let p1 := t.2.pushCurrentTrailer trailer
    let xrefsize := GetDirectInteger p1.GetTrailer "Size"
    Step.next (if xrefsize > 0 then p1.ShrinkObjectMap xrefsize.toNat else p1)

/-- The statements of `StartLinearizedParse` from `Error eRet =
SetEncryptHandler()` to the end. -/
def startLinearizedTail (env : Env) (host : Host) (p : Parser) (bXRefRebuilt : Bool)
    (rebuilds : Nat) : Option StartResult :=
  let eRet := SetEncryptHandler env host p
  if eRet.1 ≠ Error.SUCCESS then
    some { error := eRet.1, parser := eRet.2, rebuilds := rebuilds, doc := none }
  else
    match checkDocument env host host.LoadLinearizedDoc eRet.2 (host.LoadLinearizedDoc eRet.2)
        bXRefRebuilt rebuilds with
    | none => none
    | some (Step.done r) => some r
    | some (Step.next (p1, rebuilds1, doc)) =>
      match checkRootObjNum env host p1 rebuilds1 doc with
      | none => none
      | some (Step.done r) => some r
      | some (Step.next (p2, rebuilds2)) =>
        some { error := Error.SUCCESS, parser := recordMetadataLinearized p2 doc,
               rebuilds := rebuilds2, doc := some doc }

/-- The function `CPDF_Parser::StartLinearizedParse`. -/
def StartLinearizedParse (env : Env) (host : Host) (p : Parser) : Option StartResult :=
  let p0 : Parser := { p with m_bXRefStream := false, m_LastXRefOffset := 0 }
  if toInt32 host.GetHeaderOffset = -1 then
    some { error := Error.FORMAT_ERROR, parser := p0, rebuilds := 0, doc := none }
  else
    let lin := IsLinearizedFile env host p0
    if lin.1 = false then StartParse env host lin.2
    else
      let p1 : Parser := { lin.2 with m_bHasParsed := true }
      match startLinearizedXRef env p1 with
      | none => none
      | some (Step.done r) => some r
      | some (Step.next (p2, bXRefRebuilt, bLoadV4, rebuilds)) =>
        if bLoadV4 then
          match linearizedTrailer env p2 rebuilds with
          | Step.done r => some r
          | Step.next p3 => startLinearizedTail env host p3 bXRefRebuilt rebuilds
        else startLinearizedTail env host p2 bXRefRebuilt rebuilds

end Parser

/-! ## Vocabulary of the proofs -/

/-- A relation between the parser before and after a piece of loading that is
reflexive and transitive, and that holds across the steps that do not touch
the object index: a move of the syntax parser, a new `m_dwXrefStartObjNum`, an
insertion into `m_SortedOffset`, a pushed trailer. -/
structure GlueRel (R : Parser → Parser → Prop) : Prop where
  refl : ∀ p, R p p
  trans : ∀ a b c, R a b → R b c → R a c
  pos : ∀ (p : Parser) (v : Int), R p { p with m_Pos := v }
  start : ∀ (p : Parser) (v : Nat), R p { p with m_dwXrefStartObjNum := v }
  offset : ∀ (p : Parser) (x : Int),
    R p { p with m_SortedOffset := insertOffset p.m_SortedOffset x }
  trailer : ∀ (p : Parser) (d : CPDF_Dictionary), R p (p.pushTrailer d)

/-- A relation that holds, besides, across each entry of a cross-reference
stream that is accepted. -/
structure EntryRel (R : Parser → Parser → Prop) extends GlueRel R : Prop where
  entry : ∀ (p : Parser) (W0 W1 objnum : Nat) (entry : List Nat) (q : Parser),
    Parser.xrefStreamEntry p W0 W1 objnum entry = (true, q) → R p q

/-- A relation that holds, besides, across each textual xref record that is
accepted. -/
structure StepRel (env : Env) (R : Parser → Parser → Prop) extends EntryRel R : Prop where
  record : ∀ (p : Parser) (objnum : Nat) (pEntry : List Nat) (q : Parser),
    Parser.xrefRecord env p objnum pEntry = (true, q) → R p q

/-- The index `m2` has grown from `m1`: if `m1` has increasing keys then so
has `m2`, and the last key of `m2` is not below the last key of `m1`. -/
def ObjectMap.Grow (m1 m2 : ObjectMap) : Prop :=
  ObjectMap.WF m1 → ObjectMap.WF m2 ∧
    ∀ i, ObjectMap.lastKey m1 = some i → ∃ j, ObjectMap.lastKey m2 = some j ∧ i ≤ j

/-- The parser `q` extends `p`: the current trailer is still named by the same
position, trailers have only been appended, and the index has grown. -/
def Parser.Ext (p q : Parser) : Prop :=
  q.m_TrailerPos = p.m_TrailerPos ∧ (∃ l, q.m_Trailers = p.m_Trailers ++ l) ∧
    ObjectMap.Grow p.m_ObjectInfo q.m_ObjectInfo

/-- Two runs of the same piece of loading, one taking the index `m` to `mq`
and one taking `m2` to `mq2`, treat object `N` alike: either both leave its
record as it was, or both end with a record of the same kind and offset, and
of the same generation when the kind is Direct. -/
def ObjectMap.SameWrite (N : Nat) (m mq m2 mq2 : ObjectMap) : Prop :=
  (ObjectMap.find mq N = ObjectMap.find m N ∧ ObjectMap.find mq2 N = ObjectMap.find m2 N) ∨
  (∃ r r2, ObjectMap.find mq N = some r ∧ ObjectMap.find mq2 N = some r2 ∧
    r.type = r2.type ∧ r.pos = r2.pos ∧
    (r.type = ObjectType.kNotCompressed → r.gennum = r2.gennum))

/-- Two runs of a loader from the parsers `p` and `p2` go in step for object
`N`: the same result, the syntax parser at the same position, and the same
treatment of the record of `N`. -/
def Parser.InStep (N : Nat) (p p2 : Parser) (r r2 : Bool × Parser) : Prop :=
  r.1 = r2.1 ∧ r.2.m_Pos = r2.2.m_Pos ∧
    ObjectMap.SameWrite N p.m_ObjectInfo r.2.m_ObjectInfo p2.m_ObjectInfo r2.2.m_ObjectInfo

/-- The same for loaders that may run out of rounds. -/
def Parser.InStepOpt (N : Nat) (p p2 : Parser) (r r2 : Option (Bool × Parser)) : Prop :=
  match r, r2 with
  | none, none => True
  | some a, some b => Parser.InStep N p p2 a b
  | _, _ => False

/-- The values of a C `int`. -/
def int32Range : Finset Int := Finset.Icc (-2147483648) 2147483647

/-- The number of `int` values that a list of offsets does not hold yet. -/
def unseenCount (seen : List Int) : Nat := (int32Range \ seen.toFinset).card

/-- The number `n` is at most the last key of the index: the test of
`IsValidObjectNumber` on the index alone. -/
def ObjectMap.ValidIn (m : ObjectMap) (n : Nat) : Prop :=
  ∃ j, ObjectMap.lastKey m = some j ∧ n ≤ j

/-- Every record of kind Compressed names, in its offset field, a valid object
number whose own record has kind Null. -/
def ObjectMap.Contained (m : ObjectMap) : Prop :=
  ∀ N r, ObjectMap.find m N = some r → r.type = ObjectType.kCompressed →
    0 ≤ r.pos ∧ ObjectMap.ValidIn m r.pos.toNat ∧
    ∃ c, ObjectMap.find m r.pos.toNat = some c ∧ c.type = ObjectType.kNull

/-- The invariant of the index behind C7: increasing keys, and every
Compressed record with a valid container of kind Null. -/
def Parser.ContainerInv (p : Parser) : Prop :=
  ObjectMap.WF p.m_ObjectInfo ∧ ObjectMap.Contained p.m_ObjectInfo

/-- An entry relation that holds across every entry of a cross-reference
stream, accepted or not. -/
structure EntryRelAll (R : Parser → Parser → Prop) extends GlueRel R : Prop where
  entry : ∀ (p : Parser) (W0 W1 objnum : Nat) (entry : List Nat),
    R p (Parser.xrefStreamEntry p W0 W1 objnum entry).2

/-- The records of `p` are kept in `q`: every record of `p` is still there with
its generation; a Direct or Compressed record is the same record or has become
a container (kind Null); a container stays a container. -/
def Parser.Kept (p q : Parser) : Prop :=
  ∀ N r, ObjectMap.find p.m_ObjectInfo N = some r →
    ∃ r2, ObjectMap.find q.m_ObjectInfo N = some r2 ∧ r2.gennum = r.gennum ∧
      (r.type = ObjectType.kNotCompressed ∨ r.type = ObjectType.kCompressed →
        r2 = r ∨ r2.type = ObjectType.kNull) ∧
      (r.type = ObjectType.kNull → r2.type = ObjectType.kNull)

/-- A relation that holds across every entry of a cross-reference stream and
every record of a textual xref section, accepted or not. -/
structure StepRelAll (env : Env) (R : Parser → Parser → Prop) extends EntryRelAll R : Prop where
  record : ∀ (p : Parser) (objnum : Nat) (pEntry : List Nat),
    R p (Parser.xrefRecord env p objnum pEntry).2

/-- The Direct records of `q` have their offsets in the offset set of `q`, as
far as a loader that went from `p` to `q` is concerned: a Direct record of `q`
has its offset in `m_SortedOffset` (when a bound `L` is given, only an offset
below `L` is asked to be there), or it is a record that `p` had already, with
an offset that `m_SortedOffset` of `p` did not hold. -/
def Parser.OffsetsKnown (L : Option Int) (p q : Parser) : Prop :=
  ∀ N r, ObjectMap.find q.m_ObjectInfo N = some r → r.type = ObjectType.kNotCompressed →
    ((∀ l, L = some l → r.pos < l) → r.pos ∈ q.m_SortedOffset) ∨
    (ObjectMap.find p.m_ObjectInfo N = some r ∧ r.pos ∉ p.m_SortedOffset)

/-- Every Direct record has its offset in `m_SortedOffset`. -/
def Parser.DirectKnown (p : Parser) : Prop :=
  ∀ N r, ObjectMap.find p.m_ObjectInfo N = some r → r.type = ObjectType.kNotCompressed →
    r.pos ∈ p.m_SortedOffset

/-- The rank of a state of the scan before a byte: a pass that steps back onto
the byte leaves a state of smaller rank. -/
def Parser.scanRank (env : Env) (st : Parser.ParserState) (byte : Nat) : Nat :=
  match st with
  | Parser.ParserState.kDefault =>
    if env.PDFCharIsWhitespace byte = false ∧ Parser.isdigit byte = true then 2 else 0
  | Parser.ParserState.kWhitespace => 1
  | Parser.ParserState.kObjNum => 4
  | _ => 3

/-- The object number that the header `N G obj` at position `pos` names: the
first word there, read as a `uint32_t`, when it is a number.  It is the value
`parser_objnum` of `ParseIndirectObjectAt`. -/
def headerObjNum (env : Env) (pos : Int) : Option Nat :=
  if (env.GetNextWord (env.SetPos pos)).1.2 = true then
    some (env.FXSYS_atoui (env.GetNextWord (env.SetPos pos)).1.1 % 4294967296)
  else none

/-- The first `n` pairs `(objnum, relative offset)` of the header of an object
stream, read with `GetDirectNum` from position `pos` of the decoded data. -/
def headerPairs (env : Env) (data : List Nat) : Nat → Int → List (Nat × Nat)
  | 0, _ => []
  | n + 1, pos =>
    (((env.StreamGetDirectNum data pos).1 % 4294967296,
      (env.StreamGetDirectNum data (env.StreamGetDirectNum data pos).2).1 % 4294967296)) ::
      headerPairs env data n (env.StreamGetDirectNum data (env.StreamGetDirectNum data pos).2).2

/-- The object number whose record `GetObjectSize(objnum)` measures: the
container for a Compressed object, the object itself otherwise. -/
def Parser.measuredObject (p : Parser) (objnum : Nat) : Nat :=
  if p.GetObjectType objnum = ObjectType.kCompressed then
    toUInt32 (p.GetObjectPositionOrZero objnum)
  else objnum

/-- The big-endian unsigned integer that the first `n` bytes of `p` encode, in
the words of the specification: the sum of `p[i] * 256^(n-1-i)`. -/
def bigEndian (p : List Nat) (n : Nat) : Nat :=
  ((List.range n).map (fun i => p.getD i 0 * 256 ^ (n - 1 - i))).sum

/-- A record that the record loop of `LoadCrossRefV4` accepts: it is marked
free, or its offset is not 0, or its first ten bytes are digits. -/
def recordAccepted (env : Env) (pEntry : List Nat) : Prop :=
  pEntry.getD 17 0 = 102 ∨
    ¬ (env.FXSYS_atoi64 pEntry = 0 ∧
      (List.range 10).all (fun c => Parser.isdigit (pEntry.getD c 0)) = false)

instance (env : Env) (pEntry : List Nat) : Decidable (recordAccepted env pEntry) := by
  unfold recordAccepted; infer_instance

/-- The value of `depth` after a pass over `byte` in the state String: a `)`
lowers a positive depth, a `(` raises it. -/
def Parser.stringDepth (depth : Int) (byte : Nat) : Int :=
  if byte = ')'.toNat then (if depth > 0 then depth - 1 else depth)
  else if byte = '('.toNat then toInt32 (depth + 1)
  else depth

/-- The value of `depth` after passes over the `n` bytes of `buffer` from index
`i` on, all in the state String. -/
def Parser.depthRun (buffer : List Nat) : Nat → Nat → Int → Int
  | 0, _, d => d
  | n + 1, i, d => Parser.depthRun buffer n (i + 1) (Parser.stringDepth d (buffer.getD i 0))

namespace Parser

/-- The loop over the entries `j` of one subsection (`xrefStreamEntries`) with
an assertion `ok p j` on the state `p` and the index `j` before each entry is
processed: `none` when an assertion fails. -/
def xrefStreamEntriesAsserted (ok : Parser → Nat → Bool) (W0 W1 totalWidth : Nat)
    (startnum : Nat) (segstart : List Nat) : List Nat → Parser → Option (Bool × Parser)
  | [], p => some (true, p)
  | j :: rest, p =>
    if ok p j = false then none
    else
      match xrefStreamEntry p W0 W1 ((startnum + j) % 4294967296)
          (segstart.drop (j * totalWidth % 4294967296)) with
      | (false, p1) => some (false, p1)
      | (true, p1) =>
        xrefStreamEntriesAsserted ok W0 W1 totalWidth startnum segstart rest p1

/-- The loop over the subsections (`xrefStreamSegments`) with an assertion
`ok segindex startnum p j` before each entry: `none` when an assertion
fails. -/
def xrefStreamSegmentsAsserted (ok : Nat → Nat → Parser → Nat → Bool)
    (W0 W1 totalWidth : Nat) (pData : List Nat) (dwTotalSize : Nat) :
    List (Int × Int) → Nat → Parser → Option (Bool × Parser)
  | [], _, p => some (true, p)
  | (startnum, cnt) :: rest, segindex, p =>
    if startnum < 0 then
      xrefStreamSegmentsAsserted ok W0 W1 totalWidth pData dwTotalSize rest segindex p
    else
      let p0 : Parser := { p with m_dwXrefStartObjNum := startnum.toNat }
      let count := cnt.toNat
      if ¬ (segindex + count < 4294967296 ∧ (segindex + count) * totalWidth < 4294967296)
          ∨ (segindex + count) * totalWidth > dwTotalSize then
        xrefStreamSegmentsAsserted ok W0 W1 totalWidth pData dwTotalSize rest segindex p0
      else
        let dwV5Size := p0.v5Size
        if ¬ (startnum.toNat + count < 4294967296) ∨ startnum.toNat + count > dwV5Size then
          xrefStreamSegmentsAsserted ok W0 W1 totalWidth pData dwTotalSize rest segindex p0
        else
          match xrefStreamEntriesAsserted (ok segindex startnum.toNat) W0 W1 totalWidth
              startnum.toNat (pData.drop (segindex * totalWidth % 4294967296))
              (List.range count) p0 with
          | none => none
          | some (false, p1) => some (false, p1)
          | some (true, p1) =>
            xrefStreamSegmentsAsserted ok W0 W1 totalWidth pData dwTotalSize rest
              ((segindex + count) % 4294967296) p1

/-- The assertion of `GetObjectType`, `ASSERT(IsValidObjectNumber(objnum))`, for
the object number `startnum + j` of an entry. -/
def entryValid (_segindex startnum : Nat) (p : Parser) (j : Nat) : Bool :=
  p.IsValidObjectNumber ((startnum + j) % 4294967296)

/-- The bytes of entry `j` of the subsection that starts at entry `segindex`
are inside data of `size` bytes: the end of its second field, computed without
wrapping, is in the 32-bit range and at most `size`. -/
def entryInData (W0 W1 totalWidth size : Nat) (segindex _startnum : Nat) (_p : Parser)
    (j : Nat) : Bool :=
  decide ((segindex + j) * totalWidth + W0 + W1 ≤ size ∧
    (segindex + j) * totalWidth + W0 + W1 < 4294967296)

end Parser

namespace Parser

end Parser

namespace Parser

end Parser

/-! ## Sample files

A sample file is its text together with the tokens the syntax parser finds in
it: each table maps a position to what the operation yields there and to the
position it stops at. -/

/-- The bytes of a text. -/
def bytesOf (s : String) : List Nat := s.data.map Char.toNat

/-- The value of the run of decimal digits a byte string starts with. -/
def decimalOf (l : List Nat) : Nat :=
  (l.takeWhile Parser.isdigit).foldl (fun n b => n * 10 + (b - 48)) 0

/-- The entry of a table at a position, or a default. -/
def tableGet {α : Type} (t : List (Int × α)) (pos : Int) (d : α) : α :=
  match t.find? (fun e => decide (e.1 = pos)) with
  | some e => e.2
  | none => d

/-- A file text with the tokens found in it. -/
structure SampleFile where
  text : String
  keywords : List (Int × String × Int)
  words : List (Int × (String × Bool) × Int)
  nums : List (Int × Nat × Int)
  skips : List (Int × Int)
  objects : List (Int × IndirectObject × Int)
  tags : List (Int × Int × Int) := []
  streamNums : List Nat → List (Int × Nat × Int) := fun _ => []
  streamObjects : List Nat → List (Int × IndirectObject) := fun _ => []

/-- The collaborators of a sample file: positions are clamped to the file,
an operation asked at a position without a token yields nothing and stays
where it is, numbers are read as decimals, and there is no document. -/
def SampleFile.env (f : SampleFile) : Env :=
  { file := bytesOf f.text
    m_HeaderOffset := 0
    kMaxObjectNumber := 1048576
    SetPos := fun pos => min pos ((bytesOf f.text).length : Int)
    GetKeyword := fun pos => tableGet f.keywords pos ("", pos)
    GetNextWord := fun pos => tableGet f.words pos (("", false), pos)
    GetDirectNum := fun pos => tableGet f.nums pos (0, pos)
    ToNextWord := fun pos => tableGet f.skips pos pos
    GetObject := fun pos _ _ =>
      match f.objects.find? (fun e => decide (e.1 = pos)) with
      | some e => (some e.2.1, e.2.2)
      | none => (none, pos)
    GetObjectForStrict := fun pos _ _ =>
      match f.objects.find? (fun e => decide (e.1 = pos)) with
      | some e => (some e.2.1, e.2.2)
      | none => (none, pos)
    FindTag := fun pos _ => tableGet f.tags pos (-1, pos)
    FXSYS_atoi64 := fun l => (decimalOf l : Int)
    FXSYS_atoi := fun l => (decimalOf l : Int)
    FXSYS_atoui := fun w => decimalOf (bytesOf w)
    PDFCharIsWhitespace := fun b => decide (b = 0 ∨ b = 9 ∨ b = 10 ∨ b = 12 ∨ b = 13 ∨ b = 32)
    PDFCharIsDelimiter := fun b =>
      decide (b = 40 ∨ b = 41 ∨ b = 60 ∨ b = 62 ∨ b = 91 ∨ b = 93 ∨ b = 123 ∨ b = 125
        ∨ b = 47 ∨ b = 37)
    PDFCharIsLineEnding := fun b => decide (b = 10 ∨ b = 13)
    hasDocument := false
    DocRootObjNum := none
    ReplaceIndirectObjectIfHigherGeneration := fun _ _ => true
    GetOrParseIndirectObject := fun _ => none
    GetObjNum := fun _ => 0
    FXSYS_DecimalCharToInt := fun b => b - 48
    StreamGetDirectNum := fun data pos => tableGet (f.streamNums data) pos (0, pos)
    StreamGetObject := fun data pos =>
      (f.streamObjects data).lookup pos }

/-- A file of one revision: a header, object 1 at offset 9, and at offset 22 an
xref section `0 3` that lists objects 0 (free), 1 (at 9) and 2 (at 999, beyond
the end of the file), with the trailer `/Size 2`. -/
def fileA : SampleFile :=
  { text := "%PDF-1.4\n1 0 obj null\nxref\n0 3\n0000000000 65535 f\r\n0000000009 00000 n\r\n0000000999 00001 n\r\ntrailer <</Size 2>>\n"
    keywords := [(22, "xref", 26), (91, "trailer", 98)]
    words := [(9, ("1", true), 10), (26, ("0", true), 28), (91, ("trailer", false), 98)]
    nums := [(28, 3, 30)]
    skips := [(30, 31)]
    objects := [(98, { obj := .dictionary [("Size", .number 2)], m_ObjNum := 0, m_GenNum := 0 },
      110)] }

/-- A file of two revisions: object 1 (generation 5) at offset 9; at offset 22
the older xref section `0 2`, which lists object 0 (free) and object 1 (at 9,
generation 5), with the trailer `/Size 2`; at offset 91 the newer section
`1 1`, which lists object 1 as free with generation 6 (the record at offset
100), with the trailer `/Size 2 /Prev 22`. -/
def fileB : SampleFile :=
  { text := "%PDF-1.4\n1 5 obj null\nxref\n0 2\n0000000000 65535 f\r\n0000000009 00005 n\r\ntrailer <</Size 2>>\nxref\n1 1\n0000000000 00006 f\r\ntrailer <</Size 2/Prev 22>>\n"
    keywords := [(22, "xref", 26), (71, "trailer", 78), (91, "xref", 95), (120, "trailer", 127)]
    words := [(9, ("1", true), 10), (26, ("0", true), 28), (71, ("trailer", false), 78),
      (95, ("1", true), 97), (120, ("trailer", false), 127)]
    nums := [(28, 2, 30), (97, 1, 99)]
    skips := [(30, 31), (99, 100)]
    objects :=
      [(78, { obj := .dictionary [("Size", .number 2)], m_ObjNum := 0, m_GenNum := 0 }, 90),
       (127, { obj := .dictionary [("Size", .number 2), ("Prev", .number 22)],
               m_ObjNum := 0, m_GenNum := 0 }, 147)] }

/-- A file whose only xref section, at offset 22, has a trailer with `/Prev 22`:
the chain of `/Prev` comes back to the section itself. -/
def fileC : SampleFile :=
  { text := "%PDF-1.4\n1 0 obj null\nxref\n0 2\n0000000000 65535 f\r\n0000000009 00000 n\r\ntrailer <</Size 2/Prev 22>>\n"
    keywords := [(22, "xref", 26), (71, "trailer", 78)]
    words := [(9, ("1", true), 10), (26, ("0", true), 28), (71, ("trailer", false), 78)]
    nums := [(28, 2, 30)]
    skips := [(30, 31)]
    objects :=
      [(78, { obj := .dictionary [("Size", .number 2), ("Prev", .number 22)],
              m_ObjNum := 0, m_GenNum := 0 }, 98)] }

/-- A file whose cross-reference stream, object 7 at offset 9, has `/Prev 9`:
the chain of `/Prev` comes back to the main stream itself.  The text stands
for the file; the decoded data of the stream is the one of the object. -/
def fileD : SampleFile :=
  { text := "%PDF-1.5\n7 0 obj <</Type/XRef/Size 2/W[1 2 1]/Prev 9>> stream ... endstream endobj\n"
    keywords := [(12, "obj", 16)]
    words := [(9, ("7", true), 10), (10, ("0", true), 12)]
    nums := []
    skips := []
    objects :=
      [(16, { obj := .stream [("Type", .name "XRef"), ("Size", .number 2),
                ("W", .array [.number 1, .number 2, .number 1]), ("Prev", .number 9)]
                [0, 0, 0, 0, 1, 0, 9, 0],
              m_ObjNum := 0, m_GenNum := 0 }, 84)] }

/-- The file of the cross-reference stream scenario of the spec: object 7 at
offset 9 is a stream with `/Size 4`, `/W [1 2 1]`, `/Index [0 4]` and the 16
data bytes `00 00 00 00 | 01 00 0F 00 | 02 00 34 01 | 01 00 50 00`.  The text
stands for the file; the decoded data of the stream is the one of the
object. -/
def fileE : SampleFile :=
  { text := "%PDF-1.5\n7 0 obj <</Type/XRef/Size 4/W[1 2 1]/Index[0 4]>> stream ... endstream endobj\n"
    keywords := [(12, "obj", 16)]
    words := [(9, ("7", true), 10), (10, ("0", true), 12)]
    nums := []
    skips := []
    objects :=
      [(16, { obj := .stream [("Type", .name "XRef"), ("Size", .number 4),
                ("W", .array [.number 1, .number 2, .number 1]),
                ("Index", .array [.number 0, .number 4])]
                [0, 0, 0, 0, 1, 0, 15, 0, 2, 0, 52, 1, 1, 0, 80, 0],
              m_ObjNum := 0, m_GenNum := 0 }, 90)] }

/-- The same file with the third entry `02 00 01 01`: object 2 is compressed in
container 1, with index 1. -/
def fileF : SampleFile :=
  { text := "%PDF-1.5\n7 0 obj <</Type/XRef/Size 4/W[1 2 1]/Index[0 4]>> stream ... endstream endobj\n"
    keywords := [(12, "obj", 16)]
    words := [(9, ("7", true), 10), (10, ("0", true), 12)]
    nums := []
    skips := []
    objects :=
      [(16, { obj := .stream [("Type", .name "XRef"), ("Size", .number 4),
                ("W", .array [.number 1, .number 2, .number 1]),
                ("Index", .array [.number 0, .number 4])]
                [0, 0, 0, 0, 1, 0, 15, 0, 2, 0, 1, 1, 1, 0, 80, 0],
              m_ObjNum := 0, m_GenNum := 0 }, 90)] }

/-- A file with a cross-reference stream, object 7 at offset 9, with `/Size 4`,
`/W [1 2 1]`, `/Index [0 4]` and the data `00 00 00 00 | 02 00 02 00 |
01 00 50 00 | 00 00 00 00`: object 1 is compressed in container 2, and the
entry of object 2 gives the offset `0x50`.  The text stands for the file; the
decoded data of the stream is the one of the object. -/
def fileG : SampleFile :=
  { text := "%PDF-1.5\n7 0 obj <</Type/XRef/Size 4/W[1 2 1]/Index[0 4]>> stream ... endstream endobj\n"
    keywords := [(12, "obj", 16)]
    words := [(9, ("7", true), 10), (10, ("0", true), 12)]
    nums := []
    skips := []
    objects :=
      [(16, { obj := .stream [("Type", .name "XRef"), ("Size", .number 4),
                ("W", .array [.number 1, .number 2, .number 1]),
                ("Index", .array [.number 0, .number 4])]
                [0, 0, 0, 0, 2, 0, 2, 0, 1, 0, 80, 0, 0, 0, 0, 0],
              m_ObjNum := 0, m_GenNum := 0 }, 90)] }

/-- A parser in which a newer section has supplied object 2 as Direct at offset
100 with generation 3, and the index reaches object 3. -/
def parserG : Parser :=
  { Parser.init with
    m_ObjectInfo :=
      [(2, { pos := 100, type := ObjectType.kNotCompressed, gennum := 3 }),
       (3, { pos := 0, type := ObjectType.kFree, gennum := 0 })],
    m_SortedOffset := [100] }

/-- A file without an xref section: objects 1 and 2 at offsets 9 and 29, and at
offset 49 a trailer whose `/Root` is object 1.  The table `tags` gives, for
the start of each object, the offset of its keyword `obj` and the position
after it. -/
def fileH : SampleFile :=
  { text := "%PDF-1.4\n1 0 obj null endobj\n2 0 obj null endobj\ntrailer <</Root 1 0 R>>\n"
    keywords := [(12, "obj", 16), (32, "obj", 36)]
    words := [(9, ("1", true), 10), (10, ("0", true), 12), (29, ("2", true), 30),
      (30, ("0", true), 32)]
    nums := []
    skips := []
    objects :=
      [(16, { obj := .null, m_ObjNum := 1, m_GenNum := 0 }, 21),
       (36, { obj := .null, m_ObjNum := 2, m_GenNum := 0 }, 41),
       (56, { obj := .dictionary [("Root", .reference 1)], m_ObjNum := 0, m_GenNum := 0 }, 72)]
    tags := [(9, 4, 16), (29, 4, 36)] }

/-- A file of three revisions.  The oldest section, at offset 58, lists
objects 0 to 3 and has the trailer `/Size 4 /Info 3 0 R`; the section of the
first update, at offset 218, lists object 5 and has the trailer `/Size 6 /Info
5 0 R /Prev 58`; the section of the second update, at offset 297, has the
trailer `/Size 6 /Prev 218`, without `/Info`.  Object 1 is at offset 9, the
information dictionaries are object 3 at offset 29 and object 5 at offset
189. -/
def fileI : SampleFile :=
  { text := "%PDF-1.4\n1 0 obj null endobj\n3 0 obj <</Title(a)>> endobj\nxref\n0 4\n0000000000 65535 f\r\n0000000009 00000 n\r\n0000000000 00000 f\r\n0000000029 00000 n\r\ntrailer <</Size 4/Root 1 0 R/Info 3 0 R>>\n5 0 obj <</Title(b)>> endobj\nxref\n5 1\n0000000189 00000 n\r\ntrailer <</Size 6/Root 1 0 R/Info 5 0 R/Prev 58>>\nxref\n0 1\n0000000000 65535 f\r\ntrailer <</Size 6/Root 1 0 R/Prev 218>>\nstartxref\n297\n%%EOF\n"
    keywords := [(58, "xref", 62), (147, "trailer", 154), (218, "xref", 222),
      (247, "trailer", 254), (297, "xref", 301), (326, "trailer", 333)]
    words := [(9, ("1", true), 10), (62, ("0", true), 64), (147, ("trailer", false), 154),
      (222, ("5", true), 224), (247, ("trailer", false), 254), (301, ("0", true), 303),
      (326, ("trailer", false), 333)]
    nums := [(64, 4, 66), (224, 1, 226), (303, 1, 305)]
    skips := [(66, 67), (226, 227), (305, 306)]
    objects :=
      [(154, { obj := .dictionary [("Size", .number 4), ("Root", .reference 1),
                 ("Info", .reference 3)],
               m_ObjNum := 0, m_GenNum := 0 }, 188),
       (254, { obj := .dictionary [("Size", .number 6), ("Root", .reference 1),
                 ("Info", .reference 5), ("Prev", .number 58)],
               m_ObjNum := 0, m_GenNum := 0 }, 296),
       (333, { obj := .dictionary [("Size", .number 6), ("Root", .reference 1),
                 ("Prev", .number 218)],
               m_ObjNum := 0, m_GenNum := 0 }, 365)] }

/-- The same three revisions with cross-reference streams: the oldest stream,
object 4 at offset 58, has `/Size 5 /Info 3 0 R`; the stream of the first
update, object 6 at offset 176, has `/Size 7 /Index [5 2] /Info 5 0 R /Prev
58`; the stream of the second update, object 7 at offset 284, has `/Size 8
/Index [7 1] /Prev 176`, without `/Info`.  The text stands for the file; the
decoded data of a stream is the one of the object. -/
def fileJ : SampleFile :=
  { text := "%PDF-1.5\n1 0 obj null endobj\n3 0 obj <</Title(a)>> endobj\n4 0 obj <</Type/XRef/Size 5/W[1 2 1]/Root 1 0 R/Info 3 0 R>> stream ... endstream endobj\n5 0 obj <</Title(b)>> endobj\n6 0 obj <</Type/XRef/Size 7/W[1 2 1]/Index[5 2]/Root 1 0 R/Info 5 0 R/Prev 58>> stream ... endstream endobj\n7 0 obj <</Type/XRef/Size 8/W[1 2 1]/Index[7 1]/Root 1 0 R/Prev 176>> stream ... endstream endobj\nstartxref\n284\n%%EOF\n"
    keywords := [(61, "obj", 65), (179, "obj", 183), (287, "obj", 291)]
    words := [(58, ("4", true), 59), (59, ("0", true), 61), (176, ("6", true), 177),
      (177, ("0", true), 179), (284, ("7", true), 285), (285, ("0", true), 287)]
    nums := []
    skips := []
    objects :=
      [(65, { obj := .stream [("Type", .name "XRef"), ("Size", .number 5),
                ("W", .array [.number 1, .number 2, .number 1]), ("Root", .reference 1),
                ("Info", .reference 3)]
                [0, 0, 0, 0, 1, 0, 9, 0, 0, 0, 0, 0, 1, 0, 29, 0, 1, 0, 58, 0],
              m_ObjNum := 0, m_GenNum := 0 }, 146),
       (183, { obj := .stream [("Type", .name "XRef"), ("Size", .number 7),
                 ("W", .array [.number 1, .number 2, .number 1]),
                 ("Index", .array [.number 5, .number 2]), ("Root", .reference 1),
                 ("Info", .reference 5), ("Prev", .number 58)]
                 [1, 0, 147, 0, 1, 0, 176, 0],
               m_ObjNum := 0, m_GenNum := 0 }, 283),
       (291, { obj := .stream [("Type", .name "XRef"), ("Size", .number 8),
                 ("W", .array [.number 1, .number 2, .number 1]),
                 ("Index", .array [.number 7, .number 1]), ("Root", .reference 1),
                 ("Prev", .number 176)]
                 [1, 1, 28, 0],
               m_ObjNum := 0, m_GenNum := 0 }, 381)] }

/-- A file with a cross-reference stream, object 7 at offset 9, with `/Size 4`,
`/W [1 2 1]`, `/Index [0 4]` and the data `00 00 00 00 | 01 00 0F 07 |
01 00 34 00 | 01 00 50 00`: the entry of object 1 has type 1, offset `0x0F`
and generation 7.  The text stands for the file; the decoded data of the
stream is the one of the object. -/
def fileK : SampleFile :=
  { text := "%PDF-1.5\n7 0 obj <</Type/XRef/Size 4/W[1 2 1]/Index[0 4]>> stream ... endstream endobj\n"
    keywords := [(12, "obj", 16)]
    words := [(9, ("7", true), 10), (10, ("0", true), 12)]
    nums := []
    skips := []
    objects :=
      [(16, { obj := .stream [("Type", .name "XRef"), ("Size", .number 4),
                ("W", .array [.number 1, .number 2, .number 1]),
                ("Index", .array [.number 0, .number 4])]
                [0, 0, 0, 0, 1, 0, 15, 7, 1, 0, 52, 0, 1, 0, 80, 0],
              m_ObjNum := 0, m_GenNum := 0 }, 90)] }

/-- The same file with the data `00 00 00 00 | 02 00 01 00 | 01 00 34 00 |
01 00 50 00`: the entry of object 1 has type 2 and names object 1 itself as
its container. -/
def fileR : SampleFile :=
  { text := "%PDF-1.5\n7 0 obj <</Type/XRef/Size 4/W[1 2 1]/Index[0 4]>> stream ... endstream endobj\n"
    keywords := [(12, "obj", 16)]
    words := [(9, ("7", true), 10), (10, ("0", true), 12)]
    nums := []
    skips := []
    objects :=
      [(16, { obj := .stream [("Type", .name "XRef"), ("Size", .number 4),
                ("W", .array [.number 1, .number 2, .number 1]),
                ("Index", .array [.number 0, .number 4])]
                [0, 0, 0, 0, 2, 0, 1, 0, 1, 0, 52, 0, 1, 0, 80, 0],
              m_ObjNum := 0, m_GenNum := 0 }, 90)] }

/-- A file with two xref sections whose subsection headers reach
`kMaxObjectNumber` = 1048576: the section at offset 29 has the header `1048575
2`, the section at offset 110 the header `1048576 1`. -/
def fileM : SampleFile :=
  { text := "%PDF-1.4\n1 0 obj null endobj\nxref\n1048575 2\n0000000009 00000 n\r\n0000000009 00000 n\r\ntrailer <</Size 1048577>>\nxref\n1048576 1\n0000000009 00000 n\r\ntrailer <</Size 1048577>>\n"
    keywords := [(12, "obj", 16), (29, "xref", 33), (84, "trailer", 91), (110, "xref", 114),
      (145, "trailer", 152)]
    words := [(9, ("1", true), 10), (10, ("0", true), 12), (33, ("1048575", true), 41),
      (84, ("trailer", false), 91), (114, ("1048576", true), 122),
      (145, ("trailer", false), 152)]
    nums := [(41, 2, 43), (122, 1, 124)]
    skips := [(43, 44), (124, 125)]
    objects :=
      [(16, { obj := .null, m_ObjNum := 1, m_GenNum := 0 }, 21),
       (91, { obj := .dictionary [("Size", .number 1048577)], m_ObjNum := 0, m_GenNum := 0 },
         109),
       (152, { obj := .dictionary [("Size", .number 1048577)], m_ObjNum := 0, m_GenNum := 0 },
         170)] }

/-- A file whose xref section, at offset 29, lists object 1 with the
generation field `70000`. -/
def fileU : SampleFile :=
  { text := "%PDF-1.4\n1 0 obj null endobj\nxref\n0 2\n0000000000 65535 f\r\n0000000009 70000 n\r\ntrailer <</Size 2>>\n"
    keywords := [(12, "obj", 16), (29, "xref", 33), (78, "trailer", 85)]
    words := [(9, ("1", true), 10), (10, ("0", true), 12), (33, ("0", true), 35),
      (78, ("trailer", false), 85)]
    nums := [(35, 2, 37)]
    skips := [(37, 38)]
    objects :=
      [(16, { obj := .null, m_ObjNum := 1, m_GenNum := 0 }, 21),
       (85, { obj := .dictionary [("Size", .number 2)], m_ObjNum := 0, m_GenNum := 0 }, 97)] }

/-- A file with two xref sections.  The section at offset 29 lists three
records that are not free, for the objects 0, 1 and 2: one whose offset field
is ten digits `0`, one whose offset field is `12abcdefgh`, and one with the
offset 9.  The section at offset 118 lists one record, whose offset field is
`000000000x`. -/
def fileV : SampleFile :=
  { text := "%PDF-1.4\n1 0 obj null endobj\nxref\n0 3\n0000000000 00000 n\r\n12abcdefgh 00000 n\r\n0000000009 00000 n\r\ntrailer <</Size 3>>\nxref\n0 1\n000000000x 00000 n\r\ntrailer <</Size 3>>\n"
    keywords := [(12, "obj", 16), (29, "xref", 33), (98, "trailer", 105), (118, "xref", 122),
      (147, "trailer", 154)]
    words := [(9, ("1", true), 10), (10, ("0", true), 12), (33, ("0", true), 35),
      (98, ("trailer", false), 105), (122, ("0", true), 124), (147, ("trailer", false), 154)]
    nums := [(35, 3, 37), (124, 1, 126)]
    skips := [(37, 38), (126, 127)]
    objects :=
      [(16, { obj := .null, m_ObjNum := 1, m_GenNum := 0 }, 21),
       (105, { obj := .dictionary [("Size", .number 3)], m_ObjNum := 0, m_GenNum := 0 }, 117),
       (154, { obj := .dictionary [("Size", .number 3)], m_ObjNum := 0, m_GenNum := 0 }, 166)] }

/-- The list `l` repeated `n` times. -/
def repeatList {α : Type} (l : List α) : Nat → List α
  | 0 => []
  | n + 1 => l ++ repeatList l n

/-- The 1024 records that the sample file `fileT` holds: object 1 in use at
offset 9, then 1023 free records. -/
def recordsT : List Char :=
  "0000000009 00000 n\r\n".data ++ repeatList "0000000000 00001 f\r\n".data 1023

/-- A truncated file: object 1 at offset 9, at offset 29 an xref section whose
subsection header `1 1025` announces 1025 records, and after it, from offset
41 on, 1024 records, with which the file ends. -/
def fileT : SampleFile :=
  { text := String.mk ("%PDF-1.4\n1 0 obj null endobj\nxref\n1 1025\n".data ++ recordsT)
    keywords := [(12, "obj", 16), (29, "xref", 33)]
    words := [(9, ("1", true), 10), (10, ("0", true), 12), (33, ("1", true), 35)]
    nums := [(35, 1025, 40)]
    skips := [(40, 41)]
    objects := [(16, { obj := .null, m_ObjNum := 1, m_GenNum := 0 }, 21)] }

/-- The result of a loader with the object index it leaves. -/
def indexOf (r : Option (Bool × Parser)) : Option (Bool × ObjectMap) :=
  r.map (fun x => (x.1, x.2.m_ObjectInfo))

/-- A file without an xref section in which object 1 occurs twice: with
generation 0 at offset 9 and with generation 1 at offset 29; at offset 49 a
trailer whose `/Root` is object 1. -/
def fileW : SampleFile :=
  { text := "%PDF-1.4\n1 0 obj null endobj\n1 1 obj null endobj\ntrailer <</Root 1 0 R>>\n"
    keywords := [(12, "obj", 16), (32, "obj", 36)]
    words := [(9, ("1", true), 10), (10, ("0", true), 12), (29, ("1", true), 30),
      (30, ("1", true), 32)]
    nums := []
    skips := []
    objects :=
      [(16, { obj := .null, m_ObjNum := 1, m_GenNum := 0 }, 21),
       (36, { obj := .null, m_ObjNum := 1, m_GenNum := 1 }, 41),
       (56, { obj := .dictionary [("Root", .reference 1)], m_ObjNum := 0, m_GenNum := 0 }, 72)]
    tags := [(9, 4, 16), (29, 4, 36)] }

/-- A file in which the keyword `xref`, at offset 37, directly follows the line
ending of a comment: object 1 at offset 9, the comment `% table` at offset 29,
the xref section at offset 37 and its trailer at offset 86. -/
def fileX : SampleFile :=
  { text := "%PDF-1.4\n1 0 obj null endobj\n% table\nxref\n0 2\n0000000000 65535 f\r\n0000000009 00000 n\r\ntrailer <</Size 2/Root 1 0 R>>\n"
    keywords := [(12, "obj", 16), (37, "xref", 41), (86, "trailer", 93)]
    words := [(9, ("1", true), 10), (10, ("0", true), 12), (41, ("0", true), 43),
      (86, ("trailer", false), 93)]
    nums := [(43, 2, 45)]
    skips := [(45, 46)]
    objects :=
      [(16, { obj := .null, m_ObjNum := 1, m_GenNum := 0 }, 21),
       (93, { obj := .dictionary [("Size", .number 2), ("Root", .reference 1)],
              m_ObjNum := 0, m_GenNum := 0 }, 116)]
    tags := [(9, 4, 16)] }

/-- The same file with an empty line in the place of the comment: the keyword
`xref` is at offset 30. -/
def fileY : SampleFile :=
  { text := "%PDF-1.4\n1 0 obj null endobj\n\nxref\n0 2\n0000000000 65535 f\r\n0000000009 00000 n\r\ntrailer <</Size 2/Root 1 0 R>>\n"
    keywords := [(12, "obj", 16), (30, "xref", 34), (79, "trailer", 86)]
    words := [(9, ("1", true), 10), (10, ("0", true), 12), (34, ("0", true), 36),
      (79, ("trailer", false), 86)]
    nums := [(36, 2, 38)]
    skips := [(38, 39)]
    objects :=
      [(16, { obj := .null, m_ObjNum := 1, m_GenNum := 0 }, 21),
       (86, { obj := .dictionary [("Size", .number 2), ("Root", .reference 1)],
              m_ObjNum := 0, m_GenNum := 0 }, 109)]
    tags := [(9, 4, 16)] }

/-- A file with the text of an object header and of the keyword `xref` inside a
comment (offsets 9 to 35) and inside a string of the trailer dictionary
(offsets 82 to 107): object 1 is at offset 36, the trailer at offset 56. -/
def fileZ : SampleFile :=
  { text := "%PDF-1.4\n% 7 0 obj null endobj xref\n1 0 obj null endobj\ntrailer <</Root 1 0 R/Note(8 0 obj null endobj xref)>>\n"
    keywords := [(39, "obj", 43)]
    words := [(36, ("1", true), 37), (37, ("0", true), 39)]
    nums := []
    skips := []
    objects :=
      [(43, { obj := .null, m_ObjNum := 1, m_GenNum := 0 }, 48),
       (63, { obj := .dictionary [("Root", .reference 1),
                ("Note", .string "8 0 obj null endobj xref")],
              m_ObjNum := 0, m_GenNum := 0 }, 110)]
    tags := [(36, 4, 43)] }

/-- A parser whose index holds objects 0, 1 and 5. -/
def sampleParser : Parser :=
  { Parser.init with m_ObjectInfo :=
      [(0, { pos := 0, type := ObjectType.kFree, gennum := 65535 }),
       (1, { pos := 15, type := ObjectType.kNotCompressed, gennum := 0 }),
       (5, { pos := 90, type := ObjectType.kNotCompressed, gennum := 2 })] }

/-- A parser whose index lists object 0 as Direct at offset 9, where the sample
file `fileH` has the header `1 0 obj`. -/
def parserZero : Parser :=
  { Parser.init with
    m_ObjectInfo := [(0, { pos := 9, type := ObjectType.kNotCompressed, gennum := 0 })] }

/-- A parser whose index lists objects 1 and 2 as Direct at the offsets 9 and
29 of the sample file `fileH`. -/
def parserH : Parser :=
  { Parser.init with
    m_ObjectInfo :=
      [(1, { pos := 9, type := ObjectType.kNotCompressed, gennum := 0 }),
       (2, { pos := 29, type := ObjectType.kNotCompressed, gennum := 0 })],
    m_SortedOffset := [9, 29, 73] }

/-- The collaborators of the entry points for a sample file: the header is at
offset 0, the search for `startxref` finds it at the given position or not at
all, `LoadDoc` and `LoadLinearizedDoc` leave the given document, the security
handler is initialised to the given handler (or fails), the crypto handler is
initialised, and the first object of the file gives the given linearized
header, if any. -/
def SampleFile.host (f : SampleFile) (startxref : Option Int) (doc : Parser.Document)
    (handler : Option SecurityHandler) (linearized : Option LinearizedHeader) : Parser.Host :=
  { GetHeaderOffset := 0
    GetCharAt := fun pos => if 0 ≤ pos then (bytesOf f.text)[pos.toNat]? else none
    BackwardsSearchToWord := fun pos _ _ =>
      match startxref with
      | some x => (true, x)
      | none => (false, pos)
    LoadDoc := fun _ => doc
    LoadLinearizedDoc := fun _ => doc
    SecurityHandlerOnInit := fun _ _ => handler
    CryptoHandlerInit := fun _ _ => true
    CreateForObject := fun o =>
      match o with
      | some _ => linearized
      | none => none }

/-- A file of one revision without a page: the catalog is object 1 at offset
9, the page tree with `/Count 0` is object 2 at offset 54, the xref section
`0 3` is at offset 100, the trailer `/Size 3 /Root 1 0 R` at offset 169, and
`startxref 100` at offset 200. -/
def fileP : SampleFile :=
  { text := "%PDF-1.4\n1 0 obj <</Type/Catalog/Pages 2 0 R>> endobj\n2 0 obj <</Type/Pages/Count 0/Kids[]>> endobj\nxref\n0 3\n0000000000 65535 f\r\n0000000009 00000 n\r\n0000000054 00000 n\r\ntrailer <</Size 3/Root 1 0 R>>\nstartxref\n100\n%%EOF\n"
    keywords := [(12, "obj", 16), (57, "obj", 61), (100, "xref", 104), (169, "trailer", 176),
      (199, "startxref", 209), (200, "startxref", 209)]
    words := [(9, ("1", true), 10), (10, ("0", true), 12), (54, ("2", true), 55),
      (55, ("0", true), 57), (104, ("0", true), 106), (169, ("trailer", false), 176),
      (209, ("100", true), 213)]
    nums := [(106, 3, 108)]
    skips := [(108, 109)]
    objects :=
      [(16, { obj := .dictionary [("Type", .name "Catalog"), ("Pages", .reference 2)],
              m_ObjNum := 1, m_GenNum := 0 }, 46),
       (61, { obj := .dictionary [("Type", .name "Pages"), ("Count", .number 0),
                ("Kids", .array [])],
              m_ObjNum := 2, m_GenNum := 0 }, 92),
       (176, { obj := .dictionary [("Size", .number 3), ("Root", .reference 1)],
               m_ObjNum := 0, m_GenNum := 0 }, 199)]
    tags := [(9, 4, 16), (54, 4, 61)] }

/-- The document of `fileP` after `LoadDoc`: its root is the catalog, and it has
no page. -/
def docNoPages : Parser.Document :=
  { GetRoot := some [("Type", CPDF_Object.name "Catalog"), ("Pages", CPDF_Object.reference 2)],
    GetPageCount := 0 }

/-- A file in which the word after `startxref` (at offset 29) is `xyz`. -/
def fileQ : SampleFile :=
  { text := "%PDF-1.4\n1 0 obj null endobj\nstartxref\nxyz\n%%EOF\n"
    keywords := [(12, "obj", 16), (29, "startxref", 38)]
    words := [(9, ("1", true), 10), (10, ("0", true), 12), (38, ("xyz", false), 42)]
    nums := []
    skips := []
    objects := [(16, { obj := .null, m_ObjNum := 1, m_GenNum := 0 }, 21)]
    tags := [(9, 4, 16)] }

/-- A linearized file: the linearization dictionary is object 1 at offset 9,
the xref section `0 3` is at offset 67, the trailer at offset 136 has `/Size
3`, `/Root 2 0 R` and an encryption dictionary with `/Filter /Standard`, the
catalog with `/Metadata 5 0 R` is object 2 at offset 195, and `startxref 67` is
at offset 243. -/
def fileL : SampleFile :=
  { text := "%PDF-1.4\n1 0 obj <</Linearized 1/L 262/O 2/E 243/N 1/T 67>> endobj\nxref\n0 3\n0000000000 65535 f\r\n0000000009 00000 n\r\n0000000195 00000 n\r\ntrailer <</Size 3/Root 2 0 R/Encrypt<</Filter/Standard>>>>\n2 0 obj <</Type/Catalog/Metadata 5 0 R>> endobj\nstartxref\n67\n%%EOF\n"
    keywords := [(12, "obj", 16), (66, "xref", 71), (67, "xref", 71), (136, "trailer", 143),
      (243, "startxref", 252)]
    words := [(9, ("1", true), 10), (10, ("0", true), 12), (59, ("endobj", false), 66),
      (71, ("0", true), 73), (136, ("trailer", false), 143), (252, ("67", true), 255)]
    nums := [(73, 3, 75)]
    skips := [(75, 76)]
    objects :=
      [(16, { obj := .dictionary [("Linearized", .number 1), ("L", .number 262),
                ("O", .number 2), ("E", .number 243), ("N", .number 1), ("T", .number 67)],
              m_ObjNum := 1, m_GenNum := 0 }, 59),
       (143, { obj := .dictionary [("Size", .number 3), ("Root", .reference 2),
                 ("Encrypt", .dictionary [("Filter", .name "Standard")])],
               m_ObjNum := 0, m_GenNum := 0 }, 194)] }

/-- The linearized header of `fileL`: `/T 67`, first page 0. -/
def headerL : LinearizedHeader :=
  { GetLastXRefOffset := 67, GetFirstPageNo := 0 }

/-- The document of `fileL` after loading: one page, and a root with
`/Metadata 5 0 R`. -/
def docMetadata : Parser.Document :=
  { GetRoot := some [("Type", CPDF_Object.name "Catalog"), ("Metadata", CPDF_Object.reference 5)],
    GetPageCount := 1 }

/-- A security handler that reports that the metadata is not encrypted. -/
def handlerPlainMetadata : SecurityHandler :=
  { GetPermissions := 0xFFFFFFFC, IsMetadataEncrypted := false }

/-- A security handler that reports that the metadata is encrypted. -/
def handlerEncryptedMetadata : SecurityHandler :=
  { GetPermissions := 0xFFFFFFFC, IsMetadataEncrypted := true }

/-- The decoded data of an object stream with two objects: the header
`11 0 12 5 ` (10 bytes) lists object 11 at the relative offset 0 and object 12
at the relative offset 5; the payload is `helloworld`. -/
def dataS : List Nat := bytesOf "11 0 12 5 helloworld"

/-- The accessor of the object stream with the data `dataS`, `/N 2` and
`/First 10`. -/
def accS : StreamAcc :=
  { id := 0, dict := [("N", CPDF_Object.number 2), ("First", CPDF_Object.number 10)],
    data := dataS }

/-- A parser whose index holds the container 1 (kind Null) and the objects 11
and 12, Compressed in container 1, and whose `m_ObjectStreamMap` holds the
accessor `accS` for object 1. -/
def parserS : Parser :=
  { Parser.init with
    m_ObjectInfo :=
      [(1, { pos := 15, type := ObjectType.kNull, gennum := 0 }),
       (11, { pos := 1, type := ObjectType.kCompressed, gennum := 0 }),
       (12, { pos := 1, type := ObjectType.kCompressed, gennum := 1 })],
    m_ObjectStreamMap := [(1, accS)],
    m_StreamAccCount := 1 }

/-- A parser whose index holds a container (object 1, kind Null, at offset 15),
object 2 Compressed in container 1, object 3 Direct at offset 80, object 4
Direct at offset 40 and object 5 Direct at offset 0, and whose offset set is
`0, 15, 80, 120`: the offset 40 of object 4 is not a member. -/
def parserSized : Parser :=
  { Parser.init with
    m_ObjectInfo :=
      [(1, { pos := 15, type := ObjectType.kNull, gennum := 0 }),
       (2, { pos := 1, type := ObjectType.kCompressed, gennum := 0 }),
       (3, { pos := 80, type := ObjectType.kNotCompressed, gennum := 0 }),
       (4, { pos := 40, type := ObjectType.kNotCompressed, gennum := 0 }),
       (5, { pos := 0, type := ObjectType.kNotCompressed, gennum := 0 })],
    m_SortedOffset := [0, 15, 80, 120] }

/-- A parser with a security handler that reports the permission word `perm`
and an encryption dictionary with `/Filter /Standard`. -/
def parserStandard (perm : Nat) : Parser :=
  { Parser.init with
    m_pSecurityHandler := some { GetPermissions := perm, IsMetadataEncrypted := true },
    m_pEncryptDict := some [("Filter", CPDF_Object.name "Standard")] }

/-- The decoded data of an object stream with three objects and a header that
is out of order: `11 5 12 0 13 50 ` (16 bytes) lists object 11 at the relative
offset 5, object 12 at the relative offset 0 and object 13 at the relative
offset 50; the payload is `helloworld`, so that the data has 26 bytes. -/
def dataN : List Nat := bytesOf "11 5 12 0 13 50 helloworld"

/-- The accessor of the object stream with the data `dataN`, `/N 3` and
`/First 16`. -/
def accN : StreamAcc :=
  { id := 0, dict := [("N", CPDF_Object.number 3), ("First", CPDF_Object.number 16)],
    data := dataN }

/-- A sample file whose object stream has the numbers `11`, `5`, `12`, `0`,
`13` and `50` in its decoded data: `GetDirectNum` asked at the positions 0, 2,
4, 7, 9 and 12 stops at the positions 2, 4, 7, 9, 12 and 15. -/
def fileN : SampleFile :=
  { text := "%PDF-1.5\n"
    keywords := []
    words := []
    nums := []
    skips := []
    objects := []
    streamNums := fun _ => [(0, 11, 2), (2, 5, 4), (4, 12, 7), (7, 0, 9), (9, 13, 12),
      (12, 50, 15)] }

/-- A parser whose index holds the container 1 (kind Null) and the objects 11,
12 and 13, Compressed in container 1, and whose `m_ObjectStreamMap` holds the
accessor `accN` for object 1. -/
def parserN : Parser :=
  { Parser.init with
    m_ObjectInfo :=
      [(1, { pos := 15, type := ObjectType.kNull, gennum := 0 }),
       (11, { pos := 1, type := ObjectType.kCompressed, gennum := 0 }),
       (12, { pos := 1, type := ObjectType.kCompressed, gennum := 1 }),
       (13, { pos := 1, type := ObjectType.kCompressed, gennum := 2 })],
    m_ObjectStreamMap := [(1, accN)],
    m_StreamAccCount := 1 }

/-! # Properties -/

/-! ## The object index as a map -/

namespace ObjectMap

theorem find_set (m : ObjectMap) (k : Nat) (v : ObjectInfo) (k2 : Nat) :
    find (set m k v) k2 = if k = k2 then some v else find m k2 := by
  induction m with
  | nil => simp [set, find]
  | cons e rest ih =>
    obtain ⟨k1, v1⟩ := e
    by_cases h1 : k < k1
    · by_cases h3 : k = k2
      · subst h3; simp [set, find, h1]
      · simp [set, find, h1, h3]
    · by_cases h2 : k = k1
      · subst h2
        by_cases h3 : k = k2
        · subst h3; simp [set, find]
        · simp [set, find, h3]
      · by_cases h3 : k = k2
        · subst h3
          have h4 : ¬ k1 = k := fun h => h2 h.symm
          simp [set, find, h1, h2, h4, ih]
        · simp [set, find, h1, h2, h3, ih]

theorem find_eq_none_iff (m : ObjectMap) (k : Nat) :
    find m k = none ↔ ∀ e ∈ m, e.1 ≠ k := by
  induction m with
  | nil => simp [find]
  | cons e rest ih =>
    obtain ⟨k1, v1⟩ := e
    by_cases h : k1 = k
    · simp [find, h]
    · simp [find, h, ih]

theorem mem_set (m : ObjectMap) (k : Nat) (v : ObjectInfo) (e : Nat × ObjectInfo)
    (h : e ∈ set m k v) : e = (k, v) ∨ e ∈ m := by
  induction m with
  | nil => simp [set] at h; exact Or.inl h
  | cons e1 rest ih =>
    obtain ⟨k1, v1⟩ := e1
    by_cases h1 : k < k1
    · simp [set, h1] at h
      rcases h with h | h | h
      · exact Or.inl h
      · right; simp [h]
      · right; simp [h]
    · by_cases h2 : k = k1
      · simp [set, h2] at h
        rcases h with h | h
        · left; rw [h, h2]
        · right; simp [h]
      · simp [set, h1, h2] at h
        rcases h with h | h
        · right; simp [h]
        · rcases ih h with h | h
          · exact Or.inl h
          · right; simp [h]

theorem lastKey_cons_cons (a b : Nat × ObjectInfo) (l : ObjectMap) :
    lastKey (a :: b :: l) = lastKey (b :: l) := by
  simp [lastKey, List.getLast?_cons_cons]

theorem lastKey_cons_ne_none (a : Nat × ObjectInfo) (l : ObjectMap) :
    lastKey (a :: l) ≠ none := by
  simp [lastKey]

theorem lastKey_eq_none_iff (m : ObjectMap) : lastKey m = none ↔ m = [] := by
  cases m with
  | nil => simp [lastKey]
  | cons a l => simp [lastKey]

theorem lastKey_mem (m : ObjectMap) (j : Nat) (h : lastKey m = some j) :
    ∃ e ∈ m, e.1 = j := by
  unfold lastKey at h
  cases hl : m.getLast? with
  | none => simp [hl] at h
  | some e =>
    simp [hl] at h
    exact ⟨e, List.mem_of_getLast?_eq_some hl, h⟩

theorem WF_tail (a : Nat × ObjectInfo) (l : ObjectMap) (h : WF (a :: l)) : WF l := by
  unfold WF at h ⊢
  simp only [List.map_cons, List.pairwise_cons] at h
  exact h.2

theorem WF_head_lt (a : Nat × ObjectInfo) (l : ObjectMap) (h : WF (a :: l))
    (e : Nat × ObjectInfo) (he : e ∈ l) : a.1 < e.1 := by
  unfold WF at h
  simp only [List.map_cons, List.pairwise_cons] at h
  exact h.1 e.1 (List.mem_map_of_mem _ he)

/-- In a map with increasing keys the last key is the largest. -/
theorem le_lastKey_of_WF (m : ObjectMap) (hwf : WF m) (e : Nat × ObjectInfo) (he : e ∈ m) :
    ∃ j, lastKey m = some j ∧ e.1 ≤ j := by
  induction m generalizing e with
  | nil => simp at he
  | cons a l ih =>
    cases l with
    | nil =>
      simp at he
      exact ⟨a.1, by simp [lastKey], by simp [he]⟩
    | cons b l2 =>
      have hwf2 : WF (b :: l2) := WF_tail a _ hwf
      rw [lastKey_cons_cons]
      rcases List.mem_cons.mp he with h | h
      · obtain ⟨j, hj, hbj⟩ := ih hwf2 b (List.mem_cons_self _ _)
        refine ⟨j, hj, ?_⟩
        have hab : a.1 < b.1 := WF_head_lt a _ hwf b (List.mem_cons_self _ _)
        rw [h]; omega
      · exact ih hwf2 e h

theorem mem_set_self (m : ObjectMap) (k : Nat) (v : ObjectInfo) : (k, v) ∈ set m k v := by
  induction m with
  | nil => simp [set]
  | cons e rest ih =>
    obtain ⟨k1, v1⟩ := e
    by_cases h1 : k < k1
    · simp [set, h1]
    · by_cases h2 : k = k1
      · simp [set, h2]
      · simp [set, h1, h2, ih]

theorem WF_set (m : ObjectMap) (k : Nat) (v : ObjectInfo) (h : WF m) : WF (set m k v) := by
  induction m with
  | nil => simp [set, WF]
  | cons e rest ih =>
    obtain ⟨k1, v1⟩ := e
    have hrest : WF rest := WF_tail _ _ h
    have hlt : ∀ e ∈ rest, k1 < e.1 := fun e he => WF_head_lt _ _ h e he
    by_cases h1 : k < k1
    · simp only [set, h1, if_true]
      unfold WF at h ⊢
      simp only [List.map_cons, List.pairwise_cons] at h ⊢
      refine ⟨?_, h⟩
      intro a ha
      rcases List.mem_cons.mp ha with ha | ha
      · rw [ha]; exact h1
      · have := h.1 a ha
        omega
    · by_cases h2 : k = k1
      · subst h2
        simp only [set, lt_irrefl, if_false, if_true]
        exact h
      · simp only [set, h1, h2, if_false]
        have ih2 := ih hrest
        unfold WF at ih2 ⊢
        simp only [List.map_cons, List.pairwise_cons]
        refine ⟨?_, ih2⟩
        intro a ha
        obtain ⟨e, he, hea⟩ := List.mem_map.mp ha
        rcases mem_set _ _ _ _ he with he | he
        · rw [← hea, he]; simp; omega
        · rw [← hea]; exact hlt e he

theorem mem_set_of_ne (m : ObjectMap) (k : Nat) (v : ObjectInfo) (e : Nat × ObjectInfo)
    (he : e ∈ m) (hne : e.1 ≠ k) : e ∈ set m k v := by
  induction m with
  | nil => simp at he
  | cons e1 rest ih =>
    obtain ⟨k1, v1⟩ := e1
    by_cases h1 : k < k1
    · simp only [set, h1, if_true]
      exact List.mem_cons_of_mem _ he
    · by_cases h2 : k = k1
      · subst h2
        simp only [set, lt_irrefl, if_false, if_true]
        rcases List.mem_cons.mp he with h | h
        · rw [h] at hne; exact absurd rfl hne
        · exact List.mem_cons_of_mem _ h
      · simp only [set, h1, h2, if_false]
        rcases List.mem_cons.mp he with h | h
        · rw [h]; exact List.mem_cons_self _ _
        · exact List.mem_cons_of_mem _ (ih h)

/-- Writing a record never lowers the last key, and the key written is at most
the last key afterwards. -/
theorem lastKey_set (m : ObjectMap) (k : Nat) (v : ObjectInfo) (h : WF m) :
    ∃ j, lastKey (set m k v) = some j ∧ k ≤ j ∧ ∀ i, lastKey m = some i → i ≤ j := by
  have hwf := WF_set m k v h
  obtain ⟨j, hj, hkj⟩ := le_lastKey_of_WF _ hwf (k, v) (mem_set_self m k v)
  refine ⟨j, hj, hkj, ?_⟩
  intro i hi
  obtain ⟨e, he, hei⟩ := lastKey_mem m i hi
  by_cases hne : e.1 = k
  · rw [← hei, hne]; exact hkj
  · obtain ⟨j2, hj2, hle⟩ := le_lastKey_of_WF _ hwf e (mem_set_of_ne m k v e he hne)
    rw [hj] at hj2
    cases hj2
    rw [← hei]; exact hle

theorem mem_eraseFrom (m : ObjectMap) (k : Nat) (e : Nat × ObjectInfo)
    (he : e ∈ eraseFrom m k) : e ∈ m ∧ e.1 < k := by
  unfold eraseFrom at he
  refine ⟨(List.takeWhile_sublist _).subset he, ?_⟩
  have := List.mem_takeWhile_imp he
  simpa using this

theorem WF_eraseFrom (m : ObjectMap) (k : Nat) (h : WF m) : WF (eraseFrom m k) := by
  unfold WF eraseFrom at *
  exact List.Pairwise.sublist ((List.takeWhile_sublist _).map _) h

theorem mem_eraseFrom_of_lt (m : ObjectMap) (k : Nat) (h : WF m) (e : Nat × ObjectInfo)
    (he : e ∈ m) (hlt : e.1 < k) : e ∈ eraseFrom m k := by
  induction m with
  | nil => simp at he
  | cons a l ih =>
    have ha : a.1 < k := by
      rcases List.mem_cons.mp he with h1 | h1
      · rw [← h1]; exact hlt
      · have := WF_head_lt a l h e h1
        omega
    unfold eraseFrom
    rw [List.takeWhile_cons_of_pos (by simpa using ha)]
    rcases List.mem_cons.mp he with h1 | h1
    · rw [h1]; exact List.mem_cons_self _ _
    · exact List.mem_cons_of_mem _ (ih (WF_tail _ _ h) h1)

theorem find_eq_some_of_mem (m : ObjectMap) (h : WF m) (e : Nat × ObjectInfo) (he : e ∈ m) :
    find m e.1 = some e.2 := by
  induction m with
  | nil => simp at he
  | cons a l ih =>
    obtain ⟨k1, v1⟩ := a
    rcases List.mem_cons.mp he with h1 | h1
    · rw [h1]; simp [find]
    · have hlt := WF_head_lt _ _ h e h1
      have hne : ¬ k1 = e.1 := by simp at hlt; omega
      simp only [find, hne, if_false]
      exact ih (WF_tail _ _ h) h1

theorem mem_of_find_eq_some (m : ObjectMap) (k : Nat) (v : ObjectInfo)
    (h : find m k = some v) : (k, v) ∈ m := by
  induction m with
  | nil => simp [find] at h
  | cons a l ih =>
    obtain ⟨k1, v1⟩ := a
    by_cases h1 : k1 = k
    · simp [find, h1] at h
      simp [h1, h]
    · simp only [find, h1, if_false] at h
      exact List.mem_cons_of_mem _ (ih h)

/-- Below the bound, erasure from `lower_bound` on leaves every record as it
was; from the bound on, no record is left. -/
theorem find_eraseFrom (m : ObjectMap) (k : Nat) (h : WF m) (k2 : Nat) :
    find (eraseFrom m k) k2 = if k2 < k then find m k2 else none := by
  by_cases hlt : k2 < k
  · simp only [hlt, if_true]
    cases hf : find m k2 with
    | none =>
      rw [find_eq_none_iff] at hf ⊢
      intro e he
      exact hf e (mem_eraseFrom m k e he).1
    | some v =>
      have hmem := mem_of_find_eq_some m k2 v hf
      have := mem_eraseFrom_of_lt m k h (k2, v) hmem hlt
      exact find_eq_some_of_mem _ (WF_eraseFrom m k h) (k2, v) this
  · simp only [hlt, if_false]
    rw [find_eq_none_iff]
    intro e he heq
    have := (mem_eraseFrom m k e he).2
    omega

theorem mem_shrink_lt (m : ObjectMap) (S : Nat) (e : Nat × ObjectInfo)
    (he : e ∈ shrink m S) : e.1 < S := by
  unfold shrink at he
  by_cases h0 : S = 0
  · simp [h0] at he
  · simp only [h0, if_false] at he
    split_ifs at he with hc
    · exact (mem_eraseFrom m S e he).2
    · rcases mem_set _ _ _ _ he with h | h
      · rw [h]; simp; omega
      · exact (mem_eraseFrom m S e h).2

theorem WF_shrink (m : ObjectMap) (S : Nat) (h : WF m) : WF (shrink m S) := by
  unfold shrink
  by_cases h0 : S = 0
  · simp [h0, WF]
  · simp only [h0, if_false]
    split_ifs with hc
    · exact WF_eraseFrom m S h
    · exact WF_set _ _ _ (WF_eraseFrom m S h)

theorem ContainsKey_iff (m : ObjectMap) (k : Nat) :
    ContainsKey m k = true ↔ ∃ v, find m k = some v := by
  unfold ContainsKey
  cases find m k <;> simp

theorem lastKey_shrink (m : ObjectMap) (S : Nat) (h : WF m) (hS : 0 < S) :
    lastKey (shrink m S) = some (S - 1) := by
  have hwf := WF_shrink m S h
  have hmem : ∃ v, (S - 1, v) ∈ shrink m S := by
    unfold shrink
    have h0 : ¬ S = 0 := by omega
    simp only [h0, if_false]
    split_ifs with hc
    · obtain ⟨v, hv⟩ := (ContainsKey_iff _ _).mp hc
      exact ⟨v, mem_of_find_eq_some _ _ _ hv⟩
    · exact ⟨_, mem_set_self _ _ _⟩
  obtain ⟨v, hv⟩ := hmem
  obtain ⟨j, hj, hle⟩ := le_lastKey_of_WF _ hwf _ hv
  obtain ⟨e, he, hej⟩ := lastKey_mem _ j hj
  have := mem_shrink_lt m S e he
  have hjS : j = S - 1 := by simp at hle; omega
  rw [hj, hjS]

end ObjectMap

/-! ## `ShrinkObjectMap` -/

/-- C3: for every state of the object index and every `S`, after
`ShrinkObjectMap(S)` the index has no key `>= S` (no lookup of such a key
succeeds and every entry has a key below `S`), and for `S = 0` the index is
empty. -/
theorem ShrinkObjectMap_no_key_ge (p : Parser) (S : Nat) :
    (∀ k, S ≤ k → ObjectMap.find (p.ShrinkObjectMap S).m_ObjectInfo k = none) ∧
    (∀ e ∈ (p.ShrinkObjectMap S).m_ObjectInfo, e.1 < S) ∧
    (S = 0 → (p.ShrinkObjectMap S).m_ObjectInfo = []) := by
  refine ⟨?_, ?_, ?_⟩
  · intro k hk
    rw [ObjectMap.find_eq_none_iff]
    intro e he heq
    have := ObjectMap.mem_shrink_lt _ _ e he
    omega
  · intro e he
    exact ObjectMap.mem_shrink_lt _ _ e he
  · intro h0
    simp [Parser.ShrinkObjectMap, ObjectMap.shrink, h0]

/-- C4: for every state of the object index (a map, keys increasing) and every
`S > 0`, after `ShrinkObjectMap(S)` the last object number is `S - 1`,
`IsValidObjectNumber(n)` holds exactly for `n <= S - 1`, and when key `S - 1`
was absent before the call its record is the placeholder of kind Free with
offset 0. -/
theorem ShrinkObjectMap_last_objnum (p : Parser) (S : Nat)
    (hwf : ObjectMap.WF p.m_ObjectInfo) (hS : 0 < S) :
    (p.ShrinkObjectMap S).GetLastObjNum = S - 1 ∧
    (∀ n, (p.ShrinkObjectMap S).IsValidObjectNumber n = true ↔ n ≤ S - 1) ∧
    (ObjectMap.find p.m_ObjectInfo (S - 1) = none →
      ObjectMap.find (p.ShrinkObjectMap S).m_ObjectInfo (S - 1) =
        some { pos := 0, type := ObjectType.kFree, gennum := 0 }) := by
  have hlast := ObjectMap.lastKey_shrink p.m_ObjectInfo S hwf hS
  refine ⟨?_, ?_, ?_⟩
  · simp [Parser.GetLastObjNum, Parser.ShrinkObjectMap, hlast]
  · intro n
    simp [Parser.IsValidObjectNumber, Parser.ShrinkObjectMap, hlast]
  · intro habs
    have h0 : ¬ S = 0 := by omega
    have hlt : S - 1 < S := by omega
    have he : ObjectMap.find (ObjectMap.eraseFrom p.m_ObjectInfo S) (S - 1) = none := by
      rw [ObjectMap.find_eraseFrom _ _ hwf, habs]; simp
    have hc : ObjectMap.ContainsKey (ObjectMap.eraseFrom p.m_ObjectInfo S) (S - 1) = false := by
      simp [ObjectMap.ContainsKey, he]
    simp only [Parser.ShrinkObjectMap, ObjectMap.shrink, h0, if_false, hc]
    simp [ObjectMap.setPos, ObjectMap.find_set, ObjectMap.ref, he, ObjectInfo.default]

/-- Witness of C4: the sample index (objects 0, 1, 5) shrunk to size 3. -/
theorem ShrinkObjectMap_last_objnum_witness :
    ObjectMap.WF sampleParser.m_ObjectInfo ∧ 0 < 3 ∧
    ((sampleParser.ShrinkObjectMap 3).GetLastObjNum = 3 - 1 ∧
    (∀ n, (sampleParser.ShrinkObjectMap 3).IsValidObjectNumber n = true ↔ n ≤ 3 - 1) ∧
    (ObjectMap.find sampleParser.m_ObjectInfo (3 - 1) = none →
      ObjectMap.find (sampleParser.ShrinkObjectMap 3).m_ObjectInfo (3 - 1) =
        some { pos := 0, type := ObjectType.kFree, gennum := 0 })) :=
  ⟨by decide, by decide, ShrinkObjectMap_last_objnum sampleParser 3 (by decide) (by decide)⟩

/-! ## Relations that every step of a loader respects -/

namespace Parser

theorem xrefStreamEntries_rel {R : Parser → Parser → Prop} (hR : EntryRel R)
    (W0 W1 totalWidth startnum : Nat) (segstart : List Nat) (l : List Nat) (p q : Parser)
    (h : xrefStreamEntries W0 W1 totalWidth startnum segstart l p = (true, q)) : R p q := by
  induction l generalizing p with
  | nil =>
    simp only [xrefStreamEntries, Prod.mk.injEq, true_and] at h
    rw [← h]; exact hR.refl p
  | cons j rest ih =>
    simp only [xrefStreamEntries] at h
    split at h
    · simp at h
    · rename_i p1 heq
      exact hR.trans _ _ _ (hR.entry _ _ _ _ _ _ heq) (ih p1 h)

theorem xrefStreamSegments_rel {R : Parser → Parser → Prop} (hR : EntryRel R)
    (W0 W1 totalWidth : Nat) (pData : List Nat) (dwTotalSize : Nat)
    (l : List (Int × Int)) (segindex : Nat) (p q : Parser)
    (h : xrefStreamSegments W0 W1 totalWidth pData dwTotalSize l segindex p = (true, q)) :
    R p q := by
  induction l generalizing p segindex with
  | nil =>
    simp only [xrefStreamSegments, Prod.mk.injEq, true_and] at h
    rw [← h]; exact hR.refl p
  | cons a rest ih =>
    obtain ⟨startnum, cnt⟩ := a
    simp only [xrefStreamSegments] at h
    split_ifs at h with h1 h2 h3
    · exact ih _ _ h
    · exact hR.trans _ _ _ (hR.start p _) (ih _ _ h)
    · exact hR.trans _ _ _ (hR.start p _) (ih _ _ h)
    · split at h
      · simp at h
      · rename_i p1 heq
        exact hR.trans _ _ _ (hR.start p _)
          (hR.trans _ _ _ (xrefStreamEntries_rel hR _ _ _ _ _ _ _ _ heq) (ih _ _ h))

theorem ParseIndirectObjectAt_state (env : Env) (p : Parser) (pos : Int) (objnum : Nat) :
    (ParseIndirectObjectAt env p pos objnum).2 = { p with m_Pos := env.SetPos p.m_Pos } := by
  unfold ParseIndirectObjectAt
  simp only
  repeat' split
  all_goals rfl

/-- A successful load of a cross-reference stream reached the stream part of
`LoadCrossRefV5`, with the parser as `ParseIndirectObjectAt` left it. -/
theorem LoadCrossRefV5_true {env : Env} {p : Parser} {pos : Int} {b : Bool} {pos1 : Int}
    {q : Parser} (h : LoadCrossRefV5 env p pos b = (true, pos1, q)) :
    ∃ pDict pData, loadXRefStream env { p with m_Pos := env.SetPos p.m_Pos } pDict pData b
      = (true, pos1, q) := by
  unfold LoadCrossRefV5 at h
  have hst := ParseIndirectObjectAt_state env p pos 0
  cases hp : ParseIndirectObjectAt env p pos 0 with
  | mk o p1 =>
    rw [hp] at h hst
    simp only at hst
    cases o with
    | none => simp at h
    | some pObject =>
      simp only at h
      by_cases h1 : pObject.m_ObjNum = 0
      · rw [if_pos h1] at h; simp at h
      · rw [if_neg h1] at h
        split_ifs at h with h2
        · simp at h
        · cases hobj : pObject.obj with
          | stream pDict pData =>
            rw [hobj] at h
            simp only at h
            rw [hst] at h
            exact ⟨pDict, pData, h⟩
          | _ => rw [hobj] at h; simp at h

/-- A successful load of a stream, main or not, respects every entry relation
from the state in which its trailer has been pushed. -/
theorem loadXRefStream_rel_from {env : Env} {R : Parser → Parser → Prop} (hR : EntryRel R)
    (p : Parser) (pDict : CPDF_Dictionary) (pData : List Nat) (b : Bool) (pos1 : Int)
    (q : Parser) (h : loadXRefStream env p pDict pData b = (true, pos1, q)) :
    0 ≤ GetIntegerFor env pDict "Size" ∧
      R (pushXRefTrailer p pDict (GetIntegerFor env pDict "Size") b) q := by
  unfold loadXRefStream at h
  simp only at h
  by_cases h3 : GetIntegerFor env pDict "Size" < 0
  · rw [if_pos h3] at h; simp at h
  · rw [if_neg h3] at h
    refine ⟨by omega, ?_⟩
    cases harr : GetArrayFor env pDict "W" with
    | none => rw [harr] at h; simp at h
    | some pArray =>
      rw [harr] at h
      simp only at h
      split_ifs at h with h4
      · simp at h
      · simp only [Prod.mk.injEq] at h
        obtain ⟨hb, -, hq⟩ := h
        exact xrefStreamSegments_rel hR _ _ _ _ _ _ _ _ _ (Prod.ext hb hq)

theorem loadXRefStream_rel {env : Env} {R : Parser → Parser → Prop} (hR : EntryRel R)
    (p : Parser) (pDict : CPDF_Dictionary) (pData : List Nat) (pos1 : Int) (q : Parser)
    (h : loadXRefStream env p pDict pData false = (true, pos1, q)) : R p q :=
  hR.trans _ _ _ (hR.trailer p pDict) (loadXRefStream_rel_from hR p pDict pData false pos1 q h).2

/-- A load of a cross-reference stream that is not the main one and succeeds
respects every step relation. -/
theorem LoadCrossRefV5_rel {env : Env} {R : Parser → Parser → Prop} (hR : EntryRel R)
    (p : Parser) (pos : Int) (pos1 : Int) (q : Parser)
    (h : LoadCrossRefV5 env p pos false = (true, pos1, q)) : R p q := by
  obtain ⟨pDict, pData, h2⟩ := LoadCrossRefV5_true h
  exact hR.trans _ _ _ (hR.pos p _) (loadXRefStream_rel hR _ _ _ _ _ h2)

theorem xrefRecords_rel {env : Env} {R : Parser → Parser → Prop} (hR : StepRel env R)
    (start_objnum block : Nat) (buf : List Nat) (l : List Nat) (p q : Parser)
    (h : xrefRecords env start_objnum block buf l p = (true, q)) : R p q := by
  induction l generalizing p with
  | nil =>
    simp only [xrefRecords, Prod.mk.injEq, true_and] at h
    rw [← h]; exact hR.refl p
  | cons i rest ih =>
    simp only [xrefRecords] at h
    split at h
    · simp at h
    · rename_i p1 heq
      exact hR.trans _ _ _ (hR.record _ _ _ _ heq) (ih p1 h)

theorem SyntaxReadBlock_state (env : Env) (p : Parser) (buf : List Nat) (size : Nat) :
    ∃ v, (SyntaxReadBlock env p buf size).2.2 = { p with m_Pos := v } := by
  unfold SyntaxReadBlock
  split
  · exact ⟨_, rfl⟩
  · exact ⟨p.m_Pos, rfl⟩

theorem xrefBlocks_rel {env : Env} {R : Parser → Parser → Prop} (hR : StepRel env R)
    (start_objnum count nBlocks : Nat) (l : List Nat) (buf : List Nat) (p q : Parser)
    (h : xrefBlocks env start_objnum count nBlocks l buf p = (true, q)) : R p q := by
  induction l generalizing p buf with
  | nil =>
    simp only [xrefBlocks, Prod.mk.injEq, true_and] at h
    rw [← h]; exact hR.refl p
  | cons block rest ih =>
    simp only [xrefBlocks] at h
    split at h
    · simp at h
    · rename_i p1 heq
      obtain ⟨v, hv⟩ := SyntaxReadBlock_state env p buf
        ((if block = nBlocks - 1 then count % 1024 else 1024) * 20)
      have h1 := xrefRecords_rel hR _ _ _ _ _ _ heq
      rw [hv] at h1
      exact hR.trans _ _ _ (hR.pos p v) (hR.trans _ _ _ h1 (ih _ _ h))

/-- The subsection loop in skip mode respects every glue relation, whatever
its result. -/
theorem xrefSubsections_skip_rel {env : Env} {R : Parser → Parser → Prop} (hR : GlueRel R)
    (fuel : Nat) (p : Parser) (b : Bool) (q : Parser)
    (h : xrefSubsections env true fuel p = some (b, q)) : R p q := by
  induction fuel generalizing p with
  | zero => simp [xrefSubsections] at h
  | succ n ih =>
    simp only [xrefSubsections] at h
    split_ifs at h with h1 h2 h3
    · simp only [Option.some.injEq, Prod.mk.injEq] at h
      rw [← h.2]; exact hR.pos p _
    · simp only [Option.some.injEq, Prod.mk.injEq] at h
      rw [← h.2]; exact hR.pos p _
    · simp only [Option.some.injEq, Prod.mk.injEq] at h
      rw [← h.2]; exact hR.pos p _
    · simp only at h
      have := ih _ h
      refine hR.trans _ _ _ ?_ this
      exact hR.trans _ _ _ (hR.pos p (env.SetPos
        (env.ToNextWord (env.GetDirectNum (env.GetNextWord p.m_Pos).2).2 +
          (((env.GetDirectNum (env.GetNextWord p.m_Pos).2).1 % 4294967296 * 20 % 4294967296 : Nat)
            : Int)))) (hR.start _ _)

theorem xrefSubsections_rel {env : Env} {R : Parser → Parser → Prop} (hR : StepRel env R)
    (bSkip : Bool) (fuel : Nat) (p : Parser) (q : Parser)
    (h : xrefSubsections env bSkip fuel p = some (true, q)) : R p q := by
  induction fuel generalizing p with
  | zero => simp [xrefSubsections] at h
  | succ n ih =>
    simp only [xrefSubsections] at h
    split_ifs at h with h1 h2 h3 h4
    · simp at h
    · simp only [Option.some.injEq, Prod.mk.injEq, true_and] at h
      rw [← h]; exact hR.pos p _
    · simp at h
    · simp only at h
      have := ih _ h
      refine hR.trans _ _ _ ?_ this
      exact hR.trans _ _ _ (hR.pos p (env.SetPos
        (env.ToNextWord (env.GetDirectNum (env.GetNextWord p.m_Pos).2).2 +
          (((env.GetDirectNum (env.GetNextWord p.m_Pos).2).1 % 4294967296 * 20 % 4294967296 : Nat)
            : Int)))) (hR.start _ _)
    · split at h
      · simp at h
      · rename_i p3 heq
        have hb := xrefBlocks_rel hR _ _ _ _ _ _ _ heq
        have := ih _ h
        refine hR.trans _ _ _ ?_ (hR.trans _ _ _ (hR.pos p3 _) this)
        refine hR.trans _ _ _ ?_ hb
        exact hR.trans _ _ _ (hR.pos p (env.ToNextWord
          (env.GetDirectNum (env.GetNextWord p.m_Pos).2).2)) (hR.start _ _)

/-- A successful `LoadCrossRefV4` respects every step relation. -/
theorem LoadCrossRefV4_rel {env : Env} {R : Parser → Parser → Prop} (hR : StepRel env R)
    (p : Parser) (pos streampos : Int) (bSkip : Bool) (q : Parser)
    (h : LoadCrossRefV4 env p pos streampos bSkip = some (true, q)) : R p q := by
  unfold LoadCrossRefV4 at h
  simp only at h
  by_cases h1 : (env.GetKeyword (env.SetPos pos)).1 ≠ "xref"
  · rw [if_pos h1] at h; simp at h
  · rw [if_neg h1] at h
    have hpre : R p ({ ({ p with m_Pos := (env.GetKeyword (env.SetPos pos)).2 } : Parser) with
        m_SortedOffset := if streampos ≠ 0 then
          insertOffset (insertOffset p.m_SortedOffset pos) streampos
          else insertOffset p.m_SortedOffset pos } : Parser) := by
      refine hR.trans _ _ _ (hR.pos p (env.GetKeyword (env.SetPos pos)).2) ?_
      refine hR.trans _ _ _ (hR.offset _ pos) ?_
      by_cases hs : streampos ≠ 0
      · rw [if_pos hs]
        exact hR.offset _ streampos
      · rw [if_neg hs]
        exact hR.refl _
    split at h
    · simp at h
    · simp at h
    · rename_i p3 heq
      have hsub := xrefSubsections_rel hR _ _ _ _ heq
      by_cases hs : streampos = 0
      · rw [if_pos hs] at h
        simp only [Option.some.injEq, Prod.mk.injEq, true_and] at h
        rw [← h]
        exact hR.trans _ _ _ hpre hsub
      · rw [if_neg hs] at h
        simp only [Option.some.injEq, Prod.mk.injEq] at h
        have h5 : LoadCrossRefV5 env p3 streampos false
            = (true, (LoadCrossRefV5 env p3 streampos false).2.1, q) := by
          rw [← h.1, ← h.2]
        exact hR.trans _ _ _ hpre (hR.trans _ _ _ hsub
          (LoadCrossRefV5_rel hR.toEntryRel _ _ _ _ h5))

/-- In skip mode and without a stream, `LoadCrossRefV4` respects every glue
relation, whatever its result. -/
theorem LoadCrossRefV4_skip_rel {env : Env} {R : Parser → Parser → Prop} (hR : GlueRel R)
    (p : Parser) (pos : Int) (b : Bool) (q : Parser)
    (h : LoadCrossRefV4 env p pos 0 true = some (b, q)) : R p q := by
  unfold LoadCrossRefV4 at h
  simp only at h
  by_cases h1 : (env.GetKeyword (env.SetPos pos)).1 ≠ "xref"
  · rw [if_pos h1] at h
    simp only [Option.some.injEq, Prod.mk.injEq] at h
    rw [← h.2]; exact hR.pos p _
  · rw [if_neg h1] at h
    have hpre : R p ({ ({ p with m_Pos := (env.GetKeyword (env.SetPos pos)).2 } : Parser) with
        m_SortedOffset := insertOffset p.m_SortedOffset pos } : Parser) :=
      hR.trans _ _ _ (hR.pos p (env.GetKeyword (env.SetPos pos)).2) (hR.offset _ pos)
    simp only [ne_eq, not_true_eq_false, if_false] at h
    split at h
    · simp at h
    · rename_i p3 heq
      simp only [Option.some.injEq, Prod.mk.injEq] at h
      rw [← h.2]
      exact hR.trans _ _ _ hpre (xrefSubsections_skip_rel hR _ _ _ _ heq)
    · rename_i p3 heq
      simp only [if_true, Option.some.injEq, Prod.mk.injEq] at h
      rw [← h.2]
      exact hR.trans _ _ _ hpre (xrefSubsections_skip_rel hR _ _ _ _ heq)

theorem LoadTrailerV4_state (env : Env) (p : Parser) :
    ∃ v, (LoadTrailerV4 env p).2 = { p with m_Pos := v } := by
  unfold LoadTrailerV4
  simp only
  split_ifs
  · exact ⟨_, rfl⟩
  · exact ⟨_, rfl⟩

theorem VerifyCrossRefV4_state (env : Env) (p : Parser) :
    ∃ v, (VerifyCrossRefV4 env p).2 = { p with m_Pos := v } := by
  unfold VerifyCrossRefV4
  split
  · exact ⟨p.m_Pos, rfl⟩
  · simp only
    split_ifs
    · exact ⟨_, rfl⟩
    · exact ⟨_, rfl⟩

/-- A successful replay of the sections respects every step relation. -/
theorem replayV4_rel {env : Env} {R : Parser → Parser → Prop} (hR : StepRel env R)
    (first : Bool) (crl xsl : List Int) (p q : Parser)
    (h : replayV4 env first crl xsl p = some (true, q)) : R p q := by
  induction crl generalizing p first xsl with
  | nil =>
    simp only [replayV4, Option.some.injEq, Prod.mk.injEq, true_and] at h
    rw [← h]; exact hR.refl p
  | cons pos rest ih =>
    simp only [replayV4] at h
    split at h
    · simp at h
    · simp at h
    · rename_i p1 heq
      have h1 := LoadCrossRefV4_rel hR _ _ _ _ _ heq
      by_cases hf : first = true
      · rw [if_pos hf] at h
        obtain ⟨v, hv⟩ := VerifyCrossRefV4_state env p1
        split at h
        · simp at h
        · rename_i p2 hver
          rw [hver] at hv
          simp only at hv
          have h2 : R p1 p2 := by rw [hv]; exact hR.pos p1 v
          exact hR.trans _ _ _ h1 (hR.trans _ _ _ h2 (ih _ _ _ h))
      · rw [if_neg hf] at h
        exact hR.trans _ _ _ h1 (ih _ _ _ h)

/-- The chase of `/Prev` respects every glue relation, whatever its result. -/
theorem chaseV4_rel {env : Env} {R : Parser → Parser → Prop} (hR : GlueRel R)
    (fuel : Nat) (xrefpos : Int) (seen crl xsl : List Int) (p : Parser)
    (r : Bool × List Int × List Int × Parser)
    (h : chaseV4 env fuel xrefpos seen crl xsl p = some r) : R p r.2.2.2 := by
  induction fuel generalizing p xrefpos seen crl xsl with
  | zero => simp [chaseV4] at h
  | succ n ih =>
    simp only [chaseV4] at h
    split_ifs at h with h1 h2
    · simp only [Option.some.injEq] at h
      rw [← h]; exact hR.refl p
    · simp only [Option.some.injEq] at h
      rw [← h]; exact hR.refl p
    · split at h
      · simp at h
      · rename_i b p1 heq
        have h1 := LoadCrossRefV4_skip_rel hR _ _ _ _ heq
        obtain ⟨v, hv⟩ := LoadTrailerV4_state env p1
        split at h
        · rename_i p2 htr
          rw [htr] at hv
          simp only at hv
          simp only [Option.some.injEq] at h
          rw [← h]
          simp only
          rw [hv]
          exact hR.trans _ _ _ h1 (hR.pos p1 v)
        · rename_i pDict p2 htr
          rw [htr] at hv
          simp only at hv
          have h2 : R p1 p2 := by rw [hv]; exact hR.pos p1 v
          exact hR.trans _ _ _ h1 (hR.trans _ _ _ h2
            (hR.trans _ _ _ (hR.trailer p2 pDict) (ih _ _ _ _ _ h)))

end Parser

/-! ## The index only grows while sections are loaded -/

namespace ObjectMap

theorem Grow_refl (m : ObjectMap) : Grow m m :=
  fun h => ⟨h, fun i hi => ⟨i, hi, le_refl _⟩⟩

theorem Grow_trans (a b c : ObjectMap) (h1 : Grow a b) (h2 : Grow b c) : Grow a c := by
  intro ha
  obtain ⟨hb, hab⟩ := h1 ha
  obtain ⟨hc, hbc⟩ := h2 hb
  refine ⟨hc, ?_⟩
  intro i hi
  obtain ⟨j, hj, hij⟩ := hab i hi
  obtain ⟨k, hk, hjk⟩ := hbc j hj
  exact ⟨k, hk, le_trans hij hjk⟩

theorem Grow_set (m : ObjectMap) (k : Nat) (v : ObjectInfo) : Grow m (set m k v) := by
  intro h
  refine ⟨WF_set m k v h, ?_⟩
  intro i hi
  obtain ⟨j, hj, -, hle⟩ := lastKey_set m k v h
  exact ⟨j, hj, hle i hi⟩

theorem Grow_setPos (m : ObjectMap) (k : Nat) (v : Int) : Grow m (setPos m k v) :=
  Grow_set _ _ _

theorem Grow_setType (m : ObjectMap) (k : Nat) (t : ObjectType) : Grow m (setType m k t) :=
  Grow_set _ _ _

theorem Grow_setGen (m : ObjectMap) (k : Nat) (g : Int) : Grow m (setGen m k g) :=
  Grow_set _ _ _

end ObjectMap

namespace Parser

theorem Ext_refl (p : Parser) : Ext p p :=
  ⟨rfl, ⟨[], by simp⟩, ObjectMap.Grow_refl _⟩

theorem Ext_trans (a b c : Parser) (h1 : Ext a b) (h2 : Ext b c) : Ext a c := by
  obtain ⟨ht1, ⟨l1, hl1⟩, hg1⟩ := h1
  obtain ⟨ht2, ⟨l2, hl2⟩, hg2⟩ := h2
  refine ⟨ht2.trans ht1, ⟨l1 ++ l2, ?_⟩, ObjectMap.Grow_trans _ _ _ hg1 hg2⟩
  rw [hl2, hl1, List.append_assoc]

theorem Ext_of_index (p q : Parser) (h1 : q.m_TrailerPos = p.m_TrailerPos)
    (h2 : q.m_Trailers = p.m_Trailers) (h3 : ObjectMap.Grow p.m_ObjectInfo q.m_ObjectInfo) :
    Ext p q :=
  ⟨h1, ⟨[], by simp [h2]⟩, h3⟩

theorem Ext_glue : GlueRel Ext where
  refl := Ext_refl
  trans := Ext_trans
  pos := fun p _ => Ext_of_index p _ rfl rfl (ObjectMap.Grow_refl _)
  start := fun p _ => Ext_of_index p _ rfl rfl (ObjectMap.Grow_refl _)
  offset := fun p _ => Ext_of_index p _ rfl rfl (ObjectMap.Grow_refl _)
  trailer := fun _ d => ⟨rfl, ⟨[d], rfl⟩, ObjectMap.Grow_refl _⟩

theorem Ext_record (env : Env) (p : Parser) (objnum : Nat) (pEntry : List Nat) (q : Parser)
    (h : xrefRecord env p objnum pEntry = (true, q)) : Ext p q := by
  unfold xrefRecord at h
  by_cases h1 : pEntry.getD 17 0 = 102
  · rw [if_pos h1] at h
    simp only [Prod.mk.injEq, true_and] at h
    rw [← h]
    exact Ext_of_index p _ rfl rfl
      (ObjectMap.Grow_trans _ _ _ (ObjectMap.Grow_setPos _ _ _) (ObjectMap.Grow_setType _ _ _))
  · rw [if_neg h1] at h
    simp only at h
    split_ifs at h
    all_goals first
      | (simp at h; done)
      | (simp only [Prod.mk.injEq, true_and] at h
         rw [← h]
         exact Ext_of_index p _ rfl rfl
          (ObjectMap.Grow_trans _ _ _ (ObjectMap.Grow_setPos _ _ _)
            (ObjectMap.Grow_trans _ _ _ (ObjectMap.Grow_setGen _ _ _)
              (ObjectMap.Grow_setType _ _ _))))

theorem Ext_entry (p : Parser) (W0 W1 objnum : Nat) (entry : List Nat) (q : Parser)
    (h : xrefStreamEntry p W0 W1 objnum entry = (true, q)) : Ext p q := by
  unfold xrefStreamEntry at h
  simp only at h
  split_ifs at h
  all_goals first
    | (simp at h; done)
    | (simp only [Prod.mk.injEq, true_and] at h
       rw [← h]
       first
        | exact Ext_refl _
        | exact Ext_of_index p _ rfl rfl (ObjectMap.Grow_setPos _ _ _)
        | exact Ext_of_index p _ rfl rfl
            (ObjectMap.Grow_trans _ _ _ (ObjectMap.Grow_setType _ _ _) (ObjectMap.Grow_setPos _ _ _))
        | exact Ext_of_index p _ rfl rfl
            (ObjectMap.Grow_trans _ _ _ (ObjectMap.Grow_setType _ _ _)
              (ObjectMap.Grow_trans _ _ _ (ObjectMap.Grow_setPos _ _ _)
                (ObjectMap.Grow_setType _ _ _))))

theorem Ext_step (env : Env) : StepRel env Ext where
  toGlueRel := Ext_glue
  entry := Ext_entry
  record := Ext_record env

end Parser

namespace Parser

theorem GetTrailer_pushCurrentTrailer (p : Parser) (d : CPDF_Dictionary) :
    (p.pushCurrentTrailer d).GetTrailer = some d := by
  simp [GetTrailer, pushCurrentTrailer]

theorem GetTrailer_of_Ext (p q : Parser) (d : CPDF_Dictionary) (h : Ext p q)
    (hp : p.GetTrailer = some d) : q.GetTrailer = some d := by
  obtain ⟨ht, ⟨l, hl⟩, -⟩ := h
  unfold GetTrailer at hp ⊢
  rw [ht]
  cases hpos : p.m_TrailerPos with
  | none => rw [hpos] at hp; simp at hp
  | some i =>
    rw [hpos] at hp
    simp only at hp ⊢
    rw [hl]
    have hi : i < p.m_Trailers.length := by
      by_contra hcon
      rw [List.getElem?_eq_none (by omega)] at hp
      simp at hp
    rw [List.getElem?_append_left hi]
    exact hp

end Parser

/-! ## `LoadAllCrossRefV4` and the trailer's `/Size` -/

set_option maxRecDepth 100000 in
/-- The load of the sample file `fileA`: the call returns true, the current
trailer has `/Size 2`, the index holds objects 0, 1 and 2, and the offset set
holds 9 and 22. -/
theorem fileA_loaded :
    ∃ p, Parser.LoadAllCrossRefV4 fileA.env Parser.init 22 = some (true, p) ∧
      GetDirectInteger p.GetTrailer "Size" = 2 ∧
      p.m_ObjectInfo =
        [(0, { pos := 0, type := ObjectType.kFree, gennum := 0 }),
         (1, { pos := 9, type := ObjectType.kNotCompressed, gennum := 0 }),
         (2, { pos := 999, type := ObjectType.kNotCompressed, gennum := 1 })] ∧
      p.m_SortedOffset = [9, 22] := by
  have h : (match Parser.LoadAllCrossRefV4 fileA.env Parser.init 22 with
      | some (true, p) => decide (GetDirectInteger p.GetTrailer "Size" = 2 ∧
          p.m_ObjectInfo =
            [(0, { pos := 0, type := ObjectType.kFree, gennum := 0 }),
             (1, { pos := 9, type := ObjectType.kNotCompressed, gennum := 0 }),
             (2, { pos := 999, type := ObjectType.kNotCompressed, gennum := 1 })] ∧
          p.m_SortedOffset = [9, 22])
      | _ => false) = true := by decide
  split at h
  · rename_i p heq
    exact ⟨p, heq, of_decide_eq_true h⟩
  · simp at h

/-- C1 (counterexample): on the sample file whose only section lists objects
0, 1 and 2 and whose trailer has `/Size 2`, `LoadAllCrossRefV4` returns true
and leaves key 2 in the index. -/
theorem LoadAllCrossRefV4_keeps_key_at_size :
    ∃ p, Parser.LoadAllCrossRefV4 fileA.env Parser.init 22 = some (true, p) ∧
      GetDirectInteger p.GetTrailer "Size" = 2 ∧
      ObjectMap.find p.m_ObjectInfo 2
        = some { pos := 999, type := ObjectType.kNotCompressed, gennum := 1 } := by
  obtain ⟨p, h1, h2, h3, -⟩ := fileA_loaded
  refine ⟨p, h1, h2, ?_⟩
  rw [h3]
  decide

/-- C1 (amended): after `LoadAllCrossRefV4` returns true for a chain whose
newest trailer has `/Size = S` with `0 < S <= kMaxXRefSize`, the last object
number is at least `S - 1` and every `n <= S - 1` is a valid object number:
`ShrinkObjectMap(S)` runs before the sections are replayed, so it reserves key
`S - 1` and does not trim what the replayed subsections list. -/
theorem LoadAllCrossRefV4_size_reserved (env : Env) (p q : Parser) (xrefpos : Int) (S : Int)
    (hwf : ObjectMap.WF p.m_ObjectInfo)
    (h : Parser.LoadAllCrossRefV4 env p xrefpos = some (true, q))
    (hS : GetDirectInteger q.GetTrailer "Size" = S) (h0 : 0 < S)
    (h1 : S ≤ Parser.kMaxXRefSize) :
    S.toNat - 1 ≤ q.GetLastObjNum ∧ ∀ n, n ≤ S.toNat - 1 → q.IsValidObjectNumber n = true := by
  unfold Parser.LoadAllCrossRefV4 at h
  split at h
  · simp at h
  · simp at h
  · rename_i crl xsl p5 hchain
    unfold Parser.LoadAllCrossRefV4_chain at hchain
    split at hchain
    · simp at hchain
    · simp at hchain
    · rename_i p1 hload
      have e1 := Parser.LoadCrossRefV4_skip_rel Parser.Ext_glue _ _ _ _ hload
      obtain ⟨v, hv⟩ := Parser.LoadTrailerV4_state env p1
      split at hchain
      · simp at hchain
      · rename_i trailer p2 htr
        rw [htr] at hv
        simp only at hv
        have e2 : Parser.Ext p p2 := by
          rw [hv]; exact Parser.Ext_trans _ _ _ e1 (Parser.Ext_glue.pos p1 v)
        have hwf2 : ObjectMap.WF p2.m_ObjectInfo := (e2.2.2 hwf).1
        simp only at hchain
        have hchase := hchain
        have e3 := Parser.chaseV4_rel Parser.Ext_glue _ _ _ _ _ _ _ hchase
        simp only at e3
        have e4 := Parser.replayV4_rel (Parser.Ext_step env) _ _ _ _ _ h
        have e5 := Parser.Ext_trans _ _ _ e3 e4
        have htrail : (p2.pushCurrentTrailer trailer).GetTrailer = some trailer :=
          Parser.GetTrailer_pushCurrentTrailer _ _
        have hsize : GetDirectInteger (p2.pushCurrentTrailer trailer).GetTrailer "Size" = S := by
          by_cases hr : GetDirectInteger (p2.pushCurrentTrailer trailer).GetTrailer "Size" > 0 ∧
              GetDirectInteger (p2.pushCurrentTrailer trailer).GetTrailer "Size"
                ≤ Parser.kMaxXRefSize
          · rw [if_pos hr] at e5
            have : q.GetTrailer = some trailer :=
              Parser.GetTrailer_of_Ext _ _ _ e5 (by
                simp [Parser.GetTrailer, Parser.ShrinkObjectMap, Parser.pushCurrentTrailer])
            rw [this] at hS
            rw [htrail]; exact hS
          · rw [if_neg hr] at e5
            have : q.GetTrailer = some trailer := Parser.GetTrailer_of_Ext _ _ _ e5 htrail
            rw [this] at hS
            rw [htrail]; exact hS
        have hr : GetDirectInteger (p2.pushCurrentTrailer trailer).GetTrailer "Size" > 0 ∧
            GetDirectInteger (p2.pushCurrentTrailer trailer).GetTrailer "Size"
              ≤ Parser.kMaxXRefSize := by
          rw [hsize]; exact ⟨h0, h1⟩
        rw [if_pos hr, hsize] at e5
        have hSn : 0 < S.toNat := by omega
        have hlast : ObjectMap.lastKey
            ((p2.pushCurrentTrailer trailer).ShrinkObjectMap S.toNat).m_ObjectInfo
              = some (S.toNat - 1) :=
          ObjectMap.lastKey_shrink _ _ hwf2 hSn
        have hwf4 : ObjectMap.WF
            ((p2.pushCurrentTrailer trailer).ShrinkObjectMap S.toNat).m_ObjectInfo :=
          ObjectMap.WF_shrink _ _ hwf2
        obtain ⟨j, hj, hle⟩ := (e5.2.2 hwf4).2 _ hlast
        refine ⟨?_, ?_⟩
        · simp [Parser.GetLastObjNum, hj, hle]
        · intro n hn
          simp only [Parser.IsValidObjectNumber, hj, decide_eq_true_eq]
          omega

/-- Witness of C1 (amended): the sample file `fileA`, whose trailer has
`/Size 2`. -/
theorem LoadAllCrossRefV4_size_reserved_witness :
    ∃ q, ObjectMap.WF Parser.init.m_ObjectInfo ∧
      Parser.LoadAllCrossRefV4 fileA.env Parser.init 22 = some (true, q) ∧
      GetDirectInteger q.GetTrailer "Size" = 2 ∧ (0 : Int) < 2 ∧
      (2 : Int) ≤ Parser.kMaxXRefSize ∧
      ((2 : Int).toNat - 1 ≤ q.GetLastObjNum ∧
        ∀ n, n ≤ (2 : Int).toNat - 1 → q.IsValidObjectNumber n = true) := by
  obtain ⟨q, h1, h2, -, -⟩ := fileA_loaded
  exact ⟨q, by decide, h1, h2, by decide, by decide,
    LoadAllCrossRefV4_size_reserved fileA.env Parser.init q 22 2 (by decide) h1 h2
      (by decide) (by decide)⟩

/-! ## Sections are replayed oldest first, the newest record stays -/

namespace ObjectMap

theorem find_setPos (m : ObjectMap) (k : Nat) (v : Int) (N : Nat) :
    find (setPos m k v) N = if k = N then some { ref m k with pos := v } else find m N :=
  find_set _ _ _ _

theorem find_setType (m : ObjectMap) (k : Nat) (t : ObjectType) (N : Nat) :
    find (setType m k t) N = if k = N then some { ref m k with type := t } else find m N :=
  find_set _ _ _ _

theorem find_setGen (m : ObjectMap) (k : Nat) (g : Int) (N : Nat) :
    find (setGen m k g) N =
      if k = N then some { ref m k with gennum := (g % 65536).toNat } else find m N :=
  find_set _ _ _ _

theorem ref_setPos (m : ObjectMap) (k : Nat) (v : Int) :
    ref (setPos m k v) k = { ref m k with pos := v } := by
  simp [ref, find_setPos]

theorem ref_setType (m : ObjectMap) (k : Nat) (t : ObjectType) :
    ref (setType m k t) k = { ref m k with type := t } := by
  simp [ref, find_setType]

theorem ref_setGen (m : ObjectMap) (k : Nat) (g : Int) :
    ref (setGen m k g) k = { ref m k with gennum := (g % 65536).toNat } := by
  simp [ref, find_setGen]

theorem SameWrite_refl (N : Nat) (m m2 : ObjectMap) : SameWrite N m m m2 m2 :=
  Or.inl ⟨rfl, rfl⟩

theorem SameWrite_trans (N : Nat) (a b c a2 b2 c2 : ObjectMap)
    (h1 : SameWrite N a b a2 b2) (h2 : SameWrite N b c b2 c2) : SameWrite N a c a2 c2 := by
  rcases h2 with ⟨e1, e2⟩ | h2
  · rcases h1 with ⟨f1, f2⟩ | ⟨r, r2, f1, f2, f3⟩
    · exact Or.inl ⟨e1.trans f1, e2.trans f2⟩
    · exact Or.inr ⟨r, r2, e1.trans f1, e2.trans f2, f3⟩
  · exact Or.inr h2

end ObjectMap

namespace Parser

theorem InStep_refl (N : Nat) (p p2 : Parser) (b : Bool) (h : p.m_Pos = p2.m_Pos) :
    InStep N p p2 (b, p) (b, p2) :=
  ⟨rfl, h, ObjectMap.SameWrite_refl _ _ _⟩

theorem xrefRecord_inStep (env : Env) (N : Nat) (p p2 : Parser) (objnum : Nat)
    (pEntry : List Nat) (h : p.m_Pos = p2.m_Pos) :
    InStep N p p2 (xrefRecord env p objnum pEntry) (xrefRecord env p2 objnum pEntry) := by
  unfold xrefRecord
  by_cases h1 : pEntry.getD 17 0 = 102
  · rw [if_pos h1, if_pos h1]
    refine ⟨rfl, h, ?_⟩
    by_cases hN : objnum = N
    · right
      simp only [ObjectMap.find_setType, ObjectMap.find_setPos, hN, if_true,
        ObjectMap.ref_setPos]
      exact ⟨_, _, rfl, rfl, rfl, rfl, by simp⟩
    · left
      simp [ObjectMap.find_setType, ObjectMap.find_setPos, hN]
  · rw [if_neg h1, if_neg h1]
    simp only
    by_cases h2 : env.FXSYS_atoi64 pEntry = 0 ∧
        (List.range 10).all (fun c => isdigit (pEntry.getD c 0)) = false
    · rw [if_pos h2, if_pos h2]
      exact InStep_refl N p p2 false h
    · rw [if_neg h2, if_neg h2]
      refine ⟨rfl, h, ?_⟩
      by_cases hN : objnum = N
      · right
        simp only [ObjectMap.find_setType, ObjectMap.find_setPos, ObjectMap.find_setGen, hN,
          if_true, ObjectMap.ref_setPos, ObjectMap.ref_setGen]
        exact ⟨_, _, rfl, rfl, rfl, rfl, fun _ => rfl⟩
      · left
        simp [ObjectMap.find_setType, ObjectMap.find_setPos, ObjectMap.find_setGen, hN]

theorem InStep_trans (N : Nat) (p p2 q q2 : Parser) (r r2 : Bool × Parser)
    (hW : ObjectMap.SameWrite N p.m_ObjectInfo q.m_ObjectInfo p2.m_ObjectInfo q2.m_ObjectInfo)
    (h2 : InStep N q q2 r r2) : InStep N p p2 r r2 :=
  ⟨h2.1, h2.2.1, ObjectMap.SameWrite_trans _ _ _ _ _ _ _ hW h2.2.2⟩

theorem xrefRecords_inStep (env : Env) (N : Nat) (start_objnum block : Nat) (buf : List Nat)
    (l : List Nat) (p p2 : Parser) (h : p.m_Pos = p2.m_Pos) :
    InStep N p p2 (xrefRecords env start_objnum block buf l p)
      (xrefRecords env start_objnum block buf l p2) := by
  induction l generalizing p p2 with
  | nil => exact InStep_refl N p p2 true h
  | cons i rest ih =>
    simp only [xrefRecords]
    have h1 := xrefRecord_inStep env N p p2 ((start_objnum + block * 1024 + i) % 4294967296)
      (buf.drop (i * 20)) h
    cases hr : xrefRecord env p ((start_objnum + block * 1024 + i) % 4294967296)
      (buf.drop (i * 20)) with
    | mk b q =>
      cases hr2 : xrefRecord env p2 ((start_objnum + block * 1024 + i) % 4294967296)
        (buf.drop (i * 20)) with
      | mk b2 q2 =>
        rw [hr, hr2] at h1
        obtain ⟨hb, hpos, hW⟩ := h1
        simp only at hb hpos hW
        subst hb
        cases b
        · exact ⟨rfl, hpos, hW⟩
        · exact InStep_trans N p p2 q q2 _ _ hW (ih q q2 hpos)

theorem SyntaxReadBlock_inStep (env : Env) (p p2 : Parser) (buf : List Nat) (size : Nat)
    (h : p.m_Pos = p2.m_Pos) :
    (SyntaxReadBlock env p buf size).2.1 = (SyntaxReadBlock env p2 buf size).2.1 ∧
    ∃ v, (SyntaxReadBlock env p buf size).2.2 = { p with m_Pos := v } ∧
      (SyntaxReadBlock env p2 buf size).2.2 = { p2 with m_Pos := v } := by
  unfold SyntaxReadBlock
  rw [← h]
  cases env.FileReadBlock (p.m_Pos + env.m_HeaderOffset) size with
  | none => exact ⟨rfl, p.m_Pos, rfl, by rw [h]⟩
  | some bytes => exact ⟨rfl, _, rfl, rfl⟩

theorem xrefBlocks_inStep (env : Env) (N : Nat) (start_objnum count nBlocks : Nat)
    (l : List Nat) (buf : List Nat) (p p2 : Parser) (h : p.m_Pos = p2.m_Pos) :
    InStep N p p2 (xrefBlocks env start_objnum count nBlocks l buf p)
      (xrefBlocks env start_objnum count nBlocks l buf p2) := by
  induction l generalizing p p2 buf with
  | nil => exact InStep_refl N p p2 true h
  | cons block rest ih =>
    simp only [xrefBlocks]
    obtain ⟨hbuf, v, hv, hv2⟩ := SyntaxReadBlock_inStep env p p2 buf
      ((if block = nBlocks - 1 then count % 1024 else 1024) * 20) h
    rw [← hbuf, hv, hv2]
    have h1 := xrefRecords_inStep env N start_objnum block
      (SyntaxReadBlock env p buf ((if block = nBlocks - 1 then count % 1024 else 1024) * 20)).2.1
      (List.range (if block = nBlocks - 1 then count % 1024 else 1024))
      { p with m_Pos := v } { p2 with m_Pos := v } rfl
    cases hr : xrefRecords env start_objnum block
      (SyntaxReadBlock env p buf ((if block = nBlocks - 1 then count % 1024 else 1024) * 20)).2.1
      (List.range (if block = nBlocks - 1 then count % 1024 else 1024))
      { p with m_Pos := v } with
    | mk b q =>
      cases hr2 : xrefRecords env start_objnum block
        (SyntaxReadBlock env p buf
          ((if block = nBlocks - 1 then count % 1024 else 1024) * 20)).2.1
        (List.range (if block = nBlocks - 1 then count % 1024 else 1024))
        { p2 with m_Pos := v } with
      | mk b2 q2 =>
        rw [hr, hr2] at h1
        obtain ⟨hb, hpos, hW⟩ := h1
        simp only at hb hpos hW
        subst hb
        cases b
        · exact ⟨rfl, hpos, hW⟩
        · exact InStep_trans N p p2 q q2 _ _ hW (ih _ q q2 hpos)

theorem InStepOpt_trans (N : Nat) (p p2 q q2 : Parser) (r r2 : Option (Bool × Parser))
    (hW : ObjectMap.SameWrite N p.m_ObjectInfo q.m_ObjectInfo p2.m_ObjectInfo q2.m_ObjectInfo)
    (h2 : InStepOpt N q q2 r r2) : InStepOpt N p p2 r r2 := by
  cases r with
  | none =>
    cases r2 with
    | none => trivial
    | some b => exact h2
  | some a =>
    cases r2 with
    | none => exact h2
    | some b => exact InStep_trans N p p2 q q2 a b hW h2

theorem InStep_of_index (N : Nat) (p p2 q q2 : Parser) (b : Bool)
    (h1 : q.m_ObjectInfo = p.m_ObjectInfo) (h2 : q2.m_ObjectInfo = p2.m_ObjectInfo)
    (h3 : q.m_Pos = q2.m_Pos) : InStep N p p2 (b, q) (b, q2) := by
  refine ⟨rfl, h3, Or.inl ⟨?_, ?_⟩⟩
  · simp only; rw [h1]
  · simp only; rw [h2]

theorem xrefSubsections_inStep (env : Env) (N : Nat) (bSkip : Bool) (fuel : Nat)
    (p p2 : Parser) (h : p.m_Pos = p2.m_Pos) :
    InStepOpt N p p2 (xrefSubsections env bSkip fuel p) (xrefSubsections env bSkip fuel p2) := by
  induction fuel generalizing p p2 with
  | zero => simp [xrefSubsections, InStepOpt]
  | succ n ih =>
    simp only [xrefSubsections]
    rw [← h]
    by_cases h1 : (env.GetNextWord p.m_Pos).1.1 = ""
    · rw [if_pos h1, if_pos h1]
      exact InStep_of_index N p p2 _ _ false rfl rfl rfl
    · rw [if_neg h1, if_neg h1]
      by_cases h2 : (env.GetNextWord p.m_Pos).1.2 = false
      · rw [if_pos h2, if_pos h2]
        exact InStep_of_index N p p2 _ _ true rfl rfl rfl
      · rw [if_neg h2, if_neg h2]
        by_cases h3 : env.FXSYS_atoui (env.GetNextWord p.m_Pos).1.1 % 4294967296
            ≥ env.kMaxObjectNumber
        · rw [if_pos h3, if_pos h3]
          exact InStep_of_index N p p2 _ _ false rfl rfl rfl
        · rw [if_neg h3, if_neg h3]
          cases bSkip with
          | true =>
            exact InStepOpt_trans N p p2 _ _ _ _ (ObjectMap.SameWrite_refl _ _ _)
              (ih _ _ rfl)
          | false =>
            simp only [Bool.false_eq_true, if_false]
            have hb := xrefBlocks_inStep env N
              (env.FXSYS_atoui (env.GetNextWord p.m_Pos).1.1 % 4294967296)
              ((env.GetDirectNum (env.GetNextWord p.m_Pos).2).1 % 4294967296)
              ((env.GetDirectNum (env.GetNextWord p.m_Pos).2).1 % 4294967296 / 1024 + 1)
              (List.range ((env.GetDirectNum (env.GetNextWord p.m_Pos).2).1 % 4294967296
                / 1024 + 1))
              (List.replicate 20481 0)
              { p with m_Pos := env.ToNextWord (env.GetDirectNum (env.GetNextWord p.m_Pos).2).2,
                       m_dwXrefStartObjNum :=
                        env.FXSYS_atoui (env.GetNextWord p.m_Pos).1.1 % 4294967296 }
              { p2 with m_Pos := env.ToNextWord (env.GetDirectNum (env.GetNextWord p.m_Pos).2).2,
                        m_dwXrefStartObjNum :=
                          env.FXSYS_atoui (env.GetNextWord p.m_Pos).1.1 % 4294967296 }
              rfl
            revert hb
            generalize xrefBlocks env _ _ _ _ _
              ({ p with m_Pos := env.ToNextWord (env.GetDirectNum (env.GetNextWord p.m_Pos).2).2,
                        m_dwXrefStartObjNum :=
                          env.FXSYS_atoui (env.GetNextWord p.m_Pos).1.1 % 4294967296 } : Parser)
              = rA
            generalize xrefBlocks env _ _ _ _ _
              ({ p2 with m_Pos := env.ToNextWord (env.GetDirectNum (env.GetNextWord p.m_Pos).2).2,
                         m_dwXrefStartObjNum :=
                          env.FXSYS_atoui (env.GetNextWord p.m_Pos).1.1 % 4294967296 } : Parser)
              = rB
            intro hb
            obtain ⟨bA, qA⟩ := rA
            obtain ⟨bB, qB⟩ := rB
            obtain ⟨hbb, hpos, hW⟩ := hb
            simp only at hbb hpos hW
            subst hbb
            cases bA
            · exact ⟨rfl, hpos, hW⟩
            · exact InStepOpt_trans N p p2 qA qB _ _ hW (ih _ _ rfl)

/-- Two loads of the same textual section (no stream) go in step, whatever the
parsers they start from. -/
theorem LoadCrossRefV4_inStep (env : Env) (N : Nat) (p p2 : Parser) (pos : Int)
    (bSkip : Bool) :
    InStepOpt N p p2 (LoadCrossRefV4 env p pos 0 bSkip) (LoadCrossRefV4 env p2 pos 0 bSkip) := by
  unfold LoadCrossRefV4
  simp only
  by_cases h1 : (env.GetKeyword (env.SetPos pos)).1 ≠ "xref"
  · rw [if_pos h1, if_pos h1]
    exact InStep_of_index N p p2 _ _ false rfl rfl rfl
  · rw [if_neg h1, if_neg h1]
    simp only [ne_eq, not_true_eq_false, if_false]
    have hs := xrefSubsections_inStep env N bSkip
      (subsectionRounds env (env.GetKeyword (env.SetPos pos)).2)
      { p with m_Pos := (env.GetKeyword (env.SetPos pos)).2,
               m_SortedOffset := insertOffset p.m_SortedOffset pos }
      { p2 with m_Pos := (env.GetKeyword (env.SetPos pos)).2,
                m_SortedOffset := insertOffset p2.m_SortedOffset pos }
      rfl
    revert hs
    generalize xrefSubsections env bSkip _
      ({ p with m_Pos := (env.GetKeyword (env.SetPos pos)).2,
                m_SortedOffset := insertOffset p.m_SortedOffset pos } : Parser) = rA
    generalize xrefSubsections env bSkip _
      ({ p2 with m_Pos := (env.GetKeyword (env.SetPos pos)).2,
                 m_SortedOffset := insertOffset p2.m_SortedOffset pos } : Parser) = rB
    intro hs
    cases rA with
    | none =>
      cases rB with
      | none => trivial
      | some b => exact False.elim hs
    | some a =>
      cases rB with
      | none => exact False.elim hs
      | some b =>
        obtain ⟨bA, qA⟩ := a
        obtain ⟨bB, qB⟩ := b
        obtain ⟨hbb, hpos, hW⟩ := hs
        simp only at hbb hpos hW
        subst hbb
        cases bA
        · exact ⟨rfl, hpos, hW⟩
        · simp only [↓reduceIte]
          exact ⟨rfl, hpos, hW⟩

end Parser

namespace Parser

theorem chaseV4_CrossRefList (env : Env) (fuel : Nat) (xrefpos : Int) (seen crl xsl : List Int)
    (p : Parser) (r : Bool × List Int × List Int × Parser)
    (h : chaseV4 env fuel xrefpos seen crl xsl p = some r) : ∃ l, r.2.1 = l ++ crl := by
  induction fuel generalizing p xrefpos seen crl xsl with
  | zero => simp [chaseV4] at h
  | succ n ih =>
    simp only [chaseV4] at h
    split_ifs at h with h1 h2
    · simp only [Option.some.injEq] at h
      rw [← h]; exact ⟨[], rfl⟩
    · simp only [Option.some.injEq] at h
      rw [← h]; exact ⟨[], rfl⟩
    · split at h
      · simp at h
      · split at h
        · simp only [Option.some.injEq] at h
          rw [← h]; exact ⟨[xrefpos], rfl⟩
        · obtain ⟨l, hl⟩ := ih _ _ _ _ _ h
          exact ⟨l ++ [xrefpos], by rw [hl]; simp⟩

/-- The section that `startxref` names is the last one of `CrossRefList`. -/
theorem LoadAllCrossRefV4_chain_last (env : Env) (p : Parser) (xrefpos : Int)
    (crl xsl : List Int) (q : Parser)
    (h : LoadAllCrossRefV4_chain env p xrefpos = some (true, crl, xsl, q)) :
    crl.getLast? = some xrefpos := by
  unfold LoadAllCrossRefV4_chain at h
  split at h
  · simp at h
  · simp at h
  · split at h
    · simp at h
    · obtain ⟨l, hl⟩ := chaseV4_CrossRefList _ _ _ _ _ _ _ _ h
      simp only at hl
      rw [hl]
      simp

/-- What a section does to the record of `N` in any index is what it does
when loaded alone: nothing when it gives no record for `N`, and else a record
of the kind and offset it gives, with its generation when the kind is
Direct. -/
theorem LoadCrossRefV4_sectionRecord (env : Env) (N : Nat) (p q : Parser) (pos : Int)
    (h : LoadCrossRefV4 env p pos 0 false = some (true, q)) :
    (sectionRecord env pos N = none → ObjectMap.find q.m_ObjectInfo N
      = ObjectMap.find p.m_ObjectInfo N) ∧
    (∀ r, sectionRecord env pos N = some r → ∃ r2, ObjectMap.find q.m_ObjectInfo N = some r2 ∧
      r2.type = r.type ∧ r2.pos = r.pos ∧
      (r.type = ObjectType.kNotCompressed → r2.gennum = r.gennum)) := by
  have hstep := LoadCrossRefV4_inStep env N p Parser.init pos false
  rw [h] at hstep
  unfold sectionRecord
  cases hs : LoadCrossRefV4 env Parser.init pos 0 false with
  | none => rw [hs] at hstep; exact False.elim hstep
  | some a =>
    rw [hs] at hstep
    obtain ⟨b, q0⟩ := a
    obtain ⟨-, -, hW⟩ := hstep
    simp only at hW ⊢
    have hinit : ObjectMap.find Parser.init.m_ObjectInfo N = none := rfl
    rcases hW with ⟨e1, e2⟩ | ⟨r1, r2, f1, f2, f3, f4, f5⟩
    · refine ⟨fun _ => e1, ?_⟩
      intro r hr
      rw [e2, hinit] at hr
      simp at hr
    · refine ⟨?_, ?_⟩
      · intro hn
        rw [f2] at hn
        simp at hn
      · intro r hr
        rw [f2] at hr
        simp only [Option.some.injEq] at hr
        subst hr
        exact ⟨r1, f1, f3, f4, fun ht => f5 (f3.trans ht)⟩

/-- The replay of a chain of textual sections (no streams): a section that
gives no record for `N` leaves the record of `N` alone, and the last section
of the list that gives one decides kind and offset, and the generation when
the kind is Direct. -/
theorem replayV4_newest (env : Env) (N : Nat) (crl xsl : List Int) (first : Bool)
    (p q : Parser) (hx : ∀ x ∈ xsl, x = 0)
    (h : replayV4 env first crl xsl p = some (true, q)) :
    ((∀ c ∈ crl, sectionRecord env c N = none) →
      ObjectMap.find q.m_ObjectInfo N = ObjectMap.find p.m_ObjectInfo N) ∧
    (∀ pre c post r, crl = pre ++ c :: post → sectionRecord env c N = some r →
      (∀ c2 ∈ post, sectionRecord env c2 N = none) →
      ∃ r2, ObjectMap.find q.m_ObjectInfo N = some r2 ∧ r2.type = r.type ∧ r2.pos = r.pos ∧
        (r.type = ObjectType.kNotCompressed → r2.gennum = r.gennum)) := by
  induction crl generalizing p first xsl with
  | nil =>
    simp only [replayV4, Option.some.injEq, Prod.mk.injEq, true_and] at h
    subst h
    refine ⟨fun _ => rfl, ?_⟩
    intro pre c post r hsplit
    simp at hsplit
  | cons pos rest ih =>
    simp only [replayV4] at h
    have hhead : xsl.headD 0 = 0 := by
      cases xsl with
      | nil => rfl
      | cons x t => exact hx x (List.mem_cons_self _ _)
    have htail : ∀ x ∈ xsl.tail, x = 0 := fun x hxm => hx x (List.mem_of_mem_tail hxm)
    rw [hhead] at h
    split at h
    · simp at h
    · simp at h
    · rename_i p1 hload
      obtain ⟨hnone, hsome⟩ := LoadCrossRefV4_sectionRecord env N p p1 pos hload
      have key : ∃ p2, p2.m_ObjectInfo = p1.m_ObjectInfo ∧
          replayV4 env false rest xsl.tail p2 = some (true, q) := by
        by_cases hf : first = true
        · rw [if_pos hf] at h
          obtain ⟨v, hv⟩ := VerifyCrossRefV4_state env p1
          split at h
          · simp at h
          · rename_i p2 hver
            rw [hver] at hv
            simp only at hv
            exact ⟨p2, by rw [hv], h⟩
        · rw [if_neg hf] at h
          exact ⟨p1, rfl, h⟩
      obtain ⟨p2, hp2, hrest⟩ := key
      obtain ⟨ihn, ihs⟩ := ih xsl.tail false p2 htail hrest
      refine ⟨?_, ?_⟩
      · intro hall
        rw [ihn (fun c hc => hall c (List.mem_cons_of_mem _ hc)), hp2]
        exact hnone (hall pos (List.mem_cons_self _ _))
      · intro pre c post r hsplit hr hpost
        cases pre with
        | nil =>
          simp only [List.nil_append, List.cons.injEq] at hsplit
          obtain ⟨hc, hpr⟩ := hsplit
          subst hc hpr
          rw [ihn hpost, hp2]
          exact hsome r hr
        | cons a pre2 =>
          simp only [List.cons_append, List.cons.injEq] at hsplit
          exact ihs pre2 c post r hsplit.2 hr hpost

end Parser

/-! ## The newest record of a chain of textual sections -/

set_option maxRecDepth 100000 in
/-- The load of the sample file `fileB`: the chain is `[22, 91]` without
streams, the call returns true, and the index holds object 0 (free) and
object 1 (free, generation 5). -/
theorem fileB_loaded :
    ∃ p5 q, Parser.LoadAllCrossRefV4_chain fileB.env Parser.init 91
        = some (true, [22, 91], [0, 0], p5) ∧
      Parser.LoadAllCrossRefV4 fileB.env Parser.init 91 = some (true, q) ∧
      q.m_ObjectInfo =
        [(0, { pos := 0, type := ObjectType.kFree, gennum := 0 }),
         (1, { pos := 0, type := ObjectType.kFree, gennum := 5 })] := by
  have h1 : (match Parser.LoadAllCrossRefV4_chain fileB.env Parser.init 91 with
      | some (true, crl, xsl, _) => decide (crl = [22, 91] ∧ xsl = [0, 0])
      | _ => false) = true := by decide
  have h2 : (match Parser.LoadAllCrossRefV4 fileB.env Parser.init 91 with
      | some (true, q) => decide (q.m_ObjectInfo =
          [(0, { pos := 0, type := ObjectType.kFree, gennum := 0 }),
           (1, { pos := 0, type := ObjectType.kFree, gennum := 5 })])
      | _ => false) = true := by decide
  split at h1
  · rename_i crl xsl p5 heq1
    have hc := of_decide_eq_true h1
    rw [hc.1, hc.2] at heq1
    split at h2
    · rename_i q heq2
      exact ⟨p5, q, heq1, heq2, of_decide_eq_true h2⟩
    · simp at h2
  · simp at h1

/-- C2 (counterexample): in the sample file `fileB` object 1 has a record in
both sections; the newest section gives the free record
`0000000000 00006 f` (generation 6), yet after `LoadAllCrossRefV4` returns true
the record of object 1 has generation 5, the one of the older section. -/
theorem LoadAllCrossRefV4_free_record_keeps_old_generation :
    ∃ q, Parser.LoadAllCrossRefV4 fileB.env Parser.init 91 = some (true, q) ∧
      ObjectMap.find q.m_ObjectInfo 1
        = some { pos := 0, type := ObjectType.kFree, gennum := 5 } ∧
      ((bytesOf fileB.text).drop 100).take 20 = bytesOf "0000000000 00006 f\r\n" ∧
      decimalOf ((bytesOf fileB.text).drop 111) = 6 := by
  obtain ⟨p5, q, -, h2, h3⟩ := fileB_loaded
  refine ⟨q, h2, ?_, by decide, by decide⟩
  rw [h3]
  decide

/-- C2 (amended): for every `/Prev` chain of textual xref sections (no
`/XRefStm`) on which `LoadAllCrossRefV4` returns true, the sections are
replayed oldest first (the section named by `startxref` is the last of
`CrossRefList`), and for every object number `N` the final record of `N` has
the kind and the offset given by the newest section that has a record for `N`,
and its generation when that record is an in-use (Direct) one; a free record
sets kind Free and offset 0 and leaves the stored generation as it is. -/
theorem LoadAllCrossRefV4_newest_record (env : Env) (p q p5 : Parser) (xrefpos : Int)
    (crl xsl : List Int) (N : Nat) (pre post : List Int) (c : Int) (r : ObjectInfo)
    (hchain : Parser.LoadAllCrossRefV4_chain env p xrefpos = some (true, crl, xsl, p5))
    (hx : ∀ x ∈ xsl, x = 0)
    (h : Parser.LoadAllCrossRefV4 env p xrefpos = some (true, q))
    (hsplit : crl = pre ++ c :: post)
    (hr : Parser.sectionRecord env c N = some r)
    (hpost : ∀ c2 ∈ post, Parser.sectionRecord env c2 N = none) :
    crl.getLast? = some xrefpos ∧
    ∃ r2, ObjectMap.find q.m_ObjectInfo N = some r2 ∧ r2.type = r.type ∧ r2.pos = r.pos ∧
      (r.type = ObjectType.kNotCompressed → r2.gennum = r.gennum) := by
  refine ⟨Parser.LoadAllCrossRefV4_chain_last env p xrefpos crl xsl p5 hchain, ?_⟩
  unfold Parser.LoadAllCrossRefV4 at h
  rw [hchain] at h
  simp only at h
  exact (Parser.replayV4_newest env N crl xsl true p5 q hx h).2 pre c post r hsplit hr hpost

set_option maxRecDepth 100000 in
/-- Witness of C2 (amended): object 1 of the sample file `fileB`, whose newest
record is the free record of the section at offset 91. -/
theorem LoadAllCrossRefV4_newest_record_witness :
    ∃ p5 q, Parser.LoadAllCrossRefV4_chain fileB.env Parser.init 91
        = some (true, [22, 91], [0, 0], p5) ∧
      (∀ x ∈ [(0 : Int), 0], x = 0) ∧
      Parser.LoadAllCrossRefV4 fileB.env Parser.init 91 = some (true, q) ∧
      [(22 : Int), 91] = [22] ++ 91 :: [] ∧
      Parser.sectionRecord fileB.env 91 1
        = some { pos := 0, type := ObjectType.kFree, gennum := 0 } ∧
      (∀ c2 ∈ ([] : List Int), Parser.sectionRecord fileB.env c2 1 = none) ∧
      ([(22 : Int), 91].getLast? = some 91 ∧
        ∃ r2, ObjectMap.find q.m_ObjectInfo 1 = some r2 ∧ r2.type = ObjectType.kFree ∧
          r2.pos = 0 ∧ (ObjectType.kFree = ObjectType.kNotCompressed → r2.gennum = 0)) := by
  obtain ⟨p5, q, h1, h2, -⟩ := fileB_loaded
  have hx : ∀ x ∈ [(0 : Int), 0], x = 0 := by decide
  have hr : Parser.sectionRecord fileB.env 91 1
      = some { pos := 0, type := ObjectType.kFree, gennum := 0 } := by decide
  have hpost : ∀ c2 ∈ ([] : List Int), Parser.sectionRecord fileB.env c2 1 = none := by simp
  exact ⟨p5, q, h1, hx, h2, rfl, hr, hpost,
    LoadAllCrossRefV4_newest_record fileB.env Parser.init q p5 91 [22, 91] [0, 0] 1 [22] []
      91 { pos := 0, type := ObjectType.kFree, gennum := 0 } h1 hx h2 rfl hr hpost⟩

/-! ## Termination of the subsection loop and of the chase of `/Prev` -/

theorem toInt32_mem (v : Int) : toInt32 v ∈ int32Range := by
  unfold toInt32 int32Range
  rw [Finset.mem_Icc]
  omega

theorem GetDirectInteger_mem (d : Option CPDF_Dictionary) (key : String) :
    GetDirectInteger d key ∈ int32Range := by
  have h0 : (0 : Int) ∈ int32Range := by
    unfold int32Range; rw [Finset.mem_Icc]; omega
  unfold GetDirectInteger
  cases d with
  | none => exact h0
  | some entries =>
    simp only
    cases GetObjectFor entries key with
    | none => exact h0
    | some o =>
      cases o <;> first | exact h0 | exact toInt32_mem _

theorem GetInteger_mem (env : Env) (o : CPDF_Object) : GetInteger env o ∈ int32Range := by
  have h0 : (0 : Int) ∈ int32Range := by
    unfold int32Range; rw [Finset.mem_Icc]; omega
  unfold GetInteger
  split
  · exact toInt32_mem _
  · exact h0

theorem GetIntegerFor_mem (env : Env) (d : CPDF_Dictionary) (key : String) :
    GetIntegerFor env d key ∈ int32Range := by
  unfold GetIntegerFor
  split
  · exact GetInteger_mem env _
  · unfold int32Range; rw [Finset.mem_Icc]; omega

theorem unseenCount_le (seen : List Int) : unseenCount seen ≤ 4294967296 := by
  unfold unseenCount
  calc (int32Range \ seen.toFinset).card ≤ int32Range.card := Finset.card_le_card Finset.sdiff_subset
    _ = 4294967296 := by
      unfold int32Range
      rw [Int.card_Icc]
      omega

theorem sdiff_cons_toFinset (s : Finset Int) (x : Int) (l : List Int) :
    s \ (x :: l).toFinset = (s \ l.toFinset).erase x := by
  ext y
  simp only [List.toFinset_cons, Finset.mem_sdiff, Finset.mem_insert, Finset.mem_erase]
  tauto

theorem unseenCount_cons (seen : List Int) (x : Int) (hx : x ∈ int32Range) (hn : x ∉ seen) :
    unseenCount (x :: seen) + 1 = unseenCount seen := by
  unfold unseenCount
  have hmem : x ∈ int32Range \ seen.toFinset := by
    rw [Finset.mem_sdiff]
    exact ⟨hx, by simpa using hn⟩
  rw [sdiff_cons_toFinset, Finset.card_erase_of_mem hmem]
  have hpos : 0 < (int32Range \ seen.toFinset).card := Finset.card_pos.mpr ⟨x, hmem⟩
  omega

namespace Parser

/-- With a lawful syntax parser the subsection loop ends within the rounds it
is granted. -/
theorem xrefSubsections_ends (env : Env) (hlaw : env.Lawful) (bSkip : Bool) (fuel : Nat)
    (p : Parser) (hfuel : (env.m_FileLen - p.m_Pos).toNat < fuel) :
    xrefSubsections env bSkip fuel p ≠ none := by
  induction fuel generalizing p with
  | zero => omega
  | succ n ih =>
    simp only [xrefSubsections]
    by_cases h1 : (env.GetNextWord p.m_Pos).1.1 = ""
    · rw [if_pos h1]; simp
    · rw [if_neg h1]
      by_cases h2 : (env.GetNextWord p.m_Pos).1.2 = false
      · rw [if_pos h2]; simp
      · rw [if_neg h2]
        by_cases h3 : env.FXSYS_atoui (env.GetNextWord p.m_Pos).1.1 % 4294967296
            ≥ env.kMaxObjectNumber
        · rw [if_pos h3]; simp
        · rw [if_neg h3]
          obtain ⟨hw1, hw2⟩ := hlaw.word_progress p.m_Pos h1
          have hn := hlaw.num_progress (env.GetNextWord p.m_Pos).2
          have hk := hlaw.skip_progress (env.GetDirectNum (env.GetNextWord p.m_Pos).2).2
          have hsp := hlaw.setpos_progress
            (env.ToNextWord (env.GetDirectNum (env.GetNextWord p.m_Pos).2).2 +
              (((env.GetDirectNum (env.GetNextWord p.m_Pos).2).1 % 4294967296 * 20
                % 4294967296 : Nat) : Int))
          split
          · simp
          · rename_i p3 heq
            apply ih
            simp only
            have hc : (0 : Int) ≤ (((env.GetDirectNum (env.GetNextWord p.m_Pos).2).1
                % 4294967296 * 20 % 4294967296 : Nat) : Int) := Int.ofNat_nonneg _
            omega

/-- With a lawful syntax parser `LoadCrossRefV4` returns. -/
theorem LoadCrossRefV4_ends (env : Env) (hlaw : env.Lawful) (p : Parser) (pos streampos : Int)
    (bSkip : Bool) : LoadCrossRefV4 env p pos streampos bSkip ≠ none := by
  unfold LoadCrossRefV4
  simp only
  by_cases h1 : (env.GetKeyword (env.SetPos pos)).1 ≠ "xref"
  · rw [if_pos h1]; simp
  · rw [if_neg h1]
    split
    · rename_i heq
      exact absurd heq (xrefSubsections_ends env hlaw bSkip _ _
        (by unfold subsectionRounds; simp only; omega))
    · simp
    · by_cases hs : streampos = 0
      · rw [if_pos hs]; simp
      · rw [if_neg hs]; simp

/-- With a lawful syntax parser the chase of `/Prev` ends: every round meets a
C `int` that it has not met before. -/
theorem chaseV4_ends (env : Env) (hlaw : env.Lawful) (fuel : Nat) (xrefpos : Int)
    (seen crl xsl : List Int) (p : Parser) (hx : xrefpos ∈ int32Range)
    (hfuel : unseenCount seen < fuel) : chaseV4 env fuel xrefpos seen crl xsl p ≠ none := by
  induction fuel generalizing p xrefpos seen crl xsl with
  | zero => omega
  | succ n ih =>
    simp only [chaseV4]
    by_cases h1 : xrefpos = 0
    · rw [if_pos h1]; simp
    · rw [if_neg h1]
      by_cases h2 : xrefpos ∈ seen
      · rw [if_pos h2]; simp
      · rw [if_neg h2]
        have hload := LoadCrossRefV4_ends env hlaw p xrefpos 0 true
        split
        · rename_i heq; exact absurd heq hload
        · split
          · simp
          · apply ih
            · exact GetDirectInteger_mem _ _
            · have := unseenCount_cons seen xrefpos hx h2
              omega

theorem LoadTrailerV4_fst (env : Env) (p p2 : Parser) (h : p.m_Pos = p2.m_Pos) :
    (LoadTrailerV4 env p).1 = (LoadTrailerV4 env p2).1 := by
  unfold LoadTrailerV4
  rw [h]
  simp only
  split_ifs <;> rfl

/-- The `/Prev` that the chase reads after a section does not depend on the
parser the section is loaded into. -/
theorem prevOfSection_eq (env : Env) (p p1 : Parser) (pos : Int) (b : Bool)
    (h : LoadCrossRefV4 env p pos 0 true = some (b, p1)) :
    prevOfSection env pos =
      (LoadTrailerV4 env p1).1.map (fun pDict => GetDirectInteger (some pDict) "Prev") := by
  have hstep := LoadCrossRefV4_inStep env 0 p Parser.init pos true
  rw [h] at hstep
  unfold prevOfSection
  cases hs : LoadCrossRefV4 env Parser.init pos 0 true with
  | none => rw [hs] at hstep; exact False.elim hstep
  | some a =>
    rw [hs] at hstep
    obtain ⟨b0, q0⟩ := a
    obtain ⟨-, hpos, -⟩ := hstep
    simp only at hpos ⊢
    rw [← LoadTrailerV4_fst env p1 q0 hpos]
    cases (LoadTrailerV4 env p1).1 <;> rfl

theorem prevChainV4_none (env : Env) (xrefpos : Int) (k m : Nat) (hkm : k ≤ m)
    (h : prevChainV4 env xrefpos k = none) : prevChainV4 env xrefpos m = none := by
  induction m with
  | zero =>
    have : k = 0 := by omega
    rw [this] at h; exact h
  | succ n ih =>
    by_cases hk : k = n + 1
    · rw [← hk]; exact h
    · have := ih (by omega)
      simp [prevChainV4, this]

/-- The chase returns false when the chain of `/Prev` comes back to an offset
that is not 0. -/
theorem chaseV4_cycle (env : Env) (x0 : Int) (fuel k : Nat) (xrefpos : Int)
    (seen crl xsl : List Int) (p : Parser) (r : Bool × List Int × List Int × Parser)
    (hk : 1 ≤ k) (hchain : prevChainV4 env x0 k = some xrefpos)
    (hseen : ∀ m, m < k → ∃ y, prevChainV4 env x0 m = some y ∧ y ∈ seen)
    (hcyc : ∃ i j a, i < j ∧ k ≤ j ∧ prevChainV4 env x0 i = some a ∧
      prevChainV4 env x0 j = some a ∧ a ≠ 0)
    (h : chaseV4 env fuel xrefpos seen crl xsl p = some r) : r.1 = false := by
  induction fuel generalizing p xrefpos seen crl xsl k with
  | zero => simp [chaseV4] at h
  | succ n ih =>
    obtain ⟨i, j, a, hij, hkj, hi, hj, ha⟩ := hcyc
    simp only [chaseV4] at h
    by_cases h1 : xrefpos = 0
    · exfalso
      by_cases hjk : j = k
      · rw [hjk, hchain] at hj
        simp only [Option.some.injEq] at hj
        exact ha (hj ▸ h1)
      · have hnext : prevChainV4 env x0 (k + 1) = none := by
          simp only [prevChainV4, hchain]
          rw [if_pos ⟨hk, h1⟩]
        have := prevChainV4_none env x0 (k + 1) j (by omega) hnext
        rw [this] at hj
        simp at hj
    · rw [if_neg h1] at h
      by_cases h2 : xrefpos ∈ seen
      · rw [if_pos h2] at h
        simp only [Option.some.injEq] at h
        rw [← h]
      · rw [if_neg h2] at h
        have hjk : j ≠ k := by
          intro hjk
          rw [hjk, hchain] at hj
          simp only [Option.some.injEq] at hj
          obtain ⟨y, hy, hys⟩ := hseen i (by omega)
          rw [hi] at hy
          simp only [Option.some.injEq] at hy
          rw [← hy, ← hj] at hys
          exact h2 hys
        split at h
        · simp at h
        · rename_i b p1 hload
          have hprev := prevOfSection_eq env p p1 xrefpos b hload
          split at h
          · simp only [Option.some.injEq] at h
            rw [← h]
          · rename_i pDict p2 htr
            rw [htr] at hprev
            simp only [Option.map_some'] at hprev
            have hnext : prevChainV4 env x0 (k + 1)
                = some (GetDirectInteger (some pDict) "Prev") := by
              simp only [prevChainV4, hchain]
              rw [if_neg (fun hc => h1 hc.2)]
              exact hprev
            refine ih (k + 1) _ _ _ _ _ (by omega) hnext ?_ ⟨i, j, a, hij, by omega, hi, hj, ha⟩ h
            intro m hm
            by_cases hmk : m = k
            · exact ⟨xrefpos, by rw [hmk]; exact hchain, List.mem_cons_self _ _⟩
            · obtain ⟨y, hy, hys⟩ := hseen m (by omega)
              exact ⟨y, hy, List.mem_cons_of_mem _ hys⟩

/-- The chase loads no offset twice: `CrossRefList` stays free of repetitions. -/
theorem chaseV4_nodup (env : Env) (fuel : Nat) (xrefpos : Int) (seen xsl : List Int)
    (p : Parser) (r : Bool × List Int × List Int × Parser) (hnd : seen.Nodup)
    (h : chaseV4 env fuel xrefpos seen seen xsl p = some r) : r.2.1.Nodup := by
  induction fuel generalizing p xrefpos seen xsl with
  | zero => simp [chaseV4] at h
  | succ n ih =>
    simp only [chaseV4] at h
    by_cases h1 : xrefpos = 0
    · rw [if_pos h1] at h
      simp only [Option.some.injEq] at h
      rw [← h]; exact hnd
    · rw [if_neg h1] at h
      by_cases h2 : xrefpos ∈ seen
      · rw [if_pos h2] at h
        simp only [Option.some.injEq] at h
        rw [← h]; exact hnd
      · rw [if_neg h2] at h
        have hnd2 : (xrefpos :: seen).Nodup := List.nodup_cons.mpr ⟨h2, hnd⟩
        split at h
        · simp at h
        · split at h
          · simp only [Option.some.injEq] at h
            rw [← h]; exact hnd2
          · exact ih _ _ _ _ hnd2 h

theorem GetTrailer_ShrinkObjectMap (p : Parser) (n : Nat) :
    (p.ShrinkObjectMap n).GetTrailer = p.GetTrailer := rfl

end Parser

/-! ## Circular `/Prev` in textual sections -/

/-- C5: with a lawful syntax parser, `LoadAllCrossRefV4` returns false whenever
the chain of `/Prev` offsets that starts at the newest section comes back to
an offset already visited (offsets number `i < j` of the chain are the same
offset, not 0), the case `i = 0, j = 1` being a first section whose `/Prev` is
its own offset; and the chase loads each offset at most once: `CrossRefList`
has no repetition. -/
theorem LoadAllCrossRefV4_rejects_cycle (env : Env) (hlaw : env.Lawful) (p : Parser)
    (xrefpos : Int) :
    (∀ i j a, i < j → Parser.prevChainV4 env xrefpos i = some a →
      Parser.prevChainV4 env xrefpos j = some a → a ≠ 0 →
      ∃ q, Parser.LoadAllCrossRefV4 env p xrefpos = some (false, q)) ∧
    (∀ b crl xsl q, Parser.LoadAllCrossRefV4_chain env p xrefpos = some (b, crl, xsl, q) →
      crl.Nodup) := by
  refine ⟨?_, ?_⟩
  · intro i j a hij hi hj ha
    unfold Parser.LoadAllCrossRefV4 Parser.LoadAllCrossRefV4_chain
    have hload := Parser.LoadCrossRefV4_ends env hlaw p xrefpos 0 true
    cases hl : Parser.LoadCrossRefV4 env p xrefpos 0 true with
    | none => exact absurd hl hload
    | some res =>
      obtain ⟨b, p1⟩ := res
      cases b with
      | false => exact ⟨p1, rfl⟩
      | true =>
        simp only
        have hprev := Parser.prevOfSection_eq env p p1 xrefpos true hl
        cases htr : Parser.LoadTrailerV4 env p1 with
        | mk d p2 =>
          cases d with
          | none => exact ⟨p2, rfl⟩
          | some trailer =>
            simp only
            rw [htr] at hprev
            simp only [Option.map_some'] at hprev
            have hgt : (if GetDirectInteger (p2.pushCurrentTrailer trailer).GetTrailer "Size" > 0 ∧
                GetDirectInteger (p2.pushCurrentTrailer trailer).GetTrailer "Size"
                  ≤ Parser.kMaxXRefSize
                then (p2.pushCurrentTrailer trailer).ShrinkObjectMap
                  (GetDirectInteger (p2.pushCurrentTrailer trailer).GetTrailer "Size").toNat
                else p2.pushCurrentTrailer trailer).GetTrailer = some trailer := by
              split_ifs
              · rw [Parser.GetTrailer_ShrinkObjectMap]
                exact Parser.GetTrailer_pushCurrentTrailer _ _
              · exact Parser.GetTrailer_pushCurrentTrailer _ _
            rw [hgt]
            have hends := Parser.chaseV4_ends env hlaw Parser.chaseRounds
              (GetDirectInteger (some trailer) "Prev") [xrefpos] [xrefpos]
              [GetDirectInteger (some trailer) "XRefStm"]
              (if GetDirectInteger (p2.pushCurrentTrailer trailer).GetTrailer "Size" > 0 ∧
                GetDirectInteger (p2.pushCurrentTrailer trailer).GetTrailer "Size"
                  ≤ Parser.kMaxXRefSize
                then (p2.pushCurrentTrailer trailer).ShrinkObjectMap
                  (GetDirectInteger (p2.pushCurrentTrailer trailer).GetTrailer "Size").toNat
                else p2.pushCurrentTrailer trailer)
              (GetDirectInteger_mem _ _)
              (by have := unseenCount_le [xrefpos]; unfold Parser.chaseRounds; omega)
            cases hc : Parser.chaseV4 env Parser.chaseRounds
              (GetDirectInteger (some trailer) "Prev") [xrefpos] [xrefpos]
              [GetDirectInteger (some trailer) "XRefStm"]
              (if GetDirectInteger (p2.pushCurrentTrailer trailer).GetTrailer "Size" > 0 ∧
                GetDirectInteger (p2.pushCurrentTrailer trailer).GetTrailer "Size"
                  ≤ Parser.kMaxXRefSize
                then (p2.pushCurrentTrailer trailer).ShrinkObjectMap
                  (GetDirectInteger (p2.pushCurrentTrailer trailer).GetTrailer "Size").toNat
                else p2.pushCurrentTrailer trailer) with
            | none => exact absurd hc hends
            | some r =>
              have hchain1 : Parser.prevChainV4 env xrefpos 1
                  = some (GetDirectInteger (some trailer) "Prev") := by
                simp only [Parser.prevChainV4]
                rw [if_neg (by omega)]
                exact hprev
              have hfalse := Parser.chaseV4_cycle env xrefpos _ 1 _ _ _ _ _ r (le_refl 1) hchain1
                (by
                  intro m hm
                  have : m = 0 := by omega
                  subst this
                  exact ⟨xrefpos, rfl, List.mem_cons_self _ _⟩)
                ⟨i, j, a, hij, by omega, hi, hj, ha⟩ hc
              obtain ⟨rb, rc, rx, rp⟩ := r
              simp only at hfalse
              subst hfalse
              exact ⟨rp, rfl⟩
  · intro b crl xsl q h
    unfold Parser.LoadAllCrossRefV4_chain at h
    split at h
    · simp at h
    · simp only [Option.some.injEq, Prod.mk.injEq] at h
      rw [← h.2.1]; exact List.nodup_nil
    · split at h
      · simp only [Option.some.injEq, Prod.mk.injEq] at h
        rw [← h.2.1]; exact List.nodup_nil
      · have := Parser.chaseV4_nodup env _ _ [xrefpos] _ _ _ (List.nodup_singleton _) h
        exact this

theorem tableGet_cases {α : Type} (t : List (Int × α)) (pos : Int) (d : α) :
    tableGet t pos d = d ∨ ∃ e ∈ t, e.1 = pos ∧ tableGet t pos d = e.2 := by
  unfold tableGet
  cases h : t.find? (fun e => decide (e.1 = pos)) with
  | none => exact Or.inl rfl
  | some e =>
    right
    refine ⟨e, List.mem_of_find?_eq_some h, ?_, rfl⟩
    have := List.find?_some h
    simpa using this

/-- The collaborators of a sample file are lawful when each word of its table
ends after the position it starts at and starts inside the text, and no number
or skip of its tables moves backwards. -/
theorem SampleFile.env_lawful (f : SampleFile)
    (hw : ∀ e ∈ f.words, e.1 < e.2.2 ∧ e.1 < ((bytesOf f.text).length : Int))
    (hn : ∀ e ∈ f.nums, e.1 ≤ e.2.2) (hs : ∀ e ∈ f.skips, e.1 ≤ e.2) : f.env.Lawful where
  word_progress := by
    intro p hp
    simp only [SampleFile.env] at hp ⊢
    rcases tableGet_cases f.words p (("", false), p) with h | ⟨e, he, hep, h⟩
    · rw [h] at hp; simp at hp
    · rw [h]
      have := hw e he
      rw [hep] at this
      exact ⟨this.1, by simpa [Env.m_FileLen] using this.2⟩
  num_progress := by
    intro p
    simp only [SampleFile.env]
    rcases tableGet_cases f.nums p (0, p) with h | ⟨e, he, hep, h⟩
    · rw [h]
    · rw [h]
      have := hn e he
      rw [hep] at this
      exact this
  skip_progress := by
    intro p
    simp only [SampleFile.env]
    rcases tableGet_cases f.skips p p with h | ⟨e, he, hep, h⟩
    · rw [h]
    · rw [h]
      have := hs e he
      rw [hep] at this
      exact this
  setpos_progress := by
    intro p
    simp only [SampleFile.env, Env.m_FileLen]
    exact le_refl _

set_option maxRecDepth 100000 in
/-- Witness of C5: the sample file `fileC`, whose first section has `/Prev`
equal to its own offset 22. -/
theorem LoadAllCrossRefV4_rejects_cycle_witness :
    ∃ q, fileC.env.Lawful ∧ Parser.prevChainV4 fileC.env 22 0 = some 22 ∧
      Parser.prevChainV4 fileC.env 22 1 = some 22 ∧
      Parser.LoadAllCrossRefV4 fileC.env Parser.init 22 = some (false, q) := by
  have hlaw : fileC.env.Lawful :=
    SampleFile.env_lawful fileC (by decide) (by decide) (by decide)
  have h0 : Parser.prevChainV4 fileC.env 22 0 = some 22 := by decide
  have h1 : Parser.prevChainV4 fileC.env 22 1 = some 22 := by decide
  obtain ⟨q, hq⟩ := (LoadAllCrossRefV4_rejects_cycle fileC.env hlaw Parser.init 22).1 0 1 22
    (by decide) h0 h1 (by decide)
  exact ⟨q, hlaw, h0, h1, hq⟩

/-! ## Circular `/Prev` in cross-reference streams -/

namespace Parser

theorem ParseIndirectObjectAt_fst (env : Env) (p p2 : Parser) (pos : Int) (objnum : Nat) :
    (ParseIndirectObjectAt env p pos objnum).1 = (ParseIndirectObjectAt env p2 pos objnum).1 := by
  unfold ParseIndirectObjectAt
  simp only
  repeat' split
  all_goals rfl

theorem loadXRefStream_pos (env : Env) (p : Parser) (pDict : CPDF_Dictionary)
    (pData : List Nat) (b : Bool) :
    (loadXRefStream env p pDict pData b).2.1 = GetIntegerFor env pDict "Prev" := by
  unfold loadXRefStream
  simp only
  split_ifs
  · rfl
  · split
    · rfl
    · split_ifs <;> rfl

/-- What a load of a cross-reference stream leaves in `*pos` does not depend
on the parser nor on the mode. -/
theorem LoadCrossRefV5_pos (env : Env) (p : Parser) (pos : Int) (b : Bool) :
    (LoadCrossRefV5 env p pos b).2.1 = prevOfStream env pos := by
  unfold prevOfStream LoadCrossRefV5
  have hfst := ParseIndirectObjectAt_fst env p Parser.init pos 0
  cases hp : ParseIndirectObjectAt env p pos 0 with
  | mk o p1 =>
    cases hq : ParseIndirectObjectAt env Parser.init pos 0 with
    | mk o2 q1 =>
      rw [hp, hq] at hfst
      simp only at hfst
      subst hfst
      cases o with
      | none => rfl
      | some pObject =>
        simp only
        by_cases h1 : pObject.m_ObjNum = 0
        · rw [if_pos h1, if_pos h1]
        · rw [if_neg h1, if_neg h1]
          by_cases h2 : env.hasDocument = true ∧
              (env.DocRootObjNum = some pObject.m_ObjNum ∨
                env.ReplaceIndirectObjectIfHigherGeneration pObject.m_ObjNum pObject = false)
          · rw [if_pos h2, if_pos h2]
          · rw [if_neg h2, if_neg h2]
            cases pObject.obj with
            | stream pDict pData =>
              simp only
              rw [loadXRefStream_pos, loadXRefStream_pos]
            | _ => rfl

theorem prevOfStream_mem (env : Env) (p : Parser) (pos pos1 : Int) (b : Bool) (q : Parser)
    (h : LoadCrossRefV5 env p pos b = (true, pos1, q)) : pos1 ∈ int32Range := by
  obtain ⟨pDict, pData, h2⟩ := LoadCrossRefV5_true h
  have := loadXRefStream_pos env { p with m_Pos := env.SetPos p.m_Pos } pDict pData b
  rw [h2] at this
  simp only at this
  rw [this]
  exact GetIntegerFor_mem _ _ _

/-- The loop of `LoadAllCrossRefV5` ends: every round meets a C `int` that it
has not met before. -/
theorem chaseV5_ends (env : Env) (fuel : Nat) (xrefpos : Int) (seen : List Int) (p : Parser)
    (hx : xrefpos ∈ int32Range) (hn : xrefpos ∉ seen) (hfuel : unseenCount seen < fuel) :
    chaseV5 env fuel xrefpos seen p ≠ none := by
  induction fuel generalizing p xrefpos seen with
  | zero => omega
  | succ n ih =>
    simp only [chaseV5]
    by_cases h1 : xrefpos = 0
    · rw [if_pos h1]; simp
    · rw [if_neg h1, if_neg hn]
      split
      · simp
      · rename_i xrefpos1 p1 heq
        by_cases h2 : xrefpos1 ∈ xrefpos :: seen
        · rw [if_pos h2]; simp
        · rw [if_neg h2]
          apply ih
          · exact prevOfStream_mem env p xrefpos xrefpos1 false p1 heq
          · exact h2
          · have := unseenCount_cons seen xrefpos hx hn
            omega

theorem prevChainV5_none (env : Env) (xrefpos : Int) (k m : Nat) (hkm : k ≤ m)
    (h : prevChainV5 env xrefpos k = none) : prevChainV5 env xrefpos m = none := by
  induction m with
  | zero =>
    have : k = 0 := by omega
    rw [this] at h; exact h
  | succ n ih =>
    by_cases hk : k = n + 1
    · rw [← hk]; exact h
    · have := ih (by omega)
      simp [prevChainV5, this]

/-- The loop of `LoadAllCrossRefV5` returns false when the chain of `/Prev`
comes back, after the main stream, to an offset that is not 0. -/
theorem chaseV5_cycle (env : Env) (x0 : Int) (fuel k : Nat) (xrefpos : Int)
    (seen : List Int) (p : Parser) (r : Bool × Parser)
    (hk : 1 ≤ k) (hchain : prevChainV5 env x0 k = some xrefpos)
    (hseen : ∀ m, 1 ≤ m → m < k → ∃ y, prevChainV5 env x0 m = some y ∧ y ∈ seen)
    (hcyc : ∃ i j a, 1 ≤ i ∧ i < j ∧ k < j ∧ prevChainV5 env x0 i = some a ∧
      prevChainV5 env x0 j = some a ∧ a ≠ 0)
    (h : chaseV5 env fuel xrefpos seen p = some r) : r.1 = false := by
  induction fuel generalizing p xrefpos seen k with
  | zero => simp [chaseV5] at h
  | succ n ih =>
    obtain ⟨i, j, a, hi1, hij, hkj, hi, hj, ha⟩ := hcyc
    simp only [chaseV5] at h
    by_cases h1 : xrefpos = 0
    · exfalso
      have hnext : prevChainV5 env x0 (k + 1) = none := by
        simp only [prevChainV5, hchain]
        rw [if_pos ⟨hk, h1⟩]
      have := prevChainV5_none env x0 (k + 1) j (by omega) hnext
      rw [this] at hj
      simp at hj
    · rw [if_neg h1] at h
      split at h
      · simp only [Option.some.injEq] at h
        rw [← h]
      · rename_i xrefpos1 p1 heq
        have hpos := LoadCrossRefV5_pos env p xrefpos false
        rw [heq] at hpos
        simp only at hpos
        have hnext : prevChainV5 env x0 (k + 1) = some xrefpos1 := by
          simp only [prevChainV5, hchain]
          rw [if_neg (fun hc => h1 hc.2), hpos]
        have hmem : ∀ m, 1 ≤ m → m < k + 1 → ∃ y, prevChainV5 env x0 m = some y ∧
            y ∈ (if xrefpos ∈ seen then seen else xrefpos :: seen) := by
          intro m hm1 hm
          by_cases hmk : m = k
          · refine ⟨xrefpos, by rw [hmk]; exact hchain, ?_⟩
            split_ifs with hin
            · exact hin
            · exact List.mem_cons_self _ _
          · obtain ⟨y, hy, hys⟩ := hseen m hm1 (by omega)
            refine ⟨y, hy, ?_⟩
            split_ifs
            · exact hys
            · exact List.mem_cons_of_mem _ hys
        by_cases h2 : xrefpos1 ∈ (if xrefpos ∈ seen then seen else xrefpos :: seen)
        · rw [if_pos h2] at h
          simp only [Option.some.injEq] at h
          rw [← h]
        · rw [if_neg h2] at h
          have hjk : j ≠ k + 1 := by
            intro hjk
            rw [hjk, hnext] at hj
            simp only [Option.some.injEq] at hj
            obtain ⟨y, hy, hys⟩ := hmem i hi1 (by omega)
            rw [hi] at hy
            simp only [Option.some.injEq] at hy
            rw [← hy, ← hj] at hys
            exact h2 hys
          exact ih (k + 1) _ _ _ (by omega) hnext hmem
            ⟨i, j, a, hi1, hij, by omega, hi, hj, ha⟩ h

end Parser

/-- C6: `LoadAllCrossRefV5` always returns, and it never returns true on a
cyclic chain of `/Prev`: whenever offsets number `i < j` of the chain that
starts at the main stream are the same offset (not 0), the offset of the main
stream itself included (`i = 0`), the call returns false, within the rounds of
its loop. -/
theorem LoadAllCrossRefV5_rejects_cycle (env : Env) (p : Parser) (xrefpos : Int) :
    (∃ r, Parser.LoadAllCrossRefV5 env p xrefpos = some r) ∧
    (∀ i j a, i < j → Parser.prevChainV5 env xrefpos i = some a →
      Parser.prevChainV5 env xrefpos j = some a → a ≠ 0 →
      ∃ q, Parser.LoadAllCrossRefV5 env p xrefpos = some (false, q)) := by
  unfold Parser.LoadAllCrossRefV5
  cases hmain : Parser.LoadCrossRefV5 env p xrefpos true with
  | mk b rest =>
    obtain ⟨x1, p1⟩ := rest
    cases b with
    | false => exact ⟨⟨_, rfl⟩, fun _ _ _ _ _ _ _ => ⟨p1, rfl⟩⟩
    | true =>
      simp only
      have hx1 : x1 ∈ int32Range := Parser.prevOfStream_mem env p xrefpos x1 true p1 hmain
      have hends := Parser.chaseV5_ends env Parser.chaseRounds x1 [] p1 hx1 (by simp)
        (by have := unseenCount_le []; unfold Parser.chaseRounds; omega)
      cases hc : Parser.chaseV5 env Parser.chaseRounds x1 [] p1 with
      | none => exact absurd hc hends
      | some r =>
        obtain ⟨rb, rp⟩ := r
        refine ⟨?_, ?_⟩
        · cases rb
          · exact ⟨_, rfl⟩
          · exact ⟨_, rfl⟩
        · intro i j a hij hi hj ha
          have hpos := Parser.LoadCrossRefV5_pos env p xrefpos true
          rw [hmain] at hpos
          simp only at hpos
          have hchain1 : Parser.prevChainV5 env xrefpos 1 = some x1 := by
            simp only [Parser.prevChainV5]
            rw [if_neg (by omega), hpos]
          have hcyc : ∃ i j a, 1 ≤ i ∧ i < j ∧ 1 < j ∧ Parser.prevChainV5 env xrefpos i = some a ∧
              Parser.prevChainV5 env xrefpos j = some a ∧ a ≠ 0 := by
            by_cases hi0 : i = 0
            · subst hi0
              simp only [Parser.prevChainV5, Option.some.injEq] at hi
              subst hi
              have hnext : Parser.prevChainV5 env xrefpos (j + 1) = some x1 := by
                simp only [Parser.prevChainV5, hj]
                rw [if_neg (fun hc => ha hc.2), hpos]
              have hx1ne : x1 ≠ 0 := by
                intro hz
                by_cases hj1 : j = 1
                · rw [hj1, hchain1] at hj
                  simp only [Option.some.injEq] at hj
                  exact ha (hj ▸ hz)
                · have h2 : Parser.prevChainV5 env xrefpos 2 = none := by
                    simp only [Parser.prevChainV5]
                    simp [hz, hpos ▸ hz]
                  have := Parser.prevChainV5_none env xrefpos 2 j (by omega) h2
                  rw [this] at hj
                  simp at hj
              exact ⟨1, j + 1, x1, le_refl 1, by omega, by omega, hchain1, hnext, hx1ne⟩
            · exact ⟨i, j, a, by omega, hij, by omega, hi, hj, ha⟩
          have hfalse := Parser.chaseV5_cycle env xrefpos _ 1 x1 [] p1 (rb, rp) (le_refl 1)
            hchain1 (by intro m h1 h2; omega) hcyc hc
          simp only at hfalse
          subst hfalse
          exact ⟨rp, rfl⟩

set_option maxRecDepth 100000 in
/-- An instance of C6: the sample file `fileD`, whose main stream has `/Prev`
equal to its own offset 9. -/
theorem LoadAllCrossRefV5_rejects_cycle_witness :
    ∃ q, Parser.prevChainV5 fileD.env 9 0 = some 9 ∧
      Parser.prevChainV5 fileD.env 9 1 = some 9 ∧
      Parser.LoadAllCrossRefV5 fileD.env Parser.init 9 = some (false, q) := by
  have h0 : Parser.prevChainV5 fileD.env 9 0 = some 9 := by decide
  have h1 : Parser.prevChainV5 fileD.env 9 1 = some 9 := by decide
  obtain ⟨q, hq⟩ := (LoadAllCrossRefV5_rejects_cycle fileD.env Parser.init 9).2 0 1 9
    (by decide) h0 h1 (by decide)
  exact ⟨q, h0, h1, hq⟩

/-! ## What an accepted entry of a cross-reference stream does -/

namespace Parser

/-- The five ways in which `LoadCrossRefV5` accepts an entry for object `k`:
the record is a container (kind Null) and gets the offset of the entry; the
record is neither Null nor Free and nothing is done; the record is Free and
becomes Free with offset 0, or Direct at the offset of the entry, or of
another kind `t` with a valid container number `v`, whose record gets kind
Null. -/
theorem xrefStreamEntry_cases (p : Parser) (W0 W1 k : Nat) (entry : List Nat) (q : Parser)
    (h : xrefStreamEntry p W0 W1 k entry = (true, q)) :
    (p.GetObjectType k = ObjectType.kNull ∧ ∃ off : Nat,
      q = { p with m_ObjectInfo := ObjectMap.setPos p.m_ObjectInfo k (off : Int),
                   m_SortedOffset := insertOffset p.m_SortedOffset (off : Int) }) ∨
    (p.GetObjectType k ≠ ObjectType.kNull ∧ p.GetObjectType k ≠ ObjectType.kFree ∧ q = p) ∨
    (p.GetObjectType k = ObjectType.kFree ∧
      q = { p with m_ObjectInfo :=
        (ObjectMap.setPos (ObjectMap.setType p.m_ObjectInfo k ObjectType.kFree) k 0) }) ∨
    (p.GetObjectType k = ObjectType.kFree ∧ ∃ v : Nat,
      q = { p with m_SortedOffset := insertOffset p.m_SortedOffset (v : Int),
                   m_ObjectInfo := (ObjectMap.setPos
                    (ObjectMap.setType p.m_ObjectInfo k ObjectType.kNotCompressed) k (v : Int)) }) ∨
    (p.GetObjectType k = ObjectType.kFree ∧ ∃ (t : ObjectType) (v : Nat),
      t ≠ ObjectType.kFree ∧ t ≠ ObjectType.kNotCompressed ∧
      IsValidObjectNumber { p with m_ObjectInfo :=
        (ObjectMap.setPos (ObjectMap.setType p.m_ObjectInfo k t) k (v : Int)) } v = true ∧
      q = { p with m_ObjectInfo := (ObjectMap.setType
        (ObjectMap.setPos (ObjectMap.setType p.m_ObjectInfo k t) k (v : Int)) v
          ObjectType.kNull) }) := by
  unfold xrefStreamEntry at h
  simp only at h
  by_cases hN : p.GetObjectType k = ObjectType.kNull
  · rw [if_pos hN] at h
    simp only [Prod.mk.injEq, true_and] at h
    exact Or.inl ⟨hN, _, h.symm⟩
  · rw [if_neg hN] at h
    by_cases hF : p.GetObjectType k ≠ ObjectType.kFree
    · rw [if_pos hF] at h
      simp only [Prod.mk.injEq, true_and] at h
      exact Or.inr (Or.inl ⟨hN, hF, h.symm⟩)
    · rw [if_neg hF] at h
      have hF2 : p.GetObjectType k = ObjectType.kFree := not_not.mp hF
      generalize (if W0 ≠ 0 then
        GetObjectTypeFromCrossRefStreamType (toInt32 (GetVarInt entry (toInt32 W0)))
        else ObjectType.kNotCompressed) = t at h
      by_cases ht : t = ObjectType.kFree
      · rw [if_pos ht] at h
        simp only [Prod.mk.injEq, true_and] at h
        subst ht
        exact Or.inr (Or.inr (Or.inl ⟨hF2, h.symm⟩))
      · rw [if_neg ht] at h
        by_cases ht2 : t = ObjectType.kNotCompressed
        · rw [if_pos ht2] at h
          simp only [Prod.mk.injEq, true_and] at h
          subst ht2
          exact Or.inr (Or.inr (Or.inr (Or.inl ⟨hF2, _, h.symm⟩)))
        · rw [if_neg ht2] at h
          generalize GetVarInt (List.drop W0 entry) (toInt32 W1) = v at h
          simp only [Int.toNat_ofNat] at h
          by_cases hv : ((v : Int) < 0 ∨ IsValidObjectNumber
              { p with m_ObjectInfo :=
                (ObjectMap.setPos (ObjectMap.setType p.m_ObjectInfo k t) k (v : Int)) } v = false)
          · rw [if_pos hv] at h
            simp at h
          · rw [if_neg hv] at h
            simp only [Prod.mk.injEq, true_and] at h
            have hvalid : IsValidObjectNumber
                { p with m_ObjectInfo :=
                  (ObjectMap.setPos (ObjectMap.setType p.m_ObjectInfo k t) k (v : Int)) } v
                = true := by
              by_contra hc
              exact hv (Or.inr (by simpa using hc))
            exact Or.inr (Or.inr (Or.inr (Or.inr ⟨hF2, t, v, ht, ht2, hvalid, h.symm⟩)))

end Parser

/-! ## Compressed records and their containers -/

namespace ObjectMap

theorem ValidIn_set (m : ObjectMap) (k : Nat) (v : ObjectInfo) (n : Nat) (hwf : WF m)
    (h : ValidIn m n) : ValidIn (set m k v) n := by
  obtain ⟨j, hj, hn⟩ := h
  obtain ⟨j2, hj2, -, hle⟩ := lastKey_set m k v hwf
  exact ⟨j2, hj2, le_trans hn (hle j hj)⟩

theorem Contained_set (m : ObjectMap) (k : Nat) (v : ObjectInfo) (hwf : WF m)
    (hc : Contained m)
    (hv : v.type = ObjectType.kCompressed → 0 ≤ v.pos ∧ ValidIn (set m k v) v.pos.toNat ∧
      ∃ c, find (set m k v) v.pos.toNat = some c ∧ c.type = ObjectType.kNull)
    (hk : v.type = ObjectType.kNull ∨ ∀ c, find m k = some c → c.type ≠ ObjectType.kNull) :
    Contained (set m k v) := by
  intro N r hfind hcomp
  rw [find_set] at hfind
  by_cases hkN : k = N
  · rw [if_pos hkN] at hfind
    simp only [Option.some.injEq] at hfind
    subst hfind
    exact hv hcomp
  · rw [if_neg hkN] at hfind
    obtain ⟨h0, hvalid, c0, hc0, hnull⟩ := hc N r hfind hcomp
    refine ⟨h0, ValidIn_set m k v _ hwf hvalid, ?_⟩
    rw [find_set]
    by_cases hkc : k = r.pos.toNat
    · rw [if_pos hkc]
      rcases hk with hk | hk
      · exact ⟨v, rfl, hk⟩
      · rw [← hkc] at hc0
        exact absurd hnull (hk c0 hc0)
    · rw [if_neg hkc]
      exact ⟨c0, hc0, hnull⟩

theorem find_retagFree (m : ObjectMap) (N : Nat) :
    find (Parser.retagFree m) N
      = (find m N).map (fun r => { r with type := ObjectType.kFree }) := by
  induction m with
  | nil => rfl
  | cons e rest ih =>
    obtain ⟨k1, v1⟩ := e
    by_cases h : k1 = N
    · simp [Parser.retagFree, find, h]
    · have ih2 : find (List.map (fun e => (e.1, { e.2 with type := ObjectType.kFree })) rest) N
          = (find rest N).map (fun r => { r with type := ObjectType.kFree }) := ih
      simp [Parser.retagFree, find, h, ih2]

theorem WF_retagFree (m : ObjectMap) (h : WF m) : WF (Parser.retagFree m) := by
  unfold WF Parser.retagFree at *
  rw [List.map_map]
  exact h

theorem Contained_retagFree (m : ObjectMap) : Contained (Parser.retagFree m) := by
  intro N r hfind hcomp
  rw [find_retagFree] at hfind
  cases hm : find m N with
  | none => rw [hm] at hfind; simp at hfind
  | some r0 =>
    rw [hm] at hfind
    simp only [Option.map_some', Option.some.injEq] at hfind
    rw [← hfind] at hcomp
    simp at hcomp

end ObjectMap

namespace Parser

theorem IsValidObjectNumber_iff (p : Parser) (n : Nat) :
    p.IsValidObjectNumber n = true ↔ ObjectMap.ValidIn p.m_ObjectInfo n := by
  unfold IsValidObjectNumber ObjectMap.ValidIn
  cases ObjectMap.lastKey p.m_ObjectInfo with
  | none => simp
  | some j => simp

theorem GetObjectType_eq_kNull (p : Parser) (k : Nat)
    (h : p.GetObjectType k = ObjectType.kNull) :
    ∃ c, ObjectMap.find p.m_ObjectInfo k = some c ∧ c.type = ObjectType.kNull := by
  unfold GetObjectType at h
  cases hf : ObjectMap.find p.m_ObjectInfo k with
  | none => rw [hf] at h; simp at h
  | some c => rw [hf] at h; exact ⟨c, rfl, h⟩

theorem GetObjectType_eq_kFree (p : Parser) (k : Nat)
    (h : p.GetObjectType k = ObjectType.kFree) :
    ∀ c, ObjectMap.find p.m_ObjectInfo k = some c → c.type = ObjectType.kFree := by
  intro c hc
  unfold GetObjectType at h
  rw [hc] at h
  exact h

/-- An accepted entry keeps the invariant: Compressed records keep a valid
container of kind Null. -/
theorem ContainerInv_entry (p : Parser) (W0 W1 k : Nat) (entry : List Nat) (q : Parser)
    (h : xrefStreamEntry p W0 W1 k entry = (true, q)) (hinv : p.ContainerInv) :
    q.ContainerInv := by
  obtain ⟨hwf, hc⟩ := hinv
  rcases xrefStreamEntry_cases p W0 W1 k entry q h with
    ⟨hN, off, hq⟩ | ⟨-, -, hq⟩ | ⟨hF, hq⟩ | ⟨hF, v, hq⟩ | ⟨hF, t, v, ht1, ht2, hvalid, hq⟩
  · subst hq
    obtain ⟨c, hfc, hcn⟩ := GetObjectType_eq_kNull p k hN
    have href : ObjectMap.ref p.m_ObjectInfo k = c := by simp [ObjectMap.ref, hfc]
    refine ⟨ObjectMap.WF_set _ _ _ hwf, ObjectMap.Contained_set _ _ _ hwf hc ?_ (Or.inl ?_)⟩
    · intro hcomp
      rw [href] at hcomp
      simp only at hcomp
      rw [hcn] at hcomp
      cases hcomp
    · rw [href]; exact hcn
  · subst hq; exact ⟨hwf, hc⟩
  · subst hq
    have hfree := GetObjectType_eq_kFree p k hF
    have hwf1 : ObjectMap.WF (ObjectMap.setType p.m_ObjectInfo k ObjectType.kFree) :=
      ObjectMap.WF_set _ _ _ hwf
    have hc1 : ObjectMap.Contained (ObjectMap.setType p.m_ObjectInfo k ObjectType.kFree) :=
      ObjectMap.Contained_set _ _ _ hwf hc (by intro hcomp; cases hcomp)
        (Or.inr (fun c hfc => by rw [hfree c hfc]; decide))
    refine ⟨ObjectMap.WF_set _ _ _ hwf1, ObjectMap.Contained_set _ _ _ hwf1 hc1 ?_ (Or.inr ?_)⟩
    · intro hcomp
      rw [ObjectMap.ref_setType] at hcomp
      cases hcomp
    · intro c hfc
      rw [ObjectMap.find_setType, if_pos rfl] at hfc
      simp only [Option.some.injEq] at hfc
      rw [← hfc]; simp
  · subst hq
    have hfree := GetObjectType_eq_kFree p k hF
    have hwf1 : ObjectMap.WF (ObjectMap.setType p.m_ObjectInfo k ObjectType.kNotCompressed) :=
      ObjectMap.WF_set _ _ _ hwf
    have hc1 : ObjectMap.Contained
        (ObjectMap.setType p.m_ObjectInfo k ObjectType.kNotCompressed) :=
      ObjectMap.Contained_set _ _ _ hwf hc (by intro hcomp; cases hcomp)
        (Or.inr (fun c hfc => by rw [hfree c hfc]; decide))
    refine ⟨ObjectMap.WF_set _ _ _ hwf1, ObjectMap.Contained_set _ _ _ hwf1 hc1 ?_ (Or.inr ?_)⟩
    · intro hcomp
      rw [ObjectMap.ref_setType] at hcomp
      cases hcomp
    · intro c hfc
      rw [ObjectMap.find_setType, if_pos rfl] at hfc
      simp only [Option.some.injEq] at hfc
      rw [← hfc]; simp
  · subst hq
    have hfree := GetObjectType_eq_kFree p k hF
    have hwf1 : ObjectMap.WF (ObjectMap.setType p.m_ObjectInfo k t) := ObjectMap.WF_set _ _ _ hwf
    have hwf2 : ObjectMap.WF (ObjectMap.setPos (ObjectMap.setType p.m_ObjectInfo k t) k (v : Int)) :=
      ObjectMap.WF_set _ _ _ hwf1
    have hwf3 := ObjectMap.WF_set _ v
      { ObjectMap.ref (ObjectMap.setPos (ObjectMap.setType p.m_ObjectInfo k t) k (v : Int)) v
        with type := ObjectType.kNull } hwf2
    have hv2 : ObjectMap.ValidIn
        (ObjectMap.setPos (ObjectMap.setType p.m_ObjectInfo k t) k (v : Int)) v :=
      (IsValidObjectNumber_iff _ _).mp hvalid
    refine ⟨hwf3, ?_⟩
    intro N r hfind hcomp
    simp only [ObjectMap.setType] at hfind ⊢
    rw [ObjectMap.find_set] at hfind
    by_cases hvN : v = N
    · rw [if_pos hvN] at hfind
      simp only [Option.some.injEq] at hfind
      rw [← hfind] at hcomp
      cases hcomp
    · rw [if_neg hvN] at hfind
      have hcont : ∀ c : Nat, (c = v ∨ ∃ c0, ObjectMap.find p.m_ObjectInfo c = some c0 ∧
          c0.type = ObjectType.kNull) → ∃ c1, ObjectMap.find (ObjectMap.set
            (ObjectMap.setPos (ObjectMap.set p.m_ObjectInfo k
              { ObjectMap.ref p.m_ObjectInfo k with type := t }) k (v : Int)) v
            { ObjectMap.ref (ObjectMap.setPos (ObjectMap.set p.m_ObjectInfo k
                { ObjectMap.ref p.m_ObjectInfo k with type := t }) k (v : Int)) v
              with type := ObjectType.kNull }) c = some c1 ∧ c1.type = ObjectType.kNull := by
        intro c hcase
        rw [ObjectMap.find_set]
        by_cases hvc : v = c
        · rw [if_pos hvc]; exact ⟨_, rfl, rfl⟩
        · rw [if_neg hvc]
          rcases hcase with hcase | ⟨c0, hc0, hnull⟩
          · exact absurd hcase.symm hvc
          · rw [ObjectMap.find_setPos]
            by_cases hkc : k = c
            · subst hkc
              have := hfree c0 hc0
              rw [this] at hnull
              cases hnull
            · rw [if_neg hkc, ObjectMap.find_set, if_neg hkc]
              exact ⟨c0, hc0, hnull⟩
      rw [ObjectMap.find_setPos] at hfind
      by_cases hkN : k = N
      · rw [if_pos hkN] at hfind
        simp only [Option.some.injEq] at hfind
        subst hfind
        refine ⟨by simp, ?_, ?_⟩
        · simp only [Int.toNat_ofNat]
          exact ObjectMap.ValidIn_set _ _ _ _ hwf2 hv2
        · simp only [Int.toNat_ofNat]
          exact hcont v (Or.inl rfl)
      · rw [if_neg hkN, ObjectMap.find_set, if_neg hkN] at hfind
        obtain ⟨h0, hvalid0, c0, hc0, hnull⟩ := hc N r hfind hcomp
        refine ⟨h0, ?_, hcont _ (Or.inr ⟨c0, hc0, hnull⟩)⟩
        exact ObjectMap.ValidIn_set _ _ _ _ hwf2
          (ObjectMap.ValidIn_set _ _ _ _ hwf1 (ObjectMap.ValidIn_set _ _ _ _ hwf hvalid0))

end Parser

namespace Parser

theorem chaseV5_rel {env : Env} {R : Parser → Parser → Prop} (hR : EntryRel R)
    (fuel : Nat) (xrefpos : Int) (seen : List Int) (p q : Parser)
    (h : chaseV5 env fuel xrefpos seen p = some (true, q)) : R p q := by
  induction fuel generalizing p xrefpos seen with
  | zero => simp [chaseV5] at h
  | succ n ih =>
    simp only [chaseV5] at h
    by_cases h1 : xrefpos = 0
    · rw [if_pos h1] at h
      simp only [Option.some.injEq, Prod.mk.injEq, true_and] at h
      rw [← h]; exact hR.refl p
    · rw [if_neg h1] at h
      split at h
      · simp at h
      · rename_i xrefpos1 p1 heq
        have hload := LoadCrossRefV5_rel hR _ _ _ _ heq
        split_ifs at h
        all_goals first
          | exact hR.trans _ _ _ hload (ih _ _ _ h)
          | simp at h

theorem ContainerInv_rel : EntryRel (fun p q => p.ContainerInv → q.ContainerInv) where
  refl := fun _ h => h
  trans := fun _ _ _ h1 h2 h => h2 (h1 h)
  pos := fun _ _ h => h
  start := fun _ _ h => h
  offset := fun _ _ h => h
  trailer := fun _ _ h => h
  entry := fun p W0 W1 k entry q h hinv => ContainerInv_entry p W0 W1 k entry q h hinv

/-- The main load starts from an index that satisfies the invariant: after the
re-tagging no record is Compressed. -/
theorem ContainerInv_main (p : Parser) (pDict : CPDF_Dictionary) (size : Int)
    (hwf : ObjectMap.WF p.m_ObjectInfo) : (pushXRefTrailer p pDict size true).ContainerInv := by
  unfold pushXRefTrailer
  simp only [if_true]
  exact ⟨ObjectMap.WF_retagFree _ (ObjectMap.WF_shrink _ _ hwf), ObjectMap.Contained_retagFree _⟩

end Parser

/-- C7: after `LoadAllCrossRefV5` returns true (called on an index with
increasing keys), for every object number `N` whose record has kind Compressed
the offset field of the record is a valid object number
(`IsValidObjectNumber`) and the record of that container object has kind
Null. -/
theorem LoadAllCrossRefV5_compressed_container (env : Env) (p q : Parser) (xrefpos : Int)
    (hwf : ObjectMap.WF p.m_ObjectInfo)
    (h : Parser.LoadAllCrossRefV5 env p xrefpos = some (true, q))
    (N : Nat) (r : ObjectInfo) (hfind : ObjectMap.find q.m_ObjectInfo N = some r)
    (hcomp : r.type = ObjectType.kCompressed) :
    0 ≤ r.pos ∧ q.IsValidObjectNumber r.pos.toNat = true ∧
      q.GetObjectType r.pos.toNat = ObjectType.kNull := by
  unfold Parser.LoadAllCrossRefV5 at h
  cases hmain : Parser.LoadCrossRefV5 env p xrefpos true with
  | mk b rest =>
    obtain ⟨x1, p1⟩ := rest
    rw [hmain] at h
    cases b with
    | false => simp at h
    | true =>
      simp only at h
      obtain ⟨pDict, pData, hstream⟩ := Parser.LoadCrossRefV5_true hmain
      obtain ⟨-, hrel⟩ := Parser.loadXRefStream_rel_from Parser.ContainerInv_rel _ _ _ _ _ _ hstream
      have hinv1 : p1.ContainerInv :=
        hrel (Parser.ContainerInv_main _ pDict _ hwf)
      cases hc : Parser.chaseV5 env Parser.chaseRounds x1 [] p1 with
      | none => rw [hc] at h; simp at h
      | some res =>
        obtain ⟨rb, p2⟩ := res
        rw [hc] at h
        cases rb with
        | false => simp at h
        | true =>
          simp only [Option.some.injEq, Prod.mk.injEq, true_and] at h
          have hinv2 : p2.ContainerInv :=
            Parser.chaseV5_rel Parser.ContainerInv_rel _ _ _ _ _ hc hinv1
          subst h
          obtain ⟨h0, hvalid, c, hcf, hcn⟩ := hinv2.2 N r hfind hcomp
          refine ⟨h0, ?_, ?_⟩
          · exact (Parser.IsValidObjectNumber_iff _ _).mpr hvalid
          · simp only [Parser.GetObjectType]
            rw [hcf]
            exact hcn

set_option maxRecDepth 100000 in
/-- The load of the sample file `fileF`: `LoadAllCrossRefV5` returns true and
leaves object 1 as a container (kind Null), object 2 Compressed in container 1
and object 3 Direct at offset 80. -/
theorem fileF_loaded :
    ∃ q, Parser.LoadAllCrossRefV5 fileF.env Parser.init 9 = some (true, q) ∧
      q.m_ObjectInfo =
        [(0, { pos := 0, type := ObjectType.kFree, gennum := 0 }),
         (1, { pos := 15, type := ObjectType.kNull, gennum := 0 }),
         (2, { pos := 1, type := ObjectType.kCompressed, gennum := 0 }),
         (3, { pos := 80, type := ObjectType.kNotCompressed, gennum := 0 })] := by
  have h : (match Parser.LoadAllCrossRefV5 fileF.env Parser.init 9 with
      | some (true, q) => decide (q.m_ObjectInfo =
          [(0, { pos := 0, type := ObjectType.kFree, gennum := 0 }),
           (1, { pos := 15, type := ObjectType.kNull, gennum := 0 }),
           (2, { pos := 1, type := ObjectType.kCompressed, gennum := 0 }),
           (3, { pos := 80, type := ObjectType.kNotCompressed, gennum := 0 })])
      | _ => false) = true := by decide
  split at h
  · rename_i q heq
    exact ⟨q, heq, of_decide_eq_true h⟩
  · simp at h

/-- Witness of C7: object 2 of the sample file `fileF`, Compressed in
container 1. -/
theorem LoadAllCrossRefV5_compressed_container_witness :
    ∃ q, ObjectMap.WF Parser.init.m_ObjectInfo ∧
      Parser.LoadAllCrossRefV5 fileF.env Parser.init 9 = some (true, q) ∧
      ObjectMap.find q.m_ObjectInfo 2
        = some { pos := 1, type := ObjectType.kCompressed, gennum := 0 } ∧
      ((0 : Int) ≤ 1 ∧ q.IsValidObjectNumber (1 : Int).toNat = true ∧
        q.GetObjectType (1 : Int).toNat = ObjectType.kNull) := by
  obtain ⟨q, h1, h2⟩ := fileF_loaded
  have hf : ObjectMap.find q.m_ObjectInfo 2
      = some { pos := 1, type := ObjectType.kCompressed, gennum := 0 } := by
    rw [h2]; decide
  exact ⟨q, by decide, h1, hf,
    LoadAllCrossRefV5_compressed_container fileF.env Parser.init q 9 (by decide) h1 2
      { pos := 1, type := ObjectType.kCompressed, gennum := 0 } hf rfl⟩

/-! ## The cross-reference stream scenario of the spec -/

set_option maxRecDepth 100000 in
/-- C10 (counterexample): the main load of the stream with `/Size 4`,
`/W [1 2 1]`, `/Index [0 4]` and the data `00 00 00 00 | 01 00 0F 00 |
02 00 34 01 | 01 00 50 00` on an empty index returns false, and object 3 is
left as the Free placeholder. -/
theorem LoadCrossRefV5_scenario_fails :
    (Parser.LoadCrossRefV5 fileE.env Parser.init 9 true).1 = false ∧
    ObjectMap.find (Parser.LoadCrossRefV5 fileE.env Parser.init 9 true).2.2.m_ObjectInfo 3
      = some { pos := 0, type := ObjectType.kFree, gennum := 0 } := by
  decide

set_option maxRecDepth 100000 in
/-- C10 (amended): the main load of the stream with `/Size 4`, `/W [1 2 1]`,
`/Index [0 4]` and the data `00 00 00 00 | 01 00 0F 00 | 02 00 34 01 |
01 00 50 00` on an empty index returns false, because the third entry names
container `0x34 = 52`, which is not a valid object number of an index of size 4
(the last object number is 3).  With the third entry `02 00 01 01` the load
succeeds and leaves object 3 with kind Direct at offset `0x50`, object 2 with
kind Compressed in container 1, and container 1 with kind Null; the index
within the container (field 2) is not recorded, the generation stays 0. -/
theorem LoadCrossRefV5_scenario_amended :
    ((Parser.LoadCrossRefV5 fileE.env Parser.init 9 true).1 = false ∧
      (Parser.LoadCrossRefV5 fileE.env Parser.init 9 true).2.2.GetLastObjNum = 3 ∧
      (Parser.LoadCrossRefV5 fileE.env Parser.init 9 true).2.2.IsValidObjectNumber 52 = false ∧
      Parser.GetVarInt [0, 52, 1] 2 = 52) ∧
    ((Parser.LoadCrossRefV5 fileF.env Parser.init 9 true).1 = true ∧
      (Parser.LoadCrossRefV5 fileF.env Parser.init 9 true).2.2.m_ObjectInfo =
        [(0, { pos := 0, type := ObjectType.kFree, gennum := 0 }),
         (1, { pos := 15, type := ObjectType.kNull, gennum := 0 }),
         (2, { pos := 1, type := ObjectType.kCompressed, gennum := 0 }),
         (3, { pos := 80, type := ObjectType.kNotCompressed, gennum := 0 })]) := by
  decide

/-! ## What a cross-reference stream that is not the main one leaves alone -/

namespace Parser

theorem xrefStreamEntries_relAll {R : Parser → Parser → Prop} (hR : EntryRelAll R)
    (W0 W1 totalWidth startnum : Nat) (segstart : List Nat) (l : List Nat) (p : Parser) :
    R p (xrefStreamEntries W0 W1 totalWidth startnum segstart l p).2 := by
  induction l generalizing p with
  | nil => exact hR.refl p
  | cons j rest ih =>
    simp only [xrefStreamEntries]
    have h1 := hR.entry p W0 W1 ((startnum + j) % 4294967296)
      (segstart.drop (j * totalWidth % 4294967296))
    cases hr : xrefStreamEntry p W0 W1 ((startnum + j) % 4294967296)
      (segstart.drop (j * totalWidth % 4294967296)) with
    | mk b q =>
      rw [hr] at h1
      cases b
      · exact h1
      · exact hR.trans _ _ _ h1 (ih q)

theorem xrefStreamSegments_relAll {R : Parser → Parser → Prop} (hR : EntryRelAll R)
    (W0 W1 totalWidth : Nat) (pData : List Nat) (dwTotalSize : Nat)
    (l : List (Int × Int)) (segindex : Nat) (p : Parser) :
    R p (xrefStreamSegments W0 W1 totalWidth pData dwTotalSize l segindex p).2 := by
  induction l generalizing p segindex with
  | nil => exact hR.refl p
  | cons a rest ih =>
    obtain ⟨startnum, cnt⟩ := a
    simp only [xrefStreamSegments]
    split_ifs with h1 h2 h3
    · exact ih _ _
    · exact hR.trans _ _ _ (hR.start p _) (ih _ _)
    · exact hR.trans _ _ _ (hR.start p _) (ih _ _)
    · have he := xrefStreamEntries_relAll hR W0 W1 totalWidth startnum.toNat
        (pData.drop (segindex * totalWidth % 4294967296)) (List.range cnt.toNat)
        { p with m_dwXrefStartObjNum := startnum.toNat }
      cases hr : xrefStreamEntries W0 W1 totalWidth startnum.toNat
        (pData.drop (segindex * totalWidth % 4294967296)) (List.range cnt.toNat)
        { p with m_dwXrefStartObjNum := startnum.toNat } with
      | mk b q =>
        rw [hr] at he
        cases b
        · exact hR.trans _ _ _ (hR.start p _) he
        · exact hR.trans _ _ _ (hR.start p _) (hR.trans _ _ _ he (ih _ _))

theorem loadXRefStream_relAll {env : Env} {R : Parser → Parser → Prop} (hR : EntryRelAll R)
    (p : Parser) (pDict : CPDF_Dictionary) (pData : List Nat) :
    R p (loadXRefStream env p pDict pData false).2.2 := by
  unfold loadXRefStream
  simp only
  split_ifs with h3
  · exact hR.refl p
  · have ht : R p (pushXRefTrailer p pDict (GetIntegerFor env pDict "Size") false) :=
      hR.trailer p pDict
    split
    · exact ht
    · split_ifs with h4
      · exact ht
      · exact hR.trans _ _ _ ht (xrefStreamSegments_relAll hR _ _ _ _ _ _ _ _)

/-- A load of a cross-reference stream that is not the main one respects every
such relation, whatever its result. -/
theorem LoadCrossRefV5_relAll {env : Env} {R : Parser → Parser → Prop} (hR : EntryRelAll R)
    (p : Parser) (pos : Int) : R p (LoadCrossRefV5 env p pos false).2.2 := by
  unfold LoadCrossRefV5
  have hst := ParseIndirectObjectAt_state env p pos 0
  cases hp : ParseIndirectObjectAt env p pos 0 with
  | mk o p1 =>
    rw [hp] at hst
    simp only at hst
    have hp1 : R p p1 := by rw [hst]; exact hR.pos p _
    cases o with
    | none => exact hp1
    | some pObject =>
      simp only
      split_ifs
      · exact hp1
      · exact hp1
      · cases pObject.obj with
        | stream pDict pData => exact hR.trans _ _ _ hp1 (loadXRefStream_relAll hR _ _ _)
        | _ => exact hp1

end Parser

namespace Parser

/-- An entry that makes `LoadCrossRefV5` return false has only written the
record of its own object number, which was Free. -/
theorem xrefStreamEntry_false (p : Parser) (W0 W1 k : Nat) (entry : List Nat) (q : Parser)
    (h : xrefStreamEntry p W0 W1 k entry = (false, q)) :
    p.GetObjectType k = ObjectType.kFree ∧ ∃ (t : ObjectType) (v : Int),
      q = { p with m_ObjectInfo :=
        (ObjectMap.setPos (ObjectMap.setType p.m_ObjectInfo k t) k v) } := by
  unfold xrefStreamEntry at h
  simp only at h
  by_cases hN : p.GetObjectType k = ObjectType.kNull
  · rw [if_pos hN] at h; simp at h
  · rw [if_neg hN] at h
    by_cases hF : p.GetObjectType k ≠ ObjectType.kFree
    · rw [if_pos hF] at h; simp at h
    · rw [if_neg hF] at h
      refine ⟨not_not.mp hF, ?_⟩
      split_ifs at h
      all_goals first
        | (simp only [Prod.mk.injEq, true_and] at h; exact ⟨_, _, h.symm⟩)
        | simp at h

theorem Kept_refl (p : Parser) : Kept p p :=
  fun _ r h => ⟨r, h, rfl, fun _ => Or.inl rfl, fun h2 => h2⟩

theorem Kept_trans (a b c : Parser) (h1 : Kept a b) (h2 : Kept b c) : Kept a c := by
  intro N r hr
  obtain ⟨r2, hf2, hg2, hd2, hn2⟩ := h1 N r hr
  obtain ⟨r3, hf3, hg3, hd3, hn3⟩ := h2 N r2 hf2
  refine ⟨r3, hf3, hg3.trans hg2, ?_, fun hnull => hn3 (hn2 hnull)⟩
  intro ht
  rcases hd2 ht with he | hnull
  · subst he
    exact hd3 ht
  · exact Or.inr (hn3 hnull)

theorem Kept_of_index (p q : Parser) (h : q.m_ObjectInfo = p.m_ObjectInfo) : Kept p q := by
  intro N r hr
  exact ⟨r, by rw [h]; exact hr, rfl, fun _ => Or.inl rfl, fun h2 => h2⟩

/-- A write to the record of `k` that changes neither its generation nor, for
a record that is not Free, its kind away from Null, keeps the records. -/
theorem Kept_set (p q : Parser) (k : Nat) (v : ObjectInfo)
    (hq : q.m_ObjectInfo = ObjectMap.set p.m_ObjectInfo k v)
    (hv : ∀ r, ObjectMap.find p.m_ObjectInfo k = some r → v.gennum = r.gennum ∧
      (r.type = ObjectType.kFree ∨ v.type = ObjectType.kNull)) : Kept p q := by
  intro N r hr
  rw [hq, ObjectMap.find_set]
  by_cases hk : k = N
  · subst hk
    rw [if_pos rfl]
    obtain ⟨hg, ht⟩ := hv r hr
    refine ⟨v, rfl, hg, ?_, ?_⟩
    · intro hd
      rcases ht with ht | ht
      · rw [ht] at hd
        rcases hd with hd | hd <;> cases hd
      · exact Or.inr ht
    · intro hnull
      rcases ht with ht | ht
      · rw [ht] at hnull; cases hnull
      · exact ht
  · rw [if_neg hk]
    exact ⟨r, hr, rfl, fun _ => Or.inl rfl, fun h2 => h2⟩

theorem Kept_setType_free (p : Parser) (k : Nat) (t : ObjectType)
    (hF : p.GetObjectType k = ObjectType.kFree) :
    Kept p { p with m_ObjectInfo := ObjectMap.setType p.m_ObjectInfo k t } := by
  refine Kept_set p _ k _ rfl ?_
  intro r hr
  have href : ObjectMap.ref p.m_ObjectInfo k = r := by simp [ObjectMap.ref, hr]
  rw [href]
  exact ⟨rfl, Or.inl (GetObjectType_eq_kFree p k hF r hr)⟩

theorem Kept_setPos_same (p : Parser) (k : Nat) (x : Int)
    (h : ∀ r, ObjectMap.find p.m_ObjectInfo k = some r →
      r.type = ObjectType.kFree ∨ r.type = ObjectType.kNull) :
    Kept p { p with m_ObjectInfo := ObjectMap.setPos p.m_ObjectInfo k x } := by
  refine Kept_set p _ k _ rfl ?_
  intro r hr
  have href : ObjectMap.ref p.m_ObjectInfo k = r := by simp [ObjectMap.ref, hr]
  rw [href]
  exact ⟨rfl, h r hr⟩

theorem Kept_setType_null (p : Parser) (k : Nat) :
    Kept p { p with m_ObjectInfo := ObjectMap.setType p.m_ObjectInfo k ObjectType.kNull } := by
  refine Kept_set p _ k _ rfl ?_
  intro r hr
  have href : ObjectMap.ref p.m_ObjectInfo k = r := by simp [ObjectMap.ref, hr]
  rw [href]
  exact ⟨rfl, Or.inr rfl⟩

/-- The writes `m[k].type = t; m[k].pos = x` to a Free record keep the
records. -/
theorem Kept_free_written (p : Parser) (k : Nat) (t : ObjectType) (x : Int)
    (hF : p.GetObjectType k = ObjectType.kFree) :
    Kept p { p with m_ObjectInfo :=
      (ObjectMap.setPos (ObjectMap.setType p.m_ObjectInfo k t) k x) } := by
  intro N r hr
  simp only
  rw [ObjectMap.find_setPos]
  by_cases hk : k = N
  · subst hk
    rw [if_pos rfl]
    have href : ObjectMap.ref p.m_ObjectInfo k = r := by simp [ObjectMap.ref, hr]
    have hfree := GetObjectType_eq_kFree p k hF r hr
    refine ⟨_, rfl, ?_, ?_, ?_⟩
    · rw [ObjectMap.ref_setType, href]
    · intro hd
      rw [hfree] at hd
      rcases hd with hd | hd <;> cases hd
    · intro hnull
      rw [hfree] at hnull
      cases hnull
  · rw [if_neg hk, ObjectMap.find_setType, if_neg hk]
    exact ⟨r, hr, rfl, fun _ => Or.inl rfl, fun h2 => h2⟩

/-- Every entry of a cross-reference stream, accepted or not, keeps the
records. -/
theorem Kept_entry (p : Parser) (W0 W1 k : Nat) (entry : List Nat) :
    Kept p (xrefStreamEntry p W0 W1 k entry).2 := by
  cases hr : xrefStreamEntry p W0 W1 k entry with
  | mk b q =>
    simp only
    cases b with
    | false =>
      obtain ⟨hF, t, v, hq⟩ := xrefStreamEntry_false p W0 W1 k entry q hr
      subst hq
      exact Kept_free_written p k t v hF
    | true =>
      rcases xrefStreamEntry_cases p W0 W1 k entry q hr with
        ⟨hN, off, hq⟩ | ⟨-, -, hq⟩ | ⟨hF, hq⟩ | ⟨hF, v, hq⟩ | ⟨hF, t, v, -, -, -, hq⟩
      · subst hq
        obtain ⟨c, hfc, hcn⟩ := GetObjectType_eq_kNull p k hN
        refine Kept_trans _ _ _ (Kept_setPos_same p k (off : Int) ?_)
          (Kept_of_index _ _ rfl)
        intro r hr2
        rw [hfc] at hr2
        simp only [Option.some.injEq] at hr2
        rw [← hr2]
        exact Or.inr hcn
      · rw [hq]; exact Kept_refl p
      · subst hq; exact Kept_free_written p k _ _ hF
      · subst hq
        exact Kept_trans _ _ _ (Kept_free_written p k _ (v : Int) hF) (Kept_of_index _ _ rfl)
      · subst hq
        exact Kept_trans _ _ _ (Kept_free_written p k t (v : Int) hF) (Kept_setType_null _ v)

theorem Kept_relAll : EntryRelAll Kept where
  refl := Kept_refl
  trans := Kept_trans
  pos := fun p _ => Kept_of_index p _ rfl
  start := fun p _ => Kept_of_index p _ rfl
  offset := fun p _ => Kept_of_index p _ rfl
  trailer := fun p _ => Kept_of_index p _ rfl
  entry := Kept_entry

end Parser

set_option maxRecDepth 100000 in
/-- The load of the stream of the sample file `fileG`, not as the main one, into
the parser `parserG`: object 2, Direct at offset 100 before the call, is a
container (kind Null) at offset 80 after it. -/
theorem fileG_loaded :
    (Parser.LoadCrossRefV5 fileG.env parserG 9 false).1 = true ∧
    (Parser.LoadCrossRefV5 fileG.env parserG 9 false).2.2.m_ObjectInfo =
      [(0, { pos := 0, type := ObjectType.kFree, gennum := 0 }),
       (1, { pos := 2, type := ObjectType.kCompressed, gennum := 0 }),
       (2, { pos := 80, type := ObjectType.kNull, gennum := 3 }),
       (3, { pos := 0, type := ObjectType.kFree, gennum := 0 })] := by
  decide

/-- C9 (counterexample): object 2 has the record (Direct, offset 100,
generation 3) before the load of the stream of `fileG` with
`bMainXRef = false`, and the record (Null, offset 80, generation 3) after it:
the stream lists object 1 as compressed in container 2. -/
theorem LoadCrossRefV5_container_overrides_direct :
    ObjectMap.find parserG.m_ObjectInfo 2
      = some { pos := 100, type := ObjectType.kNotCompressed, gennum := 3 } ∧
    (Parser.LoadCrossRefV5 fileG.env parserG 9 false).1 = true ∧
    ObjectMap.find (Parser.LoadCrossRefV5 fileG.env parserG 9 false).2.2.m_ObjectInfo 2
      = some { pos := 80, type := ObjectType.kNull, gennum := 3 } := by
  refine ⟨by decide, fileG_loaded.1, ?_⟩
  rw [fileG_loaded.2]
  decide

/-- C9 (amended): for every call of `LoadCrossRefV5` with `bMainXRef = false`,
whatever its result, every object number whose record has kind Direct or
Compressed before the call has after the call either the identical record
(kind, offset, generation) or a record of kind Null with the same generation:
the entries of the stream for the object itself do not override its record,
but a Compressed entry that names the object as its container turns it into a
container, whose offset a later entry of the stream rewrites. -/
theorem LoadCrossRefV5_keeps_supplied_records (env : Env) (p : Parser) (pos : Int) (N : Nat)
    (r : ObjectInfo) (hfind : ObjectMap.find p.m_ObjectInfo N = some r)
    (hkind : r.type = ObjectType.kNotCompressed ∨ r.type = ObjectType.kCompressed) :
    ∃ r2, ObjectMap.find (Parser.LoadCrossRefV5 env p pos false).2.2.m_ObjectInfo N = some r2 ∧
      r2.gennum = r.gennum ∧ (r2 = r ∨ r2.type = ObjectType.kNull) := by
  have hkept : Parser.Kept p (Parser.LoadCrossRefV5 env p pos false).2.2 :=
    Parser.LoadCrossRefV5_relAll Parser.Kept_relAll p pos
  obtain ⟨r2, h1, h2, h3, -⟩ := hkept N r hfind
  exact ⟨r2, h1, h2, h3 hkind⟩

/-- Witness of C9 (amended): object 2 of the parser `parserG` across the load
of the stream of `fileG`. -/
theorem LoadCrossRefV5_keeps_supplied_records_witness :
    ObjectMap.find parserG.m_ObjectInfo 2
      = some { pos := 100, type := ObjectType.kNotCompressed, gennum := 3 } ∧
    (ObjectType.kNotCompressed = ObjectType.kNotCompressed ∨
      ObjectType.kNotCompressed = ObjectType.kCompressed) ∧
    ∃ r2, ObjectMap.find (Parser.LoadCrossRefV5 fileG.env parserG 9 false).2.2.m_ObjectInfo 2
        = some r2 ∧
      r2.gennum = 3 ∧
      (r2 = { pos := 100, type := ObjectType.kNotCompressed, gennum := 3 } ∨
        r2.type = ObjectType.kNull) :=
  ⟨by decide, Or.inl rfl,
    LoadCrossRefV5_keeps_supplied_records fileG.env parserG 9 2
      { pos := 100, type := ObjectType.kNotCompressed, gennum := 3 } (by decide) (Or.inl rfl)⟩

/-! ## Direct records and the offset set -/

theorem mem_insertOffset (l : List Int) (x y : Int) :
    y ∈ insertOffset l x ↔ y = x ∨ y ∈ l := by
  induction l with
  | nil => simp [insertOffset]
  | cons a rest ih =>
    simp only [insertOffset]
    split_ifs with h1 h2
    · simp
    · subst h2; simp
    · simp only [List.mem_cons, ih]
      tauto

namespace ObjectMap

theorem find_set_elim {m : ObjectMap} {k : Nat} {v : ObjectInfo} {N : Nat} {r : ObjectInfo}
    (h : find (set m k v) N = some r) :
    (k = N ∧ r = v) ∨ (k ≠ N ∧ find m N = some r) := by
  rw [find_set] at h
  by_cases hk : k = N
  · rw [if_pos hk] at h
    exact Or.inl ⟨hk, (Option.some.inj h).symm⟩
  · rw [if_neg hk] at h
    exact Or.inr ⟨hk, h⟩

end ObjectMap

namespace Parser

theorem OffsetsKnown_intro (L : Option Int) (p q : Parser)
    (hso : ∀ x, x ∈ p.m_SortedOffset → x ∈ q.m_SortedOffset)
    (h : ∀ N r, ObjectMap.find q.m_ObjectInfo N = some r → r.type = ObjectType.kNotCompressed →
      ObjectMap.find p.m_ObjectInfo N = some r ∨
        ((∀ l, L = some l → r.pos < l) → r.pos ∈ q.m_SortedOffset)) :
    OffsetsKnown L p q := by
  intro N r hf ht
  rcases h N r hf ht with h1 | h1
  · by_cases hm : r.pos ∈ q.m_SortedOffset
    · exact Or.inl (fun _ => hm)
    · exact Or.inr ⟨h1, fun hp => hm (hso _ hp)⟩
  · exact Or.inl h1

theorem OffsetsKnown_refl (L : Option Int) (p : Parser) : OffsetsKnown L p p :=
  OffsetsKnown_intro L p p (fun _ h => h) (fun _ _ hf _ => Or.inl hf)

theorem OffsetsKnown_trans (L : Option Int) (a b c : Parser) (h1 : OffsetsKnown L a b)
    (h2 : OffsetsKnown L b c) : OffsetsKnown L a c := by
  intro N r hf ht
  rcases h2 N r hf ht with h | ⟨hb, hnb⟩
  · exact Or.inl h
  · rcases h1 N r hb ht with h | h
    · by_cases hbd : ∀ l, L = some l → r.pos < l
      · exact absurd (h hbd) hnb
      · exact Or.inl (fun hx => absurd hx hbd)
    · exact Or.inr h

theorem OffsetsKnown_glue (L : Option Int) : GlueRel (OffsetsKnown L) where
  refl := OffsetsKnown_refl L
  trans := OffsetsKnown_trans L
  pos := fun p _ => OffsetsKnown_intro L p _ (fun _ h => h) (fun _ _ hf _ => Or.inl hf)
  start := fun p _ => OffsetsKnown_intro L p _ (fun _ h => h) (fun _ _ hf _ => Or.inl hf)
  offset := fun p _ => OffsetsKnown_intro L p _
    (fun _ h => (mem_insertOffset _ _ _).mpr (Or.inr h)) (fun _ _ hf _ => Or.inl hf)
  trailer := fun p _ => OffsetsKnown_intro L p _ (fun _ h => h) (fun _ _ hf _ => Or.inl hf)

/-- Every entry of a cross-reference stream, accepted or not, leaves the
offsets of the Direct records it writes in the offset set. -/
theorem OffsetsKnown_entry (L : Option Int) (p : Parser) (W0 W1 k : Nat) (entry : List Nat) :
    OffsetsKnown L p (xrefStreamEntry p W0 W1 k entry).2 := by
  unfold xrefStreamEntry
  simp only
  by_cases hN : p.GetObjectType k = ObjectType.kNull
  · rw [if_pos hN]
    refine OffsetsKnown_intro L p _ (fun _ h => (mem_insertOffset _ _ _).mpr (Or.inr h)) ?_
    intro N r hf _
    rcases ObjectMap.find_set_elim hf with ⟨-, hr⟩ | ⟨-, h1⟩
    · right
      intro _
      rw [hr]
      exact (mem_insertOffset _ _ _).mpr (Or.inl rfl)
    · exact Or.inl h1
  · rw [if_neg hN]
    by_cases hF : p.GetObjectType k ≠ ObjectType.kFree
    · rw [if_pos hF]
      exact OffsetsKnown_refl L p
    · rw [if_neg hF]
      generalize (if W0 ≠ 0 then
        GetObjectTypeFromCrossRefStreamType (toInt32 (GetVarInt entry (toInt32 W0)))
        else ObjectType.kNotCompressed) = t
      by_cases ht : t = ObjectType.kFree
      · rw [if_pos ht]
        refine OffsetsKnown_intro L p _ (fun _ h => h) ?_
        intro N r hf hd
        rcases ObjectMap.find_set_elim hf with ⟨-, hr⟩ | ⟨hne, h1⟩
        · exfalso
          rw [hr] at hd
          simp [ObjectMap.ref_setType, ht] at hd
        · rcases ObjectMap.find_set_elim h1 with ⟨hk, -⟩ | ⟨-, h2⟩
          · exact absurd hk hne
          · exact Or.inl h2
      · rw [if_neg ht]
        by_cases ht2 : t = ObjectType.kNotCompressed
        · rw [if_pos ht2]
          refine OffsetsKnown_intro L p _
            (fun _ h => (mem_insertOffset _ _ _).mpr (Or.inr h)) ?_
          intro N r hf hd
          rcases ObjectMap.find_set_elim hf with ⟨-, hr⟩ | ⟨hne, h1⟩
          · right
            intro _
            rw [hr]
            exact (mem_insertOffset _ _ _).mpr (Or.inl rfl)
          · rcases ObjectMap.find_set_elim h1 with ⟨hk, -⟩ | ⟨-, h2⟩
            · exact absurd hk hne
            · exact Or.inl h2
        · rw [if_neg ht2]
          generalize GetVarInt (List.drop W0 entry) (toInt32 W1) = v
          have hfirst : ∀ N r, ObjectMap.find
              (ObjectMap.setPos (ObjectMap.setType p.m_ObjectInfo k t) k (v : Int)) N = some r →
              r.type = ObjectType.kNotCompressed → ObjectMap.find p.m_ObjectInfo N = some r := by
            intro N r hf hd
            rcases ObjectMap.find_set_elim hf with ⟨-, hr⟩ | ⟨hne, h1⟩
            · exfalso
              rw [hr] at hd
              simp only [ObjectMap.ref_setType] at hd
              exact ht2 hd
            · rcases ObjectMap.find_set_elim h1 with ⟨hk, -⟩ | ⟨-, h2⟩
              · exact absurd hk hne
              · exact h2
          split_ifs with hv
          · refine OffsetsKnown_intro L p _ (fun _ h => h) ?_
            intro N r hf hd
            exact Or.inl (hfirst N r hf hd)
          · refine OffsetsKnown_intro L p _ (fun _ h => h) ?_
            intro N r hf hd
            rcases ObjectMap.find_set_elim hf with ⟨-, hr⟩ | ⟨-, h1⟩
            · exfalso
              rw [hr] at hd
              simp at hd
            · exact Or.inl (hfirst N r h1 hd)

/-- Every record of a textual xref section, accepted or not, leaves the offset
of the Direct record it writes in the offset set when the offset is below the
length of the file. -/
theorem OffsetsKnown_record (env : Env) (p : Parser) (k : Nat) (pEntry : List Nat) :
    OffsetsKnown (some env.m_FileLen) p (xrefRecord env p k pEntry).2 := by
  unfold xrefRecord
  by_cases hf : pEntry.getD 17 0 = 102
  · rw [if_pos hf]
    refine OffsetsKnown_intro _ p _ (fun _ h => h) ?_
    intro N r hfind hd
    rcases ObjectMap.find_set_elim hfind with ⟨-, hr⟩ | ⟨hne, h1⟩
    · exfalso
      rw [hr] at hd
      simp at hd
    · rcases ObjectMap.find_set_elim h1 with ⟨hk, -⟩ | ⟨-, h2⟩
      · exact absurd hk hne
      · exact Or.inl h2
  · rw [if_neg hf]
    simp only
    by_cases h0 : env.FXSYS_atoi64 pEntry = 0 ∧
        (List.range 10).all (fun c => isdigit (pEntry.getD c 0)) = false
    · rw [if_pos h0]
      exact OffsetsKnown_refl _ p
    · rw [if_neg h0]
      by_cases hlen : (ObjectMap.ref (ObjectMap.setGen
          (ObjectMap.setPos p.m_ObjectInfo k (env.FXSYS_atoi64 pEntry)) k
          (env.FXSYS_atoi (List.drop 11 pEntry))) k).pos < env.m_FileLen
      · rw [if_pos hlen]
        refine OffsetsKnown_intro _ p _
          (fun _ h => (mem_insertOffset _ _ _).mpr (Or.inr h)) ?_
        intro N r hfind _
        rcases ObjectMap.find_set_elim hfind with ⟨-, hr⟩ | ⟨hne, h1⟩
        · right
          intro _
          rw [hr]
          exact (mem_insertOffset _ _ _).mpr (Or.inl rfl)
        · rcases ObjectMap.find_set_elim h1 with ⟨hk, -⟩ | ⟨-, h2⟩
          · exact absurd hk hne
          · rcases ObjectMap.find_set_elim h2 with ⟨hk, -⟩ | ⟨-, h3⟩
            · exact absurd hk hne
            · exact Or.inl h3
      · rw [if_neg hlen]
        refine OffsetsKnown_intro _ p _ (fun _ h => h) ?_
        intro N r hfind _
        rcases ObjectMap.find_set_elim hfind with ⟨-, hr⟩ | ⟨hne, h1⟩
        · right
          intro hb
          exfalso
          rw [hr] at hb
          exact hlen (hb _ rfl)
        · rcases ObjectMap.find_set_elim h1 with ⟨hk, -⟩ | ⟨-, h2⟩
          · exact absurd hk hne
          · rcases ObjectMap.find_set_elim h2 with ⟨hk, -⟩ | ⟨-, h3⟩
            · exact absurd hk hne
            · exact Or.inl h3

theorem OffsetsKnown_entryAll (L : Option Int) : EntryRelAll (OffsetsKnown L) where
  toGlueRel := OffsetsKnown_glue L
  entry := OffsetsKnown_entry L

theorem OffsetsKnown_stepAll (env : Env) :
    StepRelAll env (OffsetsKnown (some env.m_FileLen)) where
  toEntryRelAll := OffsetsKnown_entryAll _
  record := OffsetsKnown_record env

/-- The main cross-reference stream starts from an index without a Direct
record: every record has been re-tagged Free. -/
theorem OffsetsKnown_main (L : Option Int) (p : Parser) (pDict : CPDF_Dictionary) (size : Int) :
    OffsetsKnown L p (pushXRefTrailer p pDict size true) := by
  unfold pushXRefTrailer
  simp only [if_true]
  intro N r hf hd
  exfalso
  simp only [ObjectMap.find_retagFree] at hf
  cases hm : ObjectMap.find ((p.pushCurrentTrailer pDict).ShrinkObjectMap size.toNat).m_ObjectInfo
      N with
  | none => rw [hm] at hf; simp at hf
  | some r0 =>
    rw [hm] at hf
    simp only [Option.map_some', Option.some.injEq] at hf
    rw [← hf] at hd
    simp at hd

theorem xrefRecords_relAll {env : Env} {R : Parser → Parser → Prop} (hR : StepRelAll env R)
    (start_objnum block : Nat) (buf : List Nat) (l : List Nat) (p : Parser) :
    R p (xrefRecords env start_objnum block buf l p).2 := by
  induction l generalizing p with
  | nil => exact hR.refl p
  | cons i rest ih =>
    simp only [xrefRecords]
    have h1 := hR.record p ((start_objnum + block * 1024 + i) % 4294967296) (buf.drop (i * 20))
    cases hr : xrefRecord env p ((start_objnum + block * 1024 + i) % 4294967296)
      (buf.drop (i * 20)) with
    | mk b q =>
      rw [hr] at h1
      cases b
      · exact h1
      · exact hR.trans _ _ _ h1 (ih q)

theorem xrefBlocks_relAll {env : Env} {R : Parser → Parser → Prop} (hR : StepRelAll env R)
    (start_objnum count nBlocks : Nat) (l : List Nat) (buf : List Nat) (p : Parser) :
    R p (xrefBlocks env start_objnum count nBlocks l buf p).2 := by
  induction l generalizing p buf with
  | nil => exact hR.refl p
  | cons block rest ih =>
    simp only [xrefBlocks]
    obtain ⟨v, hv⟩ := SyntaxReadBlock_state env p buf
      ((if block = nBlocks - 1 then count % 1024 else 1024) * 20)
    have h1 := xrefRecords_relAll hR start_objnum block
      (SyntaxReadBlock env p buf ((if block = nBlocks - 1 then count % 1024 else 1024) * 20)).2.1
      (List.range (if block = nBlocks - 1 then count % 1024 else 1024))
      (SyntaxReadBlock env p buf ((if block = nBlocks - 1 then count % 1024 else 1024) * 20)).2.2
    have h2 : R p (SyntaxReadBlock env p buf
        ((if block = nBlocks - 1 then count % 1024 else 1024) * 20)).2.2 := by
      rw [hv]; exact hR.pos p v
    cases hr : xrefRecords env start_objnum block
      (SyntaxReadBlock env p buf ((if block = nBlocks - 1 then count % 1024 else 1024) * 20)).2.1
      (List.range (if block = nBlocks - 1 then count % 1024 else 1024))
      (SyntaxReadBlock env p buf ((if block = nBlocks - 1 then count % 1024 else 1024) * 20)).2.2
      with
    | mk b q =>
      rw [hr] at h1
      cases b
      · exact hR.trans _ _ _ h2 h1
      · exact hR.trans _ _ _ h2 (hR.trans _ _ _ h1 (ih _ _))

theorem xrefSubsections_relAll {env : Env} {R : Parser → Parser → Prop}
    (hR : StepRelAll env R) (bSkip : Bool) (fuel : Nat) (p : Parser) (r : Bool × Parser)
    (h : xrefSubsections env bSkip fuel p = some r) : R p r.2 := by
  induction fuel generalizing p with
  | zero => simp [xrefSubsections] at h
  | succ n ih =>
    simp only [xrefSubsections] at h
    by_cases h1 : (env.GetNextWord p.m_Pos).1.1 = ""
    · rw [if_pos h1] at h
      rw [← Option.some.inj h]; exact hR.pos p _
    · rw [if_neg h1] at h
      by_cases h2 : (env.GetNextWord p.m_Pos).1.2 = false
      · rw [if_pos h2] at h
        rw [← Option.some.inj h]; exact hR.pos p _
      · rw [if_neg h2] at h
        by_cases h3 : env.FXSYS_atoui (env.GetNextWord p.m_Pos).1.1 % 4294967296
            ≥ env.kMaxObjectNumber
        · rw [if_pos h3] at h
          rw [← Option.some.inj h]; exact hR.pos p _
        · rw [if_neg h3] at h
          have hpre : R p ({ ({ p with m_Pos := (env.GetNextWord p.m_Pos).2 } : Parser) with
              m_Pos := env.ToNextWord (env.GetDirectNum (env.GetNextWord p.m_Pos).2).2,
              m_dwXrefStartObjNum :=
                env.FXSYS_atoui (env.GetNextWord p.m_Pos).1.1 % 4294967296 } : Parser) :=
            hR.trans _ _ _ (hR.pos p (env.ToNextWord
              (env.GetDirectNum (env.GetNextWord p.m_Pos).2).2)) (hR.start _ _)
          cases bSkip with
          | true =>
            simp only [if_true] at h
            exact hR.trans _ _ _ (hR.trans _ _ _ hpre (hR.pos _ _)) (ih _ h)
          | false =>
            simp only [Bool.false_eq_true, if_false] at h
            split at h
            · rename_i p3 heq
              rw [← Option.some.inj h]
              have hb := congrArg Prod.snd heq
              simp only at hb
              rw [← hb]
              exact hR.trans _ _ _ hpre (xrefBlocks_relAll hR _ _ _ _ _ _)
            · rename_i p3 heq
              have hb := congrArg Prod.snd heq
              simp only at hb
              have hb2 : R p p3 := by
                rw [← hb]
                exact hR.trans _ _ _ hpre (xrefBlocks_relAll hR _ _ _ _ _ _)
              exact hR.trans _ _ _ hb2 (hR.trans _ _ _ (hR.pos _ _) (ih _ h))

/-- A load of a cross-reference stream, main or not, respects every entry
relation that holds across the block that pushes the trailer. -/
theorem loadXRefStream_relAll_push {env : Env} {R : Parser → Parser → Prop}
    (hR : EntryRelAll R) (bMainXRef : Bool)
    (hpush : ∀ (p : Parser) (d : CPDF_Dictionary) (size : Int),
      R p (pushXRefTrailer p d size bMainXRef))
    (p : Parser) (pDict : CPDF_Dictionary) (pData : List Nat) :
    R p (loadXRefStream env p pDict pData bMainXRef).2.2 := by
  unfold loadXRefStream
  simp only
  split_ifs with h3
  · exact hR.refl p
  · have ht : R p (pushXRefTrailer p pDict (GetIntegerFor env pDict "Size") bMainXRef) :=
      hpush p pDict _
    split
    · exact ht
    · split_ifs with h4
      · exact ht
      · exact hR.trans _ _ _ ht (xrefStreamSegments_relAll hR _ _ _ _ _ _ _ _)

theorem LoadCrossRefV5_relAll_push {env : Env} {R : Parser → Parser → Prop}
    (hR : EntryRelAll R) (bMainXRef : Bool)
    (hpush : ∀ (p : Parser) (d : CPDF_Dictionary) (size : Int),
      R p (pushXRefTrailer p d size bMainXRef))
    (p : Parser) (pos : Int) : R p (LoadCrossRefV5 env p pos bMainXRef).2.2 := by
  unfold LoadCrossRefV5
  have hst := ParseIndirectObjectAt_state env p pos 0
  cases hp : ParseIndirectObjectAt env p pos 0 with
  | mk o p1 =>
    rw [hp] at hst
    simp only at hst
    have hp1 : R p p1 := by rw [hst]; exact hR.pos p _
    cases o with
    | none => exact hp1
    | some pObject =>
      simp only
      split_ifs
      · exact hp1
      · exact hp1
      · cases pObject.obj with
        | stream pDict pData =>
          exact hR.trans _ _ _ hp1 (loadXRefStream_relAll_push hR bMainXRef hpush _ _ _)
        | _ => exact hp1

/-- A load of a textual xref section respects every such relation, whatever
its result. -/
theorem LoadCrossRefV4_relAll {env : Env} {R : Parser → Parser → Prop} (hR : StepRelAll env R)
    (p : Parser) (pos streampos : Int) (bSkip : Bool) (r : Bool × Parser)
    (h : LoadCrossRefV4 env p pos streampos bSkip = some r) : R p r.2 := by
  unfold LoadCrossRefV4 at h
  simp only at h
  by_cases h1 : (env.GetKeyword (env.SetPos pos)).1 ≠ "xref"
  · rw [if_pos h1] at h
    rw [← Option.some.inj h]; exact hR.pos p _
  · rw [if_neg h1] at h
    have hpre : R p ({ ({ p with m_Pos := (env.GetKeyword (env.SetPos pos)).2 } : Parser) with
        m_SortedOffset := if streampos ≠ 0 then
          insertOffset (insertOffset p.m_SortedOffset pos) streampos
          else insertOffset p.m_SortedOffset pos } : Parser) := by
      refine hR.trans _ _ _ (hR.pos p (env.GetKeyword (env.SetPos pos)).2) ?_
      refine hR.trans _ _ _ (hR.offset _ pos) ?_
      by_cases hs : streampos ≠ 0
      · rw [if_pos hs]
        exact hR.offset _ streampos
      · rw [if_neg hs]
        exact hR.refl _
    split at h
    · simp at h
    · rename_i p3 heq
      rw [← Option.some.inj h]
      exact hR.trans _ _ _ hpre (xrefSubsections_relAll hR _ _ _ _ heq)
    · rename_i p3 heq
      have hsub : R p p3 := hR.trans _ _ _ hpre (xrefSubsections_relAll hR _ _ _ _ heq)
      by_cases hs : streampos = 0
      · rw [if_pos hs] at h
        rw [← Option.some.inj h]
        exact hsub
      · rw [if_neg hs] at h
        rw [← Option.some.inj h]
        exact hR.trans _ _ _ hsub (LoadCrossRefV5_relAll hR.toEntryRelAll _ _)

/-! ### The scan of `RebuildCrossRef` -/

theorem ParseIndirectObjectAtByStrict_state (env : Env) (p : Parser) (pos : Int) (objnum : Nat)
    (resultPos : Int) :
    (ParseIndirectObjectAtByStrict env p pos objnum resultPos).2.2
      = { p with m_Pos := env.SetPos p.m_Pos } := by
  unfold ParseIndirectObjectAtByStrict
  simp only
  split_ifs <;> rfl

theorem DirectKnown_of_index {p q : Parser} (h : p.DirectKnown)
    (hi : q.m_ObjectInfo = p.m_ObjectInfo) (hs : q.m_SortedOffset = p.m_SortedOffset) :
    q.DirectKnown := by
  intro N r hf hd
  rw [hs]
  rw [hi] at hf
  exact h N r hf hd

theorem DirectKnown_insert {p : Parser} (h : p.DirectKnown) (x : Int) :
    DirectKnown { p with m_SortedOffset := insertOffset p.m_SortedOffset x } := by
  intro N r hf hd
  exact (mem_insertOffset _ _ _).mpr (Or.inr (h N r hf hd))

theorem DirectKnown_setCurrentTrailer {p : Parser} (h : p.DirectKnown) (d : CPDF_Dictionary) :
    (p.setCurrentTrailer d).DirectKnown := by
  unfold setCurrentTrailer
  split
  · exact h
  · exact DirectKnown_of_index h rfl rfl

theorem DirectKnown_touch {p : Parser} (h : p.DirectKnown) (n : Nat) :
    DirectKnown { p with m_ObjectInfo := ObjectMap.touch p.m_ObjectInfo n } := by
  intro N r hf hd
  rcases ObjectMap.find_set_elim hf with ⟨hk, hr⟩ | ⟨-, h1⟩
  · subst hk
    have hfind : ObjectMap.find p.m_ObjectInfo n = some r := by
      cases hm : ObjectMap.find p.m_ObjectInfo n with
      | none =>
        exfalso
        rw [hr] at hd
        simp [ObjectMap.ref, hm, ObjectInfo.default] at hd
      | some r0 =>
        rw [hr]
        simp [ObjectMap.ref, hm]
    exact h _ r hfind hd
  · exact h N r h1 hd

theorem DirectKnown_write {p q : Parser} (h : p.DirectKnown)
    (hs : q.m_SortedOffset = p.m_SortedOffset)
    (hm : ∀ N r, ObjectMap.find q.m_ObjectInfo N = some r →
      r.type = ObjectType.kNotCompressed →
      ObjectMap.find p.m_ObjectInfo N = some r ∨ r.pos ∈ p.m_SortedOffset) :
    q.DirectKnown := by
  intro N r hf hd
  rw [hs]
  rcases hm N r hf hd with h1 | h1
  · exact h N r h1 hd
  · exact h1

/-- The update of the index for a discovered object keeps the invariant: the
offset it writes has been inserted into the offset set. -/
theorem rebuildRecord_known {p : Parser} (h : p.DirectKnown) (objnum gennum : Nat)
    (obj_pos : Int) (found : Bool) (hpos : obj_pos ∈ p.m_SortedOffset) :
    (rebuildRecord p objnum gennum obj_pos found).DirectKnown := by
  have h1 := DirectKnown_touch h objnum
  unfold rebuildRecord
  by_cases hc : p.m_ObjectInfo.isEmpty = false ∧ p.IsValidObjectNumber objnum = true
  · rw [if_pos hc]
    simp only
    by_cases hz : (ObjectMap.ref (ObjectMap.touch p.m_ObjectInfo objnum) objnum).pos ≠ 0
    · rw [if_pos hz]
      cases found with
      | false => exact h1
      | true =>
        simp only [if_true]
        refine DirectKnown_write h1 rfl ?_
        intro N r hf _
        rcases ObjectMap.find_set_elim hf with ⟨-, hr⟩ | ⟨hne, h2⟩
        · right
          rw [hr]
          simp only [ObjectMap.ref_setPos]
          exact hpos
        · rcases ObjectMap.find_set_elim h2 with ⟨hk, -⟩ | ⟨-, h3⟩
          · exact absurd hk hne
          · exact Or.inl h3
    · rw [if_neg hz]
      refine DirectKnown_write h1 rfl ?_
      intro N r hf _
      rcases ObjectMap.find_set_elim hf with ⟨-, hr⟩ | ⟨hne, h2⟩
      · right
        rw [hr]
        simp only [ObjectMap.ref_setType, ObjectMap.ref_setPos]
        exact hpos
      · rcases ObjectMap.find_set_elim h2 with ⟨hk, -⟩ | ⟨-, h3⟩
        · exact absurd hk hne
        · rcases ObjectMap.find_set_elim h3 with ⟨hk, -⟩ | ⟨-, h4⟩
          · exact absurd hk hne
          · exact Or.inl h4
  · rw [if_neg hc]
    refine DirectKnown_write h rfl ?_
    intro N r hf _
    rcases ObjectMap.find_set_elim hf with ⟨-, hr⟩ | ⟨hne, h2⟩
    · right
      rw [hr]
      simp only [ObjectMap.ref_setType, ObjectMap.ref_setPos]
      exact hpos
    · rcases ObjectMap.find_set_elim h2 with ⟨hk, -⟩ | ⟨-, h3⟩
      · exact absurd hk hne
      · rcases ObjectMap.find_set_elim h3 with ⟨hk, -⟩ | ⟨-, h4⟩
        · exact absurd hk hne
        · exact Or.inl h4

theorem rebuildObject_known (env : Env) (s : RebuildState) (i size : Nat)
    (h : s.parser.DirectKnown) : (rebuildObject env s i size).vars.parser.DirectKnown := by
  unfold rebuildObject
  simp only
  apply rebuildRecord_known
  · rw [ParseIndirectObjectAtByStrict_state]
    have h1 := DirectKnown_insert h (s.start_pos - env.m_HeaderOffset)
    split
    · exact DirectKnown_of_index h1 rfl rfl
    · exact DirectKnown_of_index h1 rfl rfl
  · rw [ParseIndirectObjectAtByStrict_state]
    split
    · exact (mem_insertOffset _ _ _).mpr (Or.inl rfl)
    · exact (mem_insertOffset _ _ _).mpr (Or.inl rfl)

theorem rebuildTrailerDict_known (env : Env) (p : Parser) (pTrailer : CPDF_Dictionary)
    (h : p.DirectKnown) : (rebuildTrailerDict env p pTrailer).DirectKnown := by
  unfold rebuildTrailerDict
  split
  · split
    · exact DirectKnown_setCurrentTrailer h _
    · simp only
      split_ifs
      · exact DirectKnown_setCurrentTrailer (DirectKnown_touch h _) _
      · exact DirectKnown_touch h _
      · exact h
    · exact h
  · simp only
    split_ifs
    all_goals exact DirectKnown_of_index h rfl rfl

theorem rebuildTrailer_known (env : Env) (s : RebuildState) (i : Nat)
    (h : s.parser.DirectKnown) : (rebuildTrailer env s i).parser.DirectKnown := by
  unfold rebuildTrailer
  simp only
  have h1 : DirectKnown ({ s.parser with m_Pos :=
      (env.GetObject (env.SetPos (s.pos + (i : Int) - env.m_HeaderOffset)) 0 0).2 } : Parser) :=
    DirectKnown_of_index h rfl rfl
  split
  · exact rebuildTrailerDict_known env _ _ h1
  · exact h1

/-- One pass through the switch keeps the invariant. -/
theorem rebuildByte_known (env : Env) (s : RebuildState) (i size byte : Nat)
    (h : s.parser.DirectKnown) : (rebuildByte env s i size byte).vars.parser.DirectKnown := by
  unfold rebuildByte
  split <;> (try simp only) <;> split_ifs <;>
    first
      | exact h
      | exact rebuildObject_known env s i size h
      | exact rebuildTrailer_known env s i h

theorem scanBlock_known (env : Env) (buffer : List Nat) (size : Nat) (fuel : Nat)
    (s : RebuildState) (i : Nat) (r : RebuildState × Bool)
    (h : scanBlock env buffer size fuel s i = some r) (hk : s.parser.DirectKnown) :
    r.1.parser.DirectKnown := by
  induction fuel generalizing s i with
  | zero => simp [scanBlock] at h
  | succ n ih =>
    simp only [scanBlock] at h
    by_cases hi : i < size
    · rw [if_pos hi] at h
      have hb := rebuildByte_known env s i size (buffer.getD i 0) hk
      by_cases hov : (rebuildByte env s i size (buffer.getD i 0)).bOverFlow = true
      · rw [if_pos hov] at h
        rw [← Option.some.inj h]
        exact hb
      · rw [if_neg hov] at h
        exact ih _ _ h hb
    · rw [if_neg hi] at h
      rw [← Option.some.inj h]
      exact hk

theorem scanFile_known (env : Env) (fuel : Nat) (s r : RebuildState)
    (h : scanFile env fuel s = some r) (hk : s.parser.DirectKnown) : r.parser.DirectKnown := by
  induction fuel generalizing s with
  | zero => simp [scanFile] at h
  | succ n ih =>
    simp only [scanFile] at h
    by_cases hp : s.pos < env.m_FileLen
    · rw [if_pos hp] at h
      split at h
      · rw [← Option.some.inj h]
        exact hk
      · split at h
        · simp at h
        · rename_i s1 bOverFlow heq
          have h1 := scanBlock_known env _ _ _ _ _ _ heq hk
          split_ifs at h
          all_goals first
            | exact ih _ h h1
            | (rw [← Option.some.inj h]; exact h1)
    · rw [if_neg hp] at h
      rw [← Option.some.inj h]
      exact hk

/-- After `RebuildCrossRef` every Direct record has its offset in the offset
set. -/
theorem RebuildCrossRef_known (env : Env) (p : Parser) (r : Bool × Parser)
    (h : RebuildCrossRef env p = some r) : r.2.DirectKnown := by
  unfold RebuildCrossRef at h
  split at h
  · simp at h
  · rename_i s heq
    rw [← Option.some.inj h]
    have h0 : (rebuildStart env p).parser.DirectKnown := by
      intro N r0 hf _
      simp [rebuildStart, ObjectMap.find] at hf
    exact DirectKnown_insert (scanFile_known env _ _ _ heq h0) _

/-! ### The scan ends -/

theorem scanRank_le (env : Env) (st : ParserState) (byte : Nat) : scanRank env st byte ≤ 4 := by
  unfold scanRank
  split <;> (try split_ifs) <;> omega

theorem scanRank_default_le (env : Env) (byte : Nat) :
    scanRank env ParserState.kDefault byte ≤ 2 := by
  unfold scanRank
  simp only
  split_ifs <;> omega

theorem rebuildObject_progress (env : Env) (s : RebuildState) (i size : Nat)
    (hi : i < size) (hsz : size < 4294967296)
    (hover : (rebuildObject env s i size).bOverFlow = false) :
    (rebuildObject env s i size).vars.state = ParserState.kDefault ∧
      i ≤ (rebuildObject env s i size).next ∧ (rebuildObject env s i size).next ≤ size := by
  unfold rebuildObject at hover ⊢
  simp only at hover ⊢
  simp only [decide_eq_false_iff_not, not_lt] at hover
  refine ⟨trivial, ?_⟩
  rw [if_neg (by simpa using hover)]
  omega

/-- A pass through the switch that does not set `bOverFlow` either goes on to
a later byte of the block, or stays on the byte and leaves a state of smaller
rank. -/
theorem rebuildByte_progress (env : Env) (s : RebuildState) (i size byte : Nat)
    (hi : i < size) (hsz : size < 4294967296) :
    (rebuildByte env s i size byte).bOverFlow = false →
    ((rebuildByte env s i size byte).next = i ∧
      scanRank env (rebuildByte env s i size byte).vars.state byte
        < scanRank env s.state byte) ∨
    (i < (rebuildByte env s i size byte).next ∧ (rebuildByte env s i size byte).next ≤ size) := by
  have hd := scanRank_default_le env byte
  cases hst : s.state <;> simp only [rebuildByte, hst] <;> split_ifs <;> intro hover <;>
    first
      | (right; simp only [consumed]; omega)
      | (left; refine ⟨rfl, ?_⟩; simp only [steppedBack, scanRank]; omega)
      | (left; refine ⟨rfl, ?_⟩; show scanRank env ParserState.kDefault byte < 3; omega)
      | (left; refine ⟨rfl, ?_⟩; simp only [steppedBack, scanRank]; simp_all)
      | (obtain ⟨h1, h2, h3⟩ := rebuildObject_progress env s i size hi hsz hover
         by_cases hn : (rebuildObject env s i size).next = i
         · left
           refine ⟨hn, ?_⟩
           rw [h1]
           have h5 : scanRank env ParserState.kBeginObj byte = 3 := rfl
           omega
         · right
           omega)

/-- The byte loop over a block ends within five passes for each byte that is
left, and the rank of the state. -/
theorem scanBlock_ends (env : Env) (buffer : List Nat) (size : Nat) (hsz : size < 4294967296)
    (fuel : Nat) (s : RebuildState) (i : Nat) (hi : i ≤ size)
    (hfuel : 5 * (size - i) + scanRank env s.state (buffer.getD i 0) < fuel) :
    (scanBlock env buffer size fuel s i).isSome = true := by
  induction fuel generalizing s i with
  | zero => omega
  | succ n ih =>
    simp only [scanBlock]
    by_cases hlt : i < size
    · rw [if_pos hlt]
      by_cases hov : (rebuildByte env s i size (buffer.getD i 0)).bOverFlow = true
      · rw [if_pos hov]
        rfl
      · rw [if_neg hov]
        have hov2 : (rebuildByte env s i size (buffer.getD i 0)).bOverFlow = false := by
          simpa using hov
        have hle := scanRank_le env (rebuildByte env s i size (buffer.getD i 0)).vars.state
          (buffer.getD (rebuildByte env s i size (buffer.getD i 0)).next 0)
        rcases rebuildByte_progress env s i size (buffer.getD i 0) hlt hsz hov2 with
          ⟨h1, h2⟩ | ⟨h1, h2⟩
        · apply ih
          · rw [h1]; exact hi
          · rw [h1]; omega
        · apply ih
          · exact h2
          · omega
    · rw [if_neg hlt]
      rfl

/-- The block loop ends within one round for each byte between `pos` and the
end of the file, and one more. -/
theorem scanFile_ends (env : Env) (fuel : Nat) (s : RebuildState)
    (hfuel : (env.m_FileLen - s.pos).toNat < fuel) : (scanFile env fuel s).isSome = true := by
  induction fuel generalizing s with
  | zero => omega
  | succ n ih =>
    simp only [scanFile]
    by_cases hp : s.pos < env.m_FileLen
    · rw [if_pos hp]
      split
      · rfl
      · rename_i buffer hread
        have hsz : min (toUInt32 (env.m_FileLen - s.pos)) kBufferSize < 4294967296 := by
          have : min (toUInt32 (env.m_FileLen - s.pos)) kBufferSize ≤ kBufferSize :=
            Nat.min_le_right _ _
          unfold kBufferSize at this ⊢
          omega
        have hb := scanBlock_ends env buffer _ hsz
          (blockPasses (min (toUInt32 (env.m_FileLen - s.pos)) kBufferSize)) s 0 (Nat.zero_le _)
          (by
            have := scanRank_le env s.state (buffer.getD 0 0)
            unfold blockPasses
            omega)
        cases hsb : scanBlock env buffer (min (toUInt32 (env.m_FileLen - s.pos)) kBufferSize)
            (blockPasses (min (toUInt32 (env.m_FileLen - s.pos)) kBufferSize)) s 0 with
        | none => rw [hsb] at hb; simp at hb
        | some res =>
          obtain ⟨s1, bOverFlow⟩ := res
          simp only
          by_cases hle : s1.pos + (if bOverFlow = true then 0
              else ((min (toUInt32 (env.m_FileLen - s.pos)) kBufferSize : Nat) : Int)) ≤ s.pos
          · rw [if_pos hle]
            rfl
          · rw [if_neg hle]
            apply ih
            simp only
            omega
    · rw [if_neg hp]
      rfl

/-- The scan of `RebuildCrossRef` ends for every file: the function returns. -/
theorem RebuildCrossRef_ends (env : Env) (p : Parser) :
    ∃ r, RebuildCrossRef env p = some r := by
  unfold RebuildCrossRef
  have h := scanFile_ends env (scanRounds env) (rebuildStart env p)
    (by unfold scanRounds rebuildStart; simp only; omega)
  cases hs : scanFile env (scanRounds env) (rebuildStart env p) with
  | none => rw [hs] at h; simp at h
  | some s => exact ⟨_, rfl⟩

end Parser

set_option maxRecDepth 100000 in
/-- C8 (counterexample): on the sample file `fileA`, whose xref section lists
object 2 as in use at offset 999 while the file has 111 bytes,
`LoadCrossRefV4` returns true and writes the record of object 2 with kind
Direct and offset 999 (the index had no record of object 2 before), and 999 is
not a member of `m_SortedOffset`. -/
theorem LoadCrossRefV4_offset_beyond_file_not_in_set :
    ∃ q, Parser.LoadCrossRefV4 fileA.env Parser.init 22 0 false = some (true, q) ∧
      fileA.env.m_FileLen = 111 ∧
      ObjectMap.find Parser.init.m_ObjectInfo 2 = none ∧
      ObjectMap.find q.m_ObjectInfo 2
        = some { pos := 999, type := ObjectType.kNotCompressed, gennum := 1 } ∧
      (999 : Int) ∉ q.m_SortedOffset := by
  have h : (match Parser.LoadCrossRefV4 fileA.env Parser.init 22 0 false with
      | some (true, q) => decide (fileA.env.m_FileLen = 111 ∧
          ObjectMap.find Parser.init.m_ObjectInfo 2 = none ∧
          ObjectMap.find q.m_ObjectInfo 2
            = some { pos := 999, type := ObjectType.kNotCompressed, gennum := 1 } ∧
          (999 : Int) ∉ q.m_SortedOffset)
      | _ => false) = true := by decide
  split at h
  · rename_i q heq
    exact ⟨q, heq, of_decide_eq_true h⟩
  · simp at h

/-- C8 (amended): for every input file and parser state, (1) `LoadCrossRefV4`,
which returns when the syntax parser is lawful, leaves every record of kind
Direct it has written with its offset in `m_SortedOffset` if the offset is
below the length of the file (an offset at or beyond the length of the file is
recorded in the index and not inserted); (2) `LoadCrossRefV5`, main or not and
whatever its result, and (3) `RebuildCrossRef`, which returns for every file,
leave the offset of every record of kind Direct they have written in
`m_SortedOffset`.  A Direct record for which this fails after
`LoadCrossRefV4` or `LoadCrossRefV5` is a record the index held before the
call, unchanged, whose offset the set did not hold before the call;
`RebuildCrossRef` starts from an empty index. -/
theorem loaders_direct_offsets_in_set (env : Env) (hlaw : env.Lawful) (p : Parser)
    (pos streampos : Int) (bSkip bMainXRef : Bool) :
    (∃ r, Parser.LoadCrossRefV4 env p pos streampos bSkip = some r ∧
      ∀ N rec, ObjectMap.find r.2.m_ObjectInfo N = some rec →
        rec.type = ObjectType.kNotCompressed →
        (rec.pos < env.m_FileLen → rec.pos ∈ r.2.m_SortedOffset) ∨
        (ObjectMap.find p.m_ObjectInfo N = some rec ∧ rec.pos ∉ p.m_SortedOffset)) ∧
    (∀ N rec,
      ObjectMap.find (Parser.LoadCrossRefV5 env p pos bMainXRef).2.2.m_ObjectInfo N = some rec →
        rec.type = ObjectType.kNotCompressed →
        rec.pos ∈ (Parser.LoadCrossRefV5 env p pos bMainXRef).2.2.m_SortedOffset ∨
        (ObjectMap.find p.m_ObjectInfo N = some rec ∧ rec.pos ∉ p.m_SortedOffset)) ∧
    (∃ r, Parser.RebuildCrossRef env p = some r ∧
      ∀ N rec, ObjectMap.find r.2.m_ObjectInfo N = some rec →
        rec.type = ObjectType.kNotCompressed → rec.pos ∈ r.2.m_SortedOffset) := by
  refine ⟨?_, ?_, ?_⟩
  · cases h4 : Parser.LoadCrossRefV4 env p pos streampos bSkip with
    | none => exact absurd h4 (Parser.LoadCrossRefV4_ends env hlaw p pos streampos bSkip)
    | some r =>
      refine ⟨r, rfl, ?_⟩
      intro N rec hf hd
      rcases Parser.LoadCrossRefV4_relAll (Parser.OffsetsKnown_stepAll env) p pos streampos
        bSkip r h4 N rec hf hd with h | h
      · exact Or.inl (fun hlt => h (fun l hl => by rw [← Option.some.inj hl]; exact hlt))
      · exact Or.inr h
  · intro N rec hf hd
    have hrel : Parser.OffsetsKnown none p (Parser.LoadCrossRefV5 env p pos bMainXRef).2.2 := by
      cases bMainXRef with
      | false =>
        exact Parser.LoadCrossRefV5_relAll (Parser.OffsetsKnown_entryAll none) p pos
      | true =>
        exact Parser.LoadCrossRefV5_relAll_push (Parser.OffsetsKnown_entryAll none) true
          (Parser.OffsetsKnown_main none) p pos
    rcases hrel N rec hf hd with h | h
    · exact Or.inl (h (fun l hl => by cases hl))
    · exact Or.inr h
  · obtain ⟨r, hr⟩ := Parser.RebuildCrossRef_ends env p
    exact ⟨r, hr, Parser.RebuildCrossRef_known env p r hr⟩

/-- Witness of C8: the sample file `fileA`, whose syntax parser is lawful, with
a fresh parser and the xref section at offset 22. -/
theorem loaders_direct_offsets_in_set_witness :
    fileA.env.Lawful ∧
    (∃ r, Parser.LoadCrossRefV4 fileA.env Parser.init 22 0 false = some r ∧
      ∀ N rec, ObjectMap.find r.2.m_ObjectInfo N = some rec →
        rec.type = ObjectType.kNotCompressed →
        (rec.pos < fileA.env.m_FileLen → rec.pos ∈ r.2.m_SortedOffset) ∨
        (ObjectMap.find Parser.init.m_ObjectInfo N = some rec ∧
          rec.pos ∉ Parser.init.m_SortedOffset)) ∧
    (∀ N rec,
      ObjectMap.find (Parser.LoadCrossRefV5 fileA.env Parser.init 22 false).2.2.m_ObjectInfo N
          = some rec →
        rec.type = ObjectType.kNotCompressed →
        rec.pos ∈ (Parser.LoadCrossRefV5 fileA.env Parser.init 22 false).2.2.m_SortedOffset ∨
        (ObjectMap.find Parser.init.m_ObjectInfo N = some rec ∧
          rec.pos ∉ Parser.init.m_SortedOffset)) ∧
    (∃ r, Parser.RebuildCrossRef fileA.env Parser.init = some r ∧
      ∀ N rec, ObjectMap.find r.2.m_ObjectInfo N = some rec →
        rec.type = ObjectType.kNotCompressed → rec.pos ∈ r.2.m_SortedOffset) := by
  have hlaw : fileA.env.Lawful :=
    SampleFile.env_lawful fileA (by decide) (by decide) (by decide)
  have h := loaders_direct_offsets_in_set fileA.env hlaw Parser.init 22 0 false false
  exact ⟨hlaw, h⟩

/-! ## The permission word (`GetPermissions`) -/

/-- C16 (counterexample): with a security handler that reports the permission
word 0 and an encryption dictionary with `/Filter /Standard`, `GetPermissions`
returns `0xFFFFF0C0`, in which the bits 8, 9, 10 and 11 are clear. -/
theorem GetPermissions_bits_8_to_11_not_set :
    Parser.GetPermissions fileA.env (parserStandard 0) = 0xFFFFF0C0 ∧
      Nat.testBit (Parser.GetPermissions fileA.env (parserStandard 0)) 8 = false ∧
      Nat.testBit (Parser.GetPermissions fileA.env (parserStandard 0)) 9 = false ∧
      Nat.testBit (Parser.GetPermissions fileA.env (parserStandard 0)) 10 = false ∧
      Nat.testBit (Parser.GetPermissions fileA.env (parserStandard 0)) 11 = false := by
  decide

/-- C16 (amended): when a security handler is installed and the `/Filter` of
the encryption dictionary is `Standard`, for every permission word that the
handler reports the value of `GetPermissions` is a 32-bit word with the bits 0
and 1 clear and the bits 6, 7 and 12 to 31 set; the bits 2 to 5 and 8 to 11
are those of the word of the handler. -/
theorem GetPermissions_standard_bits (env : Env) (p : Parser) (handler : SecurityHandler)
    (dict : CPDF_Dictionary) (hh : p.m_pSecurityHandler = some handler)
    (hd : p.m_pEncryptDict = some dict) (hf : GetStringFor env dict "Filter" = "Standard") :
    Parser.GetPermissions env p < 4294967296 ∧
    Nat.testBit (Parser.GetPermissions env p) 0 = false ∧
    Nat.testBit (Parser.GetPermissions env p) 1 = false ∧
    (∀ i, i = 6 ∨ i = 7 ∨ (12 ≤ i ∧ i ≤ 31) →
      Nat.testBit (Parser.GetPermissions env p) i = true) ∧
    (∀ i, (2 ≤ i ∧ i ≤ 5) ∨ (8 ≤ i ∧ i ≤ 11) →
      Nat.testBit (Parser.GetPermissions env p) i = Nat.testBit handler.GetPermissions i) := by
  have hval : Parser.GetPermissions env p
      = (handler.GetPermissions % 4294967296 &&& 0xFFFFFFFC) ||| 0xFFFFF0C0 := by
    unfold Parser.GetPermissions
    rw [hh, hd]
    simp only [hf, if_true]
  rw [hval]
  have hmod : ∀ i, i < 32 → Nat.testBit (handler.GetPermissions % 4294967296) i
      = Nat.testBit handler.GetPermissions i := by
    intro i hi
    have : (4294967296 : Nat) = 2 ^ 32 := by norm_num
    rw [this, Nat.testBit_mod_two_pow]
    simp [hi]
  refine ⟨?_, ?_, ?_, ?_, ?_⟩
  · apply Nat.or_lt_two_pow (n := 32)
    · exact lt_of_le_of_lt Nat.and_le_left (Nat.mod_lt _ (by norm_num))
    · norm_num
  · simp only [Nat.testBit_or, Nat.testBit_and]
    have h1 : Nat.testBit 0xFFFFFFFC 0 = false := by decide
    have h2 : Nat.testBit 0xFFFFF0C0 0 = false := by decide
    simp [h1, h2]
  · simp only [Nat.testBit_or, Nat.testBit_and]
    have h1 : Nat.testBit 0xFFFFFFFC 1 = false := by decide
    have h2 : Nat.testBit 0xFFFFF0C0 1 = false := by decide
    simp [h1, h2]
  · intro i hi
    simp only [Nat.testBit_or]
    have h2 : Nat.testBit 0xFFFFF0C0 i = true := by
      rcases hi with h | h | ⟨h1, h2⟩
      · subst h; decide
      · subst h; decide
      · interval_cases i <;> decide
    simp [h2]
  · intro i hi
    simp only [Nat.testBit_or, Nat.testBit_and]
    have hlt : i < 32 := by omega
    rw [hmod i hlt]
    have h1 : Nat.testBit 0xFFFFFFFC i = true := by
      rcases hi with ⟨h1, h2⟩ | ⟨h1, h2⟩ <;> interval_cases i <;> decide
    have h2 : Nat.testBit 0xFFFFF0C0 i = false := by
      rcases hi with ⟨h1, h2⟩ | ⟨h1, h2⟩ <;> interval_cases i <;> decide
    simp [h1, h2]

/-- Witness of C16 (amended): the handler reports the permission word
`0x0F3C`. -/
theorem GetPermissions_standard_bits_witness :
    Parser.GetPermissions fileA.env (parserStandard 0x0F3C) < 4294967296 ∧
    Nat.testBit (Parser.GetPermissions fileA.env (parserStandard 0x0F3C)) 0 = false ∧
    Nat.testBit (Parser.GetPermissions fileA.env (parserStandard 0x0F3C)) 1 = false ∧
    (∀ i, i = 6 ∨ i = 7 ∨ (12 ≤ i ∧ i ≤ 31) →
      Nat.testBit (Parser.GetPermissions fileA.env (parserStandard 0x0F3C)) i = true) ∧
    (∀ i, (2 ≤ i ∧ i ≤ 5) ∨ (8 ≤ i ∧ i ≤ 11) →
      Nat.testBit (Parser.GetPermissions fileA.env (parserStandard 0x0F3C)) i
        = Nat.testBit 0x0F3C i) :=
  GetPermissions_standard_bits fileA.env (parserStandard 0x0F3C)
    { GetPermissions := 0x0F3C, IsMetadataEncrypted := true }
    [("Filter", CPDF_Object.name "Standard")] rfl rfl (by decide)

/-! ## The size of an object (`GetObjectSize`) -/

namespace Parser

theorem offsetAfter_spec (s : List Int) (hs : s.Pairwise (· < ·)) (x y : Int)
    (h : offsetAfter s x = some y) :
    x ∈ s ∧ y ∈ s ∧ x < y ∧ ∀ z ∈ s, x < z → y ≤ z := by
  induction s with
  | nil => simp [offsetAfter] at h
  | cons a rest ih =>
    rw [List.pairwise_cons] at hs
    simp only [offsetAfter] at h
    by_cases ha : a = x
    · rw [if_pos ha] at h
      subst ha
      cases rest with
      | nil => simp at h
      | cons b t =>
        simp only [List.head?_cons, Option.some.injEq] at h
        subst h
        refine ⟨List.mem_cons_self _ _, by simp, hs.1 _ (List.mem_cons_self _ _), ?_⟩
        intro z hz hlt
        rcases List.mem_cons.mp hz with h1 | h1
        · omega
        · rcases List.mem_cons.mp h1 with h2 | h2
          · omega
          · have := (List.pairwise_cons.mp hs.2).1 z h2
            omega
    · rw [if_neg ha] at h
      obtain ⟨h1, h2, h3, h4⟩ := ih hs.2 h
      refine ⟨List.mem_cons_of_mem _ h1, List.mem_cons_of_mem _ h2, h3, ?_⟩
      intro z hz hlt
      rcases List.mem_cons.mp hz with h5 | h5
      · have := hs.1 x h1
        omega
      · exact h4 z h5 hlt

theorem offsetAfter_of_mem (s : List Int) (hs : s.Pairwise (· < ·)) (x : Int) (hx : x ∈ s)
    (hz : ∃ z ∈ s, x < z) : ∃ y, offsetAfter s x = some y := by
  induction s with
  | nil => simp at hx
  | cons a rest ih =>
    rw [List.pairwise_cons] at hs
    obtain ⟨z, hzm, hzlt⟩ := hz
    simp only [offsetAfter]
    by_cases ha : a = x
    · rw [if_pos ha]
      subst ha
      rcases List.mem_cons.mp hzm with h1 | h1
      · omega
      · cases rest with
        | nil => simp at h1
        | cons b t => exact ⟨b, rfl⟩
    · rw [if_neg ha]
      have hxr : x ∈ rest := by
        rcases List.mem_cons.mp hx with h1 | h1
        · exact absurd h1.symm ha
        · exact h1
      apply ih hs.2 hxr
      rcases List.mem_cons.mp hzm with h1 | h1
      · have := hs.1 x hxr
        omega
      · exact ⟨z, h1, hzlt⟩

theorem offsetAfter_of_not_mem (s : List Int) (x : Int) (hx : x ∉ s) :
    offsetAfter s x = none := by
  induction s with
  | nil => rfl
  | cons a rest ih =>
    simp only [offsetAfter]
    have ha : ¬ a = x := fun h => hx (by rw [h]; exact List.mem_cons_self _ _)
    rw [if_neg ha]
    exact ih (fun h => hx (List.mem_cons_of_mem _ h))

/-- The value of `GetObjectSize` for a valid object number whose measured
record has kind Direct or Null and an offset that is not zero. -/
theorem GetObjectSize_eq (p : Parser) (N : Nat) (hv : p.IsValidObjectNumber N = true)
    (hk : p.GetObjectType (p.measuredObject N) = ObjectType.kNotCompressed ∨
      p.GetObjectType (p.measuredObject N) = ObjectType.kNull)
    (h0 : p.GetObjectPositionOrZero (p.measuredObject N) ≠ 0) :
    GetObjectSize p N =
      match offsetAfter p.m_SortedOffset (p.GetObjectPositionOrZero (p.measuredObject N)) with
      | none => 0
      | some next => next - p.GetObjectPositionOrZero (p.measuredObject N) := by
  unfold GetObjectSize
  have hv2 : ¬ (p.IsValidObjectNumber N = false) := by simp [hv]
  rw [if_neg hv2]
  show (if p.GetObjectType (p.measuredObject N) ≠ ObjectType.kNotCompressed
        ∧ p.GetObjectType (p.measuredObject N) ≠ ObjectType.kNull then (0 : Int)
      else if p.GetObjectPositionOrZero (p.measuredObject N) = 0 then 0
      else
        match offsetAfter p.m_SortedOffset (p.GetObjectPositionOrZero (p.measuredObject N)) with
        | none => 0
        | some next => next - p.GetObjectPositionOrZero (p.measuredObject N)) = _
  have hk2 : ¬ (p.GetObjectType (p.measuredObject N) ≠ ObjectType.kNotCompressed
      ∧ p.GetObjectType (p.measuredObject N) ≠ ObjectType.kNull) := by
    rcases hk with h | h <;> simp [h]
  rw [if_neg hk2, if_neg h0]

/-- When `GetObjectSize` is not zero, the object number is valid, the measured
record has kind Direct or Null, and its offset is not zero. -/
theorem GetObjectSize_ne_zero (p : Parser) (N : Nat) (h : GetObjectSize p N ≠ 0) :
    p.IsValidObjectNumber N = true ∧
    (p.GetObjectType (p.measuredObject N) = ObjectType.kNotCompressed ∨
      p.GetObjectType (p.measuredObject N) = ObjectType.kNull) ∧
    p.GetObjectPositionOrZero (p.measuredObject N) ≠ 0 := by
  unfold GetObjectSize at h
  by_cases hv : p.IsValidObjectNumber N = false
  · rw [if_pos hv] at h
    exact absurd rfl h
  · rw [if_neg hv] at h
    change (if p.GetObjectType (p.measuredObject N) ≠ ObjectType.kNotCompressed
        ∧ p.GetObjectType (p.measuredObject N) ≠ ObjectType.kNull then (0 : Int)
      else if p.GetObjectPositionOrZero (p.measuredObject N) = 0 then 0
      else
        match offsetAfter p.m_SortedOffset (p.GetObjectPositionOrZero (p.measuredObject N)) with
        | none => 0
        | some next => next - p.GetObjectPositionOrZero (p.measuredObject N)) ≠ 0 at h
    by_cases hk : p.GetObjectType (p.measuredObject N) ≠ ObjectType.kNotCompressed
        ∧ p.GetObjectType (p.measuredObject N) ≠ ObjectType.kNull
    · rw [if_pos hk] at h
      exact absurd rfl h
    · rw [if_neg hk] at h
      by_cases h0 : p.GetObjectPositionOrZero (p.measuredObject N) = 0
      · rw [if_pos h0] at h
        exact absurd rfl h
      · refine ⟨by simpa using hv, ?_, h0⟩
        by_contra hc
        apply hk
        constructor
        · intro h1; exact hc (Or.inl h1)
        · intro h1; exact hc (Or.inr h1)

theorem measuredObject_self (p : Parser) (N : Nat)
    (h : p.GetObjectType N ≠ ObjectType.kCompressed) : p.measuredObject N = N := by
  unfold measuredObject
  rw [if_neg h]

end Parser

set_option maxRecDepth 100000 in
/-- C13 (counterexample): (1) after `LoadAllCrossRefV5` on the sample file
`fileF`, object 2 has kind Compressed and `GetObjectSize(2)` is 65, the size of
its container; (2) in the parser `parserSized`, object 4 has kind Direct and
its offset 40 is smaller than the member 80 of the offset set, and
`GetObjectSize(4)` is 0, because 40 is not itself a member; (3) object 5 has
kind Direct and its offset 0 is smaller than the member 15, and
`GetObjectSize(5)` is 0. -/
theorem GetObjectSize_not_only_direct_before_next :
    (∃ q, Parser.LoadAllCrossRefV5 fileF.env Parser.init 9 = some (true, q) ∧
      q.GetObjectType 2 = ObjectType.kCompressed ∧ Parser.GetObjectSize q 2 = 65) ∧
    (parserSized.GetObjectType 4 = ObjectType.kNotCompressed ∧
      parserSized.GetObjectPositionOrZero 4 = 40 ∧ (80 : Int) ∈ parserSized.m_SortedOffset ∧
      Parser.GetObjectSize parserSized 4 = 0) ∧
    (parserSized.GetObjectType 5 = ObjectType.kNotCompressed ∧
      parserSized.GetObjectPositionOrZero 5 = 0 ∧ (15 : Int) ∈ parserSized.m_SortedOffset ∧
      Parser.GetObjectSize parserSized 5 = 0) := by
  refine ⟨?_, by decide, by decide⟩
  have h : (match Parser.LoadAllCrossRefV5 fileF.env Parser.init 9 with
      | some (true, q) => decide (q.GetObjectType 2 = ObjectType.kCompressed ∧
          Parser.GetObjectSize q 2 = 65)
      | _ => false) = true := by decide
  split at h
  · rename_i q heq
    exact ⟨q, heq, of_decide_eq_true h⟩
  · simp at h

/-- C13 (amended): for every parser state with an increasing offset set and
every object number `N`, `GetObjectSize(N) > 0` if and only if `N` is a valid
object number and the record that is measured (the record of the container
when `N` has kind Compressed, the record of `N` otherwise) has kind Direct or
Null and an offset that is not zero, that is a member of the offset set, and
that is smaller than some member of the offset set; `GetObjectSize(N)` is 0
for every `N` of kind Free. -/
theorem GetObjectSize_pos_iff (p : Parser) (N : Nat)
    (hs : p.m_SortedOffset.Pairwise (· < ·)) :
    (0 < Parser.GetObjectSize p N ↔
      p.IsValidObjectNumber N = true ∧
      (p.GetObjectType (p.measuredObject N) = ObjectType.kNotCompressed ∨
        p.GetObjectType (p.measuredObject N) = ObjectType.kNull) ∧
      p.GetObjectPositionOrZero (p.measuredObject N) ≠ 0 ∧
      p.GetObjectPositionOrZero (p.measuredObject N) ∈ p.m_SortedOffset ∧
      ∃ y ∈ p.m_SortedOffset, p.GetObjectPositionOrZero (p.measuredObject N) < y) ∧
    (p.GetObjectType N = ObjectType.kFree → Parser.GetObjectSize p N = 0) := by
  constructor
  · constructor
    · intro hpos
      obtain ⟨hv, hk, h0⟩ := Parser.GetObjectSize_ne_zero p N (by omega)
      have heq := Parser.GetObjectSize_eq p N hv hk h0
      cases hoa : Parser.offsetAfter p.m_SortedOffset
          (p.GetObjectPositionOrZero (p.measuredObject N)) with
      | none =>
        rw [hoa] at heq
        have heq2 : Parser.GetObjectSize p N = 0 := heq
        omega
      | some next =>
        obtain ⟨h1, h2, h3, -⟩ := Parser.offsetAfter_spec _ hs _ _ hoa
        exact ⟨hv, hk, h0, h1, next, h2, h3⟩
    · rintro ⟨hv, hk, h0, hmem, hy⟩
      have heq := Parser.GetObjectSize_eq p N hv hk h0
      obtain ⟨next, hoa⟩ := Parser.offsetAfter_of_mem _ hs _ hmem hy
      obtain ⟨-, -, h3, -⟩ := Parser.offsetAfter_spec _ hs _ _ hoa
      rw [hoa] at heq
      have heq2 : Parser.GetObjectSize p N
          = next - p.GetObjectPositionOrZero (p.measuredObject N) := heq
      omega
  · intro hfree
    by_contra hne
    obtain ⟨-, hk, -⟩ := Parser.GetObjectSize_ne_zero p N hne
    rw [Parser.measuredObject_self p N (by rw [hfree]; decide), hfree] at hk
    rcases hk with h | h <;> exact absurd h (by decide)

/-- Witness of C13 (amended): the parser `parserSized`, whose offset set is
increasing, and object 3. -/
theorem GetObjectSize_pos_iff_witness :
    parserSized.m_SortedOffset.Pairwise (· < ·) ∧
    (0 < Parser.GetObjectSize parserSized 3 ↔
      parserSized.IsValidObjectNumber 3 = true ∧
      (parserSized.GetObjectType (parserSized.measuredObject 3) = ObjectType.kNotCompressed ∨
        parserSized.GetObjectType (parserSized.measuredObject 3) = ObjectType.kNull) ∧
      parserSized.GetObjectPositionOrZero (parserSized.measuredObject 3) ≠ 0 ∧
      parserSized.GetObjectPositionOrZero (parserSized.measuredObject 3)
        ∈ parserSized.m_SortedOffset ∧
      ∃ y ∈ parserSized.m_SortedOffset,
        parserSized.GetObjectPositionOrZero (parserSized.measuredObject 3) < y) ∧
    (parserSized.GetObjectType 3 = ObjectType.kFree → Parser.GetObjectSize parserSized 3 = 0) :=
  ⟨by decide, (GetObjectSize_pos_iff parserSized 3 (by decide)).1,
    (GetObjectSize_pos_iff parserSized 3 (by decide)).2⟩

/-- C14 (counterexample): in the parser `parserSized`, object 4 is a valid
object number of kind Direct with the offset 40, the smallest member of the
offset set greater than 40 is 80, and `GetObjectSize(4)` is 0, not 40: the
offset 40 is not itself a member of the offset set. -/
theorem GetObjectSize_zero_when_offset_not_member :
    parserSized.IsValidObjectNumber 4 = true ∧
    parserSized.GetObjectType 4 = ObjectType.kNotCompressed ∧
    parserSized.GetObjectPositionOrZero 4 = 40 ∧
    (80 : Int) ∈ parserSized.m_SortedOffset ∧
    (∀ y ∈ parserSized.m_SortedOffset, (40 : Int) < y → 80 ≤ y) ∧
    (40 : Int) ∉ parserSized.m_SortedOffset ∧
    Parser.GetObjectSize parserSized 4 = 0 := by
  decide

/-- C14 (amended): for every parser state with an increasing offset set and
every valid object number of kind Direct or Null with an offset `O` that is
not zero: when `O` is a member of the offset set and `m` is the smallest member
greater than `O`, `GetObjectSize` returns `m - O`; when `O` is not a member of
the offset set, `GetObjectSize` returns 0. -/
theorem GetObjectSize_next_offset (p : Parser) (N : Nat)
    (hs : p.m_SortedOffset.Pairwise (· < ·)) (hv : p.IsValidObjectNumber N = true)
    (hk : p.GetObjectType N = ObjectType.kNotCompressed ∨
      p.GetObjectType N = ObjectType.kNull)
    (h0 : p.GetObjectPositionOrZero N ≠ 0) :
    (∀ m, p.GetObjectPositionOrZero N ∈ p.m_SortedOffset → m ∈ p.m_SortedOffset →
      p.GetObjectPositionOrZero N < m →
      (∀ y ∈ p.m_SortedOffset, p.GetObjectPositionOrZero N < y → m ≤ y) →
      Parser.GetObjectSize p N = m - p.GetObjectPositionOrZero N) ∧
    (p.GetObjectPositionOrZero N ∉ p.m_SortedOffset → Parser.GetObjectSize p N = 0) := by
  have hself : p.measuredObject N = N :=
    Parser.measuredObject_self p N (by rcases hk with h | h <;> rw [h] <;> decide)
  have heq := Parser.GetObjectSize_eq p N hv (by rw [hself]; exact hk) (by rw [hself]; exact h0)
  rw [hself] at heq
  constructor
  · intro m hmem hm hlt hleast
    obtain ⟨next, hoa⟩ := Parser.offsetAfter_of_mem _ hs _ hmem ⟨m, hm, hlt⟩
    obtain ⟨-, h2, h3, h4⟩ := Parser.offsetAfter_spec _ hs _ _ hoa
    rw [hoa] at heq
    have heq2 : Parser.GetObjectSize p N = next - p.GetObjectPositionOrZero N := heq
    have h5 := h4 m hm hlt
    have h6 := hleast next h2 h3
    omega
  · intro hnot
    rw [Parser.offsetAfter_of_not_mem _ _ hnot] at heq
    exact heq

/-- Witness of C14 (amended): the parser `parserSized` and object 3, at
offset 80, whose next offset is 120. -/
theorem GetObjectSize_next_offset_witness :
    parserSized.m_SortedOffset.Pairwise (· < ·) ∧
    parserSized.IsValidObjectNumber 3 = true ∧
    parserSized.GetObjectPositionOrZero 3 = 80 ∧
    Parser.GetObjectSize parserSized 3 = 120 - parserSized.GetObjectPositionOrZero 3 :=
  ⟨by decide, by decide, by decide,
    (GetObjectSize_next_offset parserSized 3 (by decide) (by decide) (by decide)
      (by decide)).1 120 (by decide) (by decide) (by decide) (by decide)⟩

/-! ## Resolving an object (`ParseIndirectObject`) -/

namespace Parser

/-- When `ParseIndirectObjectAt` is asked for an object number that is not 0
and returns an object, the header at the position names that number. -/
theorem ParseIndirectObjectAt_header (env : Env) (p : Parser) (pos : Int) (objnum : Nat)
    (o : IndirectObject) (hN : objnum ≠ 0)
    (h : (ParseIndirectObjectAt env p pos objnum).1 = some o) :
    headerObjNum env pos = some objnum := by
  unfold ParseIndirectObjectAt at h
  simp only at h
  unfold headerObjNum
  by_cases h1 : (env.GetNextWord (env.SetPos pos)).1.2 = false
  · rw [if_pos h1] at h
    exact absurd h (by simp)
  · rw [if_neg h1] at h
    have h1t : (env.GetNextWord (env.SetPos pos)).1.2 = true := by simpa using h1
    rw [if_pos h1t]
    by_cases h2 : objnum ≠ 0 ∧
        env.FXSYS_atoui (env.GetNextWord (env.SetPos pos)).1.1 % 4294967296 ≠ objnum
    · rw [if_pos h2] at h
      exact absurd h (by simp)
    · have h3 : env.FXSYS_atoui (env.GetNextWord (env.SetPos pos)).1.1 % 4294967296
          = objnum := by
        by_contra hc
        exact h2 ⟨hN, hc⟩
      rw [h3]

theorem ref_touch (m : ObjectMap) (k : Nat) :
    ObjectMap.ref (ObjectMap.touch m k) k = ObjectMap.ref m k := by
  unfold ObjectMap.touch
  simp [ObjectMap.ref, ObjectMap.find_set]

theorem ref_pos_eq (p : Parser) (k : Nat) :
    (ObjectMap.ref p.m_ObjectInfo k).pos = p.GetObjectPositionOrZero k := by
  unfold ObjectMap.ref GetObjectPositionOrZero
  cases ObjectMap.find p.m_ObjectInfo k with
  | none => rfl
  | some r => rfl

theorem erase_insertObjNum (s : List Nat) (x : Nat) (h : x ∉ s) :
    (insertObjNum s x).erase x = s := by
  induction s with
  | nil => simp [insertObjNum]
  | cons y rest ih =>
    have hxy : x ≠ y := fun hc => h (by rw [hc]; exact List.mem_cons_self _ _)
    have hrest : x ∉ rest := fun hc => h (List.mem_cons_of_mem _ hc)
    simp only [insertObjNum]
    by_cases h1 : x < y
    · rw [if_pos h1]
      simp
    · rw [if_neg h1, if_neg hxy]
      rw [List.erase_cons_tail (by simpa using fun hc => hxy hc.symm)]
      rw [ih hrest]

theorem GetObjectStream_parsing (env : Env) (p : Parser) (objnum : Nat) :
    (GetObjectStream env p objnum).2.m_ParsingObjNums = p.m_ParsingObjNums := by
  unfold GetObjectStream
  split
  · rfl
  · split_ifs
    · rfl
    · split <;> rfl

theorem parseCompressedObject_parsing (env : Env) (p : Parser) (acc : StreamAcc)
    (objnum : Nat) :
    (parseCompressedObject env p acc objnum).2.m_ParsingObjNums = p.m_ParsingObjNums := by
  unfold parseCompressedObject
  simp only
  split <;> rfl

/-- The statements that run under the scoped insertion leave
`m_ParsingObjNums` as it is. -/
theorem parseIndirectObjectBody_parsing (env : Env) (p : Parser) (objnum : Nat) :
    (parseIndirectObjectBody env p objnum).2.m_ParsingObjNums = p.m_ParsingObjNums := by
  unfold parseIndirectObjectBody
  simp only
  by_cases h1 : p.GetObjectType objnum = ObjectType.kNotCompressed
      ∨ p.GetObjectType objnum = ObjectType.kNull
  · rw [if_pos h1]
    split_ifs
    · rfl
    · rw [ParseIndirectObjectAt_state]
  · rw [if_neg h1]
    by_cases h2 : p.GetObjectType objnum ≠ ObjectType.kCompressed
    · rw [if_pos h2]
    · rw [if_neg h2]
      split
      · rw [GetObjectStream_parsing]
      · rw [parseCompressedObject_parsing, GetObjectStream_parsing]

end Parser

/-- C11 (counterexample): in the parser `parserZero` the record of object 0 has
kind Direct and offset 9, `ParseIndirectObject(0)` on the sample file `fileH`
returns an object, and the header at offset 9 names object number 1. -/
theorem ParseIndirectObject_zero_skips_header_check :
    parserZero.GetObjectType 0 = ObjectType.kNotCompressed ∧
    parserZero.GetObjectPositionOrZero 0 = 9 ∧
    (Parser.ParseIndirectObject fileH.env parserZero 0).1.isSome = true ∧
    headerObjNum fileH.env 9 = some 1 := by
  decide

/-- C11 (amended): for every object number `N` other than 0 whose record has
kind Direct, whenever `ParseIndirectObject(N)` returns an object, the object
number written in the header at the offset of the record equals `N`.  (For
`N = 0` the header is not compared: `ParseIndirectObjectAt` takes the object
number 0 to mean any object.) -/
theorem ParseIndirectObject_header_number (env : Env) (p : Parser) (N : Nat)
    (hN : N ≠ 0) (hk : p.GetObjectType N = ObjectType.kNotCompressed)
    (hsome : (Parser.ParseIndirectObject env p N).1.isSome = true) :
    headerObjNum env (p.GetObjectPositionOrZero N) = some N := by
  obtain ⟨obj, h⟩ := Option.isSome_iff_exists.mp hsome
  unfold Parser.ParseIndirectObject at h
  by_cases hv : p.IsValidObjectNumber N = false
  · rw [if_pos hv] at h
    exact absurd h (by simp)
  · rw [if_neg hv] at h
    by_cases hin : N ∈ p.m_ParsingObjNums
    · rw [if_pos hin] at h
      exact absurd h (by simp)
    · rw [if_neg hin] at h
      simp only at h
      unfold Parser.parseIndirectObjectBody at h
      have hk1 : Parser.GetObjectType
          ({ p with m_ParsingObjNums := Parser.insertObjNum p.m_ParsingObjNums N } : Parser) N
          = ObjectType.kNotCompressed := hk
      rw [if_pos (Or.inl hk1)] at h
      simp only at h
      rw [Parser.ref_touch] at h
      have hpos : (ObjectMap.ref p.m_ObjectInfo N).pos = p.GetObjectPositionOrZero N :=
        Parser.ref_pos_eq p N
      rw [hpos] at h
      by_cases h0 : p.GetObjectPositionOrZero N ≤ 0
      · rw [if_pos h0] at h
        exact absurd h (by simp)
      · rw [if_neg h0] at h
        exact Parser.ParseIndirectObjectAt_header env _ _ N obj hN h

/-- Witness of C11 (amended): object 2 of the sample file `fileH`, Direct at
offset 29. -/
theorem ParseIndirectObject_header_number_witness :
    parserH.GetObjectType 2 = ObjectType.kNotCompressed ∧
    (Parser.ParseIndirectObject fileH.env parserH 2).1.isSome = true ∧
    headerObjNum fileH.env (parserH.GetObjectPositionOrZero 2) = some 2 :=
  ⟨by decide, by decide,
    ParseIndirectObject_header_number fileH.env parserH 2 (by decide) (by decide)
      (by decide)⟩

/-- C12: `ParseIndirectObject(objnum)` returns no object when `objnum` is in
`m_ParsingObjNums`, and on every return path the set `m_ParsingObjNums` after
the call equals the set before the call. -/
theorem ParseIndirectObject_parsing_set (env : Env) (p : Parser) (objnum : Nat) :
    (objnum ∈ p.m_ParsingObjNums → (Parser.ParseIndirectObject env p objnum).1 = none) ∧
    (Parser.ParseIndirectObject env p objnum).2.m_ParsingObjNums = p.m_ParsingObjNums := by
  unfold Parser.ParseIndirectObject
  by_cases hv : p.IsValidObjectNumber objnum = false
  · rw [if_pos hv]
    exact ⟨fun _ => rfl, rfl⟩
  · rw [if_neg hv]
    by_cases hin : objnum ∈ p.m_ParsingObjNums
    · rw [if_pos hin]
      exact ⟨fun _ => rfl, rfl⟩
    · rw [if_neg hin]
      refine ⟨fun hc => absurd hc hin, ?_⟩
      simp only
      rw [Parser.parseIndirectObjectBody_parsing]
      exact Parser.erase_insertObjNum _ _ hin

/-! ## The bytes of a Compressed object (`GetIndirectBinary`) -/

namespace Parser

end Parser

namespace Parser

/-- `SetEncryptHandler` returns `FORMAT_ERROR` only when there is no current
trailer. -/
theorem SetEncryptHandler_format_error (env : Env) (host : Host) (p : Parser)
    (h : (SetEncryptHandler env host p).1 = Error.FORMAT_ERROR) : p.GetTrailer = none := by
  unfold SetEncryptHandler at h
  have e : (ReleaseEncryptHandler p).GetTrailer = p.GetTrailer := rfl
  simp only [e] at h
  cases ht : p.GetTrailer with
  | none => rfl
  | some trailer =>
    rw [ht] at h
    simp only at h
    split at h
    · simp at h
    · split_ifs at h
      split at h
      · simp at h
      · split_ifs at h

/-- The calls of `RebuildCrossRef` are counted upwards by the document check,
and a return from it without a rebuild before has made one. -/
theorem checkDocument_rebuilds (env : Env) (host : Host) (load : Parser → Document)
    (p : Parser) (doc : Document) (b : Bool) (n : Nat) :
    (∀ r, checkDocument env host load p doc b n = some (Step.done r) →
      n ≤ r.rebuilds ∧ (b = false → n + 1 ≤ r.rebuilds)) ∧
    (∀ p1 n1 d1, checkDocument env host load p doc b n = some (Step.next (p1, n1, d1)) →
      n ≤ n1) := by
  unfold checkDocument
  constructor
  · intro r h
    by_cases h1 : doc.GetRoot.isNone ∨ doc.GetPageCount = 0
    · rw [if_pos h1] at h
      cases b with
      | true =>
        simp only [if_true, Option.some.injEq, Step.done.injEq] at h
        rw [← h]; simp
      | false =>
        simp only [Bool.false_eq_true, if_false] at h
        split at h
        · simp at h
        · simp only [Option.some.injEq, Step.done.injEq] at h
          rw [← h]; simp
        · split_ifs at h
          all_goals first
            | (simp only [Option.some.injEq, Step.done.injEq] at h
               subst h; first | exact le_refl _ | simp)
            | simp at h
    · rw [if_neg h1] at h; simp at h
  · intro p1 n1 d1 h
    by_cases h1 : doc.GetRoot.isNone ∨ doc.GetPageCount = 0
    · rw [if_pos h1] at h
      cases b with
      | true => simp at h
      | false =>
        simp only [Bool.false_eq_true, if_false] at h
        split at h
        · simp at h
        · simp at h
        · split_ifs at h
          all_goals first
            | (simp only [Option.some.injEq, Step.next.injEq, Prod.mk.injEq] at h
               omega)
            | simp at h
    · rw [if_neg h1] at h
      simp only [Option.some.injEq, Step.next.injEq, Prod.mk.injEq] at h
      omega

/-- The root check counts the calls of `RebuildCrossRef` upwards, and a return
from it has made one. -/
theorem checkRootObjNum_rebuilds (env : Env) (host : Host) (p : Parser) (n : Nat)
    (doc : Document) :
    (∀ r, checkRootObjNum env host p n doc = some (Step.done r) → n + 1 ≤ r.rebuilds) ∧
    (∀ p2 n2, checkRootObjNum env host p n doc = some (Step.next (p2, n2)) → n ≤ n2) := by
  unfold checkRootObjNum
  constructor
  · intro r h
    repeat' (first | split at h | (simp only at h; split at h))
    all_goals first
      | (simp at h; done)
      | (simp only [Option.some.injEq, Step.done.injEq] at h
         subst h
         exact le_refl _)
  · intro p2 n2 h
    repeat' (first | split at h | (simp only at h; split at h))
    all_goals first
      | (simp at h; done)
      | (simp only [Option.some.injEq, Step.next.injEq, Prod.mk.injEq] at h
         omega)

/-- The last part of `StartParse` counts the calls of `RebuildCrossRef`
upwards; entered with a current trailer and without a rebuild before, it
returns `FORMAT_ERROR` only after a rebuild. -/
theorem startParseTail_rebuilds (env : Env) (host : Host) (p : Parser) (b : Bool) (n : Nat)
    (r : StartResult) (h : startParseTail env host p b n = some r) :
    n ≤ r.rebuilds ∧
      (b = false → p.GetTrailer ≠ none → r.error = Error.FORMAT_ERROR → n + 1 ≤ r.rebuilds) := by
  unfold startParseTail at h
  simp only at h
  by_cases h1 : (SetEncryptHandler env host p).1 ≠ Error.SUCCESS
  · rw [if_pos h1] at h
    simp only [Option.some.injEq] at h
    rw [← h]
    refine ⟨le_refl _, ?_⟩
    intro _ ht he
    exact absurd (SetEncryptHandler_format_error env host p he) ht
  · rw [if_neg h1] at h
    have hd := checkDocument_rebuilds env host host.LoadDoc (SetEncryptHandler env host p).2
      (host.LoadDoc (SetEncryptHandler env host p).2) b n
    split at h
    · simp at h
    · rename_i r1 heq
      simp only [Option.some.injEq] at h
      subst h
      have := hd.1 _ heq
      exact ⟨this.1, fun hb _ _ => this.2 hb⟩
    · rename_i p1 n1 doc heq
      have hn1 := hd.2 _ _ _ heq
      have hr := checkRootObjNum_rebuilds env host p1 n1 doc
      split at h
      · simp at h
      · rename_i r2 heq2
        simp only [Option.some.injEq] at h
        subst h
        have := hr.1 _ heq2
        exact ⟨by omega, fun _ _ _ => by omega⟩
      · rename_i p2 n2 heq2
        have := hr.2 _ _ heq2
        simp only [Option.some.injEq] at h
        rw [← h]
        exact ⟨by simp; omega, fun _ _ he => by simp at he⟩

/-- After `LoadAllCrossRefV4` has returned true there is a current trailer. -/
theorem LoadAllCrossRefV4_trailer (env : Env) (p q : Parser) (xrefpos : Int)
    (h : LoadAllCrossRefV4 env p xrefpos = some (true, q)) : q.GetTrailer ≠ none := by
  unfold LoadAllCrossRefV4 at h
  split at h
  · simp at h
  · simp at h
  · rename_i crl xsl p5 hchain
    unfold LoadAllCrossRefV4_chain at hchain
    split at hchain
    · simp at hchain
    · simp at hchain
    · rename_i p1 hload
      split at hchain
      · simp at hchain
      · rename_i trailer p2 htr
        simp only at hchain
        have e3 := chaseV4_rel Ext_glue _ _ _ _ _ _ _ hchain
        simp only at e3
        have e4 := replayV4_rel (Ext_step env) _ _ _ _ _ h
        have e5 := Ext_trans _ _ _ e3 e4
        have htrail : (p2.pushCurrentTrailer trailer).GetTrailer = some trailer :=
          GetTrailer_pushCurrentTrailer _ _
        have : q.GetTrailer = some trailer := by
          by_cases hr : GetDirectInteger (p2.pushCurrentTrailer trailer).GetTrailer "Size" > 0 ∧
              GetDirectInteger (p2.pushCurrentTrailer trailer).GetTrailer "Size"
                ≤ kMaxXRefSize
          · rw [if_pos hr] at e5
            exact GetTrailer_of_Ext _ _ _ e5 (by
              simp [GetTrailer, ShrinkObjectMap, pushCurrentTrailer])
          · rw [if_neg hr] at e5
            exact GetTrailer_of_Ext _ _ _ e5 htrail
        rw [this]; simp

/-- After `LoadAllCrossRefV5` has returned true there is a current trailer. -/
theorem LoadAllCrossRefV5_trailer (env : Env) (p q : Parser) (xrefpos : Int)
    (h : LoadAllCrossRefV5 env p xrefpos = some (true, q)) : q.GetTrailer ≠ none := by
  unfold LoadAllCrossRefV5 at h
  split at h
  · simp at h
  · rename_i xrefpos1 p1 hload
    obtain ⟨pDict, pData, hs⟩ := LoadCrossRefV5_true hload
    have e1 := (loadXRefStream_rel_from (Ext_step env).toEntryRel _ _ _ _ _ _ hs).2
    split at h
    · simp at h
    · simp at h
    · rename_i p2 hchase
      have e2 := chaseV5_rel (Ext_step env).toEntryRel _ _ _ _ _ hchase
      have e3 := Ext_trans _ _ _ e1 e2
      have h0 : (pushXRefTrailer { p with m_Pos := env.SetPos p.m_Pos } pDict
          (GetIntegerFor env pDict "Size") true).GetTrailer = some pDict := by
        simp [pushXRefTrailer, GetTrailer, ShrinkObjectMap, pushCurrentTrailer]
      have h2 : p2.GetTrailer = some pDict := GetTrailer_of_Ext _ _ _ e3 h0
      simp only [Option.some.injEq, Prod.mk.injEq, true_and] at h
      rw [← h]
      show p2.GetTrailer ≠ none
      rw [h2]; simp

/-- The first call of `RebuildCrossRef` leaves the count at one. -/
theorem rebuildFirst_rebuilds (env : Env) (p : Parser) (c : Bool) :
    (∀ r, rebuildFirst env p c = some (Step.done r) →
      r.error = Error.FORMAT_ERROR ∧ r.rebuilds = 1) ∧
    (∀ q b n, rebuildFirst env p c = some (Step.next (q, b, n)) → b = true ∧ n = 1) := by
  unfold rebuildFirst
  constructor
  · intro r h
    split at h
    · simp at h
    · simp only [Option.some.injEq, Step.done.injEq] at h
      rw [← h]; simp
    · simp at h
  · intro q b n h
    split at h
    · simp at h
    · simp at h
    · simp only [Option.some.injEq, Step.next.injEq, Prod.mk.injEq] at h
      exact ⟨h.2.1.symm, h.2.2.symm⟩

/-- The first part of `StartParse`: a return from it is a `FORMAT_ERROR` that
follows a rebuild, unless `startxref` was found and the word after it is not a
number; when the part is left without a rebuild there is a current trailer. -/
theorem startXRef_rebuilds (env : Env) (host : Host) (p : Parser) :
    (∀ r, startXRef env host p = some (Step.done r) →
      r.error = Error.FORMAT_ERROR ∧
      (r.rebuilds = 1 ∨ ((host.BackwardsSearchToWord p.m_Pos "startxref" 4096).1 = true ∧
        (env.GetNextWord (env.GetKeyword
          (host.BackwardsSearchToWord p.m_Pos "startxref" 4096).2).2).1.2 = false))) ∧
    (∀ q b n, startXRef env host p = some (Step.next (q, b, n)) →
      (b = true ∧ n = 1) ∨ (b = false ∧ n = 0 ∧ q.GetTrailer ≠ none)) := by
  unfold startXRef
  simp only
  by_cases hf : (host.BackwardsSearchToWord p.m_Pos "startxref" 4096).1 = true
  · rw [if_pos hf]
    by_cases hn : (env.GetNextWord (env.GetKeyword
          (host.BackwardsSearchToWord p.m_Pos "startxref" 4096).2).2).1.2 = false
    · rw [if_pos hn]
      constructor
      · intro r h
        simp only [Option.some.injEq, Step.done.injEq] at h
        rw [← h]
        exact ⟨rfl, Or.inr ⟨hf, hn⟩⟩
      · intro q b n h
        simp at h
    · rw [if_neg hn]
      constructor
      · intro r h
        split at h
        · simp at h
        · simp at h
        · split at h
          · simp at h
          · simp at h
          · have := (rebuildFirst_rebuilds env _ true).1 r h
            exact ⟨this.1, Or.inl this.2⟩
      · intro q b n h
        split at h
        · simp at h
        · rename_i q1 heq
          simp only [Option.some.injEq, Step.next.injEq, Prod.mk.injEq] at h
          obtain ⟨h1, h2, h3⟩ := h
          subst h1
          exact Or.inr ⟨h2.symm, h3.symm, LoadAllCrossRefV4_trailer _ _ _ _ heq⟩
        · split at h
          · simp at h
          · rename_i q2 heq
            simp only [Option.some.injEq, Step.next.injEq, Prod.mk.injEq] at h
            obtain ⟨h1, h2, h3⟩ := h
            subst h1
            exact Or.inr ⟨h2.symm, h3.symm, LoadAllCrossRefV5_trailer _ _ _ _ heq⟩
          · exact Or.inl ((rebuildFirst_rebuilds env _ true).2 q b n h)
  · rw [if_neg hf]
    constructor
    · intro r h
      have := (rebuildFirst_rebuilds env _ false).1 r h
      exact ⟨this.1, Or.inl this.2⟩
    · intro q b n h
      exact Or.inl ((rebuildFirst_rebuilds env _ false).2 q b n h)

/-- When `startxref` is found and the word after it is not a number, the first
part of `StartParse` returns `FORMAT_ERROR` without a call of
`RebuildCrossRef`. -/
theorem startXRef_not_number (env : Env) (host : Host) (p : Parser)
    (hf : (host.BackwardsSearchToWord p.m_Pos "startxref" 4096).1 = true)
    (hn : (env.GetNextWord (env.GetKeyword
      (host.BackwardsSearchToWord p.m_Pos "startxref" 4096).2).2).1.2 = false) :
    ∃ r, startXRef env host p = some (Step.done r) ∧ r.error = Error.FORMAT_ERROR ∧
      r.rebuilds = 0 := by
  unfold startXRef
  simp only
  rw [if_pos hf, if_pos hn]
  exact ⟨_, rfl, rfl, rfl⟩

end Parser

set_option maxRecDepth 100000 in
/-- C17 (counterexample): the sample file `fileQ` has its header at offset 0,
its bytes 5 and 7 are the digits of version 1.4, and it is longer than 9 bytes;
`startxref` is found in it and the word after it, `xyz`, is not a number:
`StartParse` returns `FORMAT_ERROR` with the file version read and without a
call of `RebuildCrossRef`. -/
theorem StartParse_format_error_before_rebuild :
    toInt32 (fileQ.host (some 29) docNoPages none none).GetHeaderOffset ≠ -1 ∧
    (fileQ.host (some 29) docNoPages none none).GetCharAt 5 = some 49 ∧
    (fileQ.host (some 29) docNoPages none none).GetCharAt 7 = some 52 ∧
    fileQ.env.m_HeaderOffset + 9 ≤ fileQ.env.m_FileLen ∧
    (Parser.StartParse fileQ.env (fileQ.host (some 29) docNoPages none none) Parser.init).map
        (fun r => (r.error, r.rebuilds, r.parser.m_FileVersion))
      = some (Parser.Error.FORMAT_ERROR, 0, 14) := by
  decide

/-- C17 (amended): for a file whose header is found, whose bytes 5 and 7 can be
read and whose length is at least the header offset plus 9, `StartParse`
returns `FORMAT_ERROR` without a call of `RebuildCrossRef` before in exactly
one case: `startxref` is found and the word after it is not a number.  In that
case it does return so, and in every other case a `FORMAT_ERROR` it returns
follows at least one call of `RebuildCrossRef`. -/
theorem StartParse_format_error_rebuilds (env : Env) (host : Parser.Host) (p : Parser)
    (hoff : toInt32 host.GetHeaderOffset ≠ -1)
    (h5 : (host.GetCharAt 5).isSome = true) (h7 : (host.GetCharAt 7).isSome = true)
    (hlen : env.m_HeaderOffset + 9 ≤ env.m_FileLen) :
    (((host.BackwardsSearchToWord (env.SetPos (env.m_FileLen - env.m_HeaderOffset - 9))
          "startxref" 4096).1 = true ∧
        (env.GetNextWord (env.GetKeyword (host.BackwardsSearchToWord
          (env.SetPos (env.m_FileLen - env.m_HeaderOffset - 9)) "startxref" 4096).2).2).1.2
            = false) →
      ∃ r, Parser.StartParse env host p = some r ∧ r.error = Parser.Error.FORMAT_ERROR ∧
        r.rebuilds = 0) ∧
    (∀ r, Parser.StartParse env host p = some r → r.error = Parser.Error.FORMAT_ERROR →
      r.rebuilds = 0 →
      ((host.BackwardsSearchToWord (env.SetPos (env.m_FileLen - env.m_HeaderOffset - 9))
          "startxref" 4096).1 = true ∧
        (env.GetNextWord (env.GetKeyword (host.BackwardsSearchToWord
          (env.SetPos (env.m_FileLen - env.m_HeaderOffset - 9)) "startxref" 4096).2).2).1.2
            = false)) := by
  obtain ⟨ch5, hch5⟩ := Option.isSome_iff_exists.mp h5
  obtain ⟨ch7, hch7⟩ := Option.isSome_iff_exists.mp h7
  have hv : ∃ p1, Parser.readFileVersion env host
      { p with m_bHasParsed := true, m_bXRefStream := false, m_LastXRefOffset := 0 } = some p1 := by
    unfold Parser.readFileVersion
    rw [hch5]
    simp only
    rw [hch7]
    exact ⟨_, rfl⟩
  obtain ⟨p1, hp1⟩ := hv
  have hstart : Parser.StartParse env host p =
      match Parser.startXRef env host
          { p1 with m_Pos := env.SetPos (env.m_FileLen - env.m_HeaderOffset - 9) } with
      | none => none
      | some (Parser.Step.done r) => some r
      | some (Parser.Step.next (p3, bXRefRebuilt, rebuilds)) =>
        Parser.startParseTail env host p3 bXRefRebuilt rebuilds := by
    unfold Parser.StartParse
    simp only
    rw [if_neg hoff, hp1]
    simp only
    rw [if_neg (by omega)]
  have hx := Parser.startXRef_rebuilds env host
    { p1 with m_Pos := env.SetPos (env.m_FileLen - env.m_HeaderOffset - 9) }
  constructor
  · rintro ⟨hf, hn⟩
    obtain ⟨r, hr, he, h0⟩ := Parser.startXRef_not_number env host
      { p1 with m_Pos := env.SetPos (env.m_FileLen - env.m_HeaderOffset - 9) } hf hn
    rw [hstart, hr]
    exact ⟨r, rfl, he, h0⟩
  · intro r h he h0
    rw [hstart] at h
    split at h
    · simp at h
    · rename_i r1 heq
      simp only [Option.some.injEq] at h
      subst h
      rcases (hx.1 _ heq).2 with h1 | h1
      · omega
      · exact h1
    · rename_i p3 b n heq
      have ht := Parser.startParseTail_rebuilds env host p3 b n r h
      rcases hx.2 _ _ _ heq with ⟨hb, hn⟩ | ⟨hb, hn, htr⟩
      · omega
      · have := ht.2 hb htr he
        omega

set_option maxRecDepth 100000 in
/-- Witness of C17 (amended): the sample file `fileQ`, in which the word after
`startxref` is `xyz`. -/
theorem StartParse_format_error_rebuilds_witness :
    toInt32 (fileQ.host (some 29) docNoPages none none).GetHeaderOffset ≠ -1 ∧
    ∃ r, Parser.StartParse fileQ.env (fileQ.host (some 29) docNoPages none none) Parser.init
        = some r ∧ r.error = Parser.Error.FORMAT_ERROR ∧ r.rebuilds = 0 :=
  ⟨by decide,
    (StartParse_format_error_rebuilds fileQ.env (fileQ.host (some 29) docNoPages none none)
      Parser.init (by decide) (by decide) (by decide) (by decide)).1 ⟨by decide, by decide⟩⟩

set_option maxRecDepth 100000 in
/-- C18: the check after the retry looks at the root only.  The sample file
`fileP` has a catalog and a page tree without pages.  Its xref section loads,
the first `LoadDoc` leaves a document with a root and no page, so the index is
rebuilt and the document loaded again; the document still has no page, and
`StartParse` returns `SUCCESS`.  When the search for `startxref` fails on the
same file, so that the rebuild comes before the first `LoadDoc`, the same
document makes `StartParse` return `FORMAT_ERROR`. -/
theorem StartParse_success_without_pages :
    (Parser.StartParse fileP.env (fileP.host (some 200) docNoPages none none) Parser.init).map
        (fun r => (r.error, r.rebuilds, r.doc.map (fun d => (d.GetRoot.isSome, d.GetPageCount))))
      = some (Parser.Error.SUCCESS, 1, some (true, 0)) ∧
    (Parser.StartParse fileP.env (fileP.host none docNoPages none none) Parser.init).map
        (fun r => (r.error, r.rebuilds, r.doc.map (fun d => (d.GetRoot.isSome, d.GetPageCount))))
      = some (Parser.Error.FORMAT_ERROR, 1, some (true, 0)) := by
  decide

set_option maxRecDepth 100000 in
/-- C19: the two entry points record the metadata object under opposite
conditions.  On the sample file `fileL`, with a security handler installed and
a root whose `/Metadata` is the reference `5 0 R`, both entry points return
`SUCCESS`; `StartLinearizedParse` leaves `m_MetadataObjnum` at 0 when the
handler reports that the metadata is not encrypted and sets it to 5 when the
handler reports that it is encrypted, and `StartParse` does the reverse. -/
theorem StartLinearizedParse_records_metadata_when_encrypted :
    (Parser.StartLinearizedParse fileL.env
        (fileL.host (some 243) docMetadata (some handlerPlainMetadata) (some headerL))
        Parser.init).map
        (fun r => (r.error, r.parser.m_pSecurityHandler.map (fun h => h.IsMetadataEncrypted),
          r.parser.m_pLinearized.isSome, r.parser.m_MetadataObjnum))
      = some (Parser.Error.SUCCESS, some false, true, 0) ∧
    (Parser.StartLinearizedParse fileL.env
        (fileL.host (some 243) docMetadata (some handlerEncryptedMetadata) (some headerL))
        Parser.init).map
        (fun r => (r.error, r.parser.m_pSecurityHandler.map (fun h => h.IsMetadataEncrypted),
          r.parser.m_pLinearized.isSome, r.parser.m_MetadataObjnum))
      = some (Parser.Error.SUCCESS, some true, true, 5) ∧
    (Parser.StartParse fileL.env
        (fileL.host (some 243) docMetadata (some handlerPlainMetadata) (some headerL))
        Parser.init).map
        (fun r => (r.error, r.parser.m_pSecurityHandler.map (fun h => h.IsMetadataEncrypted),
          r.parser.m_MetadataObjnum))
      = some (Parser.Error.SUCCESS, some false, 5) ∧
    (Parser.StartParse fileL.env
        (fileL.host (some 243) docMetadata (some handlerEncryptedMetadata) (some headerL))
        Parser.init).map
        (fun r => (r.error, r.parser.m_pSecurityHandler.map (fun h => h.IsMetadataEncrypted),
          r.parser.m_MetadataObjnum))
      = some (Parser.Error.SUCCESS, some true, 0) := by
  decide

/-! ## A failed read of a block of xref records -/

namespace Parser

/-- The record loop goes through a block whose records are all accepted, and
leaves the position of the syntax parser where it was. -/
theorem xrefRecords_accepted (env : Env) (start_objnum block : Nat) (buf : List Nat)
    (l : List Nat) (p : Parser)
    (h : ∀ i ∈ l, recordAccepted env (buf.drop (i * 20))) :
    ∃ q, xrefRecords env start_objnum block buf l p = (true, q) ∧ q.m_Pos = p.m_Pos := by
  induction l generalizing p with
  | nil => exact ⟨p, rfl, rfl⟩
  | cons i rest ih =>
    have hi := h i (List.mem_cons_self _ _)
    have hacc : ∃ q, xrefRecord env p ((start_objnum + block * 1024 + i) % 4294967296)
        (buf.drop (i * 20)) = (true, q) ∧ q.m_Pos = p.m_Pos := by
      unfold xrefRecord
      by_cases h1 : (buf.drop (i * 20)).getD 17 0 = 102
      · rw [if_pos h1]; exact ⟨_, rfl, rfl⟩
      · rw [if_neg h1]
        have h2 : ¬ (env.FXSYS_atoi64 (buf.drop (i * 20)) = 0 ∧
            (List.range 10).all (fun c => isdigit ((buf.drop (i * 20)).getD c 0)) = false) := by
          rcases hi with h3 | h3
          · exact absurd h3 h1
          · exact h3
        simp only
        rw [if_neg h2]
        exact ⟨_, rfl, rfl⟩
    obtain ⟨q, hq, hpos⟩ := hacc
    obtain ⟨q2, hq2, hpos2⟩ := ih q (fun j hj => h j (List.mem_cons_of_mem _ hj))
    refine ⟨q2, ?_, hpos2.trans hpos⟩
    simp only [xrefRecords]
    rw [hq]
    exact hq2

/-- A record of the first-page section writes the record of its own object
number only. -/
theorem linearizedRecord_find (env : Env) (p : Parser) (objnum : Nat) (pEntry : List Nat)
    (N : Nat) (h : objnum ≠ N) :
    ObjectMap.find (linearizedRecord env p objnum pEntry).2.m_ObjectInfo N
      = ObjectMap.find p.m_ObjectInfo N := by
  unfold linearizedRecord
  by_cases h1 : pEntry.getD 17 0 = 102
  · rw [if_pos h1]
    simp [ObjectMap.find_setType, ObjectMap.find_setPos, h]
  · rw [if_neg h1]
    simp only
    by_cases h2 : env.FXSYS_atoi pEntry = 0 ∧
        (List.range 10).all (fun c => isdigit (pEntry.getD c 0)) = false
    · rw [if_pos h2]
    · rw [if_neg h2]
      simp [ObjectMap.find_setType, ObjectMap.find_setPos, ObjectMap.find_setGen, h]

/-- The records of a block of the first-page section write the records of
their own object numbers only. -/
theorem linearizedRecords_find (env : Env) (start_objnum block : Nat) (buf : List Nat)
    (l : List Nat) (p : Parser) (N : Nat)
    (h : ∀ i ∈ l, (start_objnum + block * 1024 + i) % 4294967296 ≠ N) :
    ObjectMap.find (linearizedRecords env start_objnum block buf l p).2.m_ObjectInfo N
      = ObjectMap.find p.m_ObjectInfo N := by
  induction l generalizing p with
  | nil => rfl
  | cons i rest ih =>
    simp only [linearizedRecords]
    have h1 := linearizedRecord_find env p ((start_objnum + block * 1024 + i) % 4294967296)
      (buf.drop (i * 20)) N (h i (List.mem_cons_self _ _))
    cases hr : linearizedRecord env p ((start_objnum + block * 1024 + i) % 4294967296)
      (buf.drop (i * 20)) with
    | mk b q =>
      rw [hr] at h1
      simp only at h1
      cases b
      · exact h1
      · simp only
        rw [ih q (fun j hj => h j (List.mem_cons_of_mem _ hj))]
        exact h1

/-- The record loop leaves the position of the syntax parser where it was. -/
theorem linearizedRecords_pos (env : Env) (start_objnum block : Nat) (buf : List Nat)
    (l : List Nat) (p : Parser) :
    (linearizedRecords env start_objnum block buf l p).2.m_Pos = p.m_Pos := by
  induction l generalizing p with
  | nil => rfl
  | cons i rest ih =>
    simp only [linearizedRecords]
    have h1 : (linearizedRecord env p ((start_objnum + block * 1024 + i) % 4294967296)
        (buf.drop (i * 20))).2.m_Pos = p.m_Pos := by
      unfold linearizedRecord
      by_cases h1 : (buf.drop (i * 20)).getD 17 0 = 102
      · rw [if_pos h1]
      · rw [if_neg h1]
        simp only
        by_cases h2 : env.FXSYS_atoi (buf.drop (i * 20)) = 0 ∧
            (List.range 10).all (fun c => isdigit ((buf.drop (i * 20)).getD c 0)) = false
        · rw [if_pos h2]
        · rw [if_neg h2]
    cases hr : linearizedRecord env p ((start_objnum + block * 1024 + i) % 4294967296)
      (buf.drop (i * 20)) with
    | mk b q =>
      rw [hr] at h1
      simp only at h1
      cases b
      · exact h1
      · simp only
        rw [ih q]
        exact h1

/-- A read that succeeds puts the bytes at the start of the buffer and moves
the position on. -/
theorem SyntaxReadBlock_some (env : Env) (p : Parser) (buf : List Nat) (size : Nat)
    (bytes : List Nat) (h : env.FileReadBlock (p.m_Pos + env.m_HeaderOffset) size = some bytes) :
    SyntaxReadBlock env p buf size
      = (true, bytes ++ buf.drop size, { p with m_Pos := p.m_Pos + (size : Int) }) := by
  unfold SyntaxReadBlock
  rw [h]

/-- A read that fails leaves the buffer and the position as they were. -/
theorem SyntaxReadBlock_none (env : Env) (p : Parser) (buf : List Nat) (size : Nat)
    (h : env.FileReadBlock (p.m_Pos + env.m_HeaderOffset) size = none) :
    SyntaxReadBlock env p buf size = (false, buf, p) := by
  unfold SyntaxReadBlock
  rw [h]

/-- One round of the loop over the blocks of `LoadCrossRefV4` whose records
are accepted: the next round starts with the buffer as `ReadBlock` left it,
whatever `ReadBlock` returned. -/
theorem xrefBlocks_step (env : Env) (start_objnum count nBlocks block : Nat) (rest : List Nat)
    (buf : List Nat) (p : Parser) (bs : Nat) (rd : Bool × List Nat × Parser) (q : Parser)
    (hbs : (if block = nBlocks - 1 then count % 1024 else 1024) = bs)
    (hrd : SyntaxReadBlock env p buf (bs * 20) = rd)
    (hrec : xrefRecords env start_objnum block rd.2.1 (List.range bs) rd.2.2 = (true, q)) :
    xrefBlocks env start_objnum count nBlocks (block :: rest) buf p
      = xrefBlocks env start_objnum count nBlocks rest rd.2.1 q := by
  subst hbs hrd
  simp only [xrefBlocks]
  rw [hrec]

/-- The textual loader on a subsection of 1025 records of which the file holds
1024: the read of the second block fails, the one record of that block is
decoded from the buffer that the first block left, and the function returns
false at the word after the subsection. -/
theorem LoadCrossRefV4_stale_block (env : Env) (p : Parser) (pos : Int) (bytes : List Nat)
    (k k1 k2 sp : Int) (w : String) (start : Nat)
    (hkw : env.GetKeyword (env.SetPos pos) = ("xref", k))
    (hlen : k < env.m_FileLen)
    (hword : env.GetNextWord k = ((w, true), k1)) (hw : w ≠ "")
    (hstart : env.FXSYS_atoui w % 4294967296 = start)
    (hmax : start < env.kMaxObjectNumber) (hkey : start + 1024 < 4294967296)
    (hnum : env.GetDirectNum k1 = (1025, k2)) (hskip : env.ToNextWord k2 = sp)
    (hread0 : env.FileReadBlock (sp + env.m_HeaderOffset) 20480 = some bytes)
    (hread1 : env.FileReadBlock (sp + 20480 + env.m_HeaderOffset) 20 = none)
    (hacc : ∀ i, i < 1024 → recordAccepted env ((bytes ++ [0]).drop (i * 20)))
    (hfirst : (bytes ++ [0]).getD 17 0 ≠ 102)
    (hend : (env.GetNextWord (env.SetPos (sp + 20500))).1.1 = "") :
    ∃ q, LoadCrossRefV4 env p pos 0 false = some (false, q) ∧
      (ObjectMap.find q.m_ObjectInfo (start + 1024)).map (fun r => (r.pos, r.type))
        = some (env.FXSYS_atoi64 (bytes ++ [0]), ObjectType.kNotCompressed) := by
  have hbuf : bytes ++ List.drop (1024 * 20) (List.replicate 20481 0) = bytes ++ [0] := by
    rw [List.drop_replicate]
    rfl
  -- the record of the second block
  have hrec : ∀ q : Parser, ∃ q2, xrefRecord env q (start + 1024) (bytes ++ [0]) = (true, q2) ∧
      (ObjectMap.find q2.m_ObjectInfo (start + 1024)).map (fun r => (r.pos, r.type))
        = some (env.FXSYS_atoi64 (bytes ++ [0]), ObjectType.kNotCompressed) := by
    intro q
    unfold xrefRecord
    rw [if_neg hfirst]
    have h2 : ¬ (env.FXSYS_atoi64 (bytes ++ [0]) = 0 ∧
        (List.range 10).all (fun c => isdigit ((bytes ++ [0]).getD c 0)) = false) := by
      have h0 := hacc 0 (by omega)
      simp only [zero_mul, List.drop_zero] at h0
      rcases h0 with h3 | h3
      · exact absurd h3 hfirst
      · exact h3
    simp only
    rw [if_neg h2]
    refine ⟨_, rfl, ?_⟩
    simp [ObjectMap.find_setType, ObjectMap.find_setPos, ObjectMap.find_setGen,
      ObjectMap.ref_setPos, ObjectMap.ref_setGen]
  -- the blocks of the subsection
  have hblocks : ∀ p2 : Parser, p2.m_Pos = sp →
      ∃ q, xrefBlocks env start 1025 2 (List.range 2) (List.replicate 20481 0) p2 = (true, q) ∧
        (ObjectMap.find q.m_ObjectInfo (start + 1024)).map (fun r => (r.pos, r.type))
          = some (env.FXSYS_atoi64 (bytes ++ [0]), ObjectType.kNotCompressed) := by
    intro p2 hp2
    have hrd0 := SyntaxReadBlock_some env p2 (List.replicate 20481 0) (1024 * 20) bytes
      (by rw [hp2]; exact hread0)
    rw [hbuf] at hrd0
    obtain ⟨q, hq, hqpos⟩ := xrefRecords_accepted env start 0 (bytes ++ [0]) (List.range 1024)
      { p2 with m_Pos := p2.m_Pos + ((1024 * 20 : Nat) : Int) }
      (fun i hi => hacc i (List.mem_range.mp hi))
    have hrd1 := SyntaxReadBlock_none env q (bytes ++ [0]) (1 * 20) (by
      rw [hqpos]
      show env.FileReadBlock (p2.m_Pos + ((1024 * 20 : Nat) : Int) + env.m_HeaderOffset) 20 = none
      rw [hp2]
      exact hread1)
    obtain ⟨q2, hq2, hfind⟩ := hrec q
    refine ⟨q2, ?_, hfind⟩
    have hr2 : List.range 2 = [0, 1] := rfl
    rw [hr2, xrefBlocks_step env start 1025 2 0 [1] _ p2 1024 _ q rfl hrd0 hq,
      xrefBlocks_step env start 1025 2 1 [] _ q 1 _ q2 rfl hrd1 (by
        show xrefRecords env start 1 (bytes ++ [0]) [0] q = (true, q2)
        simp only [xrefRecords, zero_mul, List.drop_zero, add_zero, one_mul]
        rw [Nat.mod_eq_of_lt hkey, hq2])]
    rfl
  -- the loop over the subsections
  obtain ⟨q, hq, hfind⟩ := hblocks
    { p with m_Pos := sp, m_SortedOffset := insertOffset p.m_SortedOffset pos,
             m_dwXrefStartObjNum := start } rfl
  obtain ⟨n, hn⟩ : ∃ n, subsectionRounds env k = n + 2 := by
    unfold subsectionRounds
    exact ⟨(env.m_FileLen - k).toNat - 1, by omega⟩
  refine ⟨{ q with m_Pos := (env.GetNextWord (env.SetPos (sp + 20500))).2 }, ?_, hfind⟩
  unfold LoadCrossRefV4
  simp only [hkw, ne_eq, not_true_eq_false, if_false, if_true]
  rw [hn]
  simp only [xrefSubsections, hword, hstart, hnum, hskip]
  rw [if_neg hw]
  simp only [Bool.true_eq_false, if_false]
  rw [if_neg (by omega)]
  simp only [Nat.reduceMod, Nat.reduceDiv, Nat.reduceAdd, Nat.reduceMul, hq,
    Bool.false_eq_true, if_false, Nat.cast_ofNat, hend, if_true]

/-- `ReadBlock` does not touch the index. -/
theorem SyntaxReadBlock_index (env : Env) (p : Parser) (buf : List Nat) (size : Nat) :
    (SyntaxReadBlock env p buf size).2.2.m_ObjectInfo = p.m_ObjectInfo := by
  unfold SyntaxReadBlock
  split <;> rfl

/-- A read that is reported as done has moved the position on by its size. -/
theorem SyntaxReadBlock_pos (env : Env) (p : Parser) (buf : List Nat) (size : Nat)
    (h : (SyntaxReadBlock env p buf size).1 ≠ false) :
    (SyntaxReadBlock env p buf size).2.2.m_Pos = p.m_Pos + (size : Int) := by
  unfold SyntaxReadBlock at h ⊢
  split
  · rfl
  · rename_i hnone
    rw [hnone] at h
    simp at h

/-- One round of the loop over the blocks of `LoadLinearizedCrossRefV4` in
which `ReadBlock` fails: the function returns false with the parser as it
was. -/
theorem linearizedBlocks_failed_read (env : Env) (dwStartPos : Int)
    (start_objnum count nBlocks block : Nat) (rest : List Nat) (buf : List Nat) (p : Parser)
    (h : env.FileReadBlock (p.m_Pos + env.m_HeaderOffset)
      ((if block = nBlocks - 1 then count % 1024 else 1024) * 20) = none) :
    linearizedBlocks env dwStartPos start_objnum count nBlocks (block :: rest) buf p
      = (false, p) := by
  simp only [linearizedBlocks]
  by_cases h1 : dwStartPos + (((if block = nBlocks - 1 then count % 1024 else 1024) * 20 : Nat) : Int)
      > env.m_FileLen
  · rw [if_pos h1]
  · rw [if_neg h1, SyntaxReadBlock_none env p buf _ h]
    simp

/-- One round of the loop over the blocks of `LoadLinearizedCrossRefV4`, for a
block of `bs` records. -/
theorem linearizedBlocks_cons (env : Env) (dwStartPos : Int)
    (start_objnum count nBlocks block : Nat) (rest : List Nat) (buf : List Nat) (p : Parser)
    (bs : Nat) (hbs : (if block = nBlocks - 1 then count % 1024 else 1024) = bs) :
    linearizedBlocks env dwStartPos start_objnum count nBlocks (block :: rest) buf p =
      if dwStartPos + ((bs * 20 : Nat) : Int) > env.m_FileLen then (false, p)
      else if (SyntaxReadBlock env p buf (bs * 20)).1 = false then
        (false, (SyntaxReadBlock env p buf (bs * 20)).2.2)
      else
        match linearizedRecords env start_objnum block (SyntaxReadBlock env p buf (bs * 20)).2.1
            (List.range bs) (SyntaxReadBlock env p buf (bs * 20)).2.2 with
        | (false, p1) => (false, p1)
        | (true, p1) =>
          linearizedBlocks env dwStartPos start_objnum count nBlocks rest
            (SyntaxReadBlock env p buf (bs * 20)).2.1 p1 := by
  subst hbs
  rfl

/-- The first-page loader on a section of 1025 records whose second block
cannot be read: the function returns false, and the record of object 1024,
the one record of that block, is as it was. -/
theorem LoadLinearizedCrossRefV4_failed_read (env : Env) (p : Parser) (sp : Int)
    (hset : env.SetPos sp = sp)
    (hread1 : env.FileReadBlock (sp + 20480 + env.m_HeaderOffset) 20 = none) :
    (LoadLinearizedCrossRefV4 env p (sp + env.m_HeaderOffset) 1025).1 = false ∧
    ObjectMap.find
        (LoadLinearizedCrossRefV4 env p (sp + env.m_HeaderOffset) 1025).2.m_ObjectInfo 1024
      = ObjectMap.find p.m_ObjectInfo 1024 := by
  have hblocks : ∀ (buf : List Nat) (p1 : Parser), p1.m_Pos = sp →
      (linearizedBlocks env sp 0 1025 2 [0, 1] buf p1).1 = false ∧
      ObjectMap.find
          (linearizedBlocks env sp 0 1025 2 [0, 1] buf p1).2.m_ObjectInfo
          1024
        = ObjectMap.find p1.m_ObjectInfo 1024 := by
    intro buf p1 hp1
    rw [linearizedBlocks_cons env sp 0 1025 2 0 [1] buf p1 1024 rfl]
    by_cases h1 : sp + ((1024 * 20 : Nat) : Int) > env.m_FileLen
    · rw [if_pos h1]
      exact ⟨rfl, rfl⟩
    · rw [if_neg h1]
      by_cases h2 : (SyntaxReadBlock env p1 buf (1024 * 20)).1 = false
      · rw [if_pos h2]
        exact ⟨rfl, by rw [SyntaxReadBlock_index]⟩
      · rw [if_neg h2]
        have hpos := SyntaxReadBlock_pos env p1 buf (1024 * 20) h2
        have hidx := SyntaxReadBlock_index env p1 buf (1024 * 20)
        have hfind := linearizedRecords_find env 0 0
          (SyntaxReadBlock env p1 buf (1024 * 20)).2.1 (List.range 1024)
          (SyntaxReadBlock env p1 buf (1024 * 20)).2.2 1024 (by
            intro i hi
            have := List.mem_range.mp hi
            omega)
        have hrpos := linearizedRecords_pos env 0 0
          (SyntaxReadBlock env p1 buf (1024 * 20)).2.1 (List.range 1024)
          (SyntaxReadBlock env p1 buf (1024 * 20)).2.2
        cases hr : linearizedRecords env 0 0
          (SyntaxReadBlock env p1 buf (1024 * 20)).2.1 (List.range 1024)
          (SyntaxReadBlock env p1 buf (1024 * 20)).2.2 with
        | mk b q =>
          rw [hr] at hfind hrpos
          simp only at hfind hrpos
          cases b
          · exact ⟨rfl, by rw [hfind, hidx]⟩
          · simp only
            rw [linearizedBlocks_failed_read env sp 0 1025 2 1 [] _ q (by
              rw [hrpos, hpos, hp1]
              exact hread1)]
            exact ⟨rfl, by rw [hfind, hidx]⟩
  unfold LoadLinearizedCrossRefV4
  have hd : sp + env.m_HeaderOffset - env.m_HeaderOffset = sp := by omega
  simp only [hd, hset]
  have hr2 : List.range (1025 % 4294967296 / 1024 + 1) = [0, 1] := rfl
  have hc : 1025 % 4294967296 = 1025 := rfl
  have hb := hblocks (List.replicate 20481 0)
    { p with m_Pos := sp,
             m_SortedOffset := insertOffset p.m_SortedOffset (sp + env.m_HeaderOffset) } rfl
  rw [hr2, hc]
  cases hr : linearizedBlocks env sp 0 1025 (1025 / 1024 + 1) [0, 1] (List.replicate 20481 0)
      { p with m_Pos := sp,
               m_SortedOffset := insertOffset p.m_SortedOffset (sp + env.m_HeaderOffset) } with
  | mk b q =>
    have h2 : (1025 / 1024 + 1 : Nat) = 2 := rfl
    rw [h2] at hr
    rw [hr] at hb
    simp only at hb
    obtain ⟨hb1, hb2⟩ := hb
    subst hb1
    exact ⟨rfl, hb2⟩

end Parser

/-! ## The truncated sample file -/

theorem length_repeatList {α : Type} (l : List α) (n : Nat) :
    (repeatList l n).length = n * l.length := by
  induction n with
  | zero => simp [repeatList]
  | succ n ih => simp [repeatList, ih, Nat.succ_mul, Nat.add_comm]

theorem map_repeatList {α β : Type} (f : α → β) (l : List α) (n : Nat) :
    (repeatList l n).map f = repeatList (l.map f) n := by
  induction n with
  | zero => rfl
  | succ n ih => simp [repeatList, ih]

/-- Dropping `j` copies from the front of `n` copies leaves `n - j` copies. -/
theorem drop_repeatList {α : Type} (l t : List α) (j n : Nat) (h : j ≤ n) :
    (repeatList l n ++ t).drop (j * l.length) = repeatList l (n - j) ++ t := by
  induction j generalizing n with
  | zero => simp
  | succ j ih =>
    cases n with
    | zero => omega
    | succ n =>
      have e : (j + 1) * l.length = l.length + j * l.length := by
        rw [Nat.succ_mul, Nat.add_comm]
      rw [e, ← List.drop_drop]
      simp only [repeatList, List.append_assoc, List.drop_left]
      rw [ih n (by omega)]
      simp

/-- The bytes of the 1024 records of `fileT`. -/
theorem bytes_recordsT :
    recordsT.map Char.toNat
      = [48, 48, 48, 48, 48, 48, 48, 48, 48, 57, 32, 48, 48, 48, 48, 48, 32, 110, 13, 10]
        ++ repeatList
          [48, 48, 48, 48, 48, 48, 48, 48, 48, 48, 32, 48, 48, 48, 48, 49, 32, 102, 13, 10]
          1023 := by
  unfold recordsT
  rw [List.map_append, map_repeatList]
  rfl

theorem length_recordsT : (recordsT.map Char.toNat).length = 20480 := by
  rw [bytes_recordsT, List.length_append, length_repeatList]
  rfl

theorem file_fileT :
    fileT.env.file = bytesOf "%PDF-1.4\n1 0 obj null endobj\nxref\n1 1025\n"
      ++ recordsT.map Char.toNat := by
  show (_ ++ recordsT).map Char.toNat = _
  rw [List.map_append]
  rfl

theorem length_fileT : fileT.env.m_FileLen = 20521 := by
  unfold Env.m_FileLen
  rw [file_fileT, List.length_append, length_recordsT]
  rfl

theorem SetPos_fileT (pos : Int) : fileT.env.SetPos pos = min pos 20521 := by
  show min pos ((bytesOf fileT.text).length : Int) = _
  have h := length_fileT
  unfold Env.m_FileLen at h
  have h2 : fileT.env.file = bytesOf fileT.text := rfl
  rw [h2] at h
  rw [h]

/-- The first block of records of `fileT` is read whole. -/
theorem read0_fileT :
    fileT.env.FileReadBlock (41 + fileT.env.m_HeaderOffset) 20480
      = some (recordsT.map Char.toNat) := by
  unfold Env.FileReadBlock
  rw [length_fileT]
  have h0 : fileT.env.m_HeaderOffset = 0 := rfl
  rw [h0, if_pos (by decide), file_fileT]
  have h1 : ((41 : Int) + 0).toNat
      = (bytesOf "%PDF-1.4\n1 0 obj null endobj\nxref\n1 1025\n").length := by decide
  rw [h1, List.drop_left, ← length_recordsT, List.take_length]

/-- The read of the second block of records of `fileT` fails: the file ends
where the block would start. -/
theorem read1_fileT :
    fileT.env.FileReadBlock (41 + 20480 + fileT.env.m_HeaderOffset) 20 = none := by
  unfold Env.FileReadBlock
  rw [length_fileT]
  have h0 : fileT.env.m_HeaderOffset = 0 := rfl
  rw [h0, if_neg (by decide)]

/-- The records 1 to 1023 of the buffer that the first block leaves are marked
free. -/
theorem free_recordsT (i : Nat) (h1 : 1 ≤ i) (h2 : i < 1024) :
    ((recordsT.map Char.toNat ++ [0]).drop (i * 20)).getD 17 0 = 102 := by
  obtain ⟨j, rfl⟩ : ∃ j, i = j + 1 := ⟨i - 1, by omega⟩
  rw [bytes_recordsT]
  have e : (j + 1) * 20 = 20 + j * 20 := by omega
  rw [e, ← List.drop_drop, List.append_assoc]
  have e2 : List.drop 20
      ([48, 48, 48, 48, 48, 48, 48, 48, 48, 57, 32, 48, 48, 48, 48, 48, 32, 110, 13, 10]
        ++ (repeatList
          [48, 48, 48, 48, 48, 48, 48, 48, 48, 48, 32, 48, 48, 48, 48, 49, 32, 102, 13, 10]
          1023 ++ [0]))
      = repeatList
          [48, 48, 48, 48, 48, 48, 48, 48, 48, 48, 32, 48, 48, 48, 48, 49, 32, 102, 13, 10]
          1023 ++ [0] := rfl
  rw [e2]
  have e3 := drop_repeatList
    [48, 48, 48, 48, 48, 48, 48, 48, 48, 48, 32, 48, 48, 48, 48, 49, 32, 102, 13, 10] [0] j 1023
    (by omega)
  have e4 : ([48, 48, 48, 48, 48, 48, 48, 48, 48, 48, 32, 48, 48, 48, 48, 49, 32, 102, 13, 10]
      : List Nat).length = 20 := rfl
  rw [e4] at e3
  rw [e3]
  obtain ⟨m, hm⟩ : ∃ m, 1023 - j = m + 1 := ⟨1023 - j - 1, by omega⟩
  rw [hm]
  rfl

/-- The offset that the first record of the buffer gives. -/
theorem atoi64_recordsT :
    fileT.env.FXSYS_atoi64 (recordsT.map Char.toNat ++ [0]) = 9 := by
  rw [bytes_recordsT]
  show ((decimalOf _ : Nat) : Int) = 9
  unfold decimalOf
  simp [List.takeWhile, Parser.isdigit]

/-- Every record of the buffer that the first block leaves is accepted. -/
theorem accepted_recordsT (i : Nat) (h : i < 1024) :
    recordAccepted fileT.env ((recordsT.map Char.toNat ++ [0]).drop (i * 20)) := by
  by_cases h0 : i = 0
  · subst h0
    right
    simp only [zero_mul, List.drop_zero]
    rw [atoi64_recordsT]
    simp
  · left
    exact free_recordsT i (by omega) h

theorem first_recordsT : (recordsT.map Char.toNat ++ [0]).getD 17 0 ≠ 102 := by
  rw [bytes_recordsT]
  decide

/-- C20: `LoadCrossRefV4` does not look at what `ReadBlock` returns.  For a
subsection that announces 1025 records, starting with object `start`, in a
file that holds the first block of 1024 accepted records at `sp` and in which
the read of the second block fails: `LoadCrossRefV4` decodes the one record of
the second block from the buffer that the first block left, and records object
`start + 1024` as in use at the offset of the first record, before it returns
false at the word after the subsection.  `LoadLinearizedCrossRefV4`, given the
same records as 1025 objects from 0 on, returns false when the read fails and
leaves the record of object 1024 as it was. -/
theorem LoadCrossRefV4_decodes_block_after_failed_read (env : Env) (p : Parser) (pos : Int)
    (bytes : List Nat) (k k1 k2 sp : Int) (w : String) (start : Nat)
    (hkw : env.GetKeyword (env.SetPos pos) = ("xref", k))
    (hlen : k < env.m_FileLen)
    (hword : env.GetNextWord k = ((w, true), k1)) (hw : w ≠ "")
    (hstart : env.FXSYS_atoui w % 4294967296 = start)
    (hmax : start < env.kMaxObjectNumber) (hkey : start + 1024 < 4294967296)
    (hnum : env.GetDirectNum k1 = (1025, k2)) (hskip : env.ToNextWord k2 = sp)
    (hset : env.SetPos sp = sp)
    (hread0 : env.FileReadBlock (sp + env.m_HeaderOffset) 20480 = some bytes)
    (hread1 : env.FileReadBlock (sp + 20480 + env.m_HeaderOffset) 20 = none)
    (hacc : ∀ i, i < 1024 → recordAccepted env ((bytes ++ [0]).drop (i * 20)))
    (hfirst : (bytes ++ [0]).getD 17 0 ≠ 102)
    (hend : (env.GetNextWord (env.SetPos (sp + 20500))).1.1 = "") :
    (∃ q, Parser.LoadCrossRefV4 env p pos 0 false = some (false, q) ∧
      (ObjectMap.find q.m_ObjectInfo (start + 1024)).map (fun r => (r.pos, r.type))
        = some (env.FXSYS_atoi64 (bytes ++ [0]), ObjectType.kNotCompressed)) ∧
    (Parser.LoadLinearizedCrossRefV4 env p (sp + env.m_HeaderOffset) 1025).1 = false ∧
    ObjectMap.find
        (Parser.LoadLinearizedCrossRefV4 env p (sp + env.m_HeaderOffset) 1025).2.m_ObjectInfo 1024
      = ObjectMap.find p.m_ObjectInfo 1024 :=
  ⟨Parser.LoadCrossRefV4_stale_block env p pos bytes k k1 k2 sp w start hkw hlen hword hw hstart
      hmax hkey hnum hskip hread0 hread1 hacc hfirst hend,
    Parser.LoadLinearizedCrossRefV4_failed_read env p sp hset hread1⟩

/-- Witness of C20: the sample file `fileT`, whose subsection `1 1025` is cut
off after 1024 records.  `LoadCrossRefV4` returns false and leaves object 1025
recorded as in use at offset 9, the offset of object 1;
`LoadLinearizedCrossRefV4` returns false and leaves no record of object
1024. -/
theorem LoadCrossRefV4_decodes_block_after_failed_read_witness :
    fileT.env.FileReadBlock (41 + 20480 + fileT.env.m_HeaderOffset) 20 = none ∧
    (∃ q, Parser.LoadCrossRefV4 fileT.env Parser.init 29 0 false = some (false, q) ∧
      (ObjectMap.find q.m_ObjectInfo 1025).map (fun r => (r.pos, r.type))
        = some (9, ObjectType.kNotCompressed)) ∧
    (Parser.LoadLinearizedCrossRefV4 fileT.env Parser.init 41 1025).1 = false ∧
    ObjectMap.find (Parser.LoadLinearizedCrossRefV4 fileT.env Parser.init 41 1025).2.m_ObjectInfo
      1024 = none := by
  have h := LoadCrossRefV4_decodes_block_after_failed_read fileT.env Parser.init 29
    (recordsT.map Char.toNat) 33 35 40 41 "1" 1
    (by rw [SetPos_fileT]; rfl) (by rw [length_fileT]; decide) rfl (by decide) (by decide)
    (by decide) (by decide) rfl rfl (by rw [SetPos_fileT]; rfl) read0_fileT read1_fileT
    accepted_recordsT first_recordsT (by rw [SetPos_fileT]; rfl)
  rw [atoi64_recordsT] at h
  obtain ⟨h1, h2, h3⟩ := h
  have e1 : (41 : Int) + fileT.env.m_HeaderOffset = 41 := rfl
  rw [e1] at h2 h3
  exact ⟨read1_fileT, h1, h2, h3⟩

/-! ## The trailers after `LoadAllCrossRefV4` -/

namespace Parser

/-- The subsection loop in skip mode leaves the stored trailers as they
were. -/
theorem xrefSubsections_skip_trailers (env : Env) (fuel : Nat) (p : Parser) (b : Bool)
    (q : Parser) (h : xrefSubsections env true fuel p = some (b, q)) :
    q.m_Trailers = p.m_Trailers ∧ q.m_TrailerPos = p.m_TrailerPos := by
  induction fuel generalizing p with
  | zero => simp [xrefSubsections] at h
  | succ n ih =>
    simp only [xrefSubsections] at h
    split_ifs at h with h1 h2 h3
    · simp only [Option.some.injEq, Prod.mk.injEq] at h
      rw [← h.2]; exact ⟨rfl, rfl⟩
    · simp only [Option.some.injEq, Prod.mk.injEq] at h
      rw [← h.2]; exact ⟨rfl, rfl⟩
    · simp only [Option.some.injEq, Prod.mk.injEq] at h
      rw [← h.2]; exact ⟨rfl, rfl⟩
    · simp only at h
      have := ih _ h
      exact this

/-- In skip mode and without a stream, `LoadCrossRefV4` leaves the stored
trailers as they were. -/
theorem LoadCrossRefV4_skip_trailers (env : Env) (p : Parser) (pos : Int) (b : Bool)
    (q : Parser) (h : LoadCrossRefV4 env p pos 0 true = some (b, q)) :
    q.m_Trailers = p.m_Trailers ∧ q.m_TrailerPos = p.m_TrailerPos := by
  unfold LoadCrossRefV4 at h
  simp only at h
  by_cases h1 : (env.GetKeyword (env.SetPos pos)).1 ≠ "xref"
  · rw [if_pos h1] at h
    simp only [Option.some.injEq, Prod.mk.injEq] at h
    rw [← h.2]; exact ⟨rfl, rfl⟩
  · rw [if_neg h1] at h
    simp only [ne_eq, not_true_eq_false, if_false] at h
    split at h
    · simp at h
    · rename_i p3 heq
      simp only [Option.some.injEq, Prod.mk.injEq] at h
      rw [← h.2]
      have := xrefSubsections_skip_trailers env _ _ _ _ heq
      exact this
    · rename_i p3 heq
      simp only [if_true, Option.some.injEq, Prod.mk.injEq] at h
      rw [← h.2]
      have := xrefSubsections_skip_trailers env _ _ _ _ heq
      exact this

/-- After `LoadAllCrossRefV4` has returned true, the current trailer is the
trailer of the section at `xrefpos`, which was pushed first. -/
theorem LoadAllCrossRefV4_first_pushed (env : Env) (p q : Parser) (xrefpos : Int)
    (h : LoadAllCrossRefV4 env p xrefpos = some (true, q)) :
    ∃ p1 trailer rest, LoadCrossRefV4 env p xrefpos 0 true = some (true, p1) ∧
      (LoadTrailerV4 env p1).1 = some trailer ∧
      q.m_Trailers = p.m_Trailers ++ trailer :: rest ∧
      q.m_TrailerPos = some p.m_Trailers.length ∧
      q.GetTrailer = some trailer := by
  unfold LoadAllCrossRefV4 at h
  split at h
  · simp at h
  · simp at h
  · rename_i crl xsl p5 hchain
    unfold LoadAllCrossRefV4_chain at hchain
    split at hchain
    · simp at hchain
    · simp at hchain
    · rename_i p1 hload
      obtain ⟨hk1, hk2⟩ := LoadCrossRefV4_skip_trailers env p xrefpos true p1 hload
      split at hchain
      · simp at hchain
      · rename_i trailer p2 htr
        simp only at hchain
        obtain ⟨v, hv⟩ := LoadTrailerV4_state env p1
        rw [htr] at hv
        simp only at hv
        have e3 := chaseV4_rel Ext_glue _ _ _ _ _ _ _ hchain
        simp only at e3
        have e4 := replayV4_rel (Ext_step env) _ _ _ _ _ h
        have e5 := Ext_trans _ _ _ e3 e4
        have e6 : q.m_TrailerPos = some p1.m_Trailers.length ∧
            ∃ l, q.m_Trailers = (p1.m_Trailers ++ [trailer]) ++ l := by
          by_cases hr : GetDirectInteger (p2.pushCurrentTrailer trailer).GetTrailer "Size" > 0 ∧
              GetDirectInteger (p2.pushCurrentTrailer trailer).GetTrailer "Size"
                ≤ kMaxXRefSize
          · rw [if_pos hr] at e5
            obtain ⟨a1, a2, -⟩ := e5
            rw [hv] at a1 a2
            exact ⟨a1, a2⟩
          · rw [if_neg hr] at e5
            obtain ⟨a1, a2, -⟩ := e5
            rw [hv] at a1 a2
            exact ⟨a1, a2⟩
        obtain ⟨hpos, rest, hrest⟩ := e6
        rw [hk1] at hpos hrest
        refine ⟨p1, trailer, rest, hload, ?_, ?_, hpos, ?_⟩
        · rw [htr]
        · rw [hrest, List.append_assoc]; rfl
        · unfold GetTrailer
          rw [hpos]
          show q.m_Trailers[p.m_Trailers.length]? = some trailer
          rw [hrest, List.append_assoc, List.getElem?_append_right (le_refl _)]
          simp

/-! ## The first number of a subsection header -/

/-- A subsection header whose first number is not below `kMaxObjectNumber`
ends the subsection loop with false, and the index stays as it was. -/
theorem xrefSubsections_first_number (env : Env) (bSkip : Bool) (fuel : Nat) (p : Parser)
    (hword : (env.GetNextWord p.m_Pos).1.1 ≠ "")
    (hnum : (env.GetNextWord p.m_Pos).1.2 = true)
    (hge : env.kMaxObjectNumber
      ≤ env.FXSYS_atoui (env.GetNextWord p.m_Pos).1.1 % 4294967296) :
    ∃ q, xrefSubsections env bSkip (fuel + 1) p = some (false, q) ∧
      q.m_ObjectInfo = p.m_ObjectInfo := by
  simp only [xrefSubsections]
  rw [if_neg hword, if_neg (by simp [hnum]), if_pos hge]
  exact ⟨_, rfl, rfl⟩

end Parser

/-- C21 (amended): in the subsection loop of `LoadCrossRefV4`, a subsection
header whose first number (as a 32-bit unsigned value) is not below
`kMaxObjectNumber` is rejected: the loop returns false at once and writes no
record for the subsection.  The count of the header takes no part in the
test. -/
theorem xrefSubsections_rejects_first_number (env : Env) (bSkip : Bool) (fuel : Nat)
    (p : Parser)
    (hword : (env.GetNextWord p.m_Pos).1.1 ≠ "")
    (hnum : (env.GetNextWord p.m_Pos).1.2 = true)
    (hge : env.kMaxObjectNumber
      ≤ env.FXSYS_atoui (env.GetNextWord p.m_Pos).1.1 % 4294967296) :
    ∃ q, Parser.xrefSubsections env bSkip (fuel + 1) p = some (false, q) ∧
      q.m_ObjectInfo = p.m_ObjectInfo :=
  Parser.xrefSubsections_first_number env bSkip fuel p hword hnum hge

set_option maxRecDepth 100000 in
/-- Witness of C21 (amended): the section at offset 110 of the sample file
`fileM`, whose header `1048576 1` follows the keyword `xref` at position 114:
the subsection loop returns false and the index stays empty. -/
theorem xrefSubsections_rejects_first_number_witness :
    (fileM.env.GetKeyword (fileM.env.SetPos 110)) = ("xref", 114) ∧
    (fileM.env.GetNextWord 114).1 = ("1048576", true) ∧
    ∃ q, Parser.xrefSubsections fileM.env false 1 { Parser.init with m_Pos := 114 }
        = some (false, q) ∧
      q.m_ObjectInfo = [] :=
  ⟨by decide, by decide,
    xrefSubsections_rejects_first_number fileM.env false 0 { Parser.init with m_Pos := 114 }
      (by decide) (by decide) (by decide)⟩

/-- C22 (amended): after `LoadAllCrossRefV4` has returned true, the current
trailer (`GetTrailer`) is the trailer of the section at `xrefpos`, the newest
one, which is the dictionary pushed first onto `m_Trailers`; the trailers of
the older sections of the chain are pushed after it and do not change
`m_TrailerPos`. -/
theorem LoadAllCrossRefV4_current_trailer_is_first_pushed (env : Env) (p q : Parser)
    (xrefpos : Int) (h : Parser.LoadAllCrossRefV4 env p xrefpos = some (true, q)) :
    ∃ p1 trailer rest, Parser.LoadCrossRefV4 env p xrefpos 0 true = some (true, p1) ∧
      (Parser.LoadTrailerV4 env p1).1 = some trailer ∧
      q.m_Trailers = p.m_Trailers ++ trailer :: rest ∧
      q.m_TrailerPos = some p.m_Trailers.length ∧
      q.GetTrailer = some trailer :=
  Parser.LoadAllCrossRefV4_first_pushed env p q xrefpos h

/-- Witness of C22 (amended): the load of the sample file `fileB`, a chain of
two sections. -/
theorem LoadAllCrossRefV4_current_trailer_is_first_pushed_witness :
    ∃ q p1 trailer rest,
      Parser.LoadAllCrossRefV4 fileB.env Parser.init 91 = some (true, q) ∧
      Parser.LoadCrossRefV4 fileB.env Parser.init 91 0 true = some (true, p1) ∧
      (Parser.LoadTrailerV4 fileB.env p1).1 = some trailer ∧
      q.m_Trailers = trailer :: rest ∧
      q.m_TrailerPos = some 0 ∧
      q.GetTrailer = some trailer := by
  obtain ⟨_, q, -, h, -⟩ := fileB_loaded
  obtain ⟨p1, t, rest, h1, h2, h3, h4, h5⟩ :=
    LoadAllCrossRefV4_current_trailer_is_first_pushed fileB.env Parser.init q 91 h
  exact ⟨q, p1, t, rest, h, h1, h2, h3, h4, h5⟩

/-! ## The stored trailers and `GetInfoObjNum` -/

set_option maxRecDepth 100000 in
/-- C23 (code bug): the sample files `fileI` (textual sections) and `fileJ`
(cross-reference streams) have three revisions; the trailer of the newest
revision has no `/Info`, the one of the first update has `/Info 5 0 R`, the
oldest one `/Info 3 0 R`.  After the load the trailers are stored newest
first, the current trailer has no `/Info` reference, and `GetInfoObjNum`
returns 3, the object number of the oldest revision, not 5. -/
theorem GetInfoObjNum_returns_oldest_revision :
    (Parser.LoadAllCrossRefV4 fileI.env Parser.init 297).map
        (fun r => (r.1, r.2.m_Trailers.map Parser.infoReference,
          r.2.GetTrailer.bind Parser.infoReference, r.2.GetInfoObjNum))
      = some (true, [none, some 5, some 3], none, 3) ∧
    (Parser.LoadAllCrossRefV5 fileJ.env Parser.init 284).map
        (fun r => (r.1, r.2.m_Trailers.map Parser.infoReference,
          r.2.GetTrailer.bind Parser.infoReference, r.2.GetInfoObjNum))
      = some (true, [none, some 5, some 3], none, 3) := by
  constructor <;> decide

set_option maxRecDepth 100000 in
/-- C21 (counterexample): the section at offset 29 of the sample file `fileM`
has the subsection header `1048575 2`, which covers the object number 1048576
= `kMaxObjectNumber`.  `LoadCrossRefV4` returns true and records object
1048576. -/
theorem LoadCrossRefV4_records_kMaxObjectNumber :
    fileM.env.kMaxObjectNumber = 1048576 ∧
    (Parser.LoadCrossRefV4 fileM.env Parser.init 29 0 false).map
        (fun r => (r.1, ObjectMap.find r.2.m_ObjectInfo 1048576))
      = some (true, some { pos := 9, type := ObjectType.kNotCompressed, gennum := 0 }) := by
  decide

set_option maxRecDepth 100000 in
/-- C22 (counterexample): the sample file `fileB` has two sections; the trailer
of the newest one, at offset 91, has `/Prev 22`, the trailer of the older one
has no `/Prev`.  After `LoadAllCrossRefV4` has returned true, two trailers are
stored, the one pushed last is the trailer of the older section, and the
current trailer is the one pushed first, with `/Prev 22`. -/
theorem LoadAllCrossRefV4_current_trailer_not_last_pushed :
    (Parser.LoadAllCrossRefV4 fileB.env Parser.init 91).map
        (fun r => (r.1, r.2.m_Trailers.length, r.2.m_TrailerPos,
          GetDirectInteger r.2.GetTrailer "Prev",
          GetDirectInteger r.2.m_Trailers.getLast? "Prev"))
      = some (true, 2, some 0, 22, 0) := by
  decide

/-! ## The entries of a cross-reference stream -/

namespace ObjectMap

/-- Writing the record of a valid object number leaves the last key as it
was. -/
theorem lastKey_set_of_valid (m : ObjectMap) (k : Nat) (v : ObjectInfo) (hwf : WF m)
    (hvalid : ValidIn m k) : lastKey (set m k v) = lastKey m := by
  obtain ⟨i, hi, hki⟩ := hvalid
  obtain ⟨j, hj, -, hle⟩ := lastKey_set m k v hwf
  have hij := hle i hi
  obtain ⟨e, he, hej⟩ := lastKey_mem _ j hj
  have hji : j ≤ i := by
    rcases mem_set m k v e he with h1 | h1
    · rw [← hej, h1]; exact hki
    · obtain ⟨i2, hi2, hle2⟩ := le_lastKey_of_WF m hwf e h1
      rw [hi] at hi2
      cases hi2
      rw [← hej]; exact hle2
  rw [hj, hi]
  congr 1
  omega

end ObjectMap

namespace Parser

/-- An entry that is taken as Direct for an object number whose record is
Free: the record becomes Direct with the offset of field 1, its generation
stays, and the offset is put into the offset set. -/
theorem xrefStreamEntry_free_direct (p : Parser) (W0 W1 N : Nat) (entry : List Nat)
    (hfree : p.GetObjectType N = ObjectType.kFree)
    (htype : W0 = 0 ∨ toInt32 (GetVarInt entry (toInt32 W0)) = 1) :
    ∃ q, xrefStreamEntry p W0 W1 N entry = (true, q) ∧
      ObjectMap.find q.m_ObjectInfo N
        = some { pos := (GetVarInt (entry.drop W0) (toInt32 W1) : Int),
                 type := ObjectType.kNotCompressed,
                 gennum := (ObjectMap.ref p.m_ObjectInfo N).gennum } ∧
      (GetVarInt (entry.drop W0) (toInt32 W1) : Int) ∈ q.m_SortedOffset := by
  have ht : (if W0 ≠ 0 then
        GetObjectTypeFromCrossRefStreamType (toInt32 (GetVarInt entry (toInt32 W0)))
      else ObjectType.kNotCompressed) = ObjectType.kNotCompressed := by
    by_cases h0 : W0 = 0
    · rw [if_neg (by simpa using h0)]
    · rw [if_pos h0]
      rcases htype with h1 | h1
      · exact absurd h1 h0
      · rw [h1]; rfl
  unfold xrefStreamEntry
  simp only [ht, hfree]
  rw [if_pos trivial]
  refine ⟨_, rfl, ?_, ?_⟩
  · simp [ObjectMap.find_setPos, ObjectMap.ref_setType]
  · exact (mem_insertOffset _ _ _).mpr (Or.inl rfl)

/-- An entry of type 2 for an object number whose record is Free. -/
theorem xrefStreamEntry_free_compressed (p : Parser) (W0 W1 N c : Nat) (entry : List Nat)
    (hwf : ObjectMap.WF p.m_ObjectInfo)
    (hfree : p.GetObjectType N = ObjectType.kFree)
    (hN : p.IsValidObjectNumber N = true)
    (hW0 : W0 ≠ 0) (htype : toInt32 (GetVarInt entry (toInt32 W0)) = 2)
    (hc : GetVarInt (entry.drop W0) (toInt32 W1) = c) :
    (p.IsValidObjectNumber c = false → (xrefStreamEntry p W0 W1 N entry).1 = false) ∧
    (p.IsValidObjectNumber c = true → c ≠ N →
      ∃ q, xrefStreamEntry p W0 W1 N entry = (true, q) ∧
        ObjectMap.find q.m_ObjectInfo N
          = some { pos := (c : Int), type := ObjectType.kCompressed,
                   gennum := (ObjectMap.ref p.m_ObjectInfo N).gennum } ∧
        ObjectMap.find q.m_ObjectInfo c
          = some { ObjectMap.ref p.m_ObjectInfo c with type := ObjectType.kNull }) ∧
    (p.IsValidObjectNumber c = true → c = N →
      ∃ q, xrefStreamEntry p W0 W1 N entry = (true, q) ∧
        ObjectMap.find q.m_ObjectInfo N
          = some { pos := (N : Int), type := ObjectType.kNull,
                   gennum := (ObjectMap.ref p.m_ObjectInfo N).gennum }) := by
  have ht : (if W0 ≠ 0 then
        GetObjectTypeFromCrossRefStreamType (toInt32 (GetVarInt entry (toInt32 W0)))
      else ObjectType.kNotCompressed) = ObjectType.kCompressed := by
    rw [if_pos hW0, htype]; rfl
  have hNv := (IsValidObjectNumber_iff p N).mp hN
  have hlast : ObjectMap.lastKey
      (ObjectMap.setPos (ObjectMap.setType p.m_ObjectInfo N ObjectType.kCompressed) N (c : Int))
        = ObjectMap.lastKey p.m_ObjectInfo := by
    unfold ObjectMap.setPos ObjectMap.setType
    rw [ObjectMap.lastKey_set_of_valid _ _ _ (ObjectMap.WF_set _ _ _ hwf)
      (ObjectMap.ValidIn_set _ _ _ _ hwf hNv),
      ObjectMap.lastKey_set_of_valid _ _ _ hwf hNv]
  have hvalid : ∀ x, IsValidObjectNumber
      ({ p with
          m_ObjectInfo :=
            ObjectMap.setPos (ObjectMap.setType p.m_ObjectInfo N ObjectType.kCompressed) N
              (c : Int) } : Parser) x
        = p.IsValidObjectNumber x := by
    intro x
    unfold IsValidObjectNumber
    simp only
    rw [hlast]
  have hstep : xrefStreamEntry p W0 W1 N entry =
      if p.IsValidObjectNumber c = false then
        (false,
          { p with
            m_ObjectInfo :=
              ObjectMap.setPos (ObjectMap.setType p.m_ObjectInfo N ObjectType.kCompressed) N
                (c : Int) })
      else
        (true,
          { p with
            m_ObjectInfo :=
              ObjectMap.setType
                (ObjectMap.setPos (ObjectMap.setType p.m_ObjectInfo N ObjectType.kCompressed) N
                  (c : Int)) c ObjectType.kNull }) := by
    unfold xrefStreamEntry
    have hnn : ¬ ((c : Int) < 0) := by omega
    simp only [ht, hfree, hc, hnn, false_or, Int.toNat_ofNat, hvalid]
    rw [if_neg (by decide), if_neg (fun h => h rfl), if_neg (by decide), if_neg (by decide)]
  refine ⟨?_, ?_, ?_⟩
  · intro hv
    rw [hstep, if_pos hv]
  · intro hv hne
    rw [hstep, if_neg (by simp [hv])]
    refine ⟨_, rfl, ?_, ?_⟩
    · simp [ObjectMap.find_setType, ObjectMap.find_setPos, ObjectMap.ref_setType, hne]
    · simp [ObjectMap.find_setType, ObjectMap.ref, ObjectMap.find_setPos, Ne.symm hne]
  · intro hv heq
    rw [hstep, if_neg (by simp [hv])]
    refine ⟨_, rfl, ?_⟩
    subst heq
    simp [ObjectMap.find_setType, ObjectMap.ref_setPos, ObjectMap.ref_setType]

end Parser

set_option maxRecDepth 100000 in
/-- C24 (counterexample): in the sample file `fileK` the entry of object 1 is
`01 00 0F 07`: type 1, field 1 = 15, field 2 = 7.  After the load the record of
object 1 is Direct at offset 15, with generation 0. -/
theorem LoadAllCrossRefV5_ignores_generation_field :
    Parser.GetVarInt ([1, 0, 15, 7].drop 3) 1 = 7 ∧
    (Parser.LoadAllCrossRefV5 fileK.env Parser.init 9).map
        (fun r => (r.1, ObjectMap.find r.2.m_ObjectInfo 1))
      = some (true, some { pos := 15, type := ObjectType.kNotCompressed, gennum := 0 }) := by
  decide

/-- C24 (amended): when `LoadCrossRefV5` processes an entry whose type field is
1, or any entry when `W[0]` is 0, for an object number whose record is Free,
the entry is accepted, the record becomes Direct with the offset of field 1,
and the offset is put into the offset set; the generation of the record stays
as it was, field 2 is not read. -/
theorem xrefStreamEntry_direct_keeps_generation (p : Parser) (W0 W1 N : Nat)
    (entry : List Nat) (hfree : p.GetObjectType N = ObjectType.kFree)
    (htype : W0 = 0 ∨ toInt32 (Parser.GetVarInt entry (toInt32 W0)) = 1) :
    ∃ q, Parser.xrefStreamEntry p W0 W1 N entry = (true, q) ∧
      ObjectMap.find q.m_ObjectInfo N
        = some { pos := (Parser.GetVarInt (entry.drop W0) (toInt32 W1) : Int),
                 type := ObjectType.kNotCompressed,
                 gennum := (ObjectMap.ref p.m_ObjectInfo N).gennum } ∧
      (Parser.GetVarInt (entry.drop W0) (toInt32 W1) : Int) ∈ q.m_SortedOffset :=
  Parser.xrefStreamEntry_free_direct p W0 W1 N entry hfree htype

set_option maxRecDepth 100000 in
/-- Witness of C24 (amended): the entry `01 00 0F 07` for object 3 of the index
of `parserG`, whose record is Free with generation 0. -/
theorem xrefStreamEntry_direct_keeps_generation_witness :
    parserG.GetObjectType 3 = ObjectType.kFree ∧
    ∃ q, Parser.xrefStreamEntry parserG 1 2 3 [1, 0, 15, 7] = (true, q) ∧
      ObjectMap.find q.m_ObjectInfo 3
        = some { pos := 15, type := ObjectType.kNotCompressed, gennum := 0 } ∧
      (15 : Int) ∈ q.m_SortedOffset :=
  ⟨by decide,
    xrefStreamEntry_direct_keeps_generation parserG 1 2 3 [1, 0, 15, 7] (by decide)
      (Or.inr (by decide))⟩

set_option maxRecDepth 100000 in
/-- C25 (counterexample): in the sample file `fileR` the entry of object 1 is
`02 00 01 00`: type 2 with object 1 itself as the container, which is a valid
object number.  After the load the record of object 1 has kind Null, not
Compressed. -/
theorem LoadAllCrossRefV5_self_container_is_null :
    (Parser.LoadAllCrossRefV5 fileR.env Parser.init 9).map
        (fun r => (r.1, r.2.IsValidObjectNumber 1, ObjectMap.find r.2.m_ObjectInfo 1))
      = some (true, true, some { pos := 1, type := ObjectType.kNull, gennum := 0 }) := by
  decide

/-- C25 (amended): when `LoadCrossRefV5` processes an entry of type 2 for a
valid object number `N` whose record is Free, with `c` the value of field 1:
if `c` is not a valid object number the function returns false; if `c` is a
valid object number other than `N`, the record of `N` becomes Compressed with
the offset field `c` and the record of `c` gets the kind Null; if `c` is `N`
itself, the record of `N` ends with the kind Null and the offset field `N`. -/
theorem xrefStreamEntry_compressed_cases (p : Parser) (W0 W1 N c : Nat) (entry : List Nat)
    (hwf : ObjectMap.WF p.m_ObjectInfo)
    (hfree : p.GetObjectType N = ObjectType.kFree)
    (hN : p.IsValidObjectNumber N = true)
    (hW0 : W0 ≠ 0) (htype : toInt32 (Parser.GetVarInt entry (toInt32 W0)) = 2)
    (hc : Parser.GetVarInt (entry.drop W0) (toInt32 W1) = c) :
    (p.IsValidObjectNumber c = false → (Parser.xrefStreamEntry p W0 W1 N entry).1 = false) ∧
    (p.IsValidObjectNumber c = true → c ≠ N →
      ∃ q, Parser.xrefStreamEntry p W0 W1 N entry = (true, q) ∧
        ObjectMap.find q.m_ObjectInfo N
          = some { pos := (c : Int), type := ObjectType.kCompressed,
                   gennum := (ObjectMap.ref p.m_ObjectInfo N).gennum } ∧
        ObjectMap.find q.m_ObjectInfo c
          = some { ObjectMap.ref p.m_ObjectInfo c with type := ObjectType.kNull }) ∧
    (p.IsValidObjectNumber c = true → c = N →
      ∃ q, Parser.xrefStreamEntry p W0 W1 N entry = (true, q) ∧
        ObjectMap.find q.m_ObjectInfo N
          = some { pos := (N : Int), type := ObjectType.kNull,
                   gennum := (ObjectMap.ref p.m_ObjectInfo N).gennum }) :=
  Parser.xrefStreamEntry_free_compressed p W0 W1 N c entry hwf hfree hN hW0 htype hc

set_option maxRecDepth 100000 in
/-- Witness of C25 (amended): the entry `02 00 02 00` for object 3 of the index
of `parserG`: object 3 becomes Compressed in container 2, and object 2 gets
the kind Null. -/
theorem xrefStreamEntry_compressed_cases_witness :
    ∃ q, Parser.xrefStreamEntry parserG 1 2 3 [2, 0, 2, 0] = (true, q) ∧
      ObjectMap.find q.m_ObjectInfo 3
        = some { pos := 2, type := ObjectType.kCompressed, gennum := 0 } ∧
      ObjectMap.find q.m_ObjectInfo 2
        = some { pos := 100, type := ObjectType.kNull, gennum := 3 } :=
  (xrefStreamEntry_compressed_cases parserG 1 2 3 2 [2, 0, 2, 0] (by decide) (by decide)
    (by decide) (by decide) (by decide) (by decide)).2.1 (by decide) (by decide)

/-! ## The records of a textual xref section -/

namespace Parser

/-- The record loop returns false exactly when one of the records that it goes
through is not accepted. -/
theorem xrefRecords_false_iff (env : Env) (start_objnum block : Nat) (buf : List Nat)
    (l : List Nat) (p : Parser) :
    (xrefRecords env start_objnum block buf l p).1 = false ↔
      ∃ i ∈ l, ¬ recordAccepted env (buf.drop (i * 20)) := by
  constructor
  · intro h
    by_contra hcon
    have hall : ∀ i ∈ l, recordAccepted env (buf.drop (i * 20)) := by
      intro i hi
      by_contra hn
      exact hcon ⟨i, hi, hn⟩
    obtain ⟨q, hq, -⟩ := xrefRecords_accepted env start_objnum block buf l p hall
    rw [hq] at h
    simp at h
  · rintro ⟨i, hi, hn⟩
    induction l generalizing p with
    | nil => simp at hi
    | cons j rest ih =>
      simp only [xrefRecords]
      cases hr : xrefRecord env p ((start_objnum + block * 1024 + j) % 4294967296)
        (buf.drop (j * 20)) with
      | mk b q =>
        cases b
        · rfl
        · simp only
          rcases List.mem_cons.mp hi with hij | hmem
          · subst hij
            exfalso
            apply hn
            unfold xrefRecord at hr
            unfold recordAccepted
            by_cases h1 : (buf.drop (i * 20)).getD 17 0 = 102
            · exact Or.inl h1
            · right
              intro h2
              rw [if_neg h1] at hr
              simp only at hr
              rw [if_pos h2] at hr
              simp at hr
          · exact ih q hmem

/-- What an accepted record leaves in the index, the offset set and
`m_bVersionUpdated`. -/
theorem xrefRecord_fields (env : Env) (p q : Parser) (N : Nat) (pEntry : List Nat)
    (h : xrefRecord env p N pEntry = (true, q)) :
    (pEntry.getD 17 0 = 102 →
      ObjectMap.find q.m_ObjectInfo N
          = some { ObjectMap.ref p.m_ObjectInfo N with pos := 0, type := ObjectType.kFree } ∧
        q.m_SortedOffset = p.m_SortedOffset ∧ q.m_bVersionUpdated = p.m_bVersionUpdated) ∧
    (pEntry.getD 17 0 ≠ 102 →
      ObjectMap.find q.m_ObjectInfo N
          = some { pos := env.FXSYS_atoi64 pEntry, type := ObjectType.kNotCompressed,
                   gennum := (env.FXSYS_atoi (pEntry.drop 11) % 65536).toNat } ∧
        q.m_SortedOffset
          = (if env.FXSYS_atoi64 pEntry < env.m_FileLen then
              insertOffset p.m_SortedOffset (env.FXSYS_atoi64 pEntry)
             else p.m_SortedOffset) ∧
        q.m_bVersionUpdated
          = (if env.FXSYS_atoi (pEntry.drop 11) ≥ 1 then true else p.m_bVersionUpdated)) := by
  unfold xrefRecord at h
  constructor
  · intro h1
    rw [if_pos h1] at h
    simp only [Prod.mk.injEq, true_and] at h
    rw [← h]
    refine ⟨?_, rfl, rfl⟩
    simp [ObjectMap.find_setType, ObjectMap.ref_setPos]
  · intro h1
    rw [if_neg h1] at h
    simp only at h
    by_cases h2 : env.FXSYS_atoi64 pEntry = 0 ∧
        (List.range 10).all (fun c => isdigit (pEntry.getD c 0)) = false
    · rw [if_pos h2] at h
      simp at h
    · rw [if_neg h2] at h
      simp only [Prod.mk.injEq, true_and] at h
      rw [← h]
      refine ⟨?_, ?_, rfl⟩
      · simp [ObjectMap.find_setType, ObjectMap.ref_setPos, ObjectMap.ref_setGen]
      · simp [ObjectMap.ref_setPos, ObjectMap.ref_setGen]

end Parser

set_option maxRecDepth 100000 in
/-- C26 (counterexample): the record `0000000009 70000 n` of the sample file
`fileU` has the generation field 70000; `LoadCrossRefV4` records object 1 with
the generation 4464, which is 70000 modulo 65536. -/
theorem LoadCrossRefV4_generation_wraps :
    fileU.env.FXSYS_atoi ((bytesOf "0000000009 70000 n\r\n").drop 11) = 70000 ∧
    (Parser.LoadCrossRefV4 fileU.env Parser.init 29 0 false).map
        (fun r => (r.1, ObjectMap.find r.2.m_ObjectInfo 1))
      = some (true, some { pos := 9, type := ObjectType.kNotCompressed, gennum := 4464 }) := by
  decide

/-- C26 (amended): for every 20-byte record that the record loop of
`LoadCrossRefV4` accepts for object number `N`: if byte 17 is `f` the record of
`N` becomes Free with offset 0, and the offset set and `m_bVersionUpdated` stay
as they were; otherwise it becomes Direct with the offset `O` that
`FXSYS_atoi64` reads and the generation `G mod 65536`, where `G` is what
`FXSYS_atoi` reads from byte 11 on (the field `gennum` is a `uint16_t`), `O` is
inserted into the offset set exactly when `O` is below the file length, and
`m_bVersionUpdated` is set when `G >= 1`. -/
theorem xrefRecord_accepted_fields (env : Env) (p q : Parser) (N : Nat) (pEntry : List Nat)
    (h : Parser.xrefRecord env p N pEntry = (true, q)) :
    (pEntry.getD 17 0 = 102 →
      ObjectMap.find q.m_ObjectInfo N
          = some { ObjectMap.ref p.m_ObjectInfo N with pos := 0, type := ObjectType.kFree } ∧
        q.m_SortedOffset = p.m_SortedOffset ∧ q.m_bVersionUpdated = p.m_bVersionUpdated) ∧
    (pEntry.getD 17 0 ≠ 102 →
      ObjectMap.find q.m_ObjectInfo N
          = some { pos := env.FXSYS_atoi64 pEntry, type := ObjectType.kNotCompressed,
                   gennum := (env.FXSYS_atoi (pEntry.drop 11) % 65536).toNat } ∧
        q.m_SortedOffset
          = (if env.FXSYS_atoi64 pEntry < env.m_FileLen then
              insertOffset p.m_SortedOffset (env.FXSYS_atoi64 pEntry)
             else p.m_SortedOffset) ∧
        q.m_bVersionUpdated
          = (if env.FXSYS_atoi (pEntry.drop 11) ≥ 1 then true else p.m_bVersionUpdated)) :=
  Parser.xrefRecord_fields env p q N pEntry h

set_option maxRecDepth 100000 in
/-- Witness of C26 (amended): the record `0000000009 00005 n`, for object 1. -/
theorem xrefRecord_accepted_fields_witness :
    ObjectMap.find
        (Parser.xrefRecord fileA.env Parser.init 1 (bytesOf "0000000009 00005 n\r\n")).2.m_ObjectInfo
        1
      = some { pos := 9, type := ObjectType.kNotCompressed, gennum := 5 } ∧
    (Parser.xrefRecord fileA.env Parser.init 1 (bytesOf "0000000009 00005 n\r\n")).2.m_SortedOffset
      = [9] ∧
    (Parser.xrefRecord fileA.env Parser.init 1
      (bytesOf "0000000009 00005 n\r\n")).2.m_bVersionUpdated = true :=
  (xrefRecord_accepted_fields fileA.env Parser.init
    (Parser.xrefRecord fileA.env Parser.init 1 (bytesOf "0000000009 00005 n\r\n")).2 1
    (bytesOf "0000000009 00005 n\r\n") (Prod.ext (by decide) rfl)).2 (by decide)

/-- C27: the record loop of `LoadCrossRefV4` rejects a record exactly when the
record is not free, its offset reads as 0 and one of its first ten bytes is
not a digit.  A record that is not free and whose first ten bytes are the digit
`0` is accepted as a Direct record with the offset that is read, which is 0;
a record that is not free and whose offset reads as a value other than 0 is
accepted; and the loop over the records of a block returns false exactly when
it meets a record that is rejected. -/
theorem xrefRecord_rejected_iff (env : Env) (p : Parser) (N : Nat) (pEntry : List Nat) :
    ((Parser.xrefRecord env p N pEntry).1 = false ↔
      (pEntry.getD 17 0 ≠ 102 ∧ env.FXSYS_atoi64 pEntry = 0 ∧
        ∃ c, c < 10 ∧ Parser.isdigit (pEntry.getD c 0) = false)) ∧
    (pEntry.getD 17 0 ≠ 102 → (∀ c, c < 10 → pEntry.getD c 0 = 48) →
      env.FXSYS_atoi64 pEntry = 0 →
      (Parser.xrefRecord env p N pEntry).1 = true ∧
      (ObjectMap.find (Parser.xrefRecord env p N pEntry).2.m_ObjectInfo N).map
          (fun r => (r.pos, r.type)) = some (0, ObjectType.kNotCompressed)) ∧
    (pEntry.getD 17 0 ≠ 102 → env.FXSYS_atoi64 pEntry ≠ 0 →
      (Parser.xrefRecord env p N pEntry).1 = true) ∧
    (∀ (start_objnum block : Nat) (buf l : List Nat),
      (Parser.xrefRecords env start_objnum block buf l p).1 = false ↔
        ∃ i ∈ l, (buf.drop (i * 20)).getD 17 0 ≠ 102 ∧
          env.FXSYS_atoi64 (buf.drop (i * 20)) = 0 ∧
          ∃ c, c < 10 ∧ Parser.isdigit ((buf.drop (i * 20)).getD c 0) = false) := by
  have hall : ∀ e : List Nat,
      ((List.range 10).all (fun c => Parser.isdigit (e.getD c 0)) = false ↔
        ∃ c, c < 10 ∧ Parser.isdigit (e.getD c 0) = false) := by
    intro e
    rw [← Bool.not_eq_true, List.all_eq_true]
    constructor
    · intro h
      by_contra hcon
      apply h
      intro c hc
      by_contra hd
      exact hcon ⟨c, List.mem_range.mp hc, by simpa using hd⟩
    · rintro ⟨c, hc, hd⟩ h
      have := h c (List.mem_range.mpr hc)
      rw [hd] at this
      simp at this
  have hiff : ∀ (p : Parser) (e : List Nat), ((Parser.xrefRecord env p N e).1 = false ↔
      (e.getD 17 0 ≠ 102 ∧ env.FXSYS_atoi64 e = 0 ∧
        ∃ c, c < 10 ∧ Parser.isdigit (e.getD c 0) = false)) := by
    intro p e
    unfold Parser.xrefRecord
    by_cases h1 : e.getD 17 0 = 102
    · rw [if_pos h1]
      constructor
      · intro h
        simp at h
      · rintro ⟨h2, -⟩
        exact absurd h1 h2
    · rw [if_neg h1]
      simp only
      by_cases h2 : env.FXSYS_atoi64 e = 0 ∧
          (List.range 10).all (fun c => Parser.isdigit (e.getD c 0)) = false
      · rw [if_pos h2]
        simp only [true_iff]
        exact ⟨h1, h2.1, (hall e).mp h2.2⟩
      · rw [if_neg h2]
        simp only [Bool.true_eq_false, false_iff]
        rintro ⟨-, h3, h4⟩
        exact h2 ⟨h3, (hall e).mpr h4⟩
  refine ⟨hiff p pEntry, ?_, ?_, ?_⟩
  · intro h1 hz h0
    have hacc : (Parser.xrefRecord env p N pEntry).1 = true := by
      by_contra hcon
      have hf : (Parser.xrefRecord env p N pEntry).1 = false := by simpa using hcon
      obtain ⟨-, -, c, hc, hd⟩ := (hiff p pEntry).mp hf
      rw [hz c hc] at hd
      revert hd
      decide
    refine ⟨hacc, ?_⟩
    cases hr : Parser.xrefRecord env p N pEntry with
    | mk b q =>
      rw [hr] at hacc
      simp only at hacc
      subst hacc
      have := (Parser.xrefRecord_fields env p q N pEntry hr).2 h1
      rw [this.1, h0]
      rfl
  · intro h1 h0
    by_contra hcon
    have hf : (Parser.xrefRecord env p N pEntry).1 = false := by simpa using hcon
    exact h0 ((hiff p pEntry).mp hf).2.1
  · intro start_objnum block buf l
    rw [Parser.xrefRecords_false_iff]
    constructor
    · rintro ⟨i, hi, hn⟩
      refine ⟨i, hi, ?_⟩
      unfold recordAccepted at hn
      push_neg at hn
      exact ⟨hn.1, hn.2.1, (hall _).mp hn.2.2⟩
    · rintro ⟨i, hi, h1, h2, h3⟩
      refine ⟨i, hi, ?_⟩
      unfold recordAccepted
      push_neg
      exact ⟨h1, h2, (hall _).mpr h3⟩

set_option maxRecDepth 100000 in
/-- Witness of C27: the sample file `fileV`.  The record `0000000000 00000 n`
is accepted as a Direct record with offset 0; the section at offset 29, which
holds it together with the record `12abcdefgh 00000 n` (offset 12), loads; the
section at offset 118, whose record is `000000000x 00000 n`, does not. -/
theorem xrefRecord_rejected_iff_witness :
    ((Parser.xrefRecord fileV.env Parser.init 0 (bytesOf "0000000000 00000 n\r\n")).1 = true ∧
      (ObjectMap.find (Parser.xrefRecord fileV.env Parser.init 0
          (bytesOf "0000000000 00000 n\r\n")).2.m_ObjectInfo 0).map
        (fun r => (r.pos, r.type)) = some (0, ObjectType.kNotCompressed)) ∧
    (Parser.LoadCrossRefV4 fileV.env Parser.init 29 0 false).map
        (fun r => (r.1, (ObjectMap.find r.2.m_ObjectInfo 0).map (fun r => (r.pos, r.type)),
          (ObjectMap.find r.2.m_ObjectInfo 1).map (fun r => (r.pos, r.type))))
      = some (true, some (0, ObjectType.kNotCompressed), some (12, ObjectType.kNotCompressed)) ∧
    (Parser.LoadCrossRefV4 fileV.env Parser.init 118 0 false).map Prod.fst = some false :=
  ⟨(xrefRecord_rejected_iff fileV.env Parser.init 0 (bytesOf "0000000000 00000 n\r\n")).2.1
      (by decide) (by decide) (by decide),
    by decide, by decide⟩

/-! ## `GetVarInt` and the fields of an entry -/

namespace Parser

/-- The loop of `GetVarInt` without the wrap of `uint32_t`, for any modulus. -/
theorem foldl_wrap (M : Nat) (p : List Nat) (l : List Nat) (r : Nat) :
    l.foldl (fun result i => (result * 256 + p.getD i 0) % M) (r % M)
      = (l.foldl (fun result i => result * 256 + p.getD i 0) r) % M := by
  induction l generalizing r with
  | nil => rfl
  | cons i rest ih =>
    have e : ((r % M) * 256 + p.getD i 0) % M = (r * 256 + p.getD i 0) % M := by
      rw [Nat.add_mod, Nat.mul_mod, Nat.mod_mod, ← Nat.mul_mod, ← Nat.add_mod]
    rw [List.foldl_cons, List.foldl_cons, ← ih, e]

/-- The loop without the wrap computes the big-endian value. -/
theorem foldl_bigEndian (p : List Nat) (n : Nat) :
    (List.range n).foldl (fun result i => result * 256 + p.getD i 0) 0 = bigEndian p n := by
  induction n with
  | zero => rfl
  | succ n ih =>
    rw [List.range_succ, List.foldl_append, ih]
    simp only [List.foldl_cons, List.foldl_nil]
    unfold bigEndian
    rw [List.range_succ, List.map_append, List.sum_append]
    simp only [List.map_cons, List.map_nil, List.sum_cons, List.sum_nil, Nat.add_sub_cancel,
      Nat.sub_self, pow_zero, mul_one, add_zero]
    congr 1
    rw [← List.sum_map_mul_right]
    congr 1
    apply List.map_congr_left
    intro i hi
    have hlt := List.mem_range.mp hi
    have e : n - i = (n - 1 - i) + 1 := by omega
    rw [e, pow_succ, mul_assoc]

/-- Bytes below 256 encode a value below `256 ^ n`. -/
theorem bigEndian_lt (p : List Nat) (n : Nat) (h : ∀ i, i < n → p.getD i 0 < 256) :
    bigEndian p n < 256 ^ n := by
  rw [← foldl_bigEndian]
  induction n with
  | zero => simp
  | succ n ih =>
    rw [List.range_succ, List.foldl_append]
    simp only [List.foldl_cons, List.foldl_nil]
    have h1 := ih (fun i hi => h i (by omega))
    have h2 := h n (by omega)
    rw [pow_succ]
    omega

end Parser

/-- C28 (counterexample): with the width 5, the bytes `01 00 00 00 00` encode
`256^4 = 2^32`, and `GetVarInt` returns 0. -/
theorem GetVarInt_five_bytes_wraps :
    Parser.GetVarInt [1, 0, 0, 0, 0] 5 = 0 ∧ bigEndian [1, 0, 0, 0, 0] 5 = 4294967296 := by
  decide

/-- C28 (amended): for every width `n` that is not negative, `GetVarInt(p, n)`
is the big-endian value of the first `n` bytes reduced modulo `2^32`, the range
of its `uint32_t` result; it is the big-endian value itself when `n <= 4` and
the bytes are below 256; and for a width `m <= 0` it is 0. -/
theorem GetVarInt_big_endian_mod (p : List Nat) (n : Nat) :
    Parser.GetVarInt p (n : Int) = bigEndian p n % 4294967296 ∧
    (n ≤ 4 → (∀ i, i < n → p.getD i 0 < 256) → Parser.GetVarInt p (n : Int) = bigEndian p n) ∧
    (∀ m : Int, m ≤ 0 → Parser.GetVarInt p m = 0) := by
  have h1 : Parser.GetVarInt p (n : Int) = bigEndian p n % 4294967296 := by
    unfold Parser.GetVarInt
    rw [Int.toNat_ofNat]
    have := Parser.foldl_wrap 4294967296 p (List.range n) 0
    rw [Nat.zero_mod] at this
    rw [this, Parser.foldl_bigEndian]
  refine ⟨h1, ?_, ?_⟩
  · intro hn hb
    rw [h1]
    apply Nat.mod_eq_of_lt
    have h2 := Parser.bigEndian_lt p n hb
    have h3 : 256 ^ n ≤ 256 ^ 4 := Nat.pow_le_pow_right (by omega) hn
    have h4 : (256 : Nat) ^ 4 = 4294967296 := by norm_num
    omega
  · intro m hm
    unfold Parser.GetVarInt
    have : m.toNat = 0 := by omega
    rw [this]
    rfl

/-- Witness of C28 (amended): the three bytes `01 02 03` give `0x010203`. -/
theorem GetVarInt_big_endian_mod_witness :
    Parser.GetVarInt [1, 2, 3] ((3 : Nat) : Int) = bigEndian [1, 2, 3] 3 ∧
    bigEndian [1, 2, 3] 3 = 66051 :=
  ⟨(GetVarInt_big_endian_mod [1, 2, 3] 3).2.1 (by decide) (by decide), by decide⟩

/-! ## The end of `RebuildCrossRef` -/

namespace Parser

/-- The offset that `RebuildCrossRef` inserts after the scan, by cases on the
variables that the scan leaves. -/
theorem lastTrailerOf_cases (env : Env) (s : RebuildState) :
    (s.last_xref ≠ -1 → s.last_obj < s.last_xref → lastTrailerOf env s = s.last_xref) ∧
    (s.last_xref < s.last_obj → lastTrailerOf env s = env.m_FileLen) ∧
    (s.last_trailer = -1 → (s.last_xref = -1 ∨ s.last_xref ≤ s.last_obj) →
      lastTrailerOf env s = env.m_FileLen) ∧
    (s.last_trailer ≠ -1 → (s.last_xref = -1 ∨ s.last_xref ≤ s.last_obj) →
      s.last_obj ≤ s.last_xref → lastTrailerOf env s = s.last_trailer) := by
  unfold lastTrailerOf
  refine ⟨?_, ?_, ?_, ?_⟩
  · intro h1 h2
    rw [if_pos ⟨h1, h2⟩]
  · intro h1
    rw [if_neg (by omega), if_pos (Or.inr h1)]
  · intro h1 h2
    rw [if_neg (by omega), if_pos (Or.inl h1)]
  · intro h1 h2 h3
    rw [if_neg (by omega), if_neg (by omega)]

/-- The byte loop over a block of at most `kBufferSize` bytes ends within the
passes granted. -/
theorem scanBlock_granted (env : Env) (buffer : List Nat) (size : Nat) (s : RebuildState)
    (hsz : size ≤ kBufferSize) :
    ∃ r, scanBlock env buffer size (blockPasses size) s 0 = some r := by
  have hb := scanBlock_ends env buffer size
    (by unfold kBufferSize at hsz; omega) (blockPasses size) s 0 (Nat.zero_le _)
    (by
      have := scanRank_le env s.state (buffer.getD 0 0)
      unfold blockPasses
      omega)
  cases hsb : scanBlock env buffer size (blockPasses size) s 0 with
  | none => rw [hsb] at hb; simp at hb
  | some r => exact ⟨r, rfl⟩

/-- One round of the block loop either leaves the loop, or goes on from the
state that the byte loop has left, with a larger `pos`. -/
theorem scanFile_round (env : Env) (fuel : Nat) (s : RebuildState) :
    (∃ s1, scanFile env (fuel + 1) s = some s1) ∨
    (∃ buffer s1 ov,
      s.pos < env.m_FileLen ∧
      env.FileReadBlock s.pos (min (toUInt32 (env.m_FileLen - s.pos)) kBufferSize)
        = some buffer ∧
      scanBlock env buffer (min (toUInt32 (env.m_FileLen - s.pos)) kBufferSize)
        (blockPasses (min (toUInt32 (env.m_FileLen - s.pos)) kBufferSize)) s 0
        = some (s1, ov) ∧
      s.pos < s1.pos + (if ov then 0
        else ((min (toUInt32 (env.m_FileLen - s.pos)) kBufferSize : Nat) : Int)) ∧
      scanFile env (fuel + 1) s = scanFile env fuel
        { s1 with pos := s1.pos + (if ov then 0
            else ((min (toUInt32 (env.m_FileLen - s.pos)) kBufferSize : Nat) : Int)) }) := by
  simp only [scanFile]
  by_cases hp : s.pos < env.m_FileLen
  · rw [if_pos hp]
    cases hread : env.FileReadBlock s.pos
        (min (toUInt32 (env.m_FileLen - s.pos)) kBufferSize) with
    | none => exact Or.inl ⟨_, rfl⟩
    | some buffer =>
      simp only
      obtain ⟨r, hr⟩ := scanBlock_granted env buffer
        (min (toUInt32 (env.m_FileLen - s.pos)) kBufferSize) s (Nat.min_le_right _ _)
      obtain ⟨s1, ov⟩ := r
      rw [hr]
      simp only
      by_cases hle : s1.pos + (if ov = true then 0
          else ((min (toUInt32 (env.m_FileLen - s.pos)) kBufferSize : Nat) : Int)) ≤ s.pos
      · rw [if_pos hle]
        exact Or.inl ⟨_, rfl⟩
      · rw [if_neg hle]
        exact Or.inr ⟨buffer, s1, ov, hp, rfl, hr, by omega, rfl⟩
  · rw [if_neg hp]
    exact Or.inl ⟨_, rfl⟩

end Parser

set_option maxRecDepth 100000 in
/-- C30 (counterexample): the scan of the sample file `fileH`, of 73 bytes,
finds no keyword `xref` (`last_xref` stays -1) and finds the last object at
offset 29 (`last_obj`), so that the maximum of the two is 29; the offset that
`RebuildCrossRef` inserts is the length of the file, 73. -/
theorem RebuildCrossRef_inserts_file_length_after_last_object :
    fileH.env.m_FileLen = 73 ∧ fileH.env.m_HeaderOffset = 0 ∧
    (Parser.scanFile fileH.env (Parser.scanRounds fileH.env)
        (Parser.rebuildStart fileH.env Parser.init)).map
        (fun s => (s.last_xref, s.last_obj, max s.last_xref s.last_obj,
          Parser.lastTrailerOf fileH.env s, s.parser.m_SortedOffset))
      = some (-1, 29, 29, 73, [9, 29]) ∧
    (Parser.RebuildCrossRef fileH.env Parser.init).map (fun r => (r.1, r.2.m_SortedOffset))
      = some (true, [9, 29, 73]) := by
  decide

/-- C30 (amended): `RebuildCrossRef` returns, and the offset that it inserts
into `m_SortedOffset` at the end, taken relative to the header offset, is
`last_xref` when a keyword `xref` was found after the start of the last object
(`last_xref` is not -1 and is above `last_obj`); the length of the file when
the last object starts after the last keyword `xref`, or when no trailer was
found and the first case does not apply; and `last_trailer` in the remaining
case. -/
theorem RebuildCrossRef_trailing_offset (env : Env) (p : Parser) :
    ∃ s b q v, Parser.scanFile env (Parser.scanRounds env) (Parser.rebuildStart env p) = some s ∧
      Parser.RebuildCrossRef env p = some (b, q) ∧
      q.m_SortedOffset = insertOffset s.parser.m_SortedOffset (v - env.m_HeaderOffset) ∧
      (v - env.m_HeaderOffset) ∈ q.m_SortedOffset ∧
      (s.last_xref ≠ -1 → s.last_obj < s.last_xref → v = s.last_xref) ∧
      (s.last_xref < s.last_obj → v = env.m_FileLen) ∧
      (s.last_trailer = -1 → (s.last_xref = -1 ∨ s.last_xref ≤ s.last_obj) →
        v = env.m_FileLen) ∧
      (s.last_trailer ≠ -1 → (s.last_xref = -1 ∨ s.last_xref ≤ s.last_obj) →
        s.last_obj ≤ s.last_xref → v = s.last_trailer) := by
  obtain ⟨r, hr⟩ := Parser.RebuildCrossRef_ends env p
  unfold Parser.RebuildCrossRef at hr ⊢
  cases hs : Parser.scanFile env (Parser.scanRounds env) (Parser.rebuildStart env p) with
  | none => rw [hs] at hr; simp at hr
  | some s =>
    simp only
    exact ⟨s, _, _, Parser.lastTrailerOf env s, rfl, rfl, rfl,
      (mem_insertOffset _ _ _).mpr (Or.inl rfl), Parser.lastTrailerOf_cases env s⟩

/-- C29: `RebuildCrossRef` returns for every file.  A pass through the switch
that does not leave the byte loop either moves on to a later byte of the
block, or stays on the byte and leaves a state of smaller rank, where the rank
of a state is at most 4; the byte loop over a block therefore ends within the
passes granted, five for each byte and five more; and each round of the block
loop either leaves the loop or goes on with a larger `pos`. -/
theorem RebuildCrossRef_terminates (env : Env) (p : Parser) :
    (∃ r, Parser.RebuildCrossRef env p = some r) ∧
    (∀ (s : Parser.RebuildState) (i size byte : Nat), i < size → size < 4294967296 →
      (Parser.rebuildByte env s i size byte).bOverFlow = false →
      ((Parser.rebuildByte env s i size byte).next = i ∧
        Parser.scanRank env (Parser.rebuildByte env s i size byte).vars.state byte
          < Parser.scanRank env s.state byte) ∨
      (i < (Parser.rebuildByte env s i size byte).next ∧
        (Parser.rebuildByte env s i size byte).next ≤ size)) ∧
    (∀ st byte, Parser.scanRank env st byte ≤ 4) ∧
    (∀ (buffer : List Nat) (size : Nat) (s : Parser.RebuildState), size ≤ Parser.kBufferSize →
      ∃ r, Parser.scanBlock env buffer size (Parser.blockPasses size) s 0 = some r) ∧
    (∀ (fuel : Nat) (s : Parser.RebuildState),
      (∃ s1, Parser.scanFile env (fuel + 1) s = some s1) ∨
      (∃ buffer s1 ov,
        s.pos < env.m_FileLen ∧
        env.FileReadBlock s.pos (min (toUInt32 (env.m_FileLen - s.pos)) Parser.kBufferSize)
          = some buffer ∧
        Parser.scanBlock env buffer (min (toUInt32 (env.m_FileLen - s.pos)) Parser.kBufferSize)
          (Parser.blockPasses (min (toUInt32 (env.m_FileLen - s.pos)) Parser.kBufferSize)) s 0
          = some (s1, ov) ∧
        s.pos < s1.pos + (if ov then 0
          else ((min (toUInt32 (env.m_FileLen - s.pos)) Parser.kBufferSize : Nat) : Int)) ∧
        Parser.scanFile env (fuel + 1) s = Parser.scanFile env fuel
          { s1 with pos := s1.pos + (if ov then 0
              else ((min (toUInt32 (env.m_FileLen - s.pos)) Parser.kBufferSize : Nat)
                : Int)) })) :=
  ⟨Parser.RebuildCrossRef_ends env p,
    fun s i size byte hi hsz => Parser.rebuildByte_progress env s i size byte hi hsz,
    Parser.scanRank_le env,
    fun buffer size s hsz => Parser.scanBlock_granted env buffer size s hsz,
    Parser.scanFile_round env⟩

/-! ## The records that `ShrinkObjectMap` keeps -/

namespace ObjectMap

/-- The index after `ShrinkObjectMap(S)` for `S > 0`: a key below `S` that was
there keeps its record, the key `S - 1` is there, and no other key is. -/
theorem find_shrink (m : ObjectMap) (S : Nat) (h : WF m) (hS : 0 < S) (k : Nat) :
    find (shrink m S) k =
      if k < S then
        (if k = S - 1 ∧ find m k = none then some { ObjectInfo.default with pos := 0 }
          else find m k)
      else none := by
  have h0 : ¬ S = 0 := by omega
  unfold shrink
  simp only [h0, if_false]
  by_cases hc : ContainsKey (eraseFrom m S) (S - 1) = true
  · rw [if_pos hc, find_eraseFrom m S h]
    by_cases hk : k < S
    · rw [if_pos hk, if_pos hk]
      by_cases hk2 : k = S - 1 ∧ find m k = none
      · exfalso
        obtain ⟨v, hv⟩ := (ContainsKey_iff _ _).mp hc
        rw [find_eraseFrom m S h, if_pos (by omega)] at hv
        rw [hk2.1] at hk2
        rw [hk2.2] at hv
        simp at hv
      · rw [if_neg hk2]
    · rw [if_neg hk, if_neg hk]
  · rw [if_neg hc]
    have hnone : find (eraseFrom m S) (S - 1) = none := by
      cases hf : find (eraseFrom m S) (S - 1) with
      | none => rfl
      | some v => exact absurd ((ContainsKey_iff _ _).mpr ⟨v, hf⟩) hc
    have hnone2 : find m (S - 1) = none := by
      rw [find_eraseFrom m S h, if_pos (by omega)] at hnone
      exact hnone
    unfold setPos
    rw [find_set, find_eraseFrom m S h]
    by_cases hk : k < S
    · rw [if_pos hk, if_pos hk]
      by_cases hk1 : S - 1 = k
      · rw [if_pos hk1, if_pos ⟨hk1.symm, by rw [← hk1]; exact hnone2⟩]
        simp [ref, hnone]
      · rw [if_neg hk1, if_neg (fun hh => hk1 hh.1.symm)]
    · rw [if_neg hk, if_neg hk, if_neg (by omega)]

end ObjectMap

/-- C39: for every state of the object index (a map, keys increasing) and
every `S > 0`, `ShrinkObjectMap(S)` leaves every record whose key is below `S`
as it was, and the keys afterwards are exactly the keys below `S` that were
there before, together with `S - 1`. -/
theorem ShrinkObjectMap_keeps_records_below (p : Parser) (S : Nat)
    (hwf : ObjectMap.WF p.m_ObjectInfo) (hS : 0 < S) :
    (∀ k r, k < S → ObjectMap.find p.m_ObjectInfo k = some r →
      ObjectMap.find (p.ShrinkObjectMap S).m_ObjectInfo k = some r) ∧
    (∀ k, ObjectMap.ContainsKey (p.ShrinkObjectMap S).m_ObjectInfo k = true ↔
      (k < S ∧ ObjectMap.ContainsKey p.m_ObjectInfo k = true) ∨ k = S - 1) := by
  constructor
  · intro k r hk hf
    show ObjectMap.find (ObjectMap.shrink p.m_ObjectInfo S) k = some r
    rw [ObjectMap.find_shrink _ _ hwf hS, if_pos hk, if_neg (by rw [hf]; simp), hf]
  · intro k
    show ObjectMap.ContainsKey (ObjectMap.shrink p.m_ObjectInfo S) k = true ↔ _
    unfold ObjectMap.ContainsKey
    rw [ObjectMap.find_shrink _ _ hwf hS]
    by_cases hk : k < S
    · rw [if_pos hk]
      by_cases hk2 : k = S - 1 ∧ ObjectMap.find p.m_ObjectInfo k = none
      · rw [if_pos hk2]
        simp [hk2.1]
      · rw [if_neg hk2]
        constructor
        · intro h1
          exact Or.inl ⟨hk, h1⟩
        · rintro (⟨-, h1⟩ | h1)
          · exact h1
          · cases hf : ObjectMap.find p.m_ObjectInfo k with
            | none => exact absurd ⟨h1, hf⟩ hk2
            | some v => rfl
    · rw [if_neg hk]
      constructor
      · intro h1
        simp at h1
      · rintro (⟨h1, -⟩ | h1)
        · exact absurd h1 hk
        · omega

set_option maxRecDepth 100000 in
/-- Witness of C39: the sample index (objects 0, 1, 5) shrunk to size 3: the
records of objects 0 and 1 stay, object 5 goes, and object 2 appears. -/
theorem ShrinkObjectMap_keeps_records_below_witness :
    ObjectMap.WF sampleParser.m_ObjectInfo ∧
    ObjectMap.find (sampleParser.ShrinkObjectMap 3).m_ObjectInfo 1
      = some { pos := 15, type := ObjectType.kNotCompressed, gennum := 0 } ∧
    (ObjectMap.ContainsKey (sampleParser.ShrinkObjectMap 3).m_ObjectInfo 5 = true ↔
      (5 < 3 ∧ ObjectMap.ContainsKey sampleParser.m_ObjectInfo 5 = true) ∨ 5 = 3 - 1) ∧
    (sampleParser.ShrinkObjectMap 3).m_ObjectInfo.map Prod.fst = [0, 1, 2] :=
  ⟨by decide,
    (ShrinkObjectMap_keeps_records_below sampleParser 3 (by decide) (by decide)).1 1 _
      (by decide) (by decide),
    (ShrinkObjectMap_keeps_records_below sampleParser 3 (by decide) (by decide)).2 5,
    by decide⟩

/-! ## The discovery step of the scan -/

namespace Parser

/-- A key with a record is a valid object number, and the index is not
empty. -/
theorem valid_of_find (p : Parser) (hwf : ObjectMap.WF p.m_ObjectInfo) (k : Nat)
    (r : ObjectInfo) (h : ObjectMap.find p.m_ObjectInfo k = some r) :
    p.m_ObjectInfo.isEmpty = false ∧ p.IsValidObjectNumber k = true := by
  have hmem := ObjectMap.mem_of_find_eq_some _ _ _ h
  constructor
  · cases hm : p.m_ObjectInfo with
    | nil => rw [hm] at hmem; simp at hmem
    | cons a l => rfl
  · rw [IsValidObjectNumber_iff]
    exact ObjectMap.le_lastKey_of_WF _ hwf _ hmem

/-- The update of the index for a discovered object, by cases. -/
theorem rebuildRecord_cases (p : Parser) (objnum gennum : Nat) (obj_pos : Int) (found : Bool)
    (hwf : ObjectMap.WF p.m_ObjectInfo) :
    (∀ r, ObjectMap.find p.m_ObjectInfo objnum = some r → r.pos ≠ 0 → found = true →
      ObjectMap.find (rebuildRecord p objnum gennum obj_pos found).m_ObjectInfo objnum
          = some { r with pos := obj_pos, gennum := ((gennum : Int) % 65536).toNat } ∧
        (rebuildRecord p objnum gennum obj_pos found).m_bVersionUpdated
          = (if r.gennum ≠ gennum then true else p.m_bVersionUpdated)) ∧
    (∀ r, ObjectMap.find p.m_ObjectInfo objnum = some r → r.pos ≠ 0 → found = false →
      ObjectMap.find (rebuildRecord p objnum gennum obj_pos found).m_ObjectInfo objnum = some r ∧
        (rebuildRecord p objnum gennum obj_pos found).m_bVersionUpdated
          = p.m_bVersionUpdated) ∧
    ((∀ r, ObjectMap.find p.m_ObjectInfo objnum = some r → r.pos = 0) →
      ObjectMap.find (rebuildRecord p objnum gennum obj_pos found).m_ObjectInfo objnum
        = some { pos := obj_pos, type := ObjectType.kNotCompressed,
                 gennum := ((gennum : Int) % 65536).toNat }) ∧
    (∀ k, k ≠ objnum →
      ObjectMap.find (rebuildRecord p objnum gennum obj_pos found).m_ObjectInfo k
        = ObjectMap.find p.m_ObjectInfo k) := by
  have href : ∀ r, ObjectMap.find p.m_ObjectInfo objnum = some r →
      ObjectMap.ref (ObjectMap.touch p.m_ObjectInfo objnum) objnum = r := by
    intro r hr
    rw [ref_touch]
    simp [ObjectMap.ref, hr]
  refine ⟨?_, ?_, ?_, ?_⟩
  · intro r hr hpos hfound
    have hc := valid_of_find p hwf objnum r hr
    unfold rebuildRecord
    rw [if_pos hc]
    simp only
    rw [if_pos (by rw [href r hr]; exact hpos), hfound]
    simp only [if_true]
    constructor
    · rw [ObjectMap.find_setGen, if_pos rfl, ObjectMap.ref_setPos, href r hr]
    · have hg : GetObjectGenNum
          { p with m_ObjectInfo := ObjectMap.touch p.m_ObjectInfo objnum } objnum = r.gennum := by
        unfold GetObjectGenNum
        simp only [ObjectMap.touch, ObjectMap.find_set, if_true]
        simp [ObjectMap.ref, hr]
      rw [hg]
  · intro r hr hpos hfound
    have hc := valid_of_find p hwf objnum r hr
    unfold rebuildRecord
    rw [if_pos hc]
    simp only
    rw [if_pos (by rw [href r hr]; exact hpos), hfound]
    simp only [Bool.false_eq_true, if_false]
    constructor
    · simp [ObjectMap.touch, ObjectMap.find_set, ObjectMap.ref, hr]
    · trivial
  · intro hzero
    have hz : (ObjectMap.ref p.m_ObjectInfo objnum).pos = 0 := by
      cases hf : ObjectMap.find p.m_ObjectInfo objnum with
      | none => simp [ObjectMap.ref, hf, ObjectInfo.default]
      | some r => simp [ObjectMap.ref, hf, hzero r hf]
    unfold rebuildRecord
    by_cases hc : p.m_ObjectInfo.isEmpty = false ∧ p.IsValidObjectNumber objnum = true
    · rw [if_pos hc]
      simp only
      rw [if_neg (by rw [ref_touch, hz]; simp)]
      simp only
      rw [ObjectMap.find_setGen, if_pos rfl, ObjectMap.ref_setType, ObjectMap.ref_setPos]
    · rw [if_neg hc]
      simp only
      rw [ObjectMap.find_setGen, if_pos rfl, ObjectMap.ref_setType, ObjectMap.ref_setPos]
  · intro k hk
    have hne : ¬ objnum = k := fun h => hk h.symm
    unfold rebuildRecord
    by_cases hc : p.m_ObjectInfo.isEmpty = false ∧ p.IsValidObjectNumber objnum = true
    · rw [if_pos hc]
      simp only
      by_cases hz : (ObjectMap.ref (ObjectMap.touch p.m_ObjectInfo objnum) objnum).pos ≠ 0
      · rw [if_pos hz]
        cases found <;>
          simp only [Bool.false_eq_true, if_false, if_true, ObjectMap.find_setGen,
            ObjectMap.find_setType, ObjectMap.find_setPos, ObjectMap.touch, ObjectMap.find_set,
            if_neg hne]
      · rw [if_neg hz]
        simp only [ObjectMap.find_setGen, ObjectMap.find_setType, ObjectMap.find_setPos,
          ObjectMap.touch, ObjectMap.find_set, if_neg hne]
    · rw [if_neg hc]
      simp only [ObjectMap.find_setGen, ObjectMap.find_setType, ObjectMap.find_setPos,
        if_neg hne]

end Parser

set_option maxRecDepth 100000 in
/-- C32 (counterexample): in the sample file `fileW` object 1 is found twice by
the scan, first at offset 9 with generation 0, then at offset 29 with
generation 1, each time with a body that parses.  After `RebuildCrossRef` the
record of object 1 has the offset 29: the second discovery has replaced the
offset, not only the generation.  When the body does not parse, the step
leaves the generation of such a record as it was, too. -/
theorem RebuildCrossRef_rediscovery_moves_offset :
    (Parser.RebuildCrossRef fileW.env Parser.init).map
        (fun r => (r.1, r.2.m_ObjectInfo, r.2.m_SortedOffset))
      = some (true, [(1, { pos := 29, type := ObjectType.kNotCompressed, gennum := 1 })],
          [9, 29, 73]) ∧
    ObjectMap.find parserH.m_ObjectInfo 1
      = some { pos := 9, type := ObjectType.kNotCompressed, gennum := 0 } ∧
    ObjectMap.find (Parser.rebuildRecord parserH 1 1 29 true).m_ObjectInfo 1
      = some { pos := 29, type := ObjectType.kNotCompressed, gennum := 1 } ∧
    ObjectMap.find (Parser.rebuildRecord parserH 1 1 29 false).m_ObjectInfo 1
      = some { pos := 9, type := ObjectType.kNotCompressed, gennum := 0 } := by
  decide

/-- C32 (amended): in the object discovery step of `RebuildCrossRef`, with
`obj_pos` the discovered offset and `gennum` the discovered generation: when
the object number already has a record with an offset that is not zero and the
strict parse of the body succeeded, the step replaces the offset by `obj_pos`
and the generation by `gennum` (as a 16-bit value), leaves the kind as it is,
and sets `m_bVersionUpdated` when the generation has changed; when the strict
parse failed, it leaves that record as it is, generation included; when the
number has no record with an offset that is not zero, a record of kind Direct
with `obj_pos` and `gennum` is written whether or not the strict parse
succeeded.  No other record changes. -/
theorem rebuildRecord_discovery_cases (p : Parser) (objnum gennum : Nat) (obj_pos : Int)
    (found : Bool) (hwf : ObjectMap.WF p.m_ObjectInfo) :
    (∀ r, ObjectMap.find p.m_ObjectInfo objnum = some r → r.pos ≠ 0 → found = true →
      ObjectMap.find (Parser.rebuildRecord p objnum gennum obj_pos found).m_ObjectInfo objnum
          = some { r with pos := obj_pos, gennum := ((gennum : Int) % 65536).toNat } ∧
        (Parser.rebuildRecord p objnum gennum obj_pos found).m_bVersionUpdated
          = (if r.gennum ≠ gennum then true else p.m_bVersionUpdated)) ∧
    (∀ r, ObjectMap.find p.m_ObjectInfo objnum = some r → r.pos ≠ 0 → found = false →
      ObjectMap.find (Parser.rebuildRecord p objnum gennum obj_pos found).m_ObjectInfo objnum
          = some r ∧
        (Parser.rebuildRecord p objnum gennum obj_pos found).m_bVersionUpdated
          = p.m_bVersionUpdated) ∧
    ((∀ r, ObjectMap.find p.m_ObjectInfo objnum = some r → r.pos = 0) →
      ObjectMap.find (Parser.rebuildRecord p objnum gennum obj_pos found).m_ObjectInfo objnum
        = some { pos := obj_pos, type := ObjectType.kNotCompressed,
                 gennum := ((gennum : Int) % 65536).toNat }) ∧
    (∀ k, k ≠ objnum →
      ObjectMap.find (Parser.rebuildRecord p objnum gennum obj_pos found).m_ObjectInfo k
        = ObjectMap.find p.m_ObjectInfo k) :=
  Parser.rebuildRecord_cases p objnum gennum obj_pos found hwf

set_option maxRecDepth 100000 in
/-- Witness of C32 (amended): the index of `parserH` (objects 1 and 2 at the
offsets 9 and 29) and a discovery of object 1 at offset 49 with generation 3,
with a body that parses. -/
theorem rebuildRecord_discovery_cases_witness :
    ObjectMap.WF parserH.m_ObjectInfo ∧
    ObjectMap.find (Parser.rebuildRecord parserH 1 3 49 true).m_ObjectInfo 1
      = some { pos := 49, type := ObjectType.kNotCompressed, gennum := 3 } ∧
    (Parser.rebuildRecord parserH 1 3 49 true).m_bVersionUpdated = true :=
  ⟨by decide,
    (rebuildRecord_discovery_cases parserH 1 3 49 true (by decide)).1
      { pos := 9, type := ObjectType.kNotCompressed, gennum := 0 } (by decide) (by decide) rfl⟩

/-! ## The keywords `xref` and `trailer` in the scan -/

namespace Parser

/-- From the state Whitespace the byte `x` enters the state Xref and the byte
`t` the state Trailer. -/
theorem rebuildByte_whitespace_keyword (env : Env) (s : RebuildState) (i size : Nat)
    (hs : s.state = ParserState.kWhitespace) :
    rebuildByte env s i size 120
        = consumed { s with state := ParserState.kXref, inside_index := 1 } i ∧
    rebuildByte env s i size 116
        = consumed { s with state := ParserState.kTrailer, inside_index := 1 } i := by
  constructor
  · unfold rebuildByte
    rw [hs]
    simp only
    rw [if_neg (by decide), if_neg (by decide), if_pos (by decide)]
  · unfold rebuildByte
    rw [hs]
    simp only
    rw [if_neg (by decide), if_pos (by decide)]

/-- From the state Default the byte `t` enters the state Trailer, and the byte
`x` leaves the state as it is. -/
theorem rebuildByte_default_keyword (env : Env) (s : RebuildState) (i size : Nat)
    (hs : s.state = ParserState.kDefault) :
    (env.PDFCharIsWhitespace 116 = false →
      rebuildByte env s i size 116
        = consumed { s with state := ParserState.kTrailer, inside_index := 1 } i) ∧
    (∀ b, b = 120 ∨ b = 114 ∨ b = 101 ∨ b = 102 → env.PDFCharIsWhitespace b = false →
      rebuildByte env s i size b = consumed s i) := by
  constructor
  · intro hw
    unfold rebuildByte
    rw [hs]
    simp only
    rw [if_neg (by simp [hw]), if_neg (by decide), if_neg (by decide), if_neg (by decide),
      if_neg (by decide), if_neg (by decide), if_pos (by decide)]
  · intro b hb hw
    unfold rebuildByte
    rw [hs]
    simp only
    rw [if_neg (by simp [hw])]
    rcases hb with h | h | h | h <;> subst h <;>
      rw [if_neg (by decide), if_neg (by decide), if_neg (by decide),
        if_neg (by decide), if_neg (by decide), if_neg (by decide)]

/-- A pass that consumes the byte lets the byte loop go on with the next
byte. -/
theorem scanBlock_consumed (env : Env) (buffer : List Nat) (size fuel : Nat)
    (s s1 : RebuildState) (i : Nat) (hi : i < size)
    (h : rebuildByte env s i size (buffer.getD i 0) = consumed s1 i) :
    scanBlock env buffer size (fuel + 1) s i = scanBlock env buffer size fuel s1 (i + 1) := by
  simp only [scanBlock]
  rw [if_pos hi, h]
  rfl

/-- In the state Xref, a byte that continues the keyword is consumed. -/
theorem rebuildByte_xref_next (env : Env) (s : RebuildState) (i size : Nat) (b : Nat)
    (hs : s.state = ParserState.kXref)
    (hk : (s.inside_index = 1 ∧ b = 114) ∨ (s.inside_index = 2 ∧ b = 101) ∨
      (s.inside_index = 3 ∧ b = 102)) :
    rebuildByte env s i size b = consumed { s with inside_index := s.inside_index + 1 } i := by
  unfold rebuildByte
  rw [hs]
  simp only
  rcases hk with ⟨h1, h2⟩ | ⟨h1, h2⟩ | ⟨h1, h2⟩ <;>
    (rw [h1, h2, if_neg (by decide), if_pos (by decide)]; rfl)

/-- In the state Xref with the whole keyword matched, the next pass records the
position of the keyword. -/
theorem rebuildByte_xref_done (env : Env) (s : RebuildState) (i size : Nat) (b : Nat)
    (hs : s.state = ParserState.kXref) (hk : s.inside_index = 4) :
    rebuildByte env s i size b
      = consumed { s with last_xref := s.pos + (i : Int) - 4,
                          state := ParserState.kWhitespace } i := by
  unfold rebuildByte
  rw [hs]
  simp only
  rw [if_pos hk]

/-- A keyword `xref` that begins while the scan is in the state Whitespace is
recognised: after the byte that follows it, `last_xref` is its position. -/
theorem scanBlock_xref_from_whitespace (env : Env) (buffer : List Nat) (size fuel : Nat)
    (s : RebuildState) (i : Nat) (hs : s.state = ParserState.kWhitespace)
    (hx : buffer.getD i 0 = 120) (hr : buffer.getD (i + 1) 0 = 114)
    (he : buffer.getD (i + 2) 0 = 101) (hf : buffer.getD (i + 3) 0 = 102)
    (hlt : i + 4 < size) :
    scanBlock env buffer size (fuel + 5) s i
      = scanBlock env buffer size fuel
          { s with state := ParserState.kWhitespace, inside_index := 4,
                   last_xref := s.pos + (i : Int) } (i + 5) := by
  have h1 : rebuildByte env s i size (buffer.getD i 0)
      = consumed { s with state := ParserState.kXref, inside_index := 1 } i := by
    rw [hx]; exact (rebuildByte_whitespace_keyword env s i size hs).1
  have h2 : rebuildByte env { s with state := ParserState.kXref, inside_index := 1 } (i + 1) size
      (buffer.getD (i + 1) 0)
      = consumed { s with state := ParserState.kXref, inside_index := 2 } (i + 1) := by
    rw [hr]
    exact rebuildByte_xref_next env { s with state := ParserState.kXref, inside_index := 1 }
      (i + 1) size 114 rfl (Or.inl ⟨rfl, rfl⟩)
  have h3 : rebuildByte env { s with state := ParserState.kXref, inside_index := 2 } (i + 2) size
      (buffer.getD (i + 2) 0)
      = consumed { s with state := ParserState.kXref, inside_index := 3 } (i + 2) := by
    rw [he]
    exact rebuildByte_xref_next env { s with state := ParserState.kXref, inside_index := 2 }
      (i + 2) size 101 rfl (Or.inr (Or.inl ⟨rfl, rfl⟩))
  have h4 : rebuildByte env { s with state := ParserState.kXref, inside_index := 3 } (i + 3) size
      (buffer.getD (i + 3) 0)
      = consumed { s with state := ParserState.kXref, inside_index := 4 } (i + 3) := by
    rw [hf]
    exact rebuildByte_xref_next env { s with state := ParserState.kXref, inside_index := 3 }
      (i + 3) size 102 rfl (Or.inr (Or.inr ⟨rfl, rfl⟩))
  have h5 : rebuildByte env { s with state := ParserState.kXref, inside_index := 4 } (i + 4) size
      (buffer.getD (i + 4) 0)
      = consumed { s with state := ParserState.kWhitespace, inside_index := 4,
                          last_xref := s.pos + (i : Int) } (i + 4) := by
    rw [rebuildByte_xref_done env { s with state := ParserState.kXref, inside_index := 4 }
      (i + 4) size _ rfl rfl]
    congr 1
    simp only [RebuildState.mk.injEq, true_and, and_true]
    push_cast
    omega
  rw [scanBlock_consumed env buffer size (fuel + 4) s _ i (by omega) h1,
    scanBlock_consumed env buffer size (fuel + 3) _ _ (i + 1) (by omega) h2,
    scanBlock_consumed env buffer size (fuel + 2) _ _ (i + 2) (by omega) h3,
    scanBlock_consumed env buffer size (fuel + 1) _ _ (i + 3) (by omega) h4,
    scanBlock_consumed env buffer size fuel _ _ (i + 4) (by omega) h5]

/-- A keyword `xref` that begins while the scan is in the state Default is
passed over: the four bytes are consumed and nothing changes. -/
theorem scanBlock_xref_from_default (env : Env) (buffer : List Nat) (size fuel : Nat)
    (s : RebuildState) (i : Nat) (hs : s.state = ParserState.kDefault)
    (hw : ∀ b, b = 120 ∨ b = 114 ∨ b = 101 ∨ b = 102 → env.PDFCharIsWhitespace b = false)
    (hx : buffer.getD i 0 = 120) (hr : buffer.getD (i + 1) 0 = 114)
    (he : buffer.getD (i + 2) 0 = 101) (hf : buffer.getD (i + 3) 0 = 102)
    (hlt : i + 3 < size) :
    scanBlock env buffer size (fuel + 4) s i = scanBlock env buffer size fuel s (i + 4) := by
  have hstep : ∀ b, b = 120 ∨ b = 114 ∨ b = 101 ∨ b = 102 → ∀ j,
      rebuildByte env s j size b = consumed s j :=
    fun b hb j => (rebuildByte_default_keyword env s j size hs).2 b hb (hw b hb)
  rw [scanBlock_consumed env buffer size (fuel + 3) s s i (by omega)
      (by rw [hx]; exact hstep 120 (Or.inl rfl) i),
    scanBlock_consumed env buffer size (fuel + 2) s s (i + 1) (by omega)
      (by rw [hr]; exact hstep 114 (Or.inr (Or.inl rfl)) _),
    scanBlock_consumed env buffer size (fuel + 1) s s (i + 2) (by omega)
      (by rw [he]; exact hstep 101 (Or.inr (Or.inr (Or.inl rfl))) _),
    scanBlock_consumed env buffer size fuel s s (i + 3) (by omega)
      (by rw [hf]; exact hstep 102 (Or.inr (Or.inr (Or.inr rfl))) _)]

end Parser

set_option maxRecDepth 100000 in
/-- C33 (counterexample): in the sample file `fileX` the keyword `xref` begins
at offset 37, directly after the line ending (offset 36) that closes the
comment `% table`, where the scan is in the state Default.  The scan of
`RebuildCrossRef` ends with `last_xref` still -1, and the offset it inserts at
the end is the length of the file, 117.  In the sample file `fileY`, where an
empty line takes the place of the comment, the keyword begins at offset 30 in
the state Whitespace, `last_xref` is 30, and 30 is what is inserted. -/
theorem RebuildCrossRef_misses_xref_after_comment :
    ((bytesOf fileX.text).drop 29).take 12 = bytesOf "% table\nxref" ∧
    (Parser.scanFile fileX.env (Parser.scanRounds fileX.env)
        (Parser.rebuildStart fileX.env Parser.init)).map
        (fun s => (s.last_xref, s.last_obj, s.last_trailer))
      = some (-1, 9, 86) ∧
    (Parser.RebuildCrossRef fileX.env Parser.init).map (fun r => (r.1, r.2.m_SortedOffset))
      = some (true, [9, 117]) ∧
    ((bytesOf fileY.text).drop 28).take 6 = bytesOf "\n\nxref" ∧
    (Parser.scanFile fileY.env (Parser.scanRounds fileY.env)
        (Parser.rebuildStart fileY.env Parser.init)).map
        (fun s => (s.last_xref, s.last_obj, s.last_trailer))
      = some (30, 9, 79) ∧
    (Parser.RebuildCrossRef fileY.env Parser.init).map (fun r => (r.1, r.2.m_SortedOffset))
      = some (true, [9, 30]) := by
  decide

/-- C33 (amended): in the scan of `RebuildCrossRef`, from the state Whitespace
the byte `x` enters the state Xref and the byte `t` the state Trailer; from the
state Default the byte `t` enters the state Trailer, and the byte `x` is
consumed without any change.  So a keyword `xref` is recognised when it begins
while the scan is in the state Whitespace (`last_xref` becomes its position
once the byte after it is looked at), and it is passed over when it begins
while the scan is in the state Default. -/
theorem rebuildByte_keyword_entry (env : Env) (buffer : List Nat) (size fuel : Nat)
    (s : Parser.RebuildState) (i : Nat) :
    (s.state = Parser.ParserState.kWhitespace →
      Parser.rebuildByte env s i size 120
          = Parser.consumed { s with state := Parser.ParserState.kXref, inside_index := 1 } i ∧
      Parser.rebuildByte env s i size 116
          = Parser.consumed
              { s with state := Parser.ParserState.kTrailer, inside_index := 1 } i) ∧
    (s.state = Parser.ParserState.kDefault → env.PDFCharIsWhitespace 116 = false →
      Parser.rebuildByte env s i size 116
        = Parser.consumed { s with state := Parser.ParserState.kTrailer, inside_index := 1 } i) ∧
    (s.state = Parser.ParserState.kDefault → env.PDFCharIsWhitespace 120 = false →
      Parser.rebuildByte env s i size 120 = Parser.consumed s i) ∧
    (s.state = Parser.ParserState.kWhitespace →
      buffer.getD i 0 = 120 → buffer.getD (i + 1) 0 = 114 → buffer.getD (i + 2) 0 = 101 →
      buffer.getD (i + 3) 0 = 102 → i + 4 < size →
      Parser.scanBlock env buffer size (fuel + 5) s i
        = Parser.scanBlock env buffer size fuel
            { s with state := Parser.ParserState.kWhitespace, inside_index := 4,
                     last_xref := s.pos + (i : Int) } (i + 5)) ∧
    (s.state = Parser.ParserState.kDefault →
      (∀ b, b = 120 ∨ b = 114 ∨ b = 101 ∨ b = 102 → env.PDFCharIsWhitespace b = false) →
      buffer.getD i 0 = 120 → buffer.getD (i + 1) 0 = 114 → buffer.getD (i + 2) 0 = 101 →
      buffer.getD (i + 3) 0 = 102 → i + 3 < size →
      Parser.scanBlock env buffer size (fuel + 4) s i
        = Parser.scanBlock env buffer size fuel s (i + 4)) :=
  ⟨fun hs => Parser.rebuildByte_whitespace_keyword env s i size hs,
    fun hs hw => (Parser.rebuildByte_default_keyword env s i size hs).1 hw,
    fun hs hw => (Parser.rebuildByte_default_keyword env s i size hs).2 120 (Or.inl rfl) hw,
    fun hs hx hr he hf hlt =>
      Parser.scanBlock_xref_from_whitespace env buffer size fuel s i hs hx hr he hf hlt,
    fun hs hw hx hr he hf hlt =>
      Parser.scanBlock_xref_from_default env buffer size fuel s i hs hw hx hr he hf hlt⟩

set_option maxRecDepth 100000 in
/-- Witness of C33 (amended): the bytes of `fileX` from offset 37 on, looked at
in the state Default: the four passes over `xref` leave the variables of the
scan as they were. -/
theorem rebuildByte_keyword_entry_witness :
    Parser.scanBlock fileX.env (bytesOf fileX.text) 117 (200 + 4)
        (Parser.rebuildStart fileX.env Parser.init) 37
      = Parser.scanBlock fileX.env (bytesOf fileX.text) 117 200
        (Parser.rebuildStart fileX.env Parser.init) (37 + 4) :=
  (rebuildByte_keyword_entry fileX.env (bytesOf fileX.text) 117 200
    (Parser.rebuildStart fileX.env Parser.init) 37).2.2.2.2 rfl
    (by intro b hb; rcases hb with h | h | h | h <;> subst h <;> decide)
    (by decide) (by decide) (by decide) (by decide) (by decide)

/-! ## Comments and strings in the scan -/

namespace Parser

theorem rebuildByte_comment (env : Env) (s : RebuildState) (i size byte : Nat)
    (hs : s.state = ParserState.kComment) :
    rebuildByte env s i size byte
      = consumed (if env.PDFCharIsLineEnding byte = true
          then { s with state := ParserState.kDefault } else s) i := by
  unfold rebuildByte
  rw [hs]
  simp only
  split_ifs <;> rfl

theorem rebuildByte_string (env : Env) (s : RebuildState) (i size byte : Nat)
    (hs : s.state = ParserState.kString) :
    rebuildByte env s i size byte
      = consumed { s with
          depth := stringDepth s.depth byte,
          state := (if stringDepth s.depth byte = 0 then ParserState.kDefault
            else ParserState.kString) } i := by
  unfold rebuildByte
  rw [hs]
  rfl

/-- The bytes of a comment up to its line ending are passed over: the byte
loop goes on behind them with the variables as they were. -/
theorem scanBlock_comment_run (env : Env) (buffer : List Nat) (size fuel : Nat) (n : Nat)
    (s : RebuildState) (i : Nat) (hs : s.state = ParserState.kComment) (hin : i + n ≤ size)
    (hle : ∀ k, k < n → env.PDFCharIsLineEnding (buffer.getD (i + k) 0) = false) :
    scanBlock env buffer size (fuel + n) s i = scanBlock env buffer size fuel s (i + n) := by
  induction n generalizing i with
  | zero => rfl
  | succ m ih =>
    have h0 := hle 0 (by omega)
    have hstep : rebuildByte env s i size (buffer.getD i 0) = consumed s i := by
      rw [rebuildByte_comment env s i size _ hs]
      rw [Nat.add_zero] at h0
      rw [if_neg (by rw [h0]; decide)]
    have e1 : fuel + (m + 1) = (fuel + m) + 1 := by omega
    rw [e1, scanBlock_consumed env buffer size (fuel + m) s s i (by omega) hstep,
      ih (i + 1) (by omega) (by
        intro k hk
        have := hle (k + 1) (by omega)
        have e : i + (k + 1) = i + 1 + k := by omega
        rw [e] at this
        exact this)]
    have e2 : i + 1 + m = i + (m + 1) := by omega
    rw [e2]

/-- The bytes of a string that do not close it are passed over: the byte loop
goes on behind them with only `depth` changed. -/
theorem scanBlock_string_run (env : Env) (buffer : List Nat) (size fuel : Nat) (n : Nat)
    (s : RebuildState) (i : Nat) (hs : s.state = ParserState.kString) (hin : i + n ≤ size)
    (hopen : ∀ k, 0 < k → k ≤ n → depthRun buffer k i s.depth ≠ 0) :
    scanBlock env buffer size (fuel + n) s i
      = scanBlock env buffer size fuel { s with depth := depthRun buffer n i s.depth }
          (i + n) := by
  induction n generalizing s i with
  | zero => rfl
  | succ m ih =>
    have h1 : stringDepth s.depth (buffer.getD i 0) ≠ 0 := hopen 1 (by omega) (by omega)
    have hstep : rebuildByte env s i size (buffer.getD i 0)
        = consumed { s with depth := stringDepth s.depth (buffer.getD i 0) } i := by
      rw [rebuildByte_string env s i size _ hs, if_neg h1, ← hs]
    have e1 : fuel + (m + 1) = (fuel + m) + 1 := by omega
    rw [e1, scanBlock_consumed env buffer size (fuel + m) s _ i (by omega) hstep,
      ih { s with depth := stringDepth s.depth (buffer.getD i 0) } (i + 1) hs (by omega) (by
        intro k hk hkm
        exact hopen (k + 1) (by omega) (by omega))]
    have e2 : i + 1 + m = i + (m + 1) := by omega
    rw [e2]
    rfl

/-- A pass in the state Comment or String consumes the byte and leaves the
index, the trailers and the recorded positions as they were. -/
theorem rebuildByte_comment_string_frame (env : Env) (s : RebuildState) (i size byte : Nat)
    (hs : s.state = ParserState.kComment ∨ s.state = ParserState.kString) :
    (rebuildByte env s i size byte).bOverFlow = false ∧
    (rebuildByte env s i size byte).next = i + 1 ∧
    (rebuildByte env s i size byte).vars.parser = s.parser ∧
    (rebuildByte env s i size byte).vars.last_xref = s.last_xref ∧
    (rebuildByte env s i size byte).vars.last_obj = s.last_obj ∧
    (rebuildByte env s i size byte).vars.last_trailer = s.last_trailer ∧
    (rebuildByte env s i size byte).vars.pos = s.pos ∧
    ((rebuildByte env s i size byte).vars.state = s.state ∨
      (rebuildByte env s i size byte).vars.state = ParserState.kDefault) := by
  rcases hs with hs | hs
  · rw [rebuildByte_comment env s i size byte hs]
    by_cases hl : env.PDFCharIsLineEnding byte = true
    · rw [if_pos hl]
      exact ⟨rfl, rfl, rfl, rfl, rfl, rfl, rfl, Or.inr rfl⟩
    · rw [if_neg hl]
      exact ⟨rfl, rfl, rfl, rfl, rfl, rfl, rfl, Or.inl rfl⟩
  · rw [rebuildByte_string env s i size byte hs]
    refine ⟨rfl, rfl, rfl, rfl, rfl, rfl, rfl, ?_⟩
    by_cases hd : stringDepth s.depth byte = 0
    · right
      show (if stringDepth s.depth byte = 0 then ParserState.kDefault
        else ParserState.kString) = ParserState.kDefault
      rw [if_pos hd]
    · left
      show (if stringDepth s.depth byte = 0 then ParserState.kDefault
        else ParserState.kString) = s.state
      rw [if_neg hd, hs]

end Parser

/-- C34: in the scan of `RebuildCrossRef`, a pass over a byte in the state
Comment or String consumes the byte and leaves the object index, the trailers,
`last_xref`, `last_obj` and `last_trailer` as they were; the state Comment is
left exactly at a line ending, the state String exactly when `depth` comes to
0.  So the bytes of a comment before its line ending are passed over with
every variable of the scan as it was, and the bytes of a string that do not
close it are passed over with only `depth` changed: whatever these bytes spell
adds no record, no trailer and no position. -/
theorem scan_comment_string_no_callbacks (env : Env) (buffer : List Nat) (size fuel n : Nat)
    (s : Parser.RebuildState) (i : Nat) :
    ((s.state = Parser.ParserState.kComment ∨ s.state = Parser.ParserState.kString) →
      ∀ byte,
        (Parser.rebuildByte env s i size byte).bOverFlow = false ∧
        (Parser.rebuildByte env s i size byte).next = i + 1 ∧
        (Parser.rebuildByte env s i size byte).vars.parser = s.parser ∧
        (Parser.rebuildByte env s i size byte).vars.last_xref = s.last_xref ∧
        (Parser.rebuildByte env s i size byte).vars.last_obj = s.last_obj ∧
        (Parser.rebuildByte env s i size byte).vars.last_trailer = s.last_trailer ∧
        (Parser.rebuildByte env s i size byte).vars.pos = s.pos ∧
        ((Parser.rebuildByte env s i size byte).vars.state = s.state ∨
          (Parser.rebuildByte env s i size byte).vars.state = Parser.ParserState.kDefault)) ∧
    (s.state = Parser.ParserState.kComment → ∀ byte,
      ((Parser.rebuildByte env s i size byte).vars.state = Parser.ParserState.kDefault ↔
        env.PDFCharIsLineEnding byte = true)) ∧
    (s.state = Parser.ParserState.kString → ∀ byte,
      (Parser.rebuildByte env s i size byte).vars.depth = Parser.stringDepth s.depth byte ∧
      ((Parser.rebuildByte env s i size byte).vars.state = Parser.ParserState.kDefault ↔
        Parser.stringDepth s.depth byte = 0)) ∧
    (s.state = Parser.ParserState.kComment → i + n ≤ size →
      (∀ k, k < n → env.PDFCharIsLineEnding (buffer.getD (i + k) 0) = false) →
      Parser.scanBlock env buffer size (fuel + n) s i
        = Parser.scanBlock env buffer size fuel s (i + n)) ∧
    (s.state = Parser.ParserState.kString → i + n ≤ size →
      (∀ k, 0 < k → k ≤ n → Parser.depthRun buffer k i s.depth ≠ 0) →
      Parser.scanBlock env buffer size (fuel + n) s i
        = Parser.scanBlock env buffer size fuel
            { s with depth := Parser.depthRun buffer n i s.depth } (i + n)) := by
  refine ⟨fun hs byte => Parser.rebuildByte_comment_string_frame env s i size byte hs,
    ?_, ?_, fun hs hin hle => Parser.scanBlock_comment_run env buffer size fuel n s i hs hin hle,
    fun hs hin hopen => Parser.scanBlock_string_run env buffer size fuel n s i hs hin hopen⟩
  · intro hs byte
    rw [Parser.rebuildByte_comment env s i size byte hs]
    by_cases hl : env.PDFCharIsLineEnding byte = true
    · rw [if_pos hl]
      exact ⟨fun _ => hl, fun _ => rfl⟩
    · rw [if_neg hl]
      constructor
      · intro h
        have h2 : s.state = Parser.ParserState.kDefault := h
        rw [hs] at h2
        exact absurd h2 (by decide)
      · intro h
        exact absurd h hl
  · intro hs byte
    rw [Parser.rebuildByte_string env s i size byte hs]
    refine ⟨rfl, ?_⟩
    show (if Parser.stringDepth s.depth byte = 0 then Parser.ParserState.kDefault
      else Parser.ParserState.kString) = Parser.ParserState.kDefault ↔ _
    by_cases hd : Parser.stringDepth s.depth byte = 0
    · rw [if_pos hd]
      exact ⟨fun _ => hd, fun _ => rfl⟩
    · rw [if_neg hd]
      exact ⟨fun h => absurd h (by decide), fun h => absurd h hd⟩

set_option maxRecDepth 100000 in
/-- Witness of C34: the sample file `fileZ` spells `7 0 obj null endobj xref`
inside a comment and `8 0 obj null endobj xref` inside a string of the trailer
dictionary.  The 25 bytes of the comment from offset 10 on are passed over,
and the whole scan records object 1 alone, one trailer and no `xref`. -/
theorem scan_comment_string_no_callbacks_witness :
    Parser.scanBlock fileZ.env (bytesOf fileZ.text) 111 (600 + 25)
        { Parser.rebuildStart fileZ.env Parser.init with state := Parser.ParserState.kComment } 10
      = Parser.scanBlock fileZ.env (bytesOf fileZ.text) 111 600
        { Parser.rebuildStart fileZ.env Parser.init with state := Parser.ParserState.kComment }
        (10 + 25) ∧
    (Parser.scanFile fileZ.env (Parser.scanRounds fileZ.env)
        (Parser.rebuildStart fileZ.env Parser.init)).map
        (fun s => (s.last_xref, s.parser.m_ObjectInfo, s.parser.m_Trailers.length))
      = some (-1, [(1, { pos := 36, type := ObjectType.kNotCompressed, gennum := 0 })], 1) :=
  ⟨(scan_comment_string_no_callbacks fileZ.env (bytesOf fileZ.text) 111 600 25
      { Parser.rebuildStart fileZ.env Parser.init with state := Parser.ParserState.kComment }
      10).2.2.2.1 rfl (by decide) (by decide),
    by decide⟩

/-! ## The copy of a Compressed object out of its container -/

set_option maxRecDepth 100000 in
/-- C38 (code bug): the container of the parser `parserN` has 26 bytes of
decoded data, `/First 16` and the header `11 5 12 0 13 50`.  For object 11 the
next relative offset, 0, is below its own, 5: the size `nextoff - thisoff`
wraps to 4294967291 and the copy starts at index 21.  For object 13, the last
one, `/First` plus the relative offset is 66, beyond the 26 bytes of the data:
the size `totalsize - (thisoff + offset)` wraps to 4294967256.  For object 12
nothing wraps, but the 50 bytes from index 16 on end at index 66.  In all three
cases the copy reads outside the decoded data. -/
theorem GetIndirectBinary_copies_outside_container :
    dataN.length = 26 ∧ Parser.GetStreamFirst fileN.env accN = 16 ∧
    headerPairs fileN.env dataN 3 0 = [(11, 5), (12, 0), (13, 50)] ∧
    Parser.compressedRange fileN.env dataN 11 16 26 3 0 = some (21, 4294967291) ∧
    Parser.compressedRange fileN.env dataN 13 16 26 3 0 = some (66, 4294967256) ∧
    Parser.copyBytes dataN 21 4294967291 = none ∧
    Parser.copyBytes dataN 66 4294967256 = none ∧
    (Parser.GetIndirectBinary fileN.env parserN 11).map Prod.fst = some none ∧
    (Parser.GetIndirectBinary fileN.env parserN 13).map Prod.fst = some none ∧
    Parser.compressedRange fileN.env dataN 12 16 26 3 0 = some (16, 50) ∧
    (Parser.GetIndirectBinary fileN.env parserN 12).map Prod.fst = some none := by
  decide

/-! ## `LoadCrossRefV4` in skip mode -/

namespace Parser

/-- The subsection loop in skip mode changes only the position of the syntax
parser and the remembered first object number. -/
theorem xrefSubsections_skip_frame (env : Env) (fuel : Nat) (p : Parser) (b : Bool)
    (q : Parser) (h : xrefSubsections env true fuel p = some (b, q)) :
    ∃ v n, q = { p with m_Pos := v, m_dwXrefStartObjNum := n } := by
  induction fuel generalizing p with
  | zero => simp [xrefSubsections] at h
  | succ n ih =>
    simp only [xrefSubsections] at h
    split_ifs at h with h1 h2 h3
    · simp only [Option.some.injEq, Prod.mk.injEq] at h
      exact ⟨_, p.m_dwXrefStartObjNum, h.2.symm⟩
    · simp only [Option.some.injEq, Prod.mk.injEq] at h
      exact ⟨_, p.m_dwXrefStartObjNum, h.2.symm⟩
    · simp only [Option.some.injEq, Prod.mk.injEq] at h
      exact ⟨_, p.m_dwXrefStartObjNum, h.2.symm⟩
    · simp only at h
      obtain ⟨v, m, hq⟩ := ih _ h
      exact ⟨v, m, hq⟩

/-- One round of the subsection loop in skip mode, for a header that is
accepted: the loop goes on behind the records of the subsection. -/
theorem xrefSubsections_skip_round (env : Env) (fuel : Nat) (p : Parser)
    (hword : (env.GetNextWord p.m_Pos).1.1 ≠ "")
    (hnum : (env.GetNextWord p.m_Pos).1.2 = true)
    (hlt : env.FXSYS_atoui (env.GetNextWord p.m_Pos).1.1 % 4294967296 < env.kMaxObjectNumber) :
    xrefSubsections env true (fuel + 1) p
      = xrefSubsections env true fuel
          { p with
            m_Pos := env.SetPos
              (env.ToNextWord (env.GetDirectNum (env.GetNextWord p.m_Pos).2).2 +
                (((env.GetDirectNum (env.GetNextWord p.m_Pos).2).1 % 4294967296 * 20
                  % 4294967296 : Nat) : Int)),
            m_dwXrefStartObjNum :=
              env.FXSYS_atoui (env.GetNextWord p.m_Pos).1.1 % 4294967296 } := by
  simp only [xrefSubsections]
  rw [if_neg hword, if_neg (by simp [hnum]), if_neg (by omega)]
  rfl

/-- The subsection loop in skip mode and the loop that reads the records go
through the same headers: when the second returns true so does the first,
with the syntax parser at the same position. -/
theorem xrefSubsections_skip_agrees (env : Env) (fuel : Nat) (p p2 : Parser)
    (hpos : p2.m_Pos = p.m_Pos) (b : Bool) (q : Parser)
    (h : xrefSubsections env true fuel p = some (b, q)) :
    ∃ b2 q2, xrefSubsections env false fuel p2 = some (b2, q2) ∧
      (b2 = true → b = true ∧ q2.m_Pos = q.m_Pos) := by
  induction fuel generalizing p p2 with
  | zero => simp [xrefSubsections] at h
  | succ n ih =>
    simp only [xrefSubsections] at h ⊢
    rw [hpos]
    by_cases h1 : (env.GetNextWord p.m_Pos).1.1 = ""
    · rw [if_pos h1] at h ⊢
      exact ⟨false, _, rfl, fun hb => absurd hb (by decide)⟩
    · rw [if_neg h1] at h ⊢
      by_cases h2 : (env.GetNextWord p.m_Pos).1.2 = false
      · rw [if_pos h2] at h ⊢
        simp only [Option.some.injEq, Prod.mk.injEq] at h
        refine ⟨true, _, rfl, fun _ => ⟨h.1.symm, ?_⟩⟩
        rw [← h.2]
      · rw [if_neg h2] at h ⊢
        by_cases h3 : env.FXSYS_atoui (env.GetNextWord p.m_Pos).1.1 % 4294967296
            ≥ env.kMaxObjectNumber
        · rw [if_pos h3] at h ⊢
          exact ⟨false, _, rfl, fun hb => absurd hb (by decide)⟩
        · rw [if_neg h3] at h ⊢
          simp only [Bool.false_eq_true, if_false, if_true] at h ⊢
          split
          · rename_i p3 heq
            exact ⟨false, p3, rfl, fun hb => absurd hb (by decide)⟩
          · rename_i p3 heq
            refine ih _ _ ?_ h
            rfl

/-- What `LoadCrossRefV4` does in skip mode and without a stream. -/
theorem LoadCrossRefV4_skip_effect (env : Env) (p : Parser) (pos : Int) (b : Bool) (q : Parser)
    (h : LoadCrossRefV4 env p pos 0 true = some (b, q)) :
    q = { p with m_Pos := q.m_Pos, m_SortedOffset := q.m_SortedOffset,
                 m_dwXrefStartObjNum := q.m_dwXrefStartObjNum } ∧
    ((env.GetKeyword (env.SetPos pos)).1 ≠ "xref" →
      b = false ∧ q = { p with m_Pos := (env.GetKeyword (env.SetPos pos)).2 }) ∧
    ((env.GetKeyword (env.SetPos pos)).1 = "xref" →
      q.m_SortedOffset = insertOffset p.m_SortedOffset pos ∧
      xrefSubsections env true (subsectionRounds env (env.GetKeyword (env.SetPos pos)).2)
          { p with m_Pos := (env.GetKeyword (env.SetPos pos)).2,
                   m_SortedOffset := insertOffset p.m_SortedOffset pos } = some (b, q)) ∧
    (∃ b2 q2, LoadCrossRefV4 env p pos 0 false = some (b2, q2) ∧
      (b2 = true → b = true ∧ q2.m_Pos = q.m_Pos)) := by
  unfold LoadCrossRefV4 at h ⊢
  simp only at h ⊢
  by_cases h1 : (env.GetKeyword (env.SetPos pos)).1 ≠ "xref"
  · rw [if_pos h1] at h
    rw [if_pos h1]
    simp only [Option.some.injEq, Prod.mk.injEq] at h
    refine ⟨by rw [← h.2], fun _ => ⟨h.1.symm, h.2.symm⟩, fun h2 => absurd h2 h1,
      false, _, rfl, fun hb => absurd hb (by decide)⟩
  · rw [if_neg h1] at h
    rw [if_neg h1]
    simp only [ne_eq, not_true_eq_false, if_false, if_true] at h ⊢
    have hsub : xrefSubsections env true
        (subsectionRounds env (env.GetKeyword (env.SetPos pos)).2)
        { p with m_Pos := (env.GetKeyword (env.SetPos pos)).2,
                 m_SortedOffset := insertOffset p.m_SortedOffset pos } = some (b, q) := by
      split at h
      · simp at h
      · rename_i p3 heq
        simp only [Option.some.injEq, Prod.mk.injEq] at h
        rw [heq, ← h.1, ← h.2]
      · rename_i p3 heq
        simp only [Option.some.injEq, Prod.mk.injEq] at h
        rw [heq, ← h.1, ← h.2]
    obtain ⟨v, n, hq⟩ := xrefSubsections_skip_frame env _ _ _ _ hsub
    have hso : q.m_SortedOffset = insertOffset p.m_SortedOffset pos := by rw [hq]
    refine ⟨?_, fun h2 => absurd h2 h1, fun _ => ⟨hso, hsub⟩, ?_⟩
    · rw [hso]
      have hv : q.m_Pos = v := by rw [hq]
      have hn : q.m_dwXrefStartObjNum = n := by rw [hq]
      rw [hv, hn, hq]
    · obtain ⟨b2, q2, hload, hagree⟩ := xrefSubsections_skip_agrees env _
        { p with m_Pos := (env.GetKeyword (env.SetPos pos)).2,
                 m_SortedOffset := insertOffset p.m_SortedOffset pos }
        { p with m_Pos := (env.GetKeyword (env.SetPos pos)).2,
                 m_SortedOffset := insertOffset p.m_SortedOffset pos } rfl b q hsub
      rw [hload]
      cases b2 with
      | false => exact ⟨false, q2, rfl, fun hb => absurd hb (by decide)⟩
      | true => exact ⟨true, q2, rfl, hagree⟩

end Parser

/-- C40: a call of `LoadCrossRefV4` with `bSkip = true` and `streampos = 0`
that returns leaves the object index and the trailers as they were: of the
whole parser state only the position of the syntax parser, the offset set and
the remembered first object number can differ.  When the keyword at `pos` is
not `xref` the call returns false and has only moved the syntax parser;
otherwise `pos` has been inserted into the offset set and the result is the
one of the loop over the subsection headers, which for each accepted header
(a number below `kMaxObjectNumber`) remembers the number and moves the syntax
parser behind the records, to `SetPos(SavedPos + count * 20)` with the
product taken as a `uint32_t`.  The headers are treated as in a call that
reads the records: when that call returns true, so does the call in skip mode,
with the syntax parser at the same position. -/
theorem LoadCrossRefV4_skip_leaves_index (env : Env) (p : Parser) (pos : Int) (b : Bool)
    (q : Parser) (h : Parser.LoadCrossRefV4 env p pos 0 true = some (b, q)) :
    q.m_ObjectInfo = p.m_ObjectInfo ∧ q.m_Trailers = p.m_Trailers ∧
    q.m_TrailerPos = p.m_TrailerPos ∧
    q = { p with m_Pos := q.m_Pos, m_SortedOffset := q.m_SortedOffset,
                 m_dwXrefStartObjNum := q.m_dwXrefStartObjNum } ∧
    ((env.GetKeyword (env.SetPos pos)).1 ≠ "xref" →
      b = false ∧ q = { p with m_Pos := (env.GetKeyword (env.SetPos pos)).2 }) ∧
    ((env.GetKeyword (env.SetPos pos)).1 = "xref" →
      q.m_SortedOffset = insertOffset p.m_SortedOffset pos ∧
      Parser.xrefSubsections env true
          (Parser.subsectionRounds env (env.GetKeyword (env.SetPos pos)).2)
          { p with m_Pos := (env.GetKeyword (env.SetPos pos)).2,
                   m_SortedOffset := insertOffset p.m_SortedOffset pos } = some (b, q)) ∧
    (∃ b2 q2, Parser.LoadCrossRefV4 env p pos 0 false = some (b2, q2) ∧
      (b2 = true → b = true ∧ q2.m_Pos = q.m_Pos)) ∧
    (∀ (fuel : Nat) (p1 : Parser), (env.GetNextWord p1.m_Pos).1.1 ≠ "" →
      (env.GetNextWord p1.m_Pos).1.2 = true →
      env.FXSYS_atoui (env.GetNextWord p1.m_Pos).1.1 % 4294967296 < env.kMaxObjectNumber →
      Parser.xrefSubsections env true (fuel + 1) p1
        = Parser.xrefSubsections env true fuel
            { p1 with
              m_Pos := env.SetPos
                (env.ToNextWord (env.GetDirectNum (env.GetNextWord p1.m_Pos).2).2 +
                  (((env.GetDirectNum (env.GetNextWord p1.m_Pos).2).1 % 4294967296 * 20
                    % 4294967296 : Nat) : Int)),
              m_dwXrefStartObjNum :=
                env.FXSYS_atoui (env.GetNextWord p1.m_Pos).1.1 % 4294967296 }) := by
  obtain ⟨h1, h2, h3, h4⟩ := Parser.LoadCrossRefV4_skip_effect env p pos b q h
  refine ⟨by rw [h1], by rw [h1], by rw [h1], h1, h2, h3, h4, ?_⟩
  intro fuel p1 hword hnum hlt
  exact Parser.xrefSubsections_skip_round env fuel p1 hword hnum hlt

set_option maxRecDepth 100000 in
/-- Witness of C40: the newer section of the sample file `fileB`, at offset
91, in skip mode: the call returns true with the index still empty, the offset
91 in the offset set, the first object number 1 remembered and the syntax
parser at the keyword `trailer`, offset 120. -/
theorem LoadCrossRefV4_skip_leaves_index_witness :
    ∃ q, Parser.LoadCrossRefV4 fileB.env Parser.init 91 0 true = some (true, q) ∧
      q.m_ObjectInfo = [] ∧ q.m_Trailers = [] ∧
      q = { Parser.init with m_Pos := q.m_Pos, m_SortedOffset := q.m_SortedOffset,
                             m_dwXrefStartObjNum := q.m_dwXrefStartObjNum } ∧
      q.m_SortedOffset = [91] ∧ q.m_Pos = 120 ∧ q.m_dwXrefStartObjNum = 1 := by
  have h : (match Parser.LoadCrossRefV4 fileB.env Parser.init 91 0 true with
      | some (true, q) => decide (q.m_SortedOffset = [91] ∧ q.m_Pos = 120 ∧
          q.m_dwXrefStartObjNum = 1)
      | _ => false) = true := by decide
  split at h
  · rename_i q heq
    obtain ⟨h1, h2, -, h4, -⟩ :=
      LoadCrossRefV4_skip_leaves_index fileB.env Parser.init 91 true q heq
    exact ⟨q, heq, h1, h2, h4, of_decide_eq_true h⟩
  · simp at h

/-! ## The last object number across `LoadCrossRefV5` -/

namespace Parser

/-- An entry for a valid object number keeps the keys of the index in order and
the last key as it was, whatever its result. -/
theorem xrefStreamEntry_lastKey (p : Parser) (W0 W1 N : Nat) (entry : List Nat)
    (hwf : ObjectMap.WF p.m_ObjectInfo) (hv : ObjectMap.ValidIn p.m_ObjectInfo N) :
    ObjectMap.WF (xrefStreamEntry p W0 W1 N entry).2.m_ObjectInfo ∧
    ObjectMap.lastKey (xrefStreamEntry p W0 W1 N entry).2.m_ObjectInfo
      = ObjectMap.lastKey p.m_ObjectInfo := by
  have hset : ∀ v, ObjectMap.WF (ObjectMap.set p.m_ObjectInfo N v) ∧
      ObjectMap.lastKey (ObjectMap.set p.m_ObjectInfo N v) = ObjectMap.lastKey p.m_ObjectInfo :=
    fun v => ⟨ObjectMap.WF_set _ _ _ hwf, ObjectMap.lastKey_set_of_valid _ _ _ hwf hv⟩
  have hset2 : ∀ v w, ObjectMap.WF (ObjectMap.set (ObjectMap.set p.m_ObjectInfo N v) N w) ∧
      ObjectMap.lastKey (ObjectMap.set (ObjectMap.set p.m_ObjectInfo N v) N w)
        = ObjectMap.lastKey p.m_ObjectInfo := by
    intro v w
    have h1 := hset v
    refine ⟨ObjectMap.WF_set _ _ _ h1.1, ?_⟩
    rw [ObjectMap.lastKey_set_of_valid _ _ _ h1.1 (ObjectMap.ValidIn_set _ _ _ _ hwf hv)]
    exact h1.2
  unfold xrefStreamEntry
  simp only
  generalize (if W0 ≠ 0 then
    GetObjectTypeFromCrossRefStreamType (toInt32 (GetVarInt entry (toInt32 W0)))
    else ObjectType.kNotCompressed) = T
  by_cases h1 : p.GetObjectType N = ObjectType.kNull
  · rw [if_pos h1]
    exact hset _
  · rw [if_neg h1]
    by_cases h2 : p.GetObjectType N ≠ ObjectType.kFree
    · rw [if_pos h2]
      exact ⟨hwf, rfl⟩
    · rw [if_neg h2]
      by_cases h3 : T = ObjectType.kFree
      · rw [if_pos h3]
        exact hset2 _ _
      · rw [if_neg h3]
        by_cases h4 : T = ObjectType.kNotCompressed
        · rw [if_pos h4]
          exact hset2 _ _
        · rw [if_neg h4]
          have h6 := hset2 { ObjectMap.ref p.m_ObjectInfo N with type := T }
            { ObjectMap.ref (ObjectMap.setType p.m_ObjectInfo N T) N with
              pos := ((GetVarInt (entry.drop W0) (toInt32 W1) : Nat) : Int) }
          split_ifs with h5
          · exact h6
          · push_neg at h5
            have hv2 := (IsValidObjectNumber_iff _ _).mp (by simpa using h5.2)
            refine ⟨ObjectMap.WF_set _ _ _ h6.1, ?_⟩
            exact (ObjectMap.lastKey_set_of_valid _ _ _ h6.1 hv2).trans h6.2

/-- The entries of a subsection whose object numbers are all valid: no
assertion fails, the keys stay in order and the last key stays. -/
theorem xrefStreamEntries_valid (W0 W1 totalWidth startnum segindex : Nat) (segstart : List Nat)
    (l : List Nat) (p : Parser) (hwf : ObjectMap.WF p.m_ObjectInfo)
    (hv : ∀ j ∈ l, ObjectMap.ValidIn p.m_ObjectInfo ((startnum + j) % 4294967296)) :
    xrefStreamEntriesAsserted (entryValid segindex startnum) W0 W1 totalWidth startnum segstart l p
      = some (xrefStreamEntries W0 W1 totalWidth startnum segstart l p) ∧
    ObjectMap.WF (xrefStreamEntries W0 W1 totalWidth startnum segstart l p).2.m_ObjectInfo ∧
    ObjectMap.lastKey (xrefStreamEntries W0 W1 totalWidth startnum segstart l p).2.m_ObjectInfo
      = ObjectMap.lastKey p.m_ObjectInfo := by
  induction l generalizing p with
  | nil => exact ⟨rfl, hwf, rfl⟩
  | cons j rest ih =>
    have hj := hv j (List.mem_cons_self _ _)
    have he := xrefStreamEntry_lastKey p W0 W1 ((startnum + j) % 4294967296)
      (segstart.drop (j * totalWidth % 4294967296)) hwf hj
    have hok : entryValid segindex startnum p j = true := (IsValidObjectNumber_iff _ _).mpr hj
    simp only [xrefStreamEntriesAsserted, xrefStreamEntries]
    rw [if_neg (by rw [hok]; decide)]
    cases hr : xrefStreamEntry p W0 W1 ((startnum + j) % 4294967296)
      (segstart.drop (j * totalWidth % 4294967296)) with
    | mk b q =>
      rw [hr] at he
      cases b
      · exact ⟨rfl, he.1, he.2⟩
      · have hv2 : ∀ i ∈ rest, ObjectMap.ValidIn q.m_ObjectInfo ((startnum + i) % 4294967296) := by
          intro i hi
          obtain ⟨k, hk, hle⟩ := hv i (List.mem_cons_of_mem _ hi)
          exact ⟨k, by rw [he.2]; exact hk, hle⟩
        have := ih q he.1 hv2
        exact ⟨this.1, this.2.1, by rw [this.2.2]; exact he.2⟩

/-- The subsections of a cross-reference stream: no assertion of a valid object
number fails, the keys stay in order and the last key stays. -/
theorem xrefStreamSegments_valid (W0 W1 totalWidth : Nat) (pData : List Nat) (dwTotalSize : Nat)
    (l : List (Int × Int)) (segindex : Nat) (p : Parser) (hwf : ObjectMap.WF p.m_ObjectInfo) :
    xrefStreamSegmentsAsserted entryValid W0 W1 totalWidth pData dwTotalSize l segindex p
      = some (xrefStreamSegments W0 W1 totalWidth pData dwTotalSize l segindex p) ∧
    ObjectMap.WF (xrefStreamSegments W0 W1 totalWidth pData dwTotalSize l segindex p).2.m_ObjectInfo ∧
    ObjectMap.lastKey
        (xrefStreamSegments W0 W1 totalWidth pData dwTotalSize l segindex p).2.m_ObjectInfo
      = ObjectMap.lastKey p.m_ObjectInfo := by
  induction l generalizing p segindex with
  | nil => exact ⟨rfl, hwf, rfl⟩
  | cons a rest ih =>
    obtain ⟨startnum, cnt⟩ := a
    simp only [xrefStreamSegmentsAsserted, xrefStreamSegments]
    by_cases h1 : startnum < 0
    · rw [if_pos h1, if_pos h1]
      exact ih segindex p hwf
    · rw [if_neg h1, if_neg h1]
      by_cases h2 : ¬ (segindex + cnt.toNat < 4294967296 ∧
          (segindex + cnt.toNat) * totalWidth < 4294967296)
          ∨ (segindex + cnt.toNat) * totalWidth > dwTotalSize
      · rw [if_pos h2, if_pos h2]
        exact ih segindex { p with m_dwXrefStartObjNum := startnum.toNat } hwf
      · rw [if_neg h2, if_neg h2]
        by_cases h3 : ¬ (startnum.toNat + cnt.toNat < 4294967296) ∨
            startnum.toNat + cnt.toNat
              > ({ p with m_dwXrefStartObjNum := startnum.toNat } : Parser).v5Size
        · rw [if_pos h3, if_pos h3]
          exact ih segindex { p with m_dwXrefStartObjNum := startnum.toNat } hwf
        · rw [if_neg h3, if_neg h3]
          push_neg at h3
          have hv : ∀ j ∈ List.range cnt.toNat,
              ObjectMap.ValidIn p.m_ObjectInfo ((startnum.toNat + j) % 4294967296) := by
            intro j hj
            have hjc : j < cnt.toNat := List.mem_range.mp hj
            have hsz := h3.2
            unfold v5Size GetLastObjNum at hsz
            simp only at hsz
            cases hk : ObjectMap.lastKey p.m_ObjectInfo with
            | none =>
              have hnil := (ObjectMap.lastKey_eq_none_iff _).mp hk
              rw [hnil] at hsz
              simp at hsz
              omega
            | some k =>
              have hne : p.m_ObjectInfo ≠ [] := by
                intro hnil
                rw [hnil] at hk
                simp [ObjectMap.lastKey] at hk
              have hemp : p.m_ObjectInfo.isEmpty = false := by
                cases hm : p.m_ObjectInfo with
                | nil => exact absurd hm hne
                | cons _ _ => rfl
              rw [hemp, hk] at hsz
              simp only [Bool.false_eq_true, if_false] at hsz
              refine ⟨k, hk, ?_⟩
              have hmod : (k + 1) % 4294967296 ≤ k + 1 := Nat.mod_le _ _
              have hlt : (startnum.toNat + j) % 4294967296 ≤ startnum.toNat + j := Nat.mod_le _ _
              omega
          have he := xrefStreamEntries_valid W0 W1 totalWidth startnum.toNat segindex
            (pData.drop (segindex * totalWidth % 4294967296)) (List.range cnt.toNat)
            { p with m_dwXrefStartObjNum := startnum.toNat } hwf hv
          rw [he.1]
          cases hr : xrefStreamEntries W0 W1 totalWidth startnum.toNat
            (pData.drop (segindex * totalWidth % 4294967296)) (List.range cnt.toNat)
            { p with m_dwXrefStartObjNum := startnum.toNat } with
          | mk b q =>
            rw [hr] at he
            cases b
            · exact ⟨rfl, he.2.1, he.2.2⟩
            · have := ih ((segindex + cnt.toNat) % 4294967296) q he.2.1
              exact ⟨this.1, this.2.1, by rw [this.2.2]; exact he.2.2⟩

/-- The re-tagging of the records keeps the last key. -/
theorem lastKey_retagFree (m : ObjectMap) :
    ObjectMap.lastKey (retagFree m) = ObjectMap.lastKey m := by
  unfold ObjectMap.lastKey retagFree
  rw [List.getLast?_map]
  cases m.getLast? <;> rfl

/-- A key with a record is a valid object number. -/
theorem validIn_of_find (m : ObjectMap) (k : Nat) (r : ObjectInfo) (hwf : ObjectMap.WF m)
    (h : ObjectMap.find m k = some r) : ObjectMap.ValidIn m k := by
  have hmem := ObjectMap.mem_of_find_eq_some m k r h
  obtain ⟨j, hj, hle⟩ := ObjectMap.le_lastKey_of_WF m hwf (k, r) hmem
  exact ⟨j, hj, hle⟩

/-- The part of `LoadCrossRefV5` after the stream has been parsed, for the main
stream with `/Size` above 0: the last key of the index is `/Size - 1` at every
return. -/
theorem loadXRefStream_main_lastKey (env : Env) (p1 : Parser) (pDict : CPDF_Dictionary)
    (pData : List Nat) (hwf : ObjectMap.WF p1.m_ObjectInfo)
    (hS : 0 < GetIntegerFor env pDict "Size") :
    ObjectMap.lastKey (loadXRefStream env p1 pDict pData true).2.2.m_ObjectInfo
      = some ((GetIntegerFor env pDict "Size").toNat - 1) := by
  have hpos : 0 < (GetIntegerFor env pDict "Size").toNat := by omega
  have hp2 : ObjectMap.WF (pushXRefTrailer p1 pDict (GetIntegerFor env pDict "Size") true).m_ObjectInfo ∧
      ObjectMap.lastKey (pushXRefTrailer p1 pDict (GetIntegerFor env pDict "Size") true).m_ObjectInfo
        = some ((GetIntegerFor env pDict "Size").toNat - 1) := by
    unfold pushXRefTrailer
    simp only [if_true]
    refine ⟨ObjectMap.WF_retagFree _ (ObjectMap.WF_shrink _ _ hwf), ?_⟩
    show ObjectMap.lastKey (retagFree (ObjectMap.shrink p1.m_ObjectInfo _)) = _
    rw [lastKey_retagFree]
    exact ObjectMap.lastKey_shrink _ _ hwf hpos
  unfold loadXRefStream
  simp only
  rw [if_neg (by omega)]
  split
  · exact hp2.2
  · split_ifs with h4
    · exact hp2.2
    · rw [(xrefStreamSegments_valid _ _ _ _ _ _ _ _ hp2.1).2.2]
      exact hp2.2

/-- The part of `LoadCrossRefV5` after the stream has been parsed, for a stream
that is not the main one: the last key of the index stays. -/
theorem loadXRefStream_other_lastKey (env : Env) (p1 : Parser) (pDict : CPDF_Dictionary)
    (pData : List Nat) (hwf : ObjectMap.WF p1.m_ObjectInfo) :
    ObjectMap.lastKey (loadXRefStream env p1 pDict pData false).2.2.m_ObjectInfo
      = ObjectMap.lastKey p1.m_ObjectInfo := by
  have hp2 : (pushXRefTrailer p1 pDict (GetIntegerFor env pDict "Size") false).m_ObjectInfo
      = p1.m_ObjectInfo := rfl
  unfold loadXRefStream
  simp only
  split_ifs with h3
  · rfl
  · split
    · rfl
    · split_ifs with h4
      · rfl
      · rw [(xrefStreamSegments_valid _ _ _ _ _ _ _ _ (by rw [hp2]; exact hwf)).2.2, hp2]

/-- A load of a cross-reference stream that is not the main one keeps the last
key of the index, whatever its result. -/
theorem LoadCrossRefV5_other_lastKey (env : Env) (p : Parser) (pos : Int)
    (hwf : ObjectMap.WF p.m_ObjectInfo) :
    ObjectMap.lastKey (LoadCrossRefV5 env p pos false).2.2.m_ObjectInfo
      = ObjectMap.lastKey p.m_ObjectInfo := by
  unfold LoadCrossRefV5
  have hst := ParseIndirectObjectAt_state env p pos 0
  cases hp : ParseIndirectObjectAt env p pos 0 with
  | mk o p1 =>
    rw [hp] at hst
    simp only at hst
    have hidx : p1.m_ObjectInfo = p.m_ObjectInfo := by rw [hst]
    cases o with
    | none => exact congrArg ObjectMap.lastKey hidx
    | some pObject =>
      simp only
      split_ifs
      · exact congrArg ObjectMap.lastKey hidx
      · exact congrArg ObjectMap.lastKey hidx
      · cases pObject.obj with
        | stream pDict pData =>
          simp only
          rw [loadXRefStream_other_lastKey env p1 pDict pData (by rw [hidx]; exact hwf), hidx]
        | _ => exact congrArg ObjectMap.lastKey hidx

end Parser

/-- C36: `LoadCrossRefV5` creates no key of the index beyond the declared
`/Size`.  On an index with increasing keys: (1) when the call for the main
stream has parsed a stream object (object number not 0, not rejected by the
document) whose `/Size` is `S > 0`, it ends, whatever it returns, with
`GetLastObjNum() = S - 1`; (2) the call for a stream that is not the main one
leaves `GetLastObjNum()` and the validity of every object number as they were;
(3) in the loops over the subsections and their entries, started on the parser
that the trailer block of either call leaves, with whatever widths, data and
index pairs, the assertion `IsValidObjectNumber(startnum + j)` of
`GetObjectType` holds before every entry; (4) an entry for a valid object
number changes only records of valid object numbers and keeps the last
key. -/
theorem LoadCrossRefV5_keeps_last_objnum (env : Env) (p : Parser) (pos : Int)
    (hwf : ObjectMap.WF p.m_ObjectInfo) :
    (∀ pObject p1 pDict pData,
      Parser.ParseIndirectObjectAt env p pos 0 = (some pObject, p1) →
      pObject.obj = CPDF_Object.stream pDict pData →
      pObject.m_ObjNum ≠ 0 →
      ¬ (env.hasDocument ∧ (env.DocRootObjNum = some pObject.m_ObjNum
        ∨ env.ReplaceIndirectObjectIfHigherGeneration pObject.m_ObjNum pObject = false)) →
      0 < GetIntegerFor env pDict "Size" →
      (Parser.LoadCrossRefV5 env p pos true).2.2.GetLastObjNum
        = (GetIntegerFor env pDict "Size").toNat - 1) ∧
    ((Parser.LoadCrossRefV5 env p pos false).2.2.GetLastObjNum = p.GetLastObjNum ∧
      ∀ k, (Parser.LoadCrossRefV5 env p pos false).2.2.IsValidObjectNumber k
        = p.IsValidObjectNumber k) ∧
    (∀ (bMainXRef : Bool) (pDict : CPDF_Dictionary) (size : Int) (W0 W1 totalWidth : Nat)
        (pData : List Nat) (dwTotalSize : Nat) (arrIndex : List (Int × Int)),
      Parser.xrefStreamSegmentsAsserted Parser.entryValid W0 W1 totalWidth pData dwTotalSize
          arrIndex 0
          (Parser.pushXRefTrailer { p with m_Pos := env.SetPos p.m_Pos } pDict size bMainXRef)
        = some (Parser.xrefStreamSegments W0 W1 totalWidth pData dwTotalSize arrIndex 0
          (Parser.pushXRefTrailer { p with m_Pos := env.SetPos p.m_Pos } pDict size
            bMainXRef))) ∧
    (∀ (W0 W1 N : Nat) (entry : List Nat), p.IsValidObjectNumber N = true →
      (Parser.xrefStreamEntry p W0 W1 N entry).2.GetLastObjNum = p.GetLastObjNum ∧
      ∀ k, ObjectMap.find (Parser.xrefStreamEntry p W0 W1 N entry).2.m_ObjectInfo k
          ≠ ObjectMap.find p.m_ObjectInfo k →
        p.IsValidObjectNumber k = true) := by
  refine ⟨?_, ?_, ?_, ?_⟩
  · intro pObject p1 pDict pData hp hobj hnum hdoc hS
    have hst := Parser.ParseIndirectObjectAt_state env p pos 0
    rw [hp] at hst
    simp only at hst
    have hwf1 : ObjectMap.WF p1.m_ObjectInfo := by rw [hst]; exact hwf
    have hload : Parser.LoadCrossRefV5 env p pos true
        = Parser.loadXRefStream env p1 pDict pData true := by
      unfold Parser.LoadCrossRefV5
      rw [hp]
      simp only
      rw [if_neg hnum, if_neg hdoc, hobj]
    rw [hload]
    unfold Parser.GetLastObjNum
    rw [Parser.loadXRefStream_main_lastKey env p1 pDict pData hwf1 hS]
  · have h := Parser.LoadCrossRefV5_other_lastKey env p pos hwf
    constructor
    · unfold Parser.GetLastObjNum
      rw [h]
    · intro k
      unfold Parser.IsValidObjectNumber
      rw [h]
  · intro bMainXRef pDict size W0 W1 totalWidth pData dwTotalSize arrIndex
    have hwf2 : ObjectMap.WF
        (Parser.pushXRefTrailer { p with m_Pos := env.SetPos p.m_Pos } pDict size
          bMainXRef).m_ObjectInfo := by
      unfold Parser.pushXRefTrailer
      cases bMainXRef
      · exact hwf
      · exact ObjectMap.WF_retagFree _ (ObjectMap.WF_shrink _ _ hwf)
    exact (Parser.xrefStreamSegments_valid W0 W1 totalWidth pData dwTotalSize arrIndex 0 _
      hwf2).1
  · intro W0 W1 N entry hN
    have hv := (Parser.IsValidObjectNumber_iff p N).mp hN
    have he := Parser.xrefStreamEntry_lastKey p W0 W1 N entry hwf hv
    constructor
    · unfold Parser.GetLastObjNum
      rw [he.2]
    · intro k hk
      rw [Parser.IsValidObjectNumber_iff]
      cases hq : ObjectMap.find (Parser.xrefStreamEntry p W0 W1 N entry).2.m_ObjectInfo k with
      | some r =>
        obtain ⟨j, hj, hle⟩ := Parser.validIn_of_find _ k r he.1 hq
        exact ⟨j, by rw [← he.2]; exact hj, hle⟩
      | none =>
        cases hp : ObjectMap.find p.m_ObjectInfo k with
        | some r => exact Parser.validIn_of_find _ k r hwf hp
        | none => rw [hq, hp] at hk; exact absurd rfl hk

/-- Witness of C36: the stream of the sample file `fileF` (`/Size 4`) loaded
into the index with the keys 0, 1 and 5: as the main stream it leaves the last
object number 3, as any other stream it leaves the last object number 5. -/
theorem LoadCrossRefV5_keeps_last_objnum_witness :
    ObjectMap.WF sampleParser.m_ObjectInfo ∧
    (Parser.LoadCrossRefV5 fileF.env sampleParser 9 true).2.2.GetLastObjNum = 3 ∧
    (Parser.LoadCrossRefV5 fileF.env sampleParser 9 false).2.2.GetLastObjNum = 5 := by
  have h := LoadCrossRefV5_keeps_last_objnum fileF.env sampleParser 9 (by decide)
  refine ⟨by decide, ?_, ?_⟩
  · exact h.1 _ _ _ _ rfl rfl (by decide) (by decide) (by decide)
  · exact h.2.1.1

/-! ## The bytes that the entries of a cross-reference stream read -/

namespace Parser

/-- The bytes that `GetVarInt(p, n)` reads are the first `n` bytes at `p`. -/
theorem GetVarInt_take (p : List Nat) (n : Int) (k : Nat) (h : n.toNat ≤ k) :
    GetVarInt p n = GetVarInt (p.take k) n := by
  unfold GetVarInt
  apply List.foldl_ext
  intro a i hi
  have hik : i < k := lt_of_lt_of_le (List.mem_range.mp hi) h
  have : (p.take k).getD i 0 = p.getD i 0 := by
    simp [List.getD_eq_getElem?_getD, List.getElem?_take, hik]
  rw [this]

/-- The width of a field as the `int32_t` count of `GetVarInt` is at most the
width. -/
theorem toInt32_toNat_le (W : Nat) : (toInt32 (W : Int)).toNat ≤ W := by
  unfold toInt32
  omega

/-- An entry reads the first `W0 + W1` bytes at `entrystart` only. -/
theorem xrefStreamEntry_take (p : Parser) (W0 W1 N : Nat) (entry : List Nat) :
    xrefStreamEntry p W0 W1 N entry = xrefStreamEntry p W0 W1 N (entry.take (W0 + W1)) := by
  have h1 : GetVarInt entry (toInt32 W0) = GetVarInt (entry.take (W0 + W1)) (toInt32 W0) :=
    GetVarInt_take _ _ _ (le_trans (toInt32_toNat_le W0) (Nat.le_add_right _ _))
  have h2 : GetVarInt (entry.drop W0) (toInt32 W1)
      = GetVarInt ((entry.take (W0 + W1)).drop W0) (toInt32 W1) := by
    rw [List.drop_take, Nat.add_sub_cancel_left]
    exact GetVarInt_take _ _ _ (toInt32_toNat_le W1)
  unfold xrefStreamEntry
  rw [h1, h2]

/-- Entries whose assertions all hold: the asserted loop is the loop. -/
theorem xrefStreamEntriesAsserted_of_all (ok : Parser → Nat → Bool)
    (W0 W1 totalWidth startnum : Nat) (segstart : List Nat) (l : List Nat) (p : Parser)
    (h : ∀ q, ∀ j ∈ l, ok q j = true) :
    xrefStreamEntriesAsserted ok W0 W1 totalWidth startnum segstart l p
      = some (xrefStreamEntries W0 W1 totalWidth startnum segstart l p) := by
  induction l generalizing p with
  | nil => rfl
  | cons j rest ih =>
    simp only [xrefStreamEntriesAsserted, xrefStreamEntries]
    rw [if_neg (by rw [h p j (List.mem_cons_self _ _)]; decide)]
    cases hr : xrefStreamEntry p W0 W1 ((startnum + j) % 4294967296)
      (segstart.drop (j * totalWidth % 4294967296)) with
    | mk b q =>
      cases b
      · rfl
      · exact ih q (fun q2 i hi => h q2 i (List.mem_cons_of_mem _ hi))

/-- The subsections of a cross-reference stream whose two first widths add up
to at most the width of an entry, with a total size that is at most the size
of the data: every entry that is processed lies inside the data. -/
theorem xrefStreamSegments_inside (W0 W1 totalWidth size : Nat) (pData : List Nat)
    (dwTotalSize : Nat) (hW : W0 + W1 ≤ totalWidth) (hsize : dwTotalSize ≤ size)
    (l : List (Int × Int)) (segindex : Nat) (p : Parser) :
    xrefStreamSegmentsAsserted (entryInData W0 W1 totalWidth size) W0 W1 totalWidth pData
        dwTotalSize l segindex p
      = some (xrefStreamSegments W0 W1 totalWidth pData dwTotalSize l segindex p) := by
  induction l generalizing p segindex with
  | nil => rfl
  | cons a rest ih =>
    obtain ⟨startnum, cnt⟩ := a
    simp only [xrefStreamSegmentsAsserted, xrefStreamSegments]
    by_cases h1 : startnum < 0
    · rw [if_pos h1, if_pos h1]
      exact ih segindex p
    · rw [if_neg h1, if_neg h1]
      by_cases h2 : ¬ (segindex + cnt.toNat < 4294967296 ∧
          (segindex + cnt.toNat) * totalWidth < 4294967296)
          ∨ (segindex + cnt.toNat) * totalWidth > dwTotalSize
      · rw [if_pos h2, if_pos h2]
        exact ih segindex _
      · rw [if_neg h2, if_neg h2]
        by_cases h3 : ¬ (startnum.toNat + cnt.toNat < 4294967296) ∨
            startnum.toNat + cnt.toNat
              > ({ p with m_dwXrefStartObjNum := startnum.toNat } : Parser).v5Size
        · rw [if_pos h3, if_pos h3]
          exact ih segindex _
        · rw [if_neg h3, if_neg h3]
          push_neg at h2
          have hok : ∀ q : Parser, ∀ j ∈ List.range cnt.toNat,
              entryInData W0 W1 totalWidth size segindex startnum.toNat q j = true := by
            intro q j hj
            have hjc : j < cnt.toNat := List.mem_range.mp hj
            have hmul : (segindex + j + 1) * totalWidth ≤ (segindex + cnt.toNat) * totalWidth :=
              Nat.mul_le_mul_right _ (by omega)
            have hexp : (segindex + j + 1) * totalWidth
                = (segindex + j) * totalWidth + totalWidth := by ring
            unfold entryInData
            rw [decide_eq_true_iff]
            omega
          rw [xrefStreamEntriesAsserted_of_all _ _ _ _ _ _ _ _ hok]
          cases hr : xrefStreamEntries W0 W1 totalWidth startnum.toNat
            (pData.drop (segindex * totalWidth % 4294967296)) (List.range cnt.toNat)
            { p with m_dwXrefStartObjNum := startnum.toNat } with
          | mk b q =>
            cases b
            · rfl
            · exact ih _ q

/-- The first two widths of the array `/W` add up to at most the sum of the
array. -/
theorem widths_le_sum (W : List Nat) : W.getD 0 0 + W.getD 1 0 ≤ W.sum := by
  cases W with
  | nil => simp
  | cons a t =>
    cases t with
    | nil => simp
    | cons b t2 => simp

end Parser

/-- C37: every byte that `GetVarInt` reads in `LoadCrossRefV5` lies inside the
decoded data of the stream.  For the widths `WidthArray` (any array `/W`), the
data `pData`, any index pairs and any parser: (1) in the loops over the
subsections and their entries, called as `LoadCrossRefV5` calls them, before
every entry `j` of a subsection that is processed
`(segindex + j) * totalWidth + WidthArray[0] + WidthArray[1]` is at most the
size of the data and below `2^32`, so none of the products and sums wraps;
(2) where that holds, `entrystart` is the data from byte
`(segindex + j) * totalWidth` on; (3) an entry reads only the first
`WidthArray[0] + WidthArray[1]` bytes at `entrystart`; (4) these are the loops
of the function: past the checks of `/Size` and `/W` its result is theirs;
(5) when the sum of the widths is not a 32-bit value, or there are fewer than
three widths, the function returns false before the loops. -/
theorem LoadCrossRefV5_reads_inside_data (WidthArray : List Nat) (pData : List Nat)
    (arrIndex : List (Int × Int)) (p : Parser) :
    Parser.xrefStreamSegmentsAsserted
        (Parser.entryInData (WidthArray.getD 0 0) (WidthArray.getD 1 0) WidthArray.sum
          pData.length)
        (WidthArray.getD 0 0) (WidthArray.getD 1 0) WidthArray.sum pData
        (pData.length % 4294967296) arrIndex 0 p
      = some (Parser.xrefStreamSegments (WidthArray.getD 0 0) (WidthArray.getD 1 0)
          WidthArray.sum pData (pData.length % 4294967296) arrIndex 0 p) ∧
    (∀ segindex startnum j (q : Parser),
      Parser.entryInData (WidthArray.getD 0 0) (WidthArray.getD 1 0) WidthArray.sum
          pData.length segindex startnum q j = true →
      (pData.drop (segindex * WidthArray.sum % 4294967296)).drop
          (j * WidthArray.sum % 4294967296)
        = pData.drop ((segindex + j) * WidthArray.sum)) ∧
    (∀ (q : Parser) (N : Nat) (entry : List Nat),
      Parser.xrefStreamEntry q (WidthArray.getD 0 0) (WidthArray.getD 1 0) N entry
        = Parser.xrefStreamEntry q (WidthArray.getD 0 0) (WidthArray.getD 1 0) N
            (entry.take (WidthArray.getD 0 0 + WidthArray.getD 1 0))) ∧
    (∀ (env : Env) (p1 : Parser) (pDict : CPDF_Dictionary) (bMainXRef : Bool)
        (pArray : List CPDF_Object),
      0 ≤ GetIntegerFor env pDict "Size" →
      GetArrayFor env pDict "W" = some pArray →
      pArray.map (fun o => toUInt32 (GetInteger env o)) = WidthArray →
      WidthArray.sum < 4294967296 → 3 ≤ WidthArray.length →
      Parser.loadXRefStream env p1 pDict pData bMainXRef
        = ((Parser.xrefStreamSegments (WidthArray.getD 0 0) (WidthArray.getD 1 0)
              WidthArray.sum pData (pData.length % 4294967296)
              (Parser.xrefStreamIndex env pDict (GetIntegerFor env pDict "Size")) 0
              (Parser.pushXRefTrailer p1 pDict (GetIntegerFor env pDict "Size")
                bMainXRef)).1,
           GetIntegerFor env pDict "Prev",
           (Parser.xrefStreamSegments (WidthArray.getD 0 0) (WidthArray.getD 1 0)
              WidthArray.sum pData (pData.length % 4294967296)
              (Parser.xrefStreamIndex env pDict (GetIntegerFor env pDict "Size")) 0
              (Parser.pushXRefTrailer p1 pDict (GetIntegerFor env pDict "Size")
                bMainXRef)).2)) ∧
    (∀ (env : Env) (p1 : Parser) (pDict : CPDF_Dictionary) (bMainXRef : Bool)
        (pArray : List CPDF_Object),
      0 ≤ GetIntegerFor env pDict "Size" →
      GetArrayFor env pDict "W" = some pArray →
      pArray.map (fun o => toUInt32 (GetInteger env o)) = WidthArray →
      ¬ (WidthArray.sum < 4294967296) ∨ WidthArray.length < 3 →
      Parser.loadXRefStream env p1 pDict pData bMainXRef
        = (false, GetIntegerFor env pDict "Prev",
           Parser.pushXRefTrailer p1 pDict (GetIntegerFor env pDict "Size") bMainXRef)) := by
  refine ⟨?_, ?_, ?_, ?_, ?_⟩
  · exact Parser.xrefStreamSegments_inside _ _ _ _ _ _ (Parser.widths_le_sum WidthArray)
      (Nat.mod_le _ _) _ _ _
  · intro segindex startnum j q hok
    unfold Parser.entryInData at hok
    rw [decide_eq_true_iff] at hok
    have hexp : (segindex + j) * WidthArray.sum
        = segindex * WidthArray.sum + j * WidthArray.sum := by ring
    rw [List.drop_drop, Nat.mod_eq_of_lt (by omega), Nat.mod_eq_of_lt (by omega), hexp]
  · intro q N entry
    exact Parser.xrefStreamEntry_take _ _ _ _ _
  · intro env p1 pDict bMainXRef pArray hS hW hmap hsum hlen
    unfold Parser.loadXRefStream
    simp only
    rw [if_neg (by omega), hW]
    simp only
    rw [hmap, if_neg (by push_neg; exact ⟨hsum, by omega⟩)]
  · intro env p1 pDict bMainXRef pArray hS hW hmap hbad
    unfold Parser.loadXRefStream
    simp only
    rw [if_neg (by omega), hW]
    simp only
    rw [hmap, if_pos hbad]

/-! ## The blocks of a subsection as one loop over its records -/

namespace Parser

end Parser

namespace Parser

end Parser

end PDFium
